import Mathlib

/-!
# File-transfer engine of HTCondor (`src/condor_utils/file_transfer.cpp`)

A shallow embedding of the parts of `FileTransfer` that the specification's
claims talk about, followed by the theorems that settle those claims.

Conventions of the embedding:

* C strings and `std::string`/`MyString` values are Lean `String`s; comparisons
  of `std::string` are comparisons of the underlying character lists.
* `filesize_t`, `time_t` and `int` values are `Int`s (no claim below depends on
  wrap-around; where the source narrows a value this is said explicitly).
* Calls that leave the process (sockets, the file system, plug-ins) are replaced
  by the values they return, which are part of the input of the model.
* Helpers of the repository whose source file is not part of the sources at
  hand are modelled from the specification; their doc comments say so.
-/

namespace FileTransfer

/-! ## Names, paths and URLs -/

/-- Directory delimiter of the build under study (the POSIX one). -/
def DIR_DELIM_CHAR : Char := '/'

/-- The backslash, the other character that the path helpers accept as a delimiter. -/
def BACKSLASH : Char := Char.ofNat 92

/-- Modelled from the spec: the macro `IS_ANY_DIR_DELIM_CHAR` (its header is not at
hand), which `ExpandFileTransferList` applies to the last character of a path to tell
whether the path ends with a directory separator; it accepts the separator of either
platform, the slash and the backslash. -/
def IS_ANY_DIR_DELIM_CHAR (c : Char) : Bool := c == '/' || c == BACKSLASH

/-- Null sink that `DoDownload` writes rejected items to (`NULL_FILE`). -/
def NULL_FILE : String := "/dev/null"

/-- Name under which the job executable travels (`CONDOR_EXEC`). -/
def CONDOR_EXEC : String := "condor_exec.exe"

/-- Modelled from the spec: `fullpath` (its source file is not at hand) tells whether a
path is absolute, which on the POSIX build means that it starts with the delimiter. -/
def fullpath (path : String) : Bool :=
  match path.data with
  | c :: _ => c == DIR_DELIM_CHAR
  | [] => false

/-- Modelled from the spec: `canonicalize_dir_delimiters` (its source file is not at
hand) rewrites every slash or backslash of the buffer to `DIR_DELIM_CHAR`. -/
def canonicalize_dir_delimiters (buf : String) : String :=
  ⟨buf.data.map (fun c => if IS_ANY_DIR_DELIM_CHAR c then DIR_DELIM_CHAR else c)⟩

/-- Position of the last `DIR_DELIM_CHAR` (`strrchr`): the text before it and the text
after it, or `none` when the path has no delimiter. -/
def splitAtLastDelim : List Char → Option (List Char × List Char)
  | [] => none
  | c :: cs =>
    match splitAtLastDelim cs with
    | some (d, f) => some (c :: d, f)
    | none => if c = DIR_DELIM_CHAR then some ([], cs) else none

/-- Modelled from the spec: `filename_split(path, dir, file)` (its source file is not at
hand) cuts `path` at its last delimiter into a directory part and a file part and
returns whether a delimiter was found; without one, `dir` is `"."` and `file` is `path`.
The result is `(return value, dir, file)`. -/
def filename_split (path : String) : Bool × String × String :=
  match splitAtLastDelim path.data with
  | some (d, f) => (true, ⟨d⟩, ⟨f⟩)
  | none => (false, ".", path)

/-- Text after the last slash or backslash of a character list. -/
def basenameChars : List Char → List Char → List Char
  | [], name => name
  | c :: cs, name => if IS_ANY_DIR_DELIM_CHAR c then basenameChars cs cs else basenameChars cs name

/-- Modelled from the spec: `condor_basename` (its source file is not at hand) returns
the part of a path after its last directory delimiter, slash or backslash. -/
def condor_basename (path : String) : String := ⟨basenameChars path.data path.data⟩

/-- Characters that may continue a URL scheme. -/
def isSchemeChar (c : Char) : Bool := c.isAlphanum || c == '+' || c == '-' || c == '.'

/-- Modelled from the spec: `IsUrl` (its source file is not at hand) recognises
`<scheme>://<rest>` with a scheme that starts with a letter and a non-empty rest, and
returns the end of the scheme; here the scheme itself is returned. -/
def IsUrl (url : String) : Option String :=
  match url.data with
  | [] => none
  | c :: cs =>
    if c.isAlpha then
      match (cs.dropWhile isSchemeChar) with
      | ':' :: '/' :: '/' :: _ :: _ => some ⟨c :: cs.takeWhile isSchemeChar⟩
      | _ => none
    else none

/-! ## `LegalPathInSandbox` -/

/-- The `while( more )` loop of `LegalPathInSandbox`: split off the last component,
reject on `..`, go on with the directory part.  The loop shortens `pathbuf` in every
round, so `fuel` larger than the length of the path is never used up. -/
def LegalPathInSandbox.scan : Nat → String → Option Bool
  | 0, _ => none
  | fuel + 1, pathbuf =>
    match filename_split pathbuf with
    | (more, dirbuf, filebuf) =>
      if filebuf = ".." then some false
      else if more then LegalPathInSandbox.scan fuel dirbuf
      else some true

/-- `FileTransfer::LegalPathInSandbox(path, sandbox)`.  The string that the source
formats from `sandbox` and `pathbuf` inside the loop is never read. -/
def LegalPathInSandbox (path _sandbox : String) : Bool :=
  let buf := canonicalize_dir_delimiters path
  if fullpath buf then false
  else
    match LegalPathInSandbox.scan (buf.length + 1) buf with
    | some result => result
    | none => true

/-- Components of a path, the pieces between its delimiters (the claim's wording). -/
def pathComponents : List Char → List (List Char)
  | [] => [[]]
  | c :: cs =>
    if c = DIR_DELIM_CHAR then [] :: pathComponents cs
    else
      match pathComponents cs with
      | [] => [[c]]
      | h :: t => (c :: h) :: t

/-- A path has a component that is exactly `..` (the claim's wording). -/
def hasDotDotComponent (path : String) : Prop := ['.', '.'] ∈ pathComponents path.data

instance (path : String) : Decidable (hasDotDotComponent path) := by
  unfold hasDotDotComponent; infer_instance

/-! ## Transfer items and their order -/

/-- Value of `NULL_FILE_PERMISSIONS`, the mode of an item whose mode is unknown. -/
def NULL_FILE_PERMISSIONS : Nat := 0

/-- Class `FileTransferItem`: one work item of `DoUpload`. -/
structure FileTransferItem where
  m_src_scheme : String := ""
  m_dest_scheme : String := ""
  m_src_name : String := ""
  m_dest_dir : String := ""
  m_dest_url : String := ""
  is_domainsocket : Bool := false
  is_directory : Bool := false
  is_symlink : Bool := false
  m_file_mode : Nat := NULL_FILE_PERMISSIONS
  m_file_size : Int := 0
  deriving DecidableEq, Repr

abbrev FileTransferList := List FileTransferItem

namespace FileTransferItem

def srcName (i : FileTransferItem) : String := i.m_src_name
def destDir (i : FileTransferItem) : String := i.m_dest_dir
def destUrl (i : FileTransferItem) : String := i.m_dest_url
def fileSize (i : FileTransferItem) : Int := i.m_file_size
def isSrcUrl (i : FileTransferItem) : Bool := i.m_src_scheme != ""
def isDestUrl (i : FileTransferItem) : Bool := i.m_dest_scheme != ""

/-- Method `setSrcName`: the scheme is set only when the name is a URL. -/
def setSrcName (i : FileTransferItem) (src : String) : FileTransferItem :=
  match IsUrl src with
  | some scheme => { i with m_src_name := src, m_src_scheme := scheme }
  | none => { i with m_src_name := src }

/-- Method `setDestUrl`: the scheme is set only when the destination is a URL. -/
def setDestUrl (i : FileTransferItem) (dest_url : String) : FileTransferItem :=
  match IsUrl dest_url with
  | some scheme => { i with m_dest_url := dest_url, m_dest_scheme := scheme }
  | none => { i with m_dest_url := dest_url }

/-- Comparison `<` of two `std::string`s: lexicographic on their characters. -/
def strLt (a b : String) : Bool := decide (a.data < b.data)

/-- Operator `FileTransferItem::operator<`. -/
def lt (self other : FileTransferItem) : Bool :=
  let is_dest_url := self.m_dest_scheme != ""
  let other_is_dest_url := other.m_dest_scheme != ""
  if is_dest_url && !other_is_dest_url then true
  else if !is_dest_url && other_is_dest_url then false
  else if is_dest_url then
    if self.m_dest_scheme = other.m_dest_scheme then strLt self.m_dest_url other.m_dest_url
    else strLt self.m_dest_scheme other.m_dest_scheme
  else
    let is_src_url := self.m_src_scheme != ""
    let other_is_src_url := other.m_src_scheme != ""
    if is_src_url && !other_is_src_url then false
    else if !is_src_url && other_is_src_url then true
    else if is_src_url then
      if self.m_src_scheme = other.m_src_scheme then strLt self.m_src_name other.m_src_name
      else strLt self.m_src_scheme other.m_src_scheme
    else strLt self.m_src_name other.m_src_name

end FileTransferItem

/-- What `std::sort(filelist.begin(), filelist.end())` guarantees of its output: it is a
rearrangement of the input in which no later element is `<` an earlier one. -/
def IsStdSortOf (sorted filelist : FileTransferList) : Prop :=
  sorted.Perm filelist ∧ sorted.Pairwise (fun a b => FileTransferItem.lt b a = false)

/-- Insertion of an item into a sorted list, before the first greater element. -/
def sortedInsert (x : FileTransferItem) : FileTransferList → FileTransferList
  | [] => [x]
  | y :: ys => if FileTransferItem.lt x y then x :: y :: ys else y :: sortedInsert x ys

/-- A sorting routine that realises `IsStdSortOf` (insertion sort with `operator<`);
`std::sort` may order equivalent items differently. -/
def sortFileList : FileTransferList → FileTransferList
  | [] => []
  | x :: xs => sortedInsert x (sortFileList xs)

/-- Order of `std::string` values, `a <= b`. -/
def strLe (a b : String) : Prop := a.data ≤ b.data

/-- Lexicographic order of pairs of strings: `(s1, n1) <= (s2, n2)`. -/
def pairLe (s1 n1 s2 n2 : String) : Prop :=
  s1.data < s2.data ∨ (s1 = s2 ∧ n1.data ≤ n2.data)

/-! ## The file catalog and `ComputeFilesToSend` -/

/-- One entry of a `Directory` scan: what `Next()`, `IsDirectory()`, `GetModifyTime()`
and `GetFileSize()` report for it. -/
structure DirEntry where
  name : String
  is_directory : Bool := false
  modify_time : Int := 0
  file_size : Int := 0
  deriving DecidableEq, Repr

/-- Struct `CatalogEntry`. -/
structure CatalogEntry where
  modification_time : Int
  filesize : Int
  deriving DecidableEq, Repr

/-- The catalog `FileCatalogHashTable`, a table from file name to `CatalogEntry`; the
newest binding of a name is the one that `lookup` finds. -/
abbrev FileCatalogHashTable := List (String × CatalogEntry)

/-- `FileTransfer::LookupInFileCatalog`: the entry stored for `fname`, if any. -/
def LookupInFileCatalog (last_download_catalog : FileCatalogHashTable) (fname : String) :
    Option CatalogEntry :=
  match last_download_catalog.find? (fun kv => kv.1 == fname) with
  | some kv => some kv.2
  | none => none

/-- `FileTransfer::BuildFileCatalog(spool_time, iwd, catalog)` over the scan `dir` of the
directory: every entry that is not a directory is recorded, with size `-1` and the spool
time when `spool_time` is not zero. -/
def BuildFileCatalog (m_use_file_catalog : Bool) (spool_time : Int) (dir : List DirEntry) :
    FileCatalogHashTable :=
  if m_use_file_catalog = false then []
  else
    dir.foldl
      (fun catalog f =>
        if !f.is_directory then
          let tmpentry : CatalogEntry :=
            if spool_time ≠ 0 then ⟨spool_time, -1⟩ else ⟨f.modify_time, f.file_size⟩
          (f.name, tmpentry) :: catalog
        else catalog)
      []

/-- Members of the `FileTransfer` object that `ComputeFilesToSend` reads.  String lists
are given with their items already separated; `proxy_file` is the base name of the job's
`x509userproxy` attribute when the job has one. -/
structure SendContext where
  upload_changed_files : Bool
  last_download_time : Int
  m_final_transfer_flag : Bool
  SpooledIntermediateFiles : Option (List String)
  ExceptionFiles : Option (List String)
  OutputFiles : Option (List String)
  proxy_file : Option String
  last_download_catalog : FileCatalogHashTable

/-- `StringList::contains` on a list that may be absent (a null pointer). -/
def listContains (l : Option (List String)) (f : String) : Bool :=
  match l with
  | some items => items.contains f
  | none => false

/-- The list `final_files_to_send` of `ComputeFilesToSend`: the spooled intermediate
files, on a final transfer only. -/
def final_files_to_send (ft : SendContext) : List String :=
  if ft.m_final_transfer_flag then
    match ft.SpooledIntermediateFiles with
    | some l => l
    | none => []
  else []

/-- One round of the `while( (f=dir.Next()) )` loop of `ComputeFilesToSend`;
`IntermediateFiles` is the list built so far (`none` for the null pointer). -/
def ComputeFilesToSend.visit (ft : SendContext) (IntermediateFiles : Option (List String))
    (f : DirEntry) : Option (List String) :=
  -- don't send back condor_exec.*
  if f.name = "condor_exec." then IntermediateFiles
  else if ft.proxy_file = some f.name then IntermediateFiles
  else if f.is_directory then IntermediateFiles
  else if listContains ft.ExceptionFiles f.name then IntermediateFiles
  else
    let send_it : Bool :=
      match LookupInFileCatalog ft.last_download_catalog f.name with
      | none => true
      | some entry =>
        if (final_files_to_send ft).contains f.name then true
        else if listContains ft.OutputFiles f.name then true
        else if entry.filesize = -1 then
          if f.modify_time > entry.modification_time then true else false
        else if entry.filesize ≠ f.file_size ∨ entry.modification_time ≠ f.modify_time then true
        else false
    if send_it then
      match IntermediateFiles with
      | none => some [f.name]
      | some l => if l.contains f.name then some l else some (l ++ [f.name])
    else IntermediateFiles

/-- `FileTransfer::ComputeFilesToSend()` over the scan `dir` of the working directory:
the resulting `FilesToSend` (`none` for the null pointer). -/
def ComputeFilesToSend (ft : SendContext) (dir : List DirEntry) : Option (List String) :=
  if ft.upload_changed_files ∧ ft.last_download_time > 0 then
    dir.foldl (ComputeFilesToSend.visit ft) none
  else none

/-- A file name is among the files that `ComputeFilesToSend` selects. -/
def selected (ft : SendContext) (dir : List DirEntry) (name : String) : Prop :=
  ∃ l, ComputeFilesToSend ft dir = some l ∧ name ∈ l

/-- The name starts with `condor_exec.`, the names that the comment in
`ComputeFilesToSend` wants skipped. -/
def isCondorExecName (name : String) : Bool := "condor_exec.".data.isPrefixOf name.data

/-- The change test of `ComputeFilesToSend` for a catalogued file. -/
def changedSince (entry : CatalogEntry) (f : DirEntry) : Prop :=
  if entry.filesize = -1 then f.modify_time > entry.modification_time
  else f.file_size ≠ entry.filesize ∨ f.modify_time ≠ entry.modification_time

instance (entry : CatalogEntry) (f : DirEntry) : Decidable (changedSince entry f) := by
  unfold changedSince; infer_instance

/-! ## Acknowledgements -/

/-- Values that the attributes of the ads in this file take. -/
inductive AdValue where
  | int (v : Int)
  | str (s : String)
  | bool (b : Bool)
  deriving DecidableEq, Repr

/-- A `ClassAd`: attribute names with their values.  Attribute names are compared
without regard to case, as in the ClassAd library. -/
abbrev ClassAd := List (String × AdValue)

def attrEq (a b : String) : Bool := a.data.map Char.toLower == b.data.map Char.toLower

namespace ClassAd

/-- `ClassAd::Assign` / `InsertAttr`: bind the attribute, replacing an earlier binding. -/
def Assign (ad : ClassAd) (attr : String) (v : AdValue) : ClassAd :=
  (ad.filter (fun kv => !attrEq kv.1 attr)) ++ [(attr, v)]

def Lookup (ad : ClassAd) (attr : String) : Option AdValue :=
  match ad.find? (fun kv => attrEq kv.1 attr) with
  | some kv => some kv.2
  | none => none

/-- `ClassAd::LookupInteger`: succeeds on numbers (booleans count as 0 and 1). -/
def LookupInteger (ad : ClassAd) (attr : String) : Option Int :=
  match Lookup ad attr with
  | some (.int v) => some v
  | some (.bool b) => some (if b then 1 else 0)
  | _ => none

/-- `ClassAd::LookupString`. -/
def LookupString (ad : ClassAd) (attr : String) : Option String :=
  match Lookup ad attr with
  | some (.str s) => some s
  | _ => none

end ClassAd

def ATTR_RESULT : String := "Result"
def ATTR_HOLD_REASON_CODE : String := "HoldReasonCode"
def ATTR_HOLD_REASON_SUBCODE : String := "HoldReasonSubCode"
def ATTR_HOLD_REASON : String := "HoldReason"

/-- Hold codes of `condor_holdcodes.h` that the transfer code uses. -/
def CONDOR_HOLD_CODE_InvalidTransferAck : Int := 11
def CONDOR_HOLD_CODE_DownloadFileError : Int := 12
def CONDOR_HOLD_CODE_UploadFileError : Int := 13
def CONDOR_HOLD_CODE_MaxTransferInputSizeExceeded : Int := 32
def CONDOR_HOLD_CODE_MaxTransferOutputSizeExceeded : Int := 33

/-- The five values that an acknowledgement carries, and that `SaveTransferInfo` stores
in `Info`. -/
structure TransferAck where
  success : Bool
  try_again : Bool
  hold_code : Int
  hold_subcode : Int
  error_desc : String
  deriving DecidableEq, Repr

/-- `FileTransfer::SaveTransferInfo`. -/
def SaveTransferInfo (Info : TransferAck) (success try_again : Bool) (hold_code hold_subcode : Int)
    (hold_reason : Option String) : TransferAck :=
  { success := success, try_again := try_again, hold_code := hold_code,
    hold_subcode := hold_subcode,
    error_desc := match hold_reason with
      | some r => r
      | none => Info.error_desc }

/-- The ad that `FileTransfer::SendTransferAck` puts on the wire. -/
def SendTransferAck.ad (success try_again : Bool) (hold_code hold_subcode : Int)
    (hold_reason : Option String) : ClassAd :=
  let result : Int := if success then 0 else if try_again then 1 else -1
  let ad : ClassAd := ClassAd.Assign [] ATTR_RESULT (.int result)
  if !success then
    let ad := ClassAd.Assign ad ATTR_HOLD_REASON_CODE (.int hold_code)
    let ad := ClassAd.Assign ad ATTR_HOLD_REASON_SUBCODE (.int hold_subcode)
    match hold_reason with
    | some r => ClassAd.Assign ad ATTR_HOLD_REASON (.str r)
    | none => ad
  else ad

/-- `FileTransfer::SendTransferAck`: the new `Info` and the ad sent, if one is sent. -/
def SendTransferAck (PeerDoesTransferAck : Bool) (Info : TransferAck) (success try_again : Bool)
    (hold_code hold_subcode : Int) (hold_reason : Option String) :
    TransferAck × Option ClassAd :=
  let Info := SaveTransferInfo Info success try_again hold_code hold_subcode hold_reason
  if !PeerDoesTransferAck then (Info, none)
  else (Info, some (SendTransferAck.ad success try_again hold_code hold_subcode hold_reason))

/-- `FileTransfer::GetTransferAck`.  `received` is the ad read from the stream (`none`
when reading fails); `out` holds the values of the reference parameters at the call. -/
def GetTransferAck (PeerDoesTransferAck : Bool) (received : Option ClassAd) (out : TransferAck) :
    TransferAck :=
  if !PeerDoesTransferAck then { out with success := true }
  else
    match received with
    | none => { out with success := false, try_again := true }
    | some ad =>
      match ClassAd.LookupInteger ad ATTR_RESULT with
      | none =>
        { success := false, try_again := false,
          hold_code := CONDOR_HOLD_CODE_InvalidTransferAck, hold_subcode := 0,
          error_desc := "Download acknowledgment missing attribute: " ++ ATTR_RESULT }
      | some result =>
        let success := decide (result = 0)
        let try_again := decide (result > 0)
        let hold_code := (ClassAd.LookupInteger ad ATTR_HOLD_REASON_CODE).getD 0
        let hold_subcode := (ClassAd.LookupInteger ad ATTR_HOLD_REASON_SUBCODE).getD 0
        let error_desc := (ClassAd.LookupString ad ATTR_HOLD_REASON).getD out.error_desc
        { success := success, try_again := try_again, hold_code := hold_code,
          hold_subcode := hold_subcode, error_desc := error_desc }

/-- Whether a round of the loop of `ComputeFilesToSend` puts the file on the list: the
conjunction of the tests that the round makes. -/
def ComputeFilesToSend.sends (ft : SendContext) (f : DirEntry) : Bool :=
  decide (f.name ≠ "condor_exec.") && decide (ft.proxy_file ≠ some f.name) &&
  !f.is_directory && !listContains ft.ExceptionFiles f.name &&
  (match LookupInFileCatalog ft.last_download_catalog f.name with
   | none => true
   | some entry =>
     (final_files_to_send ft).contains f.name || listContains ft.OutputFiles f.name ||
       decide (changedSince entry f))

/-- Membership in a list that may be absent. -/
def inList (l : Option (List String)) (name : String) : Prop := ∃ items, l = some items ∧ name ∈ items

/-- No regular file of the baseline scan has the name, the size and the mtime of `f`:
the file is new, or its (size, mtime) differ from the baseline. -/
def newOrChanged (baseline : List DirEntry) (f : DirEntry) : Prop :=
  ∀ b ∈ baseline, b.is_directory = false → b.name = f.name →
    (b.file_size ≠ f.file_size ∨ b.modify_time ≠ f.modify_time)

/-! ## `ExpandFileTransferList` -/

mutual
/-- What `StatInfo` and `Directory` report for a path: `Error()`, or a file that is not a
directory (mode, size, `IsSymlink()`, `IsDomainSocket()`), or a directory (mode,
`IsSymlink()`) with its entries in the order in which `Directory::Next()` returns
them.  The stat of `<path of a directory>/<name of an entry>` is that entry's node. -/
inductive FsNode where
  | error : FsNode
  | file (mode : Nat) (size : Int) (symlink domainsocket : Bool) : FsNode
  | dir (mode : Nat) (symlink : Bool) (entries : FsEntries) : FsNode
/-- The entries of a directory: name and node, in scan order. -/
inductive FsEntries where
  | nil : FsEntries
  | cons (name : String) (node : FsNode) (rest : FsEntries) : FsEntries
end

/-- Whether the path ends with a slash or a backslash (`trailing_slash`). -/
def hasTrailingDelim (src_path : String) : Bool :=
  match src_path.data.getLast? with
  | some c => IS_ANY_DIR_DELIM_CHAR c
  | none => false

/-- The item that `ExpandFileTransferList` pushes first: source name (and scheme, for a
URL) and destination directory. -/
def newTransferItem (src_path dest_dir : String) : FileTransferItem :=
  { (FileTransferItem.setSrcName {} src_path) with m_dest_dir := dest_dir }

/-- The destination directory for the contents of a directory that is itself
transferred: `dest_dir`, a delimiter if `dest_dir` is not empty, and the base name. -/
def subDestDir (dest_dir src_path : String) : String :=
  (if dest_dir.length > 0 then dest_dir ++ String.singleton DIR_DELIM_CHAR else "")
    ++ condor_basename src_path

/-- The path of a directory entry: `src_path`, a delimiter unless `src_path` ends with
one, and the entry name (`file_full_path`). -/
def entryPath (src_path : String) (trailing_slash : Bool) (file_in_dir : String) : String :=
  (if !trailing_slash then src_path ++ String.singleton DIR_DELIM_CHAR else src_path)
    ++ file_in_dir

mutual
/-- The body of `FileTransfer::ExpandFileTransferList(src_path, dest_dir, iwd, max_depth,
expanded_list)` once `StatInfo st(full_src_path)` is known to be `st`: the return value
and the list after the call. -/
def ExpandFileTransferList.withStat :
    FsNode → String → String → Int → FileTransferList → Bool × FileTransferList
  | st, src_path, dest_dir, max_depth, expanded_list =>
    let file_xfer_item := newTransferItem src_path dest_dir
    if (IsUrl src_path).isSome then (true, expanded_list ++ [file_xfer_item])
    else
      match st with
      | .error => (false, expanded_list ++ [file_xfer_item])
      | .file mode size symlink domainsocket =>
        let file_xfer_item :=
          { file_xfer_item with m_file_mode := mode, is_symlink := symlink,
                                is_domainsocket := domainsocket, is_directory := false }
        -- a domain socket is taken off the list again
        if domainsocket then (true, expanded_list)
        else (true, expanded_list ++ [{ file_xfer_item with m_file_size := size }])
      | .dir mode symlink entries =>
        let trailing_slash := hasTrailingDelim src_path
        let file_xfer_item :=
          { file_xfer_item with m_file_mode := mode, is_symlink := symlink,
                                is_domainsocket := false, is_directory := true }
        -- do not follow symlinks to directories unless only the contents are fetched
        if !trailing_slash && symlink then (true, expanded_list ++ [file_xfer_item])
        else if max_depth = 0 then (true, expanded_list ++ [file_xfer_item])
        else
          let max_depth := if max_depth > 0 then max_depth - 1 else max_depth
          if trailing_slash then
            -- only the contents: the entry of the directory is popped
            ExpandFileTransferList.scanDir entries src_path trailing_slash dest_dir max_depth
              true expanded_list
          else
            ExpandFileTransferList.scanDir entries src_path trailing_slash
              (subDestDir dest_dir src_path) max_depth true (expanded_list ++ [file_xfer_item])
/-- The loop `while( (file_in_dir=dir.Next()) != NULL )` of `ExpandFileTransferList`. -/
def ExpandFileTransferList.scanDir :
    FsEntries → String → Bool → String → Int → Bool → FileTransferList →
      Bool × FileTransferList
  | .nil, _, _, _, _, rc, expanded_list => (rc, expanded_list)
  | .cons file_in_dir node rest, src_path, trailing_slash, dest_dir, max_depth, rc,
      expanded_list =>
    let r := ExpandFileTransferList.withStat node (entryPath src_path trailing_slash file_in_dir)
      dest_dir max_depth expanded_list
    ExpandFileTransferList.scanDir rest src_path trailing_slash dest_dir max_depth
      (if r.1 then rc else false) r.2
end

/-- The path that `ExpandFileTransferList` stats (`full_src_path`). -/
def full_src_path (src_path iwd : String) : String :=
  (if !fullpath src_path then
    (if iwd.length > 0 then iwd ++ String.singleton DIR_DELIM_CHAR else "")
   else "") ++ src_path

/-- `FileTransfer::ExpandFileTransferList(src_path, dest_dir, iwd, max_depth,
expanded_list)`; `stat` is the file system, as seen through `StatInfo`. -/
def ExpandFileTransferList (stat : String → FsNode) (src_path dest_dir iwd : String)
    (max_depth : Int) (expanded_list : FileTransferList) : Bool × FileTransferList :=
  ExpandFileTransferList.withStat (stat (full_src_path src_path iwd)) src_path dest_dir max_depth
    expanded_list

/-- `FileTransfer::ExpandFileTransferList(input_list, expanded_list)`: the credential
first, if it is listed, then every other path of the list. -/
def ExpandFileTransferList.ofList (stat : String → FsNode) (X509UserProxy : Option String)
    (Iwd : String) (input_list : Option (List String)) (expanded_list : FileTransferList) :
    Bool × FileTransferList :=
  match input_list with
  | none => (true, expanded_list)
  | some paths =>
    let first : Bool × FileTransferList :=
      match X509UserProxy with
      | some proxy =>
        if paths.contains proxy then
          ExpandFileTransferList stat proxy "" Iwd (-1) expanded_list
        else (true, expanded_list)
      | none => (true, expanded_list)
    paths.foldl
      (fun acc path =>
        if X509UserProxy ≠ some path then
          let r := ExpandFileTransferList stat path "" Iwd (-1) acc.2
          (if r.1 then acc.1 else false, r.2)
        else acc)
      first

/-- The items that the entries of a directory contribute when each entry is expanded
on its own with destination directory `dest_dir` (the claim's wording: the entries are
planned with that destination directory). -/
def contentsPlan : FsEntries → String → Bool → String → Int → FileTransferList
  | .nil, _, _, _, _ => []
  | .cons file_in_dir node rest, src_path, trailing_slash, dest_dir, max_depth =>
    (ExpandFileTransferList.withStat node (entryPath src_path trailing_slash file_in_dir)
      dest_dir max_depth []).2 ++ contentsPlan rest src_path trailing_slash dest_dir max_depth

/-- The depth limit that `ExpandFileTransferList` passes on to the entries. -/
def nextDepth (max_depth : Int) : Int := if max_depth > 0 then max_depth - 1 else max_depth

/-- The item of a directory itself. -/
def directoryItem (src_path dest_dir : String) (mode : Nat) : FileTransferItem :=
  { m_src_name := src_path, m_dest_dir := dest_dir, m_file_mode := mode, is_directory := true }

/-! ### The names that `DoUpload` announces -/

/-- The text before the first `?` of a name (`filename.substr(0, filename.find("?"))`). -/
def beforeQuery (filename : String) : String := ⟨filename.data.takeWhile (fun c => c != '?')⟩

/-- The name `dest_filename` under which `DoUpload` announces an item to the receiver. -/
def DoUpload.dest_filename (ExecFile : Option String) (simple_init : Bool)
    (fileitem : FileTransferItem) : String :=
  if ExecFile = some fileitem.srcName ∧ simple_init = false then CONDOR_EXEC
  else
    (if fileitem.destDir ≠ "" then fileitem.destDir ++ String.singleton DIR_DELIM_CHAR else "")
      ++ condor_basename (beforeQuery fileitem.srcName)

/-- The sandbox size that `DoUpload` announces: the sum of the sizes of the items. -/
def DoUpload.sandbox_size (filelist : FileTransferList) : Int :=
  filelist.foldl (fun partial_sum item => partial_sum + item.fileSize) 0

/-! ## The sender: the main loop of `DoUpload` -/

/-- Transfer commands (`enum class TransferCommand`). -/
def TransferCommand.Finished : Int := 0
def TransferCommand.XferFile : Int := 1
def TransferCommand.EnableEncryption : Int := 2
def TransferCommand.DisableEncryption : Int := 3
def TransferCommand.XferX509 : Int := 4
def TransferCommand.DownloadUrl : Int := 5
def TransferCommand.Mkdir : Int := 6
def TransferCommand.Other : Int := 999

/-- Sub-commands of command 999 (`enum class TransferSubCommand`). -/
def TransferSubCommand.Unknown : Int := -1
def TransferSubCommand.UploadUrl : Int := 7
def TransferSubCommand.ReuseInfo : Int := 8
def TransferSubCommand.SignUrls : Int := 9

/-- Return codes of `ReliSock::put_file` that `DoUpload` tells apart. -/
def PUT_FILE_OPEN_FAILED : Int := -2
def PUT_FILE_PLUGIN_FAILED : Int := -4
def PUT_FILE_MAX_BYTES_EXCEEDED : Int := -5

/-- Value of `errno` that `DoUpload` sets for a directory that cannot be sent. -/
def EISDIR : Int := 21

/-- Size of the mode that a mkdir command sends (`sizeof( fileitem.fileMode() )`). -/
def sizeof_condor_mode_t : Int := 4

/-- Replace every occurrence of `pat` in a character list by `rep`
(`MyString::replaceString`); `fuel` bounds the scan by the length of the text. -/
def replaceChars (pat rep : List Char) : Nat → List Char → List Char
  | 0, s => s
  | _ + 1, [] => []
  | fuel + 1, c :: cs =>
    if pat ≠ [] ∧ pat.isPrefixOf (c :: cs) then
      rep ++ replaceChars pat rep fuel ((c :: cs).drop pat.length)
    else c :: replaceChars pat rep fuel cs

def replaceString (s pat rep : String) : String :=
  ⟨replaceChars pat.data rep.data (s.length + 1) s.data⟩

/-- Members of the `FileTransfer` object and configuration values that the loop of
`DoUpload` reads, with the values that the code before the loop has computed
(`skip_files`, `s3_url_map`, `socket_default_crypto`). -/
structure UploadConfig where
  Iwd : String
  ExecFile : Option String := none
  simple_init : Bool := false
  X509UserProxy : Option String := none
  DelegateX509Credentials : Bool := false
  /-- `DontEncryptFiles->file_contains_withwildcard`. -/
  dontEncrypt : String → Bool := fun _ => false
  /-- `EncryptFiles->file_contains_withwildcard`. -/
  encrypt : String → Bool := fun _ => false
  PeerUnderstandsMkdir : Bool := true
  PeerDoesGoAhead : Bool := true
  PeerDoesS3Urls : Bool := true
  PeerDoesTransferAck : Bool := true
  TransferFilePermissions : Bool := true
  MaxUploadBytes : Int := -1
  multifile_plugins_enabled : Bool := false
  ENABLE_URL_TRANSFERS : Bool := true
  socket_default_crypto : Bool := false
  JobStdoutFile : String := ""
  JobStderrFile : String := ""
  skip_files : List String := []
  s3_url_map : List (String × String) := []
  /-- `DetermineFileTransferPlugin(errstack, dest URL, fullname)`. -/
  determinePlugin : String → String → String := fun _ _ => ""
  /-- The table `plugins_multifile_support`. -/
  plugins_multifile_support : String → Option Bool := fun _ => none
  strerror : Int → String := fun _ => ""

/-- What the calls of one round of the loop that leave the process return: the stream,
the transfer queue, the plug-ins and the file system. -/
structure UploadReplies where
  /-- `InvokeMultiUploadPlugin` for the batch that has to be flushed before this item. -/
  flush_result : Int := 1
  flush_errors : String := ""
  /-- Sending the command and its end of message. -/
  header_sent : Bool := true
  /-- `set_crypto_mode` when it switches encryption on or to the default. -/
  crypto_set : Bool := true
  /-- Sending `dest_filename`. -/
  filename_sent : Bool := true
  /-- The end of message before the go-ahead exchange. -/
  eom_before_go_ahead : Bool := true
  /-- `ReceiveTransferGoAhead`: `none` when it fails, else whether the peer goes ahead
  for all files and the `MaxTransferBytes` that its message carried, if any. -/
  receive_go_ahead : Option (Bool × Option Int) := some (true, none)
  /-- `ObtainAndSendTransferGoAhead`: `none` when it fails, else whether we go ahead for
  all files. -/
  obtain_go_ahead : Option Bool := some true
  /-- `InvokeMultiUploadPlugin` for this item alone, when uploads cannot be deferred. -/
  multi_result : Int := 1
  /-- `InvokeFileTransferPlugin`. -/
  plugin_rc : Int := 0
  /-- Sending the result ad of a plug-in upload, and the length of its printed form. -/
  ad_sent : Bool := true
  ad_length : Int := 0
  /-- The end of message before a delegation, when the peer has no go-ahead protocol. -/
  x509_eom : Bool := true
  /-- `put_x509_delegation`: return code and bytes. -/
  delegation : Int × Int := (0, 0)
  /-- Sending the URL of a URL item. -/
  url_sent : Bool := true
  /-- Sending the mode of a directory. -/
  mode_sent : Bool := true
  /-- `put_file` of the null file, for a directory that cannot be sent. -/
  put_null_file : Int × Int := (0, 0)
  /-- `put_file` / `put_file_with_permissions` of the item, as a function of the byte
  limit that it is given: return code and bytes. -/
  put_file : Int → Int × Int := fun _ => (0, 0)
  /-- `errno` after the transfer call. -/
  the_error : Int := 0
  errstack_text : String := ""
  /-- Size of the file, for the message of an exceeded limit. -/
  this_file_size : Int := 0
  /-- The end of message after the item. -/
  eom_after : Bool := true

/-- Local variables of `DoUpload` that live across rounds of the loop, the totals, and
what the object records (`Info.spooled_files`, the crypto mode of the stream). -/
structure UploadState where
  total_bytes : Int := 0
  /-- The local `bytes`; a round that does not set it leaves the old value in place. -/
  bytes : Int := 0
  numFiles : Int := 0
  upload_success : Bool := false
  try_again : Bool := false
  hold_code : Int := 0
  hold_subcode : Int := 0
  error_desc : String := ""
  first_failed_file_transfer_happened : Bool := false
  first_failed_upload_success : Bool := false
  first_failed_try_again : Bool := false
  first_failed_hold_code : Int := 0
  first_failed_hold_subcode : Int := 0
  first_failed_error_desc : String := ""
  currentUploadPlugin : String := ""
  /-- The requests of the pending batch: URL and local file name of each. -/
  currentUploadRequests : List (String × String) := []
  currentUploadDeferred : Int := 0
  I_go_ahead_always : Bool := false
  peer_goes_ahead_always : Bool := false
  peer_max_transfer_bytes : Int := -1
  crypto_mode : Bool := false
  /-- Commands announced on the stream so far: command, name, crypto mode. -/
  announced : List (Int × String × Bool) := []
  spooled_files : List String := []
  /-- The calls of `InvokeFileTransferPlugin` so far: local file and URL. -/
  plugin_calls : List (String × String) := []

/-- How a round of the loop, or the loop, ends. -/
inductive UploadOutcome where
  /-- The loop goes on with the next item. -/
  | next (st : UploadState)
  /-- `return_and_resetpriv( -1 )`: the session is dropped without acknowledgement. -/
  | dropped (st : UploadState)
  /-- `return ExitDoUpload(...)` from inside the loop, with its arguments. -/
  | exited (st : UploadState) (upload_success do_upload_ack do_download_ack try_again : Bool)
      (hold_code hold_subcode : Int) (upload_error_desc : Option String)

/-- The decisions that a round takes from the item alone. -/
structure ItemPlan where
  fileitem : FileTransferItem
  fullname : String
  dest_filename : String
  file_command : Int
  file_subcommand : Int
  multifilePluginPath : String
  fail_because_mkdir_not_supported : Bool
  fail_because_symlink_not_supported : Bool

/-- The file name that the sender opens or the URL that it sends (`fullname`). -/
def DoUpload.fullname (cfg : UploadConfig) (fileitem : FileTransferItem) : String :=
  if fileitem.isSrcUrl then fileitem.srcName
  else if !fullpath fileitem.srcName then
    cfg.Iwd ++ String.singleton DIR_DELIM_CHAR ++ fileitem.srcName
  else fileitem.srcName

/-- The multi-file plug-in that handles the item, or the empty string. -/
def DoUpload.multifilePluginPath (cfg : UploadConfig) (fileitem : FileTransferItem)
    (fullname : String) : String :=
  if fileitem.isDestUrl && cfg.multifile_plugins_enabled then
    let pluginPath := cfg.determinePlugin fileitem.destUrl fullname
    if cfg.plugins_multifile_support pluginPath = some true then pluginPath else ""
  else ""

/-- The command with which the item is announced, before the directory test. -/
def DoUpload.command_before_mkdir (cfg : UploadConfig) (fileitem : FileTransferItem) : Int :=
  let filename := fileitem.srcName
  let c := TransferCommand.XferFile
  let c := if cfg.dontEncrypt filename then TransferCommand.DisableEncryption else c
  let c := if cfg.encrypt filename then TransferCommand.EnableEncryption else c
  let c := if cfg.X509UserProxy = some filename ∧ cfg.DelegateX509Credentials = true
    then TransferCommand.XferX509 else c
  let c := if fileitem.isSrcUrl then TransferCommand.DownloadUrl else c
  if fileitem.isDestUrl then TransferCommand.Other else c

/-- The decisions of a round (`fullname`, `dest_filename`, `file_command`, ...). -/
def DoUpload.plan (cfg : UploadConfig) (fileitem : FileTransferItem) : ItemPlan :=
  let fullname := DoUpload.fullname cfg fileitem
  let is_dir := fileitem.is_directory
  { fileitem := fileitem
    fullname := fullname
    dest_filename := DoUpload.dest_filename cfg.ExecFile cfg.simple_init fileitem
    file_command :=
      if is_dir && !fileitem.is_symlink && cfg.PeerUnderstandsMkdir then TransferCommand.Mkdir
      else DoUpload.command_before_mkdir cfg fileitem
    file_subcommand :=
      if fileitem.isDestUrl then TransferSubCommand.UploadUrl else TransferSubCommand.Unknown
    multifilePluginPath := DoUpload.multifilePluginPath cfg fileitem fullname
    fail_because_mkdir_not_supported :=
      is_dir && !fileitem.is_symlink && !cfg.PeerUnderstandsMkdir
    fail_because_symlink_not_supported := is_dir && fileitem.is_symlink }

/-- Record the failure of a flushed batch as the first failure, if it is the first. -/
def DoUpload.record_batch_failure (st : UploadState) (errors : String) : UploadState :=
  let st := { st with error_desc := st.error_desc ++ ": " ++ errors }
  if !st.first_failed_file_transfer_happened then
    { st with first_failed_file_transfer_happened := true
              first_failed_upload_success := false
              first_failed_try_again := false
              first_failed_hold_code := CONDOR_HOLD_CODE_UploadFileError
              first_failed_hold_subcode := 1
              first_failed_error_desc := st.error_desc }
  else st

/-- Flush the pending batch if this item cannot join it; `none` when the flush fails
fatally. -/
def DoUpload.flush_pending (st : UploadState) (p : ItemPlan) (env : UploadReplies) :
    Option UploadState :=
  if st.currentUploadPlugin ≠ "" ∧ p.multifilePluginPath ≠ st.currentUploadPlugin then
    if env.flush_result = -1 then none
    else
      let st := if env.flush_result = 0 then DoUpload.record_batch_failure st env.flush_errors
        else st
      some { st with currentUploadPlugin := "", currentUploadRequests := [],
                     currentUploadDeferred := 0 }
  else some st

/-- The crypto mode that the sender applies for a command. -/
def DoUpload.crypto_for (cfg : UploadConfig) (file_command : Int) : Bool :=
  if file_command = TransferCommand.EnableEncryption ∨
      (cfg.PeerDoesS3Urls = true ∧ file_command = TransferCommand.DownloadUrl) then true
  else if file_command = TransferCommand.DisableEncryption then false
  else cfg.socket_default_crypto

/-- Send the header of the item: command, crypto mode, name; `none` when the stream
fails. -/
def DoUpload.send_header (cfg : UploadConfig) (st : UploadState) (p : ItemPlan)
    (env : UploadReplies) : Option UploadState :=
  let no_defer_header := p.multifilePluginPath = "" ∨ st.currentUploadDeferred = 0
  if no_defer_header ∧ env.header_sent = false then none
  else if p.file_command ≠ TransferCommand.DisableEncryption ∧ env.crypto_set = false then none
  else if no_defer_header ∧ env.filename_sent = false then none
  else
    let mode := DoUpload.crypto_for cfg p.file_command
    some { st with crypto_mode := mode,
                   announced := if no_defer_header then
                       st.announced ++ [(p.file_command, p.dest_filename, mode)]
                     else st.announced }

/-- The go-ahead exchange of a round; `none` when it fails. -/
def DoUpload.go_ahead (cfg : UploadConfig) (st : UploadState) (p : ItemPlan)
    (env : UploadReplies) : Option UploadState :=
  if cfg.PeerDoesGoAhead then
    let no_defer_header := p.multifilePluginPath = "" ∨ st.currentUploadDeferred = 0
    if no_defer_header ∧ env.eom_before_go_ahead = false then none
    else
      let afterPeer : Option UploadState :=
        if !st.peer_goes_ahead_always then
          match env.receive_go_ahead with
          | none => none
          | some (always, mtb) =>
            some { st with peer_goes_ahead_always := always,
                           peer_max_transfer_bytes := mtb.getD st.peer_max_transfer_bytes }
        else some st
      match afterPeer with
      | none => none
      | some st =>
        if !st.I_go_ahead_always then
          match env.obtain_go_ahead with
          | none => none
          | some always => some { st with I_go_ahead_always := always }
        else some st
  else some st

/-- The limit that `DoUpload` enforces (`effective_max_upload_bytes`). -/
def DoUpload.effective_max_upload_bytes (MaxUploadBytes peer_max_transfer_bytes : Int) : Int :=
  if peer_max_transfer_bytes ≥ 0 ∧
      (peer_max_transfer_bytes < MaxUploadBytes ∨ MaxUploadBytes < 0) then
    peer_max_transfer_bytes
  else MaxUploadBytes

/-- Whether the limit in force is the receiver's (`using_peer_max_transfer_bytes`). -/
def DoUpload.using_peer_max_transfer_bytes (MaxUploadBytes peer_max_transfer_bytes : Int) : Bool :=
  decide (peer_max_transfer_bytes ≥ 0 ∧
    (peer_max_transfer_bytes < MaxUploadBytes ∨ MaxUploadBytes < 0))

/-- The byte limit handed to `put_file` for this item (`this_file_max_bytes`). -/
def DoUpload.this_file_max_bytes (MaxUploadBytes peer_max_transfer_bytes total_bytes : Int) :
    Int :=
  let effective := DoUpload.effective_max_upload_bytes MaxUploadBytes peer_max_transfer_bytes
  if effective < 0 then -1
  else if effective ≥ total_bytes then effective - total_bytes
  else 0

/-- Whether the item goes through `put_file` with the byte limit: none of the other
branches of the dispatch takes it. -/
def ItemPlan.isLimitedFile (p : ItemPlan) : Bool :=
  decide (p.file_command ≠ TransferCommand.Other ∧ p.file_command ≠ TransferCommand.XferX509 ∧
    p.file_command ≠ TransferCommand.DownloadUrl ∧ p.file_command ≠ TransferCommand.Mkdir) &&
  !(p.fail_because_mkdir_not_supported || p.fail_because_symlink_not_supported)

/-- The dispatch on the command: the transfer itself.  The result is the state, the
return code `rc` and `errno`; `none` when the stream fails fatally. -/
def DoUpload.transfer (cfg : UploadConfig) (st : UploadState) (p : ItemPlan)
    (env : UploadReplies) : Option (UploadState × Int × Int) :=
  let can_defer_uploads :=
    !cfg.PeerDoesGoAhead || (st.peer_goes_ahead_always && st.I_go_ahead_always)
  let this_file_max_bytes :=
    DoUpload.this_file_max_bytes cfg.MaxUploadBytes st.peer_max_transfer_bytes st.total_bytes
  if p.file_command = TransferCommand.Other then
    if p.file_subcommand = TransferSubCommand.UploadUrl then
      if p.multifilePluginPath ≠ "" then
        let st := { st with currentUploadPlugin := p.multifilePluginPath,
                            currentUploadRequests :=
                              st.currentUploadRequests ++ [(p.fileitem.destUrl, p.fullname)],
                            currentUploadDeferred := st.currentUploadDeferred + 1 }
        if !can_defer_uploads then
          if env.multi_result = -1 then none
          else
            some ({ st with currentUploadPlugin := "", currentUploadRequests := [],
                            currentUploadDeferred := 0 },
              if env.multi_result = 0 then -1 else 0, env.the_error)
        else some (st, 0, env.the_error)
      else if env.ad_sent = false then none
      else
        let source_filename := cfg.Iwd ++ String.singleton DIR_DELIM_CHAR ++ p.fileitem.srcName
        some ({ st with bytes := env.ad_length,
                        plugin_calls := st.plugin_calls ++ [(source_filename, p.fileitem.destUrl)] },
          env.plugin_rc, env.the_error)
    else some ({ st with bytes := 0 }, 0, env.the_error)
  else if p.file_command = TransferCommand.XferX509 then
    if cfg.PeerDoesGoAhead || env.x509_eom then
      some ({ st with bytes := env.delegation.2 }, env.delegation.1, env.the_error)
    else some (st, -1, env.the_error)
  else if p.file_command = TransferCommand.DownloadUrl then
    some ({ st with bytes := p.fullname.length }, if env.url_sent then 0 else -1, env.the_error)
  else if p.file_command = TransferCommand.Mkdir then
    some ({ st with bytes := sizeof_condor_mode_t }, if env.mode_sent then 0 else -1,
      env.the_error)
  else if p.fail_because_mkdir_not_supported || p.fail_because_symlink_not_supported then
    if env.put_null_file.1 = 0 then
      some ({ st with bytes := env.put_null_file.2 }, PUT_FILE_OPEN_FAILED, EISDIR)
    else some ({ st with bytes := env.put_null_file.2 }, env.put_null_file.1, env.the_error)
  else
    some ({ st with bytes := (env.put_file this_file_max_bytes).2 },
      (env.put_file this_file_max_bytes).1, env.the_error)

/-- The text of an exceeded limit. -/
def DoUpload.max_bytes_text (using_peer : Bool) (effective this_file_size : Int) : String :=
  ": max total " ++ (if using_peer then "download" else "upload") ++ " bytes exceeded (max="
    ++ toString (Int.tdiv (Int.tdiv effective 1024) 1024) ++ " MB, this file="
    ++ toString (Int.tdiv (Int.tdiv this_file_size 1024) 1024) ++ " MB)"

/-- The block `if( rc < 0 )` of the loop: a failure that lets the loop go on is recorded
(the first one is kept in the `first_failed_*` variables), any other failure leaves
`DoUpload` through `ExitDoUpload`. -/
def DoUpload.handle_rc (cfg : UploadConfig) (st : UploadState) (p : ItemPlan)
    (env : UploadReplies) (rc the_error : Int) : UploadOutcome :=
  if rc < 0 then
    let st := { st with upload_success := false, error_desc := "error sending " ++ p.fullname }
    if rc = PUT_FILE_OPEN_FAILED ∨ rc = PUT_FILE_PLUGIN_FAILED ∨
        rc = PUT_FILE_MAX_BYTES_EXCEEDED then
      let st := { st with try_again := false,
                          hold_code := CONDOR_HOLD_CODE_UploadFileError,
                          hold_subcode := the_error }
      let using_peer :=
        DoUpload.using_peer_max_transfer_bytes cfg.MaxUploadBytes st.peer_max_transfer_bytes
      let effective :=
        DoUpload.effective_max_upload_bytes cfg.MaxUploadBytes st.peer_max_transfer_bytes
      let st_err : UploadState × Int :=
        if rc = PUT_FILE_OPEN_FAILED then
          let d := replaceString st.error_desc "sending" "reading from"
          let d := d ++ ": (errno " ++ toString the_error ++ ") " ++ cfg.strerror the_error
          let d := if p.fail_because_mkdir_not_supported then
            d ++ "; Remote condor version is too old to transfer directories." else d
          let d := if p.fail_because_symlink_not_supported then
            d ++ "; Transfer of symlinks to directories is not supported." else d
          ({ st with error_desc := d }, the_error)
        else if rc = PUT_FILE_MAX_BYTES_EXCEEDED then
          ({ st with error_desc :=
                       st.error_desc ++ DoUpload.max_bytes_text using_peer effective
                         env.this_file_size,
                     hold_code :=
                       if using_peer then CONDOR_HOLD_CODE_MaxTransferOutputSizeExceeded
                       else CONDOR_HOLD_CODE_MaxTransferInputSizeExceeded }, 0)
        else ({ st with error_desc := st.error_desc ++ ": " ++ env.errstack_text }, the_error)
      let st := st_err.1
      if st.first_failed_file_transfer_happened = false then
        .next { st with first_failed_file_transfer_happened := true
                        first_failed_upload_success := false
                        first_failed_try_again := false
                        first_failed_hold_code := st.hold_code
                        first_failed_hold_subcode := st_err.2
                        first_failed_error_desc := st.error_desc }
      else .next st
    else
      .exited { st with try_again := true } false false true true st.hold_code st.hold_subcode
        (some st.error_desc)
  else .next st

/-- The end of a round: the end of message, the totals and the list of spooled files. -/
def DoUpload.account (cfg : UploadConfig) (st : UploadState) (p : ItemPlan)
    (env : UploadReplies) : UploadOutcome :=
  if st.currentUploadDeferred = 0 ∧ env.eom_after = false then .dropped st
  else
    .next { st with total_bytes := st.total_bytes + st.bytes
                    numFiles := st.numFiles + 1
                    spooled_files :=
                      if !p.dest_filename.data.contains DIR_DELIM_CHAR ∧
                          p.dest_filename ≠ condor_basename cfg.JobStdoutFile ∧
                          p.dest_filename ≠ condor_basename cfg.JobStderrFile ∧
                          (p.file_command ≠ TransferCommand.Other ∨
                            p.file_subcommand ≠ TransferSubCommand.UploadUrl) then
                        st.spooled_files ++ [p.dest_filename]
                      else st.spooled_files }

/-- The part of a round from the byte limit on: the transfer, the failure handling and
the accounting (`st` is the state after the go-ahead exchange). -/
def DoUpload.send (cfg : UploadConfig) (st : UploadState) (p : ItemPlan)
    (env : UploadReplies) : UploadOutcome :=
  match DoUpload.transfer cfg st p env with
  | none => .dropped st
  | some (st, rc, the_error) =>
    match DoUpload.handle_rc cfg st p env rc the_error with
    | .next st => DoUpload.account cfg st p env
    | other => other

/-- The item with its signed destination URL, if the receiver has signed one. -/
def DoUpload.with_signed_url (cfg : UploadConfig) (fileitem : FileTransferItem) :
    FileTransferItem :=
  match cfg.s3_url_map.lookup fileitem.destUrl with
  | some signed_url => fileitem.setDestUrl signed_url
  | none => fileitem

/-- One round of the loop `for (auto &fileitem : filelist)` of `DoUpload`. -/
def DoUpload.item (cfg : UploadConfig) (st : UploadState) (fileitem : FileTransferItem)
    (env : UploadReplies) : UploadOutcome :=
  let fileitem := DoUpload.with_signed_url cfg fileitem
  -- anything that the remote side was able to reuse is not sent again
  if cfg.skip_files.contains fileitem.srcName then .next st
  else if fileitem.isSrcUrl && !cfg.ENABLE_URL_TRANSFERS then .dropped st
  else
    let p := DoUpload.plan cfg fileitem
    match DoUpload.flush_pending st p env with
    | none => .dropped st
    | some st1 =>
      match DoUpload.send_header cfg st1 p env with
      | none => .dropped st1
      | some st2 =>
        match DoUpload.go_ahead cfg st2 p env with
        | none => .dropped st2
        | some st3 => DoUpload.send cfg st3 p env

/-- The loop of `DoUpload` over the sorted plan; every item comes with the replies that
its round receives. -/
def DoUpload.loop (cfg : UploadConfig) :
    UploadState → List (FileTransferItem × UploadReplies) → UploadOutcome
  | st, [] => .next st
  | st, (fileitem, env) :: rest =>
    match DoUpload.item cfg st fileitem env with
    | .next st => DoUpload.loop cfg st rest
    | other => other

/-- The code of `DoUpload` after the loop: the pending batch is flushed
(`flush_result`, `flush_errors` are what `InvokeMultiUploadPlugin` returns), then
`DoUpload` leaves through `ExitDoUpload` with the first failure, if there was one, or
with success.  The statement `total_bytes += result` of the source moves the pointer
`total_bytes`; it adds nothing to the total. -/
def DoUpload.finish (st : UploadState) (flush_result : Int) (flush_errors : String) :
    UploadOutcome :=
  let flushed : Option UploadState :=
    if st.currentUploadRequests ≠ [] then
      if flush_result = -1 then none
      else if flush_result = 0 then some (DoUpload.record_batch_failure st flush_errors)
      else some st
    else some st
  match flushed with
  | none => .dropped st
  | some st =>
    if st.first_failed_file_transfer_happened = true then
      .exited st st.first_failed_upload_success true true st.first_failed_try_again
        st.first_failed_hold_code st.first_failed_hold_subcode (some st.first_failed_error_desc)
    else
      .exited { st with upload_success := true } true true true st.try_again st.hold_code
        st.hold_subcode none

/-- The loop of `DoUpload` and the code after it. -/
def DoUpload.run (cfg : UploadConfig) (st : UploadState)
    (plan : List (FileTransferItem × UploadReplies)) (flush_result : Int)
    (flush_errors : String) : UploadOutcome :=
  match DoUpload.loop cfg st plan with
  | .next st => DoUpload.finish st flush_result flush_errors
  | other => other

/-- The state of an outcome. -/
def UploadOutcome.state : UploadOutcome → UploadState
  | .next st => st
  | .dropped st => st
  | .exited st _ _ _ _ _ _ _ => st

/-- Modelled from the spec: `ReliSock::put_file` (its source file is not at hand) with a
byte limit sends a file of `size` bytes whole when it fits, and otherwise sends no more
than the limit and reports `PUT_FILE_MAX_BYTES_EXCEEDED`; a negative limit is no
limit. -/
def put_file (size max_bytes : Int) : Int × Int :=
  if max_bytes ≥ 0 ∧ size > max_bytes then (PUT_FILE_MAX_BYTES_EXCEEDED, max_bytes)
  else (0, size)

/-- Whether a round counts its bytes without a byte limit: the item is not sent through
`put_file` with `this_file_max_bytes`. -/
def DoUpload.counts_unlimited (cfg : UploadConfig) (fileitem : FileTransferItem) : Bool :=
  !(DoUpload.plan cfg (DoUpload.with_signed_url cfg fileitem)).isLimitedFile

/-- The bytes that the rounds of the loop count without a byte limit (URLs, directories,
delegations, result ads of plug-in uploads): the sum of what these rounds add to
`total_bytes`. -/
def DoUpload.unlimited_bytes (cfg : UploadConfig) :
    UploadState → List (FileTransferItem × UploadReplies) → Int
  | _, [] => 0
  | st, (fileitem, env) :: rest =>
    match DoUpload.item cfg st fileitem env with
    | .next st1 =>
      (if DoUpload.counts_unlimited cfg fileitem then max (st1.total_bytes - st.total_bytes) 0
       else 0) + DoUpload.unlimited_bytes cfg st1 rest
    | _ => 0

/-- The result that `DoUpload` hands to `ExitDoUpload`: `upload_success`, `try_again` and
the hold code, if it leaves that way. -/
def UploadOutcome.verdict : UploadOutcome → Option (Bool × Bool × Int)
  | .exited _ upload_success _ _ try_again hold_code _ _ =>
    some (upload_success, try_again, hold_code)
  | _ => none

/-- The hold code of an exceeded limit: the output code when the limit in force is the
receiver's, the input code when it is the sender's own. -/
def DoUpload.exceeded_hold_code (MaxUploadBytes peer_max_transfer_bytes : Int) : Int :=
  if DoUpload.using_peer_max_transfer_bytes MaxUploadBytes peer_max_transfer_bytes then
    CONDOR_HOLD_CODE_MaxTransferOutputSizeExceeded
  else CONDOR_HOLD_CODE_MaxTransferInputSizeExceeded

/-! ## The receiver: `DoDownload` -/

/-- Return codes of `ReliSock::get_file` that `DoDownload` tells apart. -/
def GET_FILE_OPEN_FAILED : Int := -2
def GET_FILE_WRITE_FAILED : Int := -3
def GET_FILE_PLUGIN_FAILED : Int := -4
def GET_FILE_MAX_BYTES_EXCEEDED : Int := -5

/-- Value of `errno` that `DoDownload` reports for a rejected name. -/
def EPERM : Int := 1

/-- Members of the `FileTransfer` object and configuration values that `DoDownload`
reads, with the values that the code before the loop has read from the stream
(`final_transfer`) or computed (`output_url_pfxs`, `socket_default_crypto`). -/
structure DownloadConfig where
  Iwd : String
  TmpSpoolSpace : String := ""
  final_transfer : Bool := true
  IsClient : Bool := true
  PeerDoesGoAhead : Bool := true
  PeerDoesTransferAck : Bool := true
  PeerDoesS3Urls : Bool := true
  TransferFilePermissions : Bool := true
  MaxDownloadBytes : Int := -1
  multifile_plugins_enabled : Bool := false
  SIGN_S3_URLS : Bool := true
  socket_default_crypto : Bool := false
  /-- `m_reuse_dir != nullptr`. -/
  has_reuse_dir : Bool := false
  ExecFile : Option String := none
  /-- `filename_remap_find(download_filename_remaps, filename, remap_filename, 0)`: the
  return value and the remapped name. -/
  filename_remap_find : String → Int × String := fun _ => (0, "")
  /-- The list `output_url_prefixes`: `OutputDestination` and the targets of the output
  remaps. -/
  output_url_pfxs : List String := []
  /-- `DetermineFileTransferPlugin(errstack, URL, fullname)`. -/
  determinePlugin : String → String → String := fun _ _ => ""
  /-- The table `plugins_multifile_support`. -/
  plugins_multifile_support : String → Option Bool := fun _ => none
  /-- `get_mySubSystem()->getName()` and `s->my_ip_str()`. -/
  subsystem : String := "STARTER"
  my_ip_str : String := "10.0.0.1"
  strerror : Int → String := fun _ => ""

/-- One proposal of a reuse-info request, with the answer of the reuse cache to
`RetrieveFile` for it. -/
structure ReuseProposal where
  filename : String
  checksum : String := ""
  checksum_type : String := ""
  size : Int := 0
  retrieved : Bool := false
  deriving DecidableEq, Repr

/-- Struct `ReuseInfo`: a proposed file that the cache could not supply. -/
structure ReuseInfo where
  filename : String
  checksum : String
  checksum_type : String
  tag : String
  size : Int
  deriving DecidableEq, Repr

/-- What one round of the loop of `DoDownload` reads from the stream and what the calls
that leave the process return to it. -/
structure DownloadFrame where
  /-- Reading the command and its end of message. -/
  header_read : Bool := true
  /-- The command code. -/
  reply : Int := 1
  /-- `set_crypto_mode` when it switches encryption on or to the default. -/
  crypto_set : Bool := true
  /-- Reading the file name. -/
  filename_read : Bool := true
  filename : String := ""
  /-- The end of message before the go-ahead exchange. -/
  eom_before_go_ahead : Bool := true
  /-- `ObtainAndSendTransferGoAhead`: `none` when it fails, else whether we go ahead for
  all files. -/
  obtain_go_ahead : Option Bool := some true
  /-- `ReceiveTransferGoAhead`: `none` when it fails, else whether the peer goes ahead
  for all files and the `MaxTransferBytes` of its message, if any. -/
  receive_go_ahead : Option (Bool × Option Int) := some (true, none)
  /-- Command 999: reading the ad, and its `SubCommand` and `Result` attributes. -/
  ad_read : Bool := true
  SubCommand : Option Int := none
  Result : Option Int := none
  /-- Sub-command 8: the `ReuseList` (with the answers of the cache) and the `Tag`, if
  the ad has both; the reservation that `ReserveSpace` grants, if it does. -/
  reuse_request : Option (List ReuseProposal × String) := none
  reserve_space : Option String := none
  /-- Sub-command 9: the end of message after the ad; the `SignList`, if the ad has
  one (an entry that is not a string is `none`); `generate_presigned_url`. -/
  sign_eom : Bool := true
  sign_request : Option (List (Option String)) := none
  presign : String → Option String := fun _ => none
  /-- Sending the response of sub-command 8 or 9. -/
  response_sent : Bool := true
  /-- Command 5: the URL, if reading it succeeds, and `InvokeFileTransferPlugin`. -/
  URL : Option String := some ""
  plugin_rc : Int := 0
  /-- Command 4: the end of message (without go-ahead protocol) and whether
  `get_x509_delegation` returns `delegation_ok`. -/
  x509_eom : Bool := true
  delegation_ok : Bool := true
  /-- Command 6: the mode, if reading it succeeds; the outcome of the first `mkdir`
  (0 or -1, with `EEXIST` or not), whether the name is an existing directory, and
  the outcome of the second `mkdir`. -/
  file_mode : Option Nat := some 448
  mkdir_rc : Int := 0
  mkdir_eexist : Bool := false
  exists_as_directory : Bool := false
  second_mkdir_rc : Int := 0
  /-- `get_file` / `get_file_with_permissions` as a function of the byte limit: return
  code and bytes. -/
  get_file : Int → Int × Int := fun _ => (0, 0)
  /-- `errno` after the transfer call, and the text of the error stack. -/
  the_error : Int := 0
  errstack_text : String := ""
  /-- The end of message after the item. -/
  eom_after : Bool := true

/-- Local variables of `DoDownload` that live across rounds of the loop, and a record of
what the rounds did: where each item was written, which files were handed to
`CacheFile`, and the responses sent. -/
structure DownloadState where
  rc : Int := 0
  total_bytes : Int := 0
  numFiles : Int := 0
  download_success : Bool := true
  try_again : Bool := true
  hold_code : Int := 0
  hold_subcode : Int := 0
  error_buf : String := ""
  I_go_ahead_always : Bool := false
  peer_goes_ahead_always : Bool := false
  peer_max_transfer_bytes : Int := 0
  reuse_info : List ReuseInfo := []
  reservation_id : String := ""
  /-- `deferredTransfers`: plug-in, URL and local file name of each deferred item. -/
  deferredTransfers : List (String × String × String) := []
  LocalProxyName : String := ""
  crypto_mode : Bool := false
  /-- For every item whose payload was handled: command, name received and the path
  `fullname` that it was directed to. -/
  written : List (Int × String × String) := []
  /-- The calls of `CacheFile`: path and reservation. -/
  cached : List (String × String) := []
  /-- The space that `ReserveSpace` was asked for, call by call. -/
  reserve_requests : List Int := []
  /-- The lists sent in answer to sub-commands 8 and 9. -/
  reuse_responses : List (List String) := []
  sign_responses : List (List String) := []

/-- How a round of the loop, or the loop, ends. -/
inductive DownloadOutcome where
  /-- The loop goes on with the next command. -/
  | next (st : DownloadState)
  /-- Command 0 has arrived: the loop is left. -/
  | finished (st : DownloadState)
  /-- `return_and_resetpriv( -1 )` without an acknowledgement. -/
  | dropped (st : DownloadState)
  /-- The exit after a failed receive: an acknowledgement with the state's values is
  sent for what it is worth, then `return_and_resetpriv( -1 )`. -/
  | failed_with_ack (st : DownloadState)

/-- The crypto mode that the receiver applies for a command. -/
def DoDownload.crypto_for (cfg : DownloadConfig) (xfer_command : Int) : Bool :=
  if xfer_command = TransferCommand.EnableEncryption ∨
      (cfg.PeerDoesS3Urls = true ∧ xfer_command = TransferCommand.DownloadUrl) then true
  else if xfer_command = TransferCommand.DisableEncryption then false
  else cfg.socket_default_crypto

/-- Whether a character list occurs in another as a contiguous part (`std::string::find`
succeeds). -/
def hasSubstring (pat : List Char) : List Char → Bool
  | [] => pat.isPrefixOf []
  | c :: cs => pat.isPrefixOf (c :: cs) || hasSubstring pat cs

/-- The text that `DoDownload` appends to the hold reason for a rejected name. -/
def illegalPathText (filename : String) : String :=
  " Attempt to write to illegal sandbox path: " ++ filename

/-- The check of the received name (line 2154): a name that `LegalPathInSandbox` rejects
is recorded as a failure and replaced by the null file.  The result is the state and
the name that the round goes on with. -/
def DoDownload.check_path (cfg : DownloadConfig) (st : DownloadState) (filename : String) :
    DownloadState × String :=
  if !LegalPathInSandbox filename cfg.Iwd then
    ({ st with download_success := false, try_again := false,
               hold_code := CONDOR_HOLD_CODE_DownloadFileError, hold_subcode := EPERM,
               error_buf := st.error_buf ++ illegalPathText filename },
      NULL_FILE)
  else (st, filename)

/-- The failure that a remap records. -/
def DoDownload.remap_failure (st : DownloadState) (text : String) : DownloadState :=
  { st with error_buf := text, download_success := false, try_again := false,
            hold_code := CONDOR_HOLD_CODE_DownloadFileError, hold_subcode := EPERM }

/-- The path `fullname` that the item is written to (lines 2176-2249), with the
failures that the remap table can cause. -/
def DoDownload.resolve (cfg : DownloadConfig) (st : DownloadState) (xfer_command : Int)
    (filename : String) : DownloadState × String :=
  let in_iwd := cfg.Iwd ++ String.singleton DIR_DELIM_CHAR ++ filename
  if filename = NULL_FILE then (st, filename)
  else if cfg.final_transfer || cfg.IsClient then
    let res := (cfg.filename_remap_find filename).1
    let remap_filename := (cfg.filename_remap_find filename).2
    if res = -1 then
      (DoDownload.remap_failure st ("remaps resulted in a cycle: " ++ remap_filename), NULL_FILE)
    else if res ≠ 0 then
      if (IsUrl remap_filename).isSome then
        if xfer_command ≠ TransferCommand.Other then
          (DoDownload.remap_failure st
            ("Remap of output file resulted in a URL: " ++ remap_filename), NULL_FILE)
        else (st, in_iwd)
      else if fullpath remap_filename then (st, remap_filename)
      else (st, cfg.Iwd ++ String.singleton DIR_DELIM_CHAR ++ remap_filename)
    else (st, in_iwd)
  else (st, cfg.TmpSpoolSpace ++ String.singleton DIR_DELIM_CHAR ++ filename)

/-- The go-ahead exchange of a round; `none` when it fails. -/
def DoDownload.go_ahead (cfg : DownloadConfig) (st : DownloadState) (frame : DownloadFrame) :
    Option DownloadState :=
  if cfg.PeerDoesGoAhead then
    if frame.eom_before_go_ahead = false then none
    else
      let afterMine : Option DownloadState :=
        if !st.I_go_ahead_always then
          match frame.obtain_go_ahead with
          | none => none
          | some always => some { st with I_go_ahead_always := always }
        else some st
      match afterMine with
      | none => none
      | some st =>
        if !st.peer_goes_ahead_always then
          match frame.receive_go_ahead with
          | none => none
          | some (always, mtb) =>
            some { st with peer_goes_ahead_always := always,
                           peer_max_transfer_bytes := mtb.getD st.peer_max_transfer_bytes }
        else some st
  else some st

/-- The byte limit handed to `get_file` (`this_file_max_bytes`, with a slack of 65535
bytes over `MaxDownloadBytes`). -/
def DoDownload.this_file_max_bytes (MaxDownloadBytes total_bytes : Int) : Int :=
  let max_bytes_slack : Int := 65535
  if MaxDownloadBytes < 0 then -1
  else if MaxDownloadBytes + max_bytes_slack ≥ total_bytes then
    MaxDownloadBytes + max_bytes_slack - total_bytes
  else 0

/-- Narrowing of a 64-bit value to `int` and back, as `std::accumulate` with the initial
value `0` does after every addition. -/
def wrapInt32 (v : Int) : Int := (v + 2147483648) % 4294967296 - 2147483648

/-- Conversion of an `int` to `uint64_t`. -/
def toUInt64 (v : Int) : Int := v % 18446744073709551616

/-- The number of bytes `to_retrieve` that `DoDownload` asks the cache to reserve:
`std::accumulate` over `reuse_info` with an `int` accumulator. -/
def DoDownload.to_retrieve (reuse_info : List ReuseInfo) : Int :=
  toUInt64 (reuse_info.foldl (fun val info => wrapInt32 (toUInt64 val + info.size)) 0)

/-- Sub-command 8, the reuse-info request: the state after it and the list of file
names sent back (`none` when no `ReuseList` is sent). -/
def DoDownload.reuse_info_request (cfg : DownloadConfig) (st : DownloadState)
    (frame : DownloadFrame) : DownloadState × Option (List String) :=
  if !cfg.has_reuse_dir then (st, none)
  else
    match frame.reuse_request with
    | none => (st, none)
    | some (proposals, tag) =>
      let missing := proposals.filter (fun p => !p.retrieved)
      let retrieved_files := (proposals.filter (fun p => p.retrieved)).map (fun p => p.filename)
      let reuse_info := st.reuse_info ++
        missing.map (fun p => ⟨p.filename, p.checksum, p.checksum_type, tag, p.size⟩)
      let to_retrieve := DoDownload.to_retrieve reuse_info
      let st := { st with reuse_info := reuse_info }
      if to_retrieve ≠ 0 then
        match frame.reserve_space with
        | some id =>
          ({ st with reservation_id := id,
                     reserve_requests := st.reserve_requests ++ [to_retrieve] },
            some retrieved_files)
        | none =>
          ({ st with reuse_info := [],
                     reserve_requests := st.reserve_requests ++ [to_retrieve] },
            some retrieved_files)
      else (st, some retrieved_files)

/-- The answer of sub-command 9 for one entry of the `SignList`. -/
def DoDownload.sign_url (cfg : DownloadConfig) (frame : DownloadFrame) (entry : Option String) :
    String :=
  match entry with
  | none => ""
  | some url_value =>
    if (cfg.SIGN_S3_URLS && cfg.PeerDoesS3Urls) ∧ "s3://".data.isPrefixOf url_value.data then
      let has_good_pfx := cfg.output_url_pfxs.any (fun pfx => pfx.data.isPrefixOf url_value.data)
      let has_good_pfx := if hasSubstring "/..".data url_value.data then false else has_good_pfx
      if has_good_pfx = true then
        match frame.presign url_value with
        | some signed_url => signed_url
        | none => ""
      else ""
    else url_value

/-- The dispatch on the command for the commands that carry a payload (everything but
sub-commands 8 and 9): the state, with `rc` set by the branch taken, and the bytes
received.  `none` when the stream fails fatally. -/
def DoDownload.receive (cfg : DownloadConfig) (st : DownloadState) (frame : DownloadFrame)
    (xfer_command : Int) (filename fullname : String) : Option (DownloadState × Int) :=
  let should_reuse := st.reservation_id ≠ "" ∧ cfg.has_reuse_dir = true ∧
    st.reuse_info.any (fun info => info.filename == filename) = true
  let this_file_max_bytes := DoDownload.this_file_max_bytes cfg.MaxDownloadBytes st.total_bytes
  let st := { st with written := st.written ++ [(xfer_command, filename, fullname)] }
  if xfer_command = TransferCommand.Other then
    if frame.ad_read = false then none
    else if frame.SubCommand = some TransferSubCommand.UploadUrl then
      let rt_result := frame.Result.getD (-1)
      if rt_result = 0 then some ({ st with rc := 0 }, 0)
      else
        some ({ st with rc := 0,
                        error_buf := cfg.subsystem ++ " at " ++ cfg.my_ip_str ++
                          " failed due to remote transfer hook error: " ++ fullname,
                        download_success := false, try_again := false,
                        hold_code := CONDOR_HOLD_CODE_DownloadFileError,
                        hold_subcode := rt_result }, 0)
    else some ({ st with rc := 0 }, 0)
  else if xfer_command = TransferCommand.DownloadUrl then
    match frame.URL with
    | none => none
    | some URL =>
      let pluginPath := cfg.determinePlugin URL fullname
      if cfg.multifile_plugins_enabled ∧ cfg.plugins_multifile_support pluginPath = some true then
        -- deferred until the end of the loop; `rc` keeps the value of the round before
        some ({ st with deferredTransfers := st.deferredTransfers ++ [(pluginPath, URL, fullname)] },
          0)
      else
        let st := { st with rc := frame.plugin_rc }
        if frame.plugin_rc = 0 ∧ should_reuse then
          some ({ st with cached := st.cached ++ [(fullname, st.reservation_id)] }, 0)
        else some (st, 0)
  else if xfer_command = TransferCommand.XferX509 then
    if cfg.PeerDoesGoAhead || frame.x509_eom then
      if frame.delegation_ok then some ({ st with rc := 0, LocalProxyName := fullname }, 0)
      else some ({ st with rc := -1 }, 0)
    else some ({ st with rc := -1 }, 0)
  else if xfer_command = TransferCommand.Mkdir then
    match frame.file_mode with
    | none => some ({ st with rc := -1 }, 0)
    | some _ =>
      let rc : Int :=
        if frame.mkdir_rc = -1 ∧ frame.mkdir_eexist = true then
          if frame.exists_as_directory then 0
          else if fullname = NULL_FILE then 0
          else frame.second_mkdir_rc
        else frame.mkdir_rc
      if rc = -1 then
        some ({ st with rc := 0,
                        error_buf := cfg.subsystem ++ " at " ++ cfg.my_ip_str ++
                          " failed to create directory " ++ fullname ++ ": " ++
                          cfg.strerror frame.the_error ++ " (errno " ++
                          toString frame.the_error ++ ")",
                        download_success := false, try_again := false,
                        hold_code := CONDOR_HOLD_CODE_DownloadFileError,
                        hold_subcode := frame.the_error }, 0)
      else some ({ st with rc := rc }, 0)
  else if cfg.TransferFilePermissions then
    let r := frame.get_file this_file_max_bytes
    let st := { st with rc := r.1 }
    if r.1 = 0 ∧ should_reuse then
      some ({ st with cached := st.cached ++ [(fullname, st.reservation_id)] }, r.2)
    else some (st, r.2)
  else
    let r := frame.get_file this_file_max_bytes
    some ({ st with rc := r.1 }, r.2)

/-- The block `if( rc < 0 )` after the dispatch (lines 2770-2830). -/
def DoDownload.handle_rc (cfg : DownloadConfig) (st : DownloadState) (frame : DownloadFrame)
    (fullname : String) : DownloadOutcome :=
  if st.rc < 0 then
    let text := cfg.subsystem ++ " at " ++ cfg.my_ip_str ++ " failed to receive file " ++ fullname
    let st := { st with error_buf := text, download_success := false }
    if st.rc = GET_FILE_OPEN_FAILED ∨ st.rc = GET_FILE_WRITE_FAILED ∨
        st.rc = GET_FILE_PLUGIN_FAILED then
      let text :=
        if st.rc = GET_FILE_PLUGIN_FAILED then st.error_buf ++ ": " ++ frame.errstack_text
        else replaceString st.error_buf "receive" "write to" ++ ": (errno " ++
          toString frame.the_error ++ ") " ++ cfg.strerror frame.the_error
      .next { st with error_buf := text, try_again := false,
                      hold_code := CONDOR_HOLD_CODE_DownloadFileError,
                      hold_subcode := frame.the_error }
    else
      let st := { st with try_again := true,
                          hold_code := CONDOR_HOLD_CODE_DownloadFileError,
                          hold_subcode := frame.the_error }
      if st.rc = GET_FILE_MAX_BYTES_EXCEEDED then
        .failed_with_ack
          { st with try_again := false,
                    error_buf := st.error_buf ++ ": max total download bytes exceeded (max=" ++
                      toString (Int.tdiv (Int.tdiv cfg.MaxDownloadBytes 1024) 1024) ++ " MB)",
                    hold_code := CONDOR_HOLD_CODE_MaxTransferOutputSizeExceeded,
                    hold_subcode := 0 }
      else .failed_with_ack st
  else .next st

/-- The part of a round after the check of the received name: the remap, the go-ahead
exchange, the dispatch on the command, the failure handling and the totals.
`filename` is the name that the check has left (the null file for a rejected name). -/
def DoDownload.after_check (cfg : DownloadConfig) (st : DownloadState) (frame : DownloadFrame)
    (filename : String) : DownloadOutcome :=
  let xfer_command := frame.reply
  let resolved := DoDownload.resolve cfg st xfer_command filename
  let fullname := resolved.2
  match DoDownload.go_ahead cfg resolved.1 frame with
  | none => .dropped resolved.1
  | some st =>
    if xfer_command = TransferCommand.Other ∧ frame.ad_read = true ∧
        frame.SubCommand = some TransferSubCommand.ReuseInfo then
      let r := DoDownload.reuse_info_request cfg { st with rc := 0 } frame
      let st := { r.1 with reuse_responses := r.1.reuse_responses ++ [r.2.getD []] }
      if frame.response_sent = false then .dropped st else .next st
    else if xfer_command = TransferCommand.Other ∧ frame.ad_read = true ∧
        frame.SubCommand = some TransferSubCommand.SignUrls then
      if frame.sign_eom = false then .dropped st
      else
        let signed_urls := (frame.sign_request.getD []).map (DoDownload.sign_url cfg frame)
        let st := { st with rc := 0, sign_responses := st.sign_responses ++ [signed_urls] }
        if frame.response_sent = false then .dropped st else .next st
    else
      match DoDownload.receive cfg st frame xfer_command filename fullname with
      | none => .dropped st
      | some (st, bytes) =>
        match DoDownload.handle_rc cfg st frame fullname with
        | .next st =>
          if frame.eom_after = false then .dropped st
          else .next { st with total_bytes := st.total_bytes + bytes,
                               numFiles := st.numFiles + 1 }
        | other => other

/-- One round of the loop `for (;;)` of `DoDownload`. -/
def DoDownload.round (cfg : DownloadConfig) (st : DownloadState) (frame : DownloadFrame) :
    DownloadOutcome :=
  if frame.header_read = false then .dropped st
  else if frame.reply = TransferCommand.Finished then .finished st
  else if frame.reply ≠ TransferCommand.DisableEncryption ∧ frame.crypto_set = false then
    .dropped st
  else
    let st := { st with crypto_mode := DoDownload.crypto_for cfg frame.reply }
    if frame.filename_read = false then .dropped st
    else
      let checked := DoDownload.check_path cfg st frame.filename
      DoDownload.after_check cfg checked.1 frame checked.2

/-- The loop of `DoDownload` over the frames that arrive.  When the frames are used up
the command that follows is the final command 0. -/
def DoDownload.loop (cfg : DownloadConfig) : DownloadState → List DownloadFrame → DownloadOutcome
  | st, [] => .finished st
  | st, frame :: rest =>
    match DoDownload.round cfg st frame with
    | .next st => DoDownload.loop cfg st rest
    | other => other

/-- The deferred multi-file transfers after the loop, run only when no hold code has
been set; `results` are the return values of `InvokeMultipleFileTransferPlugin` with
the text of the error stack, one per plug-in. -/
def DoDownload.run_deferred (st : DownloadState) (results : List (Int × String)) : DownloadState :=
  if st.hold_code = 0 ∧ st.deferredTransfers ≠ [] then
    results.foldl
      (fun st r =>
        if r.1 = 0 then { st with rc := 0 }
        else { st with rc := r.1, download_success := false,
                       hold_code := CONDOR_HOLD_CODE_DownloadFileError,
                       hold_subcode := r.1, try_again := false, error_buf := r.2 })
      st
  else st

/-- What `DoDownload` leaves behind: its return value, the report that the final
`SendTransferAck` gives to the peer (`none` when none is sent; an absent hold reason is
the empty text), the error text stored in `Info.error_desc` when the function sets
one, and whether the commit file was written and `CommitFiles` called. -/
structure DownloadResult where
  rc : Int
  ack : Option TransferAck
  Info_error_desc : Option String
  committed : Bool
  state : DownloadState

/-- The end of `DoDownload` after the loop: the deferred transfers, the final report of
the sender (`upload_ack` is what `GetTransferAck` reads, `none` when reading fails),
our own report, and the commit.  `peer` is the address of the sender and
`commit_file_written` tells whether the commit file can be created. -/
def DoDownload.finish (cfg : DownloadConfig) (st : DownloadState)
    (deferred_results : List (Int × String)) (upload_ack : Option ClassAd) (peer : String)
    (commit_file_written : Bool) : DownloadResult :=
  let st := DoDownload.run_deferred st deferred_results
  let upload := GetTransferAck cfg.PeerDoesTransferAck upload_ack
    { success := false, try_again := true, hold_code := 0, hold_subcode := 0, error_desc := "" }
  if !upload.success then
    let download_error_buf := cfg.subsystem ++ " failed to receive file(s) from " ++ peer
    let error_buf := upload.error_desc ++ "; " ++ download_error_buf
    { rc := -1,
      ack := some { success := false, try_again := upload.try_again,
                    hold_code := upload.hold_code, hold_subcode := upload.hold_subcode,
                    error_desc := download_error_buf },
      Info_error_desc := some error_buf,
      committed := false,
      state := { st with download_success := false, error_buf := error_buf } }
  else if !st.download_success then
    { rc := -1,
      ack := some { success := false, try_again := st.try_again, hold_code := st.hold_code,
                    hold_subcode := st.hold_subcode, error_desc := st.error_buf },
      Info_error_desc := some st.error_buf,
      committed := false, state := st }
  else if !cfg.final_transfer && !cfg.IsClient then
    if commit_file_written = false then
      { rc := -1, ack := none, Info_error_desc := none, committed := false, state := st }
    else
      { rc := 0,
        ack := some { success := true, try_again := st.try_again, hold_code := st.hold_code,
                      hold_subcode := st.hold_subcode, error_desc := "" },
        Info_error_desc := none, committed := true, state := st }
  else
    { rc := 0,
      ack := some { success := true, try_again := st.try_again, hold_code := st.hold_code,
                    hold_subcode := st.hold_subcode, error_desc := "" },
      Info_error_desc := none, committed := false, state := st }

/-- The outcome of a whole session of `DoDownload` from the first command on: the loop,
and after a loop that was left by command 0, the end of the function. -/
def DoDownload (cfg : DownloadConfig) (frames : List DownloadFrame)
    (deferred_results : List (Int × String)) (upload_ack : Option ClassAd) (peer : String)
    (commit_file_written : Bool) : DownloadResult :=
  match DoDownload.loop cfg {} frames with
  | .finished st | .next st =>
    DoDownload.finish cfg st deferred_results upload_ack peer commit_file_written
  | .dropped st =>
    { rc := -1, ack := none, Info_error_desc := none, committed := false, state := st }
  | .failed_with_ack st =>
    { rc := -1,
      ack := some { success := st.download_success, try_again := st.try_again,
                    hold_code := st.hold_code, hold_subcode := st.hold_subcode,
                    error_desc := st.error_buf },
      Info_error_desc := some st.error_buf, committed := false, state := st }

/-- The text mentions `illegal sandbox path`. -/
def mentionsIllegalPath (text : String) : Prop :=
  hasSubstring "illegal sandbox path".data text.data = true

instance (text : String) : Decidable (mentionsIllegalPath text) := by
  unfold mentionsIllegalPath; infer_instance

/-- The rest of a round after the check of the name leaves the text of the hold reason
as it is: the item records no failure of its own. -/
def DoDownload.keeps_reason (cfg : DownloadConfig) (frame : DownloadFrame) : Prop :=
  ∀ (st st1 : DownloadState) (filename : String),
    DoDownload.after_check cfg st frame filename = .next st1 → st1.error_buf = st.error_buf

/-- The state holds the verdict of a rejected item: failure, no retry, hold code
`DownloadFileError`. -/
def DownloadState.held (st : DownloadState) : Prop :=
  st.download_success = false ∧ st.try_again = false ∧
    st.hold_code = CONDOR_HOLD_CODE_DownloadFileError

/-- A step either leaves the verdict of the state as it is or sets the verdict of a
failed item. -/
def verdictStep (st st1 : DownloadState) : Prop :=
  (st1.download_success = st.download_success ∧ st1.try_again = st.try_again ∧
    st1.hold_code = st.hold_code) ∨ st1.held

/-- The state of an outcome. -/
def DownloadOutcome.state : DownloadOutcome → DownloadState
  | .next st => st
  | .finished st => st
  | .dropped st => st
  | .failed_with_ack st => st

/-! ### Directory trees: size, plain names, and what lies behind symlinks -/

mutual
/-- Number of nodes of a directory tree. -/
def FsNode.size : FsNode → Nat
  | .error => 1
  | .file _ _ _ _ => 1
  | .dir _ _ entries => 1 + FsEntries.size entries
/-- Number of nodes below the entries of a directory. -/
def FsEntries.size : FsEntries → Nat
  | .nil => 0
  | .cons _ node rest => FsNode.size node + FsEntries.size rest
end

/-- A name as `Directory::Next()` returns it: not empty and not ending with a
delimiter. -/
def isEntryName (file_in_dir : String) : Bool :=
  file_in_dir != "" && !hasTrailingDelim file_in_dir

/-- The node with its contents taken away when it is a directory that is a symlink and
`cut` is set; any other node as it is. -/
def FsNode.cutLink (cut : Bool) : FsNode → FsNode
  | .dir mode true entries => if cut then .dir mode true .nil else .dir mode true entries
  | node => node

mutual
/-- The node with, among the entries below it, the contents of every directory taken
away that is a symlink and whose entry name does not end with a delimiter. -/
def FsNode.withoutLinked : FsNode → FsNode
  | .error => .error
  | .file mode size symlink domainsocket => .file mode size symlink domainsocket
  | .dir mode symlink entries => .dir mode symlink (FsEntries.withoutLinked entries)
/-- The entries with, at every depth, the contents of every directory taken away that
is a symlink and whose entry name does not end with a delimiter. -/
def FsEntries.withoutLinked : FsEntries → FsEntries
  | .nil => .nil
  | .cons file_in_dir node rest =>
    .cons file_in_dir ((FsNode.withoutLinked node).cutLink (isEntryName file_in_dir))
      (FsEntries.withoutLinked rest)
end

/-! ### The reuse cache in `DoDownload` -/

/-- Every file name on the list of files still to be fetched satisfies `P`, and every
call of `CacheFile` after those of `base` was made with a reservation and for a received
item whose name satisfies `P`. -/
def DoDownload.ReuseInv (P : String → Prop) (base : List (String × String))
    (st : DownloadState) : Prop :=
  (∀ info ∈ st.reuse_info, P info.filename) ∧
  ∃ added, st.cached = base ++ added ∧
    ∀ c ∈ added, c.2 ≠ "" ∧ ∃ cmd filename, (cmd, filename, c.1) ∈ st.written ∧ P filename

/-- The state with which the loop goes on after the frames, when the round of every one
of them ends with the next command. -/
def DoDownload.state_after (cfg : DownloadConfig) :
    DownloadState → List DownloadFrame → Option DownloadState
  | st, [] => some st
  | st, frame :: rest =>
    match DoDownload.round cfg st frame with
    | .next st1 => DoDownload.state_after cfg st1 rest
    | _ => none

/-- The sender has proposed the file for reuse in one of the frames, and the cache
could not supply it. -/
def DoDownload.proposedMissing (frames : List DownloadFrame) (filename : String) : Prop :=
  ∃ frame ∈ frames, frame.reply = TransferCommand.Other ∧
    frame.SubCommand = some TransferSubCommand.ReuseInfo ∧
    ∃ proposals tag, frame.reuse_request = some (proposals, tag) ∧
      ∃ p ∈ proposals, p.retrieved = false ∧ p.filename = filename

/-- The frame cannot bring a reservation about: `ReserveSpace` fails if it is called, or
the files that its request leaves to be fetched have no bytes to reserve. -/
def DoDownload.grantsNoReservation (frame : DownloadFrame) : Prop :=
  frame.reserve_space = none ∨
    ∀ proposals tag, frame.reuse_request = some (proposals, tag) →
      ∀ p ∈ proposals, p.retrieved = false → p.size = 0

/-- No reservation is held, nothing has been handed to the cache, and nothing is left to
reserve. -/
def DoDownload.NoReservation (st : DownloadState) : Prop :=
  st.reservation_id = "" ∧ st.cached = [] ∧ DoDownload.to_retrieve st.reuse_info = 0

/-! ### `DoUpload` before the loop: reuse and signed URLs -/

/-- The file that a name of the answer stands for: `condor_exec.exe` is the executable of
the job (lines 3760-3762). -/
def DoUpload.reused_name (ExecFile : Option String) (fname : String) : String :=
  match ExecFile with
  | some exec => if fname = "condor_exec.exe" then exec else fname
  | none => fname

/-- The set `skip_files` that `DoUpload` builds from the answer to its reuse-info request
(lines 3749-3768).  `ReuseList` is that attribute of the answer, `none` when it is
absent or not a list; an entry that is not a string is `none`.  A request is sent only
when the executable has been proposed, so `ExecFile` is set whenever an answer is
read. -/
def DoUpload.skip_files (ExecFile : Option String) (ReuseList : Option (List (Option String))) :
    List String :=
  match ReuseList with
  | none => []
  | some exprlist =>
    exprlist.filterMap (fun list_entry => list_entry.map (DoUpload.reused_name ExecFile))

/-- What the loop over the plan before the transfer reads (lines 3636-3691). -/
structure UploadSetup where
  should_invoke_output_plugins : Bool := true
  OutputDestination : Option String := none
  /-- `param_boolean("SIGN_S3_URLS", true) && PeerDoesS3Urls`. -/
  sign_s3_urls : Bool := true
  /-- `filename_remap_find(download_filename_remaps, name, remap_filename, 0)`. -/
  filename_remap_find : String → Int × String := fun _ => (0, "")
  /-- `htcondor::generate_presigned_url(jobAd, src_url, "GET", ...)`. -/
  presign_get : String → Option String := fun _ => none

/-- The URL `local_output_url` to which an output file goes, or the empty string. -/
def DoUpload.local_output_url (setup : UploadSetup) (fileitem : FileTransferItem) : String :=
  match setup.OutputDestination with
  | some dest => dest ++ "/" ++ fileitem.srcName
  | none =>
    let r := setup.filename_remap_find fileitem.srcName
    if r.1 = 1 ∧ (IsUrl r.2).isSome then r.2 else ""

/-- The URL of the item that is put on the list `s3_urls_to_sign`, if one is. -/
def DoUpload.url_to_sign (setup : UploadSetup) (fileitem : FileTransferItem) : Option String :=
  if setup.should_invoke_output_plugins then
    let local_output_url := DoUpload.local_output_url setup fileitem
    if setup.sign_s3_urls ∧ "s3://".data.isPrefixOf local_output_url.data then
      some local_output_url
    else none
  else none

/-- The list `s3_urls_to_sign`. -/
def DoUpload.s3_urls_to_sign (setup : UploadSetup) (filelist : FileTransferList) : List String :=
  filelist.filterMap (DoUpload.url_to_sign setup)

/-- The map `s3_url_map` that `DoUpload` builds from the answer to its sign request
(lines 3819-3843).  `SignList` is that attribute of the answer, `none` when it is absent
or not a list; an entry that is not a string is `none`.  The entries are walked along
the requested URLs, and a slot with a non-empty string is inserted under its URL;
`insert` keeps an entry that the key already has, as `List.lookup` finds the first. -/
def DoUpload.s3_url_map (s3_urls_to_sign : List String)
    (SignList : Option (List (Option String))) : List (String × String) :=
  match SignList with
  | none => []
  | some exprlist =>
    (s3_urls_to_sign.zip exprlist).filterMap (fun slot =>
      match slot.2 with
      | some signed_url => if signed_url ≠ "" then some (slot.1, signed_url) else none
      | none => none)

/-! ### `ExitDoUpload` -/

/-- What `ExitDoUpload` sends and returns: whether the final command 0 is sent, the ad of
`SendTransferAck` (`none` when none is sent), the return value, and `Info`. -/
structure ExitDoUploadResult where
  finished_sent : Bool
  ack : Option ClassAd
  rc : Int
  Info : TransferAck

/-- `FileTransfer::ExitDoUpload`.  `download_ack` is what `GetTransferAck` reads (`none`
when reading fails); `subsystem`, `my_ip_str`, `peer` are the names that the error text
is built from. -/
def ExitDoUpload (PeerDoesTransferAck : Bool) (subsystem my_ip_str peer : String)
    (upload_success do_upload_ack do_download_ack try_again : Bool)
    (hold_code hold_subcode : Int) (upload_error_desc : Option String)
    (download_ack : Option ClassAd) : ExitDoUploadResult :=
  let rc : Int := if upload_success then 0 else -1
  let text := subsystem ++ " at " ++ my_ip_str ++ " failed to send file(s) to " ++ peer ++
    (match upload_error_desc with
     | some d => ": " ++ d
     | none => "")
  let sent : Bool × Option ClassAd :=
    if do_upload_ack then
      if !PeerDoesTransferAck && !upload_success then (false, none)
      else
        let error_desc_to_send := if !upload_success then text else ""
        (true, (SendTransferAck PeerDoesTransferAck ⟨false, false, 0, 0, ""⟩ upload_success
          try_again hold_code hold_subcode (some error_desc_to_send)).2)
    else (false, none)
  let download : TransferAck :=
    if do_download_ack then
      GetTransferAck PeerDoesTransferAck download_ack
        { success := false, try_again := try_again, hold_code := hold_code,
          hold_subcode := hold_subcode, error_desc := "" }
    else
      { success := false, try_again := try_again, hold_code := hold_code,
        hold_subcode := hold_subcode, error_desc := "" }
  let rc : Int := if do_download_ack ∧ download.success = false then -1 else rc
  let error_desc : Option String :=
    if rc ≠ 0 then
      some (text ++ (if download.error_desc ≠ "" then "; " ++ download.error_desc else ""))
    else none
  { finished_sent := sent.1
    ack := sent.2
    rc := rc
    Info := { success := decide (rc = 0), try_again := download.try_again,
              hold_code := download.hold_code, hold_subcode := download.hold_subcode,
              error_desc := error_desc.getD "" } }

/-- The end of a session of `DoUpload` that leaves through `ExitDoUpload`. -/
def UploadOutcome.exit (PeerDoesTransferAck : Bool) (subsystem my_ip_str peer : String)
    (download_ack : Option ClassAd) : UploadOutcome → Option ExitDoUploadResult
  | .exited _ upload_success do_upload_ack do_download_ack try_again hold_code hold_subcode
      upload_error_desc =>
    some (ExitDoUpload PeerDoesTransferAck subsystem my_ip_str peer upload_success do_upload_ack
      do_download_ack try_again hold_code hold_subcode upload_error_desc download_ack)
  | _ => none

/-! ### The first failure of a session of `DoUpload` -/

/-- Once a failure has been recorded as the first one, its record stays as it is. -/
def DoUpload.firstKept (st st1 : UploadState) : Prop :=
  st.first_failed_file_transfer_happened = true →
    st1.first_failed_file_transfer_happened = true ∧
    st1.first_failed_upload_success = st.first_failed_upload_success ∧
    st1.first_failed_try_again = st.first_failed_try_again ∧
    st1.first_failed_hold_code = st.first_failed_hold_code ∧
    st1.first_failed_hold_subcode = st.first_failed_hold_subcode ∧
    st1.first_failed_error_desc = st.first_failed_error_desc

/-- A recorded first failure says: no success, no retry. -/
def DoUpload.firstSound (st : UploadState) : Prop :=
  st.first_failed_file_transfer_happened = true →
    st.first_failed_upload_success = false ∧ st.first_failed_try_again = false

/-- A step of `DoUpload` that counts `k` files and respects the record of the first
failure. -/
def DoUpload.Step (k : Int) (st st1 : UploadState) : Prop :=
  st1.numFiles = st.numFiles + k ∧ DoUpload.firstKept st st1 ∧
    (DoUpload.firstSound st → DoUpload.firstSound st1)

/-- A return code of the transfer that is a success or one of the local failures after
which the loop goes on. -/
def DoUpload.isLocalOrOk (rc : Int) : Prop :=
  0 ≤ rc ∨ rc = PUT_FILE_OPEN_FAILED ∨ rc = PUT_FILE_PLUGIN_FAILED ∨
    rc = PUT_FILE_MAX_BYTES_EXCEEDED

/-- The replies of a round in which the stream stays intact and the transfer itself
succeeds or fails with a local error (the file cannot be opened, the plug-in fails,
the byte limit is exceeded). -/
def DoUpload.localFailuresOnly (cfg : UploadConfig) (fileitem : FileTransferItem)
    (env : UploadReplies) : Prop :=
  (fileitem.isSrcUrl = true → cfg.ENABLE_URL_TRANSFERS = true) ∧
  env.flush_result ≠ -1 ∧ env.header_sent = true ∧ env.crypto_set = true ∧
  env.filename_sent = true ∧ env.eom_before_go_ahead = true ∧
  env.receive_go_ahead.isSome = true ∧ env.obtain_go_ahead.isSome = true ∧
  env.eom_after = true ∧
  ∀ st, ∃ st1 rc e,
    DoUpload.transfer cfg st (DoUpload.plan cfg (DoUpload.with_signed_url cfg fileitem)) env
      = some (st1, rc, e) ∧ DoUpload.isLocalOrOk rc

/-- The text that `ExitDoUpload` sends with a failure. -/
def ExitDoUpload.text (subsystem my_ip_str peer : String) (upload_error_desc : String) : String :=
  subsystem ++ " at " ++ my_ip_str ++ " failed to send file(s) to " ++ peer ++
    (": " ++ upload_error_desc)

/-! ### Signing of URLs by `DoDownload` -/

/-- The URL begins with one of the permitted output prefixes and does not contain
`/..` (the claim's wording). -/
def DoDownload.may_sign (cfg : DownloadConfig) (url : String) : Prop :=
  (∃ pfx ∈ cfg.output_url_pfxs, pfx.data.isPrefixOf url.data = true) ∧
    hasSubstring "/..".data url.data = false

instance (cfg : DownloadConfig) (url : String) : Decidable (DoDownload.may_sign cfg url) := by
  unfold DoDownload.may_sign; infer_instance

/-- The receiver signs the URL: signing is switched on and the URL has the scheme
`s3`. -/
def DoDownload.signs (cfg : DownloadConfig) (url : String) : Prop :=
  (cfg.SIGN_S3_URLS && cfg.PeerDoesS3Urls) = true ∧ "s3://".data.isPrefixOf url.data = true

instance (cfg : DownloadConfig) (url : String) : Decidable (DoDownload.signs cfg url) := by
  unfold DoDownload.signs; infer_instance

/-! ### Command codes and intact streams in `DoDownload` -/

/-- The command codes of `enum class TransferCommand` that the comment at the head of the
file lists: 0 to 6 and 999. -/
def TransferCommand.isListed (c : Int) : Prop :=
  c = TransferCommand.Finished ∨ c = TransferCommand.XferFile ∨
  c = TransferCommand.EnableEncryption ∨ c = TransferCommand.DisableEncryption ∨
  c = TransferCommand.XferX509 ∨ c = TransferCommand.DownloadUrl ∨
  c = TransferCommand.Mkdir ∨ c = TransferCommand.Other

instance (c : Int) : Decidable (TransferCommand.isListed c) := by
  unfold TransferCommand.isListed; infer_instance

/-- Nothing fails on the stream in the round of the frame: the reads, the ends of
message and the go-ahead exchange succeed. -/
def DownloadFrame.streamIntact (frame : DownloadFrame) : Prop :=
  frame.header_read = true ∧ frame.crypto_set = true ∧ frame.filename_read = true ∧
  frame.eom_before_go_ahead = true ∧ frame.obtain_go_ahead.isSome = true ∧
  frame.receive_go_ahead.isSome = true ∧ frame.eom_after = true

instance (frame : DownloadFrame) : Decidable frame.streamIntact := by
  unfold DownloadFrame.streamIntact; infer_instance

/-! ## The go-ahead from the transfer queue: `DoObtainAndSendTransferGoAhead` -/

def GO_AHEAD_FAILED : Int := -1
def GO_AHEAD_UNDEFINED : Int := 0
def GO_AHEAD_ONCE : Int := 1
def GO_AHEAD_ALWAYS : Int := 2

/-- Attribute names of the go-ahead message (`condor_attributes.h`). -/
def ATTR_TIMEOUT : String := "Timeout"
def ATTR_TRY_AGAIN : String := "TryAgain"
def ATTR_MAX_TRANSFER_BYTES : String := "MaxTransferBytes"

/-- What the calls of one pass of the loop `while(1)` return: `PollForTransferQueueSlot`
(its return value, `pending`, and the text that it leaves in `error_desc`, if any) and
the sending of the go-ahead message with its end of message. -/
structure GoAheadPass where
  slot : Bool := false
  pending : Bool := true
  poll_error : Option String := none
  sent : Bool := true

/-- What the calls of `DoObtainAndSendTransferGoAhead` return: reading `alive_interval`
(`none` when it fails), `Sock::get_timeout_multiplier()`, sending the message with the
new timeout, `RequestTransferQueueSlot` with the text that it leaves in `error_desc`,
and the passes of the loop. -/
structure GoAheadCalls where
  alive_interval : Option Int := some 0
  timeout_multiplier : Int := 0
  timeout_message_sent : Bool := true
  request_slot : Bool := true
  request_error : Option String := none
  passes : List GoAheadPass := []

/-- The return value of `DoObtainAndSendTransferGoAhead`, its reference parameters after
the call, and the messages that it has put on the stream, in order. -/
structure GoAheadOutcome where
  result : Bool
  go_ahead_always : Bool
  try_again : Bool
  hold_code : Int
  hold_subcode : Int
  error_desc : String
  sent : List ClassAd

/-- The go-ahead message of a pass: the ad `msg` of the function with the attributes that
the pass assigns (lines 4597-4609). -/
def DoObtainAndSendTransferGoAhead.message (msg : ClassAd) (downloading : Bool)
    (MaxDownloadBytes go_ahead : Int) (try_again : Bool) (hold_code hold_subcode : Int)
    (error_desc : String) : ClassAd :=
  let msg := ClassAd.Assign msg ATTR_RESULT (.int go_ahead)
  let msg := if downloading then ClassAd.Assign msg ATTR_MAX_TRANSFER_BYTES (.int MaxDownloadBytes)
    else msg
  if go_ahead < 0 then
    let msg := ClassAd.Assign msg ATTR_TRY_AGAIN (.bool try_again)
    let msg := ClassAd.Assign msg ATTR_HOLD_REASON_CODE (.int hold_code)
    let msg := ClassAd.Assign msg ATTR_HOLD_REASON_SUBCODE (.int hold_subcode)
    if error_desc.length > 0 then ClassAd.Assign msg ATTR_HOLD_REASON (.str error_desc) else msg
  else msg

/-- The loop `while(1)` of `DoObtainAndSendTransferGoAhead` over the passes for which
replies are at hand; `none` when they are used up while the slot is still pending (the
function has not returned yet). -/
def DoObtainAndSendTransferGoAhead.poll (downloading : Bool) (MaxDownloadBytes : Int)
    (try_again : Bool) (hold_code hold_subcode : Int) :
    List GoAheadPass → Int → ClassAd → String → Bool → List ClassAd → Option GoAheadOutcome
  | [], _, _, _, _, _ => none
  | pass :: rest, go_ahead, msg, error_desc, go_ahead_always, sent =>
    let polled : Int × String :=
      if go_ahead = GO_AHEAD_UNDEFINED then
        let error_desc := pass.poll_error.getD error_desc
        if pass.slot then (GO_AHEAD_ALWAYS, error_desc)
        else if !pass.pending then (GO_AHEAD_FAILED, error_desc)
        else (go_ahead, error_desc)
      else (go_ahead, error_desc)
    let go_ahead := polled.1
    let error_desc := polled.2
    let msg := DoObtainAndSendTransferGoAhead.message msg downloading MaxDownloadBytes go_ahead
      try_again hold_code hold_subcode error_desc
    if !pass.sent then
      some { result := false, go_ahead_always := go_ahead_always, try_again := true,
             hold_code := hold_code, hold_subcode := hold_subcode,
             error_desc := "Failed to send GoAhead message.", sent := sent }
    else if go_ahead ≠ GO_AHEAD_UNDEFINED then
      some { result := decide (go_ahead > 0),
             go_ahead_always := if go_ahead = GO_AHEAD_ALWAYS then true else go_ahead_always,
             try_again := try_again, hold_code := hold_code, hold_subcode := hold_subcode,
             error_desc := error_desc, sent := sent ++ [msg] }
    else
      DoObtainAndSendTransferGoAhead.poll downloading MaxDownloadBytes try_again hold_code
        hold_subcode rest go_ahead msg error_desc go_ahead_always (sent ++ [msg])

/-- `FileTransfer::DoObtainAndSendTransferGoAhead`.  `go_ahead_always`, `try_again`,
`hold_code`, `hold_subcode` and `error_desc` are the values of the reference parameters
at the call.  The timeouts that the function computes from the clock are left out; its
assertion `timeout > alive_slop` holds, the timeout being at least 300. -/
def DoObtainAndSendTransferGoAhead (calls : GoAheadCalls) (downloading : Bool)
    (MaxDownloadBytes : Int) (go_ahead_always try_again : Bool) (hold_code hold_subcode : Int)
    (error_desc : String) : Option GoAheadOutcome :=
  match calls.alive_interval with
  | none =>
    some { result := false, go_ahead_always := go_ahead_always, try_again := try_again,
           hold_code := hold_code, hold_subcode := hold_subcode,
           error_desc := "ObtainAndSendTransferGoAhead: failed on alive_interval before GoAhead",
           sent := [] }
  | some alive_interval =>
    let min_timeout : Int :=
      if calls.timeout_multiplier > 0 then 300 * calls.timeout_multiplier else 300
    let go_ahead := GO_AHEAD_UNDEFINED
    -- the message with the new timeout, if the interval of the peer is too short
    let first : ClassAd × String × List ClassAd :=
      if alive_interval < min_timeout then
        let msg := ClassAd.Assign [] ATTR_TIMEOUT (.int min_timeout)
        let msg := ClassAd.Assign msg ATTR_RESULT (.int go_ahead)
        if calls.timeout_message_sent then (msg, error_desc, [msg])
        else (msg, "Failed to send GoAhead new timeout message.", [])
      else ([], error_desc, [])
    let requested : Int × String :=
      if !calls.request_slot then (GO_AHEAD_FAILED, calls.request_error.getD first.2.1)
      else (go_ahead, calls.request_error.getD first.2.1)
    DoObtainAndSendTransferGoAhead.poll downloading MaxDownloadBytes try_again hold_code
      hold_subcode calls.passes requested.1 first.1 requested.2 go_ahead_always first.2.2

/-- The value of `Result` that a go-ahead message carries. -/
def goAheadOf (msg : ClassAd) : Option Int := ClassAd.LookupInteger msg ATTR_RESULT

/-! ## The commit of a non-final download -/

def COMMIT_FILENAME : String := ".ccommit.con"

/-- The path of the commit file in the tmp-spool directory (lines 2984 and 3168). -/
def commitFilePath (TmpSpoolSpace : String) : String :=
  TmpSpoolSpace ++ String.singleton DIR_DELIM_CHAR ++ COMMIT_FILENAME

/-- `FileTransfer::CommitFiles` (lines 3144-3214): the moves `rotate_file(buf, newbuf)`
that it makes, in order, each from a path in the tmp-spool directory to a path in the
spool directory.  `entries` are the names that `tmpspool.Next()` yields and
`commit_file_exists` is `access(buf, F_OK) >= 0` for the commit file.  The names are
compared as `file_strcmp` does outside Windows. -/
def CommitFiles (IsClient : Bool) (TmpSpoolSpace SpoolSpace : String) (entries : List String)
    (commit_file_exists : Bool) : List (String × String) :=
  if IsClient then []
  else if commit_file_exists then
    (entries.filter (fun file => file != COMMIT_FILENAME)).map
      (fun file => (TmpSpoolSpace ++ String.singleton DIR_DELIM_CHAR ++ file,
        SpoolSpace ++ String.singleton DIR_DELIM_CHAR ++ file))
  else []

/-! ## The multi-file curl plug-in (`multifile_curl_plugin.cpp`) -/

namespace MultiFileCurlPlugin

def MAX_RETRY_ATTEMPTS : Int := 20

/-- Codes of `curl_easy_perform` that the plug-in names (`curl.h`). -/
def CURLE_OK : Int := 0
def CURLE_COULDNT_CONNECT : Int := 7
def CURLE_PARTIAL_FILE : Int := 18
def CURLE_READ_ERROR : Int := 26
def CURLE_OPERATION_TIMEDOUT : Int := 28
def CURLE_SEND_ERROR : Int := 55
def CURLE_RECV_ERROR : Int := 56

def ShouldRetryTransfer (rval : Int) : Bool :=
  rval = CURLE_COULDNT_CONNECT ∨ rval = CURLE_PARTIAL_FILE ∨ rval = CURLE_READ_ERROR ∨
    rval = CURLE_OPERATION_TIMEDOUT ∨ rval = CURLE_SEND_ERROR ∨ rval = CURLE_RECV_ERROR

/-- What the calls of one attempt return: whether `OpenLocalFile` yields a file, whether
`fstat` succeeds (upload only), and the code of `curl_easy_perform`. -/
structure Attempt where
  opened : Bool := true
  stat_ok : Bool := true
  perform : Nat := 0

/-- An entry of `requested_files`, with the attempts that the transfer of it meets, by the
number of the attempt (from 0). -/
structure TransferRequest where
  url : String
  local_file_name : String := ""
  attempts : Nat → Attempt := fun _ => {}

/-- `MultiFileCurlPlugin::UploadFile`: its return value. -/
def UploadFile (a : Attempt) : Int :=
  if !a.opened then -1
  else if !a.stat_ok then -1
  else a.perform

/-- `MultiFileCurlPlugin::DownloadFile`: its return value. -/
def DownloadFile (a : Attempt) : Int :=
  if !a.opened then -1
  else a.perform

/-- The loop `for ( ;; )` that attempts and retries one transfer, from the value of
`retry_count` on; `transfer` gives the return value of the attempt with that number.
The result is the return value of the last attempt; `none` when `fuel` passes do not
end the loop. -/
def retry (transfer : Nat → Int) : Nat → Nat → Option Int
  | 0, _ => none
  | fuel + 1, retry_count =>
    -- `sleep_for(std::chrono::seconds(retry_count++))`
    let rval := transfer retry_count
    let retry_count := retry_count + 1
    if rval = CURLE_OK then some rval
    else if (retry_count : Int) ≤ MAX_RETRY_ATTEMPTS ∧ ShouldRetryTransfer retry_count then
      retry transfer fuel retry_count
    else some rval

/-- The loop over `requested_files` of `UploadMultipleFiles`, from the value of `rval`
on. -/
def UploadMultipleFiles.loop (fuel : Nat) : List TransferRequest → Int → Option Int
  | [], rval => some rval
  | file_pair :: rest, rval =>
    match retry (fun n => UploadFile (file_pair.attempts n)) fuel 0 with
    | none => none
    | some file_rval =>
      UploadMultipleFiles.loop fuel rest
        (if file_rval ≠ CURLE_OK ∧ rval ≠ -1 then file_rval else rval)

/-- `MultiFileCurlPlugin::UploadMultipleFiles`.  `built` is the return value of
`BuildTransferRequests` and `requested_files` the list that it has filled. -/
def UploadMultipleFiles (fuel : Nat) (built : Int) (requested_files : List TransferRequest) :
    Option Int :=
  if built ≠ 0 then some built
  else UploadMultipleFiles.loop fuel requested_files built

/-- The loop over `requested_files` of `DownloadMultipleFiles`, from the value of `rval`
on. -/
def DownloadMultipleFiles.loop (fuel : Nat) : List TransferRequest → Int → Option Int
  | [], rval => some rval
  | file_pair :: rest, _ =>
    match retry (fun n => DownloadFile (file_pair.attempts n)) fuel 0 with
    | none => none
    | some rval =>
      if rval > 0 then some rval
      else DownloadMultipleFiles.loop fuel rest rval

/-- `MultiFileCurlPlugin::DownloadMultipleFiles`. -/
def DownloadMultipleFiles (fuel : Nat) (built : Int) (requested_files : List TransferRequest) :
    Option Int :=
  DownloadMultipleFiles.loop fuel requested_files built

/-- What `main` meets outside the process: the return value of `InitializeCurl`, the
requests that `BuildTransferRequests` reads from the input file of that name (`none`
when the file cannot be opened or parsed from the start), and whether the output file
can be opened. -/
structure Calls where
  init : Int := 0
  input_file : String → Option (List TransferRequest) := fun _ => none
  output_opened : Bool := true

/-- What the loop over the arguments of `main` sets. -/
structure Options where
  valid_inputs : Bool := true
  upload : Bool := false
  diagnostic : Bool := false
  input_filename : String := ""
  output_filename : String := ""

/-- The loop `for( int i = 1; i < argc; i ++ )` of `main` over the arguments from
`argv[i]` on. -/
def parseArgs : List String → Options → Options
  | [], o => o
  | arg :: rest, o =>
    let o :=
      if arg = "-infile" then
        match rest with
        | next :: _ => { o with input_filename := next }
        | [] => { o with valid_inputs := false }
      else o
    let o :=
      if arg = "-outfile" then
        match rest with
        | next :: _ => { o with output_filename := next }
        | [] => { o with valid_inputs := false }
      else o
    let o := if arg = "-diagnostic" then { o with diagnostic := true } else o
    let o := if arg = "-upload" then { o with upload := true } else o
    parseArgs rest o

/-- The return value of `main`, which is the exit status of the plug-in; `argv` holds
the arguments from `argv[1]` on.  `fuel` bounds the passes of each retry loop. -/
def main (fuel : Nat) (calls : Calls) (argv : List String) : Option Int :=
  if argv = ["-classad"] then some 0
  else
    let o := if argv.length = 1 then ({} : Options) else parseArgs argv {}
    if !o.valid_inputs || o.input_filename.isEmpty then some 1
    else if calls.init ≠ 0 then some 1
    else
      let built : Int := if (calls.input_file o.input_filename).isSome then 0 else 1
      let requested_files := (calls.input_file o.input_filename).getD []
      let rval :=
        if o.upload then UploadMultipleFiles fuel built requested_files
        else DownloadMultipleFiles fuel built requested_files
      match rval with
      | none => none
      | some rval =>
        if !o.output_filename.isEmpty && !calls.output_opened then some 1
        else some rval

end MultiFileCurlPlugin

/-! ## Multi-file plug-ins: `InvokeMultipleFileTransferPlugin` and `InvokeMultiUploadPlugin` -/

/-- A result ad in the output file of a multi-file plug-in: the attributes that the
engine reads from it, each absent or present. -/
structure PluginResultAd where
  TransferFileName : Option String := none
  TransferUrl : Option String := none
  TransferSuccess : Option Bool := none
  TransferError : Option String := none
  deriving DecidableEq, Repr

/-- What the calls of `InvokeMultipleFileTransferPlugin` return: whether there is a plug-in
table, whether the job ad has its `Iwd`, whether the input file can be written, whether
`my_popen` starts the plug-in, the status from `my_pclose`, whether the output file can be
opened and parsed from its start, and the ads of the output file. -/
structure MultiPluginRun where
  plugin_table : Bool := true
  has_iwd : Bool := true
  input_written : Bool := true
  spawned : Bool := true
  plugin_status : Int := 0
  output_opened : Bool := true
  output_parsed : Bool := true
  ads : List PluginResultAd := []

/-- `FileTransfer::InvokeMultipleFileTransferPlugin`: the return value and the ads put into
`result_ads` (`want_ads` tells whether the caller passes a vector for them).  The
messages pushed on the error stack are left out. -/
def InvokeMultipleFileTransferPlugin (run : MultiPluginRun) (want_ads : Bool) :
    Int × List PluginResultAd :=
  if !run.plugin_table then (GET_FILE_PLUGIN_FAILED, [])
  else if !run.has_iwd then (1, [])
  else if !run.input_written then (1, [])
  else if !run.spawned then (GET_FILE_PLUGIN_FAILED, [])
  else if run.plugin_status < 0 then (GET_FILE_PLUGIN_FAILED, [])
  else if !run.output_opened then (GET_FILE_PLUGIN_FAILED, [])
  else if !run.output_parsed then (GET_FILE_PLUGIN_FAILED, [])
  else
    (if run.plugin_status ≠ 0 then GET_FILE_PLUGIN_FAILED else 0,
      if want_ads then run.ads else [])

/-- What the stream returns to `InvokeMultiUploadPlugin`, by the number of the result
(from 0): whether the sends of the header before the result succeed, whether the ad of
the result is sent, the size of its printed form; whether the trailing end of message is
sent; and the value that the uninitialised `xfer_success` holds when a result has no
`TransferSuccess`. -/
structure BatchSends where
  header_sent : Nat → Bool := fun _ => true
  ad_sent : Nat → Bool := fun _ => true
  ad_size : Nat → Int := fun _ => 1
  trailing_eom : Bool := true
  unset_success : Bool := false

/-- The ad `file_info` that reports the outcome of one item of a batch to the receiver. -/
structure BatchRecord where
  Filename : String
  OutputDestination : String
  Result : Int
  ErrorString : Option String
  deriving DecidableEq, Repr

/-- What `InvokeMultiUploadPlugin` returns and what it has sent: the names of the headers
and the outcome records, in order. -/
structure BatchOutcome where
  result : Int
  headers : List String
  records : List BatchRecord
  deriving DecidableEq, Repr

/-- The outcome record that `InvokeMultiUploadPlugin` builds from a result ad. -/
def InvokeMultiUploadPlugin.record (sends : BatchSends) (xfer_result : PluginResultAd) :
    BatchRecord :=
  let xfer_success := xfer_result.TransferSuccess.getD sends.unset_success
  { Filename := condor_basename (xfer_result.TransferFileName.getD "")
    OutputDestination := xfer_result.TransferUrl.getD ""
    Result := if xfer_success then 0 else 1
    ErrorString := if !xfer_success then some (xfer_result.TransferError.getD "") else none }

/-- Whether the result ad has the attributes that `InvokeMultiUploadPlugin` asks for. -/
def InvokeMultiUploadPlugin.contents_good (sends : BatchSends) (xfer_result : PluginResultAd) :
    Bool :=
  xfer_result.TransferFileName.isSome && xfer_result.TransferUrl.isSome &&
    xfer_result.TransferSuccess.isSome &&
    (xfer_result.TransferSuccess.getD sends.unset_success || xfer_result.TransferError.isSome)

/-- The loop `for (const auto &xfer_result: result_ads)` of `InvokeMultiUploadPlugin` and
the code after it, from the values of `count`, `bytes` and `classad_contents_good` on;
`result` is the return value of `InvokeMultipleFileTransferPlugin`. -/
def InvokeMultiUploadPlugin.loop (sends : BatchSends) (send_trailing_eom : Bool) (result : Int) :
    List PluginResultAd → Nat → Int → Bool → List String → List BatchRecord → BatchOutcome
  | [], _, bytes, classad_contents_good, headers, records =>
    if send_trailing_eom && !sends.trailing_eom then
      { result := -1, headers := headers, records := records }
    else if !classad_contents_good then { result := 0, headers := headers, records := records }
    else if result = 0 then { result := bytes, headers := headers, records := records }
    else { result := -1, headers := headers, records := records }
  | xfer_result :: rest, count, bytes, classad_contents_good, headers, records =>
    let classad_contents_good :=
      classad_contents_good && InvokeMultiUploadPlugin.contents_good sends xfer_result
    let filename := xfer_result.TransferFileName.getD ""
    -- the caller has sent the header of the first file
    if count ≠ 0 ∧ sends.header_sent count = false then
      { result := -1, headers := headers, records := records }
    else
      let headers := if count ≠ 0 then headers ++ [condor_basename filename] else headers
      if sends.ad_sent count = false then
        { result := -1, headers := headers, records := records }
      else
        InvokeMultiUploadPlugin.loop sends send_trailing_eom result rest (count + 1)
          (bytes + sends.ad_size count) classad_contents_good headers
          (records ++ [InvokeMultiUploadPlugin.record sends xfer_result])

/-- `FileTransfer::InvokeMultiUploadPlugin`. -/
def InvokeMultiUploadPlugin (run : MultiPluginRun) (sends : BatchSends)
    (send_trailing_eom : Bool) : BatchOutcome :=
  let invoked := InvokeMultipleFileTransferPlugin run true
  InvokeMultiUploadPlugin.loop sends send_trailing_eom invoked.1 invoked.2 0 0 true [] []

/-! ## The single-transfer curl plug-in (`curl_plugin.cpp`) -/

namespace CurlPlugin

def MAX_RETRY_ATTEMPTS : Int := 20

/-- The loop `for(;;)` of `main` that attempts and retries the request, from the value of
`retry_count` on; `send_curl_request` gives the return value of the attempt with that
number (from 0).  The result is the value of `rval` and of `retry_count` when the loop is
left, the latter being the number of attempts made; `none` when `fuel` passes do not end
the loop. -/
def retry (send_curl_request : Nat → Int) : Nat → Nat → Option (Int × Nat)
  | 0, _ => none
  | fuel + 1, retry_count =>
    -- `sleep( retry_count++ )`
    let rval := send_curl_request retry_count
    let retry_count := retry_count + 1
    if rval = MultiFileCurlPlugin.CURLE_OK then some (rval, retry_count)
    else if (retry_count : Int) ≤ MAX_RETRY_ATTEMPTS ∧
        (rval = MultiFileCurlPlugin.CURLE_COULDNT_CONNECT ∨
         rval = MultiFileCurlPlugin.CURLE_PARTIAL_FILE ∨
         rval = MultiFileCurlPlugin.CURLE_READ_ERROR ∨
         rval = MultiFileCurlPlugin.CURLE_OPERATION_TIMEDOUT ∨
         rval = MultiFileCurlPlugin.CURLE_SEND_ERROR ∨
         rval = MultiFileCurlPlugin.CURLE_RECV_ERROR) then
      retry send_curl_request fuel retry_count
    else some (rval, retry_count)

/-- The return value of `main`; `argv` holds the arguments from `argv[1]` on, and
`handle` tells whether `curl_easy_init` yields a handle. -/
def main (fuel : Nat) (handle : Bool) (argv : List String)
    (send_curl_request : Nat → Int) : Option Int :=
  if argv = ["-classad"] then some 0
  else if !(argv.length + 1 > 3 && argv.get? 2 = some "-diagnostic") && argv.length + 1 ≠ 3 then
    some (-1)
  else if !handle then some (-1)
  else (retry send_curl_request fuel 0).map (fun r => r.1)

/-- The errors after which the claim has the request tried again: connect failure,
partial file, read error, operation timeout, send error, receive error. -/
def isRetryError (rval : Int) : Prop :=
  rval = MultiFileCurlPlugin.CURLE_COULDNT_CONNECT ∨ rval = MultiFileCurlPlugin.CURLE_PARTIAL_FILE ∨
  rval = MultiFileCurlPlugin.CURLE_READ_ERROR ∨ rval = MultiFileCurlPlugin.CURLE_OPERATION_TIMEDOUT ∨
  rval = MultiFileCurlPlugin.CURLE_SEND_ERROR ∨ rval = MultiFileCurlPlugin.CURLE_RECV_ERROR

instance (rval : Int) : Decidable (isRetryError rval) := by
  unfold isRetryError; infer_instance

end CurlPlugin

/-! ## Where a received item is written -/

/-- The path lies inside the directory: it is the directory, a delimiter, and a relative
path that has no `..` component (what `LegalPathInSandbox` accepts). -/
def insideDirectory (dir path : String) : Bool :=
  (dir ++ String.singleton DIR_DELIM_CHAR).data.isPrefixOf path.data &&
    LegalPathInSandbox ⟨path.data.drop (dir ++ String.singleton DIR_DELIM_CHAR).data.length⟩ dir

/-- The directory that receives the items to which no remap applies: the working
directory, or the tmp-spool directory in a transfer to a server that is not final. -/
def DoDownload.target_directory (cfg : DownloadConfig) : String :=
  if cfg.final_transfer || cfg.IsClient then cfg.Iwd else cfg.TmpSpoolSpace

/-- A remap of the received name decides the path: the transfer is final or we are the
client, `filename_remap_find` has found a remap, and its target is no URL. -/
def DoDownload.remapped (cfg : DownloadConfig) (filename : String) : Prop :=
  (cfg.final_transfer || cfg.IsClient) = true ∧ (cfg.filename_remap_find filename).1 ≠ 0 ∧
    (cfg.filename_remap_find filename).1 ≠ -1 ∧
    (IsUrl (cfg.filename_remap_find filename).2).isSome = false

instance (cfg : DownloadConfig) (filename : String) :
    Decidable (DoDownload.remapped cfg filename) := by
  unfold DoDownload.remapped; infer_instance

/-! ## Plug-ins that a job brings along: `InitializeJobPlugins` -/

/-- The table `plugin_table` from method to plug-in. -/
abbrev PluginHashTable := String → Option String

/-- Modelled from the spec: `HashTable::insert(key, value, replace)` with `replace` set
(the class `HashTable` is not at hand) binds the key to the value in place of an earlier
binding. -/
def PluginHashTable.insert (table : PluginHashTable) (m p : String) : PluginHashTable :=
  fun key => if key = m then some p else table key

/-- What `FileTransfer` keeps about plug-ins: `I_support_filetransfer_plugins`,
`plugin_table` (`none` for the null pointer), the maps `plugins_multifile_support` and
`plugins_from_job`, and `multifile_plugins_enabled`. -/
structure PluginRegistry where
  I_support_filetransfer_plugins : Bool := false
  plugin_table : Option PluginHashTable := none
  plugins_multifile_support : String → Option Bool := fun _ => none
  plugins_from_job : String → Option Bool := fun _ => none
  multifile_plugins_enabled : Bool := false

/-- Pieces of a text between the delimiters. -/
def splitChars (delims : List Char) : List Char → List (List Char)
  | [] => [[]]
  | c :: cs =>
    if delims.contains c then [] :: splitChars delims cs
    else
      match splitChars delims cs with
      | [] => [[c]]
      | h :: t => (c :: h) :: t

/-- Modelled from the spec: `MyString::trim` (the class is not at hand) removes white
space at both ends. -/
def trimChars (cs : List Char) : List Char :=
  ((cs.dropWhile Char.isWhitespace).reverse.dropWhile Char.isWhitespace).reverse

/-- Modelled from the spec: `StringList` and `StringTokenIterator` (not at hand) yield the
pieces of a text between the delimiters, without the white space around them and without
empty pieces. -/
def tokens (delims : List Char) (text : String) : List String :=
  ((splitChars delims text.data).map (fun cs => String.mk (trimChars cs))).filter
    (fun token => token ≠ "")

/-- `FileTransfer::InsertPluginMappings(methods, p)`: every method of the list is bound
to the plug-in. -/
def InsertPluginMappings (table : PluginHashTable) (methods p : String) : PluginHashTable :=
  (tokens [' ', ','] methods).foldl (fun table m => PluginHashTable.insert table m p) table

/-- One piece `plug` of `TransferPlugins`: the text before the first `=` and the plug-in
path after it, trimmed; `none` when the piece has no `=`. -/
def jobPluginEntry (plug : String) : Option (String × String) :=
  if plug.data.contains '=' then
    some (String.mk (plug.data.takeWhile (fun c => c != '=')),
      String.mk (trimChars ((plug.data.dropWhile (fun c => c != '=')).drop 1)))
  else none

/-- One round of the loop of `InitializeJobPlugins` over the pieces of `TransferPlugins`,
for a registry with a plug-in table `table`; `infiles` is the list of input files. -/
def InitializeJobPlugins.visit (acc : PluginRegistry × PluginHashTable × List String)
    (plug : String) : PluginRegistry × PluginHashTable × List String :=
  match jobPluginEntry plug with
  | some (methods, plugin_path) =>
    -- use the file basename as the plugin name
    let plugin := condor_basename plugin_path
    ({ acc.1 with
        plugins_multifile_support := fun key =>
          if key = plugin then some true else acc.1.plugins_multifile_support key
        plugins_from_job := fun key =>
          if key = plugin then some true else acc.1.plugins_from_job key
        multifile_plugins_enabled := true },
      InsertPluginMappings acc.2.1 methods plugin,
      if acc.2.2.contains plugin_path then acc.2.2 else plugin_path :: acc.2.2)
  | none => acc

/-- `FileTransfer::InitializeJobPlugins(job, e, infiles)`: the registry and the list of
input files after the call.  `job_plugins` is the attribute `TransferPlugins` of the job,
if it has one. -/
def InitializeJobPlugins (reg : PluginRegistry) (job_plugins : Option String)
    (infiles : List String) : PluginRegistry × List String :=
  if !reg.I_support_filetransfer_plugins then (reg, infiles)
  else
    match reg.plugin_table with
    | none => (reg, infiles)
    | some table =>
      match job_plugins with
      | none => (reg, infiles)
      | some job_plugins =>
        let r := (tokens [';'] job_plugins).foldl InitializeJobPlugins.visit (reg, table, infiles)
        ({ r.1 with plugin_table := some r.2.1 }, r.2.2)

/-- `FileTransfer::DetermineFileTransferPlugin(error, source, dest)`; the result is empty
when the table has no plug-in for the method.  `getURLType` is the function of that
name, which gives the method of a URL. -/
def DetermineFileTransferPlugin (getURLType : String → String) (table : PluginHashTable)
    (source dest : String) : String :=
  let URL := if (IsUrl dest).isSome then dest else source
  (table (getURLType URL)).getD ""

/-- The value of `drop_privs` with which `InvokeMultipleFileTransferPlugin` starts the
plug-in (lines 5443-5446). -/
def InvokeMultipleFileTransferPlugin.drop_privs (RUN_FILETRANSFER_PLUGINS_WITH_ROOT : Bool)
    (reg : PluginRegistry) (plugin_path : String) : Bool :=
  let drop_privs := !RUN_FILETRANSFER_PLUGINS_WITH_ROOT
  if (reg.plugins_from_job plugin_path).isSome then true else drop_privs

/-- The value of `drop_privs` with which `InvokeFileTransferPlugin` starts the plug-in
(line 5344). -/
def InvokeFileTransferPlugin.drop_privs (RUN_FILETRANSFER_PLUGINS_WITH_ROOT : Bool) : Bool :=
  !RUN_FILETRANSFER_PLUGINS_WITH_ROOT

/-- The pieces of `TransferPlugins` that have a `=`: the methods and the base name of the
plug-in of each. -/
def jobPlugins (job_plugins : String) : List (List String × String) :=
  (tokens [';'] job_plugins).filterMap (fun plug =>
    (jobPluginEntry plug).map (fun entry =>
      (tokens [' ', ','] entry.1, condor_basename entry.2)))

/-- The plug-in to which the job binds a method: that of the last piece that lists it. -/
def jobPluginFor (job_plugins m : String) : Option String :=
  ((jobPlugins job_plugins).reverse.find? (fun entry => entry.1.contains m)).map
    (fun entry => entry.2)

/-- A sender or receiver whose fields come from the registry. -/
def PluginRegistry.uploadConfig (reg : PluginRegistry) (getURLType : String → String)
    (Iwd : String) : UploadConfig :=
  { Iwd := Iwd,
    multifile_plugins_enabled := reg.multifile_plugins_enabled,
    plugins_multifile_support := reg.plugins_multifile_support,
    determinePlugin := fun dest fullname =>
      DetermineFileTransferPlugin getURLType (reg.plugin_table.getD (fun _ => none)) dest fullname }

/-! ## The order of transfer items as an order of keys -/

/-- The key that `FileTransferItem::operator<` compares: the class of the item (0 for a
destination URL, 1 for a transfer over the stream, 2 for a source URL), then the scheme,
then the destination URL or the source name.  Keys are compared from left to right. -/
def FileTransferItem.orderKey (item : FileTransferItem) : Nat ×ₗ (List Char ×ₗ List Char) :=
  if item.m_dest_scheme ≠ "" then toLex (0, toLex (item.m_dest_scheme.data, item.m_dest_url.data))
  else if item.m_src_scheme ≠ "" then
    toLex (2, toLex (item.m_src_scheme.data, item.m_src_name.data))
  else toLex (1, toLex ([], item.m_src_name.data))

/-- Neither item is less than the other. -/
def FileTransferItem.incomparable (a b : FileTransferItem) : Prop :=
  FileTransferItem.lt a b = false ∧ FileTransferItem.lt b a = false

instance (a b : FileTransferItem) : Decidable (FileTransferItem.incomparable a b) := by
  unfold FileTransferItem.incomparable; infer_instance

/-! ## The crypto mode of a command on both sides -/

/-- The mode that goes with a command code: on for code 2 and, with a peer that knows S3
URLs, for code 5; off for code 3; the default of the socket for every other code (the
claim's wording). -/
def cryptoModeOf (c : Int) (d p : Bool) : Bool :=
  if c = 2 ∨ (c = 5 ∧ p = true) then true
  else if c = 3 then false
  else d

/-- The headers that `InvokeMultiUploadPlugin` sends for the results of a batch after the
first one (lines 3430-3454): command 999 and the base name, in the crypto mode that the
stream has when the batch is flushed in the state `st`.  `names` are the file names of
the result ads. -/
def DoUpload.batch_headers (st : UploadState) (names : List String) :
    List (Int × String × Bool) :=
  names.tail.map (fun filename => (TransferCommand.Other, condor_basename filename, st.crypto_mode))

/-- The fields of the state that tell what was announced in which mode, and what is
pending, are the same in both states. -/
def DoUpload.SameAnnouncements (st st1 : UploadState) : Prop :=
  st1.announced = st.announced ∧ st1.crypto_mode = st.crypto_mode ∧
    st1.currentUploadPlugin = st.currentUploadPlugin ∧
    st1.currentUploadRequests = st.currentUploadRequests

/-- The receiver applies to every command announced so far the mode in which the sender
has announced it, and a pending batch finds the stream in the default mode. -/
def DoUpload.CryptoAgrees (cfg : UploadConfig) (rcfg : DownloadConfig) (st : UploadState) :
    Prop :=
  (∀ a ∈ st.announced, a.2.2 = DoDownload.crypto_for rcfg a.1) ∧
  (st.currentUploadRequests ≠ [] → st.currentUploadPlugin ≠ "") ∧
  (st.currentUploadPlugin ≠ "" → st.crypto_mode = cfg.socket_default_crypto)

/-! ## The status pipe between a transfer thread and its host -/

def FINAL_UPDATE_XFER_PIPE_CMD : Nat := 1
def IN_PROGRESS_UPDATE_XFER_PIPE_CMD : Nat := 0

/-- Values of `enum FileTransferStatus` (`file_transfer.h`). -/
def XFER_STATUS_UNKNOWN : Int := 0
def XFER_STATUS_QUEUED : Int := 1
def XFER_STATUS_ACTIVE : Int := 2
def XFER_STATUS_DONE : Int := 3

/-- The bytes of an unsigned value of `width` bytes, lowest byte first. -/
def bytesOfNat : Nat → Nat → List Nat
  | 0, _ => []
  | width + 1, v => v % 256 :: bytesOfNat width (v / 256)

/-- The unsigned value of bytes, lowest byte first. -/
def natOfBytes : List Nat → Nat
  | [] => 0
  | b :: bs => b + 256 * natOfBytes bs

/-- The object representation of a signed integer of `width` bytes (two's complement). -/
def bytesOfInt (width : Nat) (v : Int) : List Nat :=
  bytesOfNat width (v % (256 ^ width : Nat)).toNat

/-- The signed integer of `width` bytes that the bytes represent. -/
def intOfBytes (width : Nat) (bs : List Nat) : Int :=
  if 2 * natOfBytes bs < 256 ^ width then (natOfBytes bs : Int)
  else (natOfBytes bs : Int) - (256 ^ width : Nat)

/-- The buffer of a string (`MyString::Value()`): its characters and the final null. -/
def cstringBytes (s : String) : List Nat := s.data.map Char.toNat ++ [0]

/-- The string that the assignment of a character buffer yields: the characters before
the first null. -/
def stringOfBuffer (buf : List Nat) : String :=
  String.mk ((buf.takeWhile (fun b => b != 0)).map Char.ofNat)

/-- The record `Info` of a transfer (`FileTransferInfo`), as far as the pipe carries it. -/
structure FileTransferInfo where
  xfer_status : Int := XFER_STATUS_UNKNOWN
  bytes : Int := 0
  success : Bool := true
  try_again : Bool := false
  hold_code : Int := 0
  hold_subcode : Int := 0
  error_desc : String := ""
  spooled_files : String := ""
  deriving DecidableEq, Repr

/-- `FileTransfer::WriteStatusToTransferPipe(total_bytes)`: the return value and the bytes
written, every `Write_Pipe` writing the bytes that it is given. -/
def WriteStatusToTransferPipe (Info : FileTransferInfo) (total_bytes : Int) : Bool × List Nat :=
  let error_len : Int := Info.error_desc.length
  -- write the null too
  let error_len := if error_len ≠ 0 then error_len + 1 else error_len
  let spooled_files_len : Int := Info.spooled_files.length
  let spooled_files_len := if spooled_files_len ≠ 0 then spooled_files_len + 1
    else spooled_files_len
  (true,
    [FINAL_UPDATE_XFER_PIPE_CMD] ++ (bytesOfInt 8 total_bytes ++
      ([if Info.try_again then 1 else 0] ++ (bytesOfInt 4 Info.hold_code ++
        (bytesOfInt 4 Info.hold_subcode ++ (bytesOfInt 4 error_len ++
          ((cstringBytes Info.error_desc).take error_len.toNat ++
            (bytesOfInt 4 spooled_files_len ++
              (cstringBytes Info.spooled_files).take spooled_files_len.toNat))))))))

/-- `FileTransfer::UpdateXferStatus(status)`: the record after the call and the bytes
written; `pipe_open` is `TransferPipe[1] != -1`. -/
def UpdateXferStatus (Info : FileTransferInfo) (status : Int) (pipe_open : Bool) :
    FileTransferInfo × List Nat :=
  if Info.xfer_status ≠ status then
    ({ Info with xfer_status := status },
      if pipe_open then [IN_PROGRESS_UPDATE_XFER_PIPE_CMD] ++ bytesOfInt 4 status else [])
  else (Info, [])

/-- `daemonCore->Read_Pipe(fd, buf, n)` when the pipe holds the bytes `pipe`: the bytes
read and the bytes left, or `none` when fewer than `n` bytes arrive. -/
def Read_Pipe (pipe : List Nat) (n : Nat) : Option (List Nat × List Nat) :=
  if n ≤ pipe.length then some (pipe.take n, pipe.drop n) else none

/-- The members of `FileTransfer` that `ReadTransferPipeMsg` changes. -/
structure PipeReader where
  Info : FileTransferInfo := {}
  is_download : Bool := false
  bytesRcvd : Int := 0
  bytesSent : Int := 0
  registered_xfer_pipe : Bool := true
  deriving DecidableEq, Repr

/-- The exit `read_failed` of `ReadTransferPipeMsg`; `text` is the message with `errno`. -/
def ReadTransferPipeMsg.read_failed (r : PipeReader) (text : String) : Bool × PipeReader :=
  (false,
    { r with Info := { r.Info with success := false, try_again := true,
                                   error_desc := if r.Info.error_desc = "" then text
                                     else r.Info.error_desc },
             registered_xfer_pipe := false })

/-- The part of `ReadTransferPipeMsg` for the final update, after the command byte. -/
def ReadTransferPipeMsg.final (r : PipeReader) (pipe : List Nat) (text : String) :
    Bool × PipeReader × List Nat :=
  let r := { r with Info := { r.Info with xfer_status := XFER_STATUS_DONE } }
  match Read_Pipe pipe 8 with
  | none => ((ReadTransferPipeMsg.read_failed r text).1, (ReadTransferPipeMsg.read_failed r text).2, [])
  | some (b, pipe) =>
    let r := { r with Info := { r.Info with bytes := intOfBytes 8 b } }
    let r := if r.is_download then { r with bytesRcvd := r.bytesRcvd + r.Info.bytes }
      else { r with bytesSent := r.bytesSent + r.Info.bytes }
    match Read_Pipe pipe 1 with
    | none => ((ReadTransferPipeMsg.read_failed r text).1, (ReadTransferPipeMsg.read_failed r text).2, [])
    | some (b, pipe) =>
      let r := { r with Info := { r.Info with try_again := natOfBytes b != 0 } }
      match Read_Pipe pipe 4 with
      | none => ((ReadTransferPipeMsg.read_failed r text).1, (ReadTransferPipeMsg.read_failed r text).2, [])
      | some (b, pipe) =>
        let r := { r with Info := { r.Info with hold_code := intOfBytes 4 b } }
        match Read_Pipe pipe 4 with
        | none => ((ReadTransferPipeMsg.read_failed r text).1, (ReadTransferPipeMsg.read_failed r text).2, [])
        | some (b, pipe) =>
          let r := { r with Info := { r.Info with hold_subcode := intOfBytes 4 b } }
          match Read_Pipe pipe 4 with
          | none => ((ReadTransferPipeMsg.read_failed r text).1, (ReadTransferPipeMsg.read_failed r text).2, [])
          | some (b, pipe) =>
            let error_len := intOfBytes 4 b
            match (if error_len ≠ 0 then Read_Pipe pipe error_len.toNat else some ([], pipe)) with
            | none => ((ReadTransferPipeMsg.read_failed r text).1, (ReadTransferPipeMsg.read_failed r text).2, [])
            | some (error_buf, pipe) =>
              let r := if error_len ≠ 0 then
                { r with Info := { r.Info with error_desc := stringOfBuffer error_buf } } else r
              match Read_Pipe pipe 4 with
              | none => ((ReadTransferPipeMsg.read_failed r text).1, (ReadTransferPipeMsg.read_failed r text).2, [])
              | some (b, pipe) =>
                let spooled_files_len := intOfBytes 4 b
                match (if spooled_files_len ≠ 0 then Read_Pipe pipe spooled_files_len.toNat
                    else some ([], pipe)) with
                | none => ((ReadTransferPipeMsg.read_failed r text).1, (ReadTransferPipeMsg.read_failed r text).2, [])
                | some (spooled_files_buf, pipe) =>
                  let r := if spooled_files_len ≠ 0 then
                    { r with Info := { r.Info with
                        spooled_files := stringOfBuffer spooled_files_buf } } else r
                  (true, { r with registered_xfer_pipe := false }, pipe)

/-- `FileTransfer::ReadTransferPipeMsg()` when the pipe holds the bytes `pipe`: the return
value, the members after the call and the bytes left in the pipe; `none` when the
function stops the process (`EXCEPT`) on a command byte that is neither 0 nor 1. -/
def ReadTransferPipeMsg (r : PipeReader) (pipe : List Nat) (text : String) :
    Option (Bool × PipeReader × List Nat) :=
  match Read_Pipe pipe 1 with
  | none => some ((ReadTransferPipeMsg.read_failed r text).1, (ReadTransferPipeMsg.read_failed r text).2, [])
  | some (cmd, pipe) =>
    if natOfBytes cmd = IN_PROGRESS_UPDATE_XFER_PIPE_CMD then
      match Read_Pipe pipe 4 with
      | none => some ((ReadTransferPipeMsg.read_failed r text).1, (ReadTransferPipeMsg.read_failed r text).2, [])
      | some (b, pipe) =>
        some (true, { r with Info := { r.Info with xfer_status := intOfBytes 4 b } }, pipe)
    else if natOfBytes cmd = FINAL_UPDATE_XFER_PIPE_CMD then
      some (ReadTransferPipeMsg.final r pipe text)
    else none

/-! ## Concrete inputs used by the witnesses and counterexamples -/

/-- A plan with one item of each class, in an order that is not sorted. -/
def examplePlan : FileTransferList :=
  [ { m_src_name := "http://host/in.dat", m_src_scheme := "http" },
    { m_src_name := "b.txt" },
    { m_src_name := "out.dat", m_dest_url := "s3://bucket/out.dat", m_dest_scheme := "s3" },
    { m_src_name := "a.txt" } ]

/-- An upload context after a download at time 100 whose catalog holds one file of
5 bytes with mtime 10. -/
def contextWith (name : String) : SendContext :=
  { upload_changed_files := true, last_download_time := 100, m_final_transfer_flag := false,
    SpooledIntermediateFiles := none, ExceptionFiles := none, OutputFiles := none,
    proxy_file := none, last_download_catalog := [(name, ⟨10, 5⟩)] }

/-- The same file, later: 7 bytes, mtime 20. -/
def grownFile (name : String) : DirEntry :=
  { name := name, is_directory := false, modify_time := 20, file_size := 7 }

/-- Baseline scan of a sandbox with two files. -/
def baselineScan : List DirEntry :=
  [ { name := "old.out", modify_time := 10, file_size := 5 },
    { name := "data.txt", modify_time := 10, file_size := 9 } ]

/-- The scan at upload time: `old.out` is untouched, `data.txt` has grown, `new.log`
has appeared. -/
def laterScan : List DirEntry :=
  [ { name := "old.out", modify_time := 10, file_size := 5 },
    { name := "data.txt", modify_time := 30, file_size := 12 },
    { name := "new.log", modify_time := 31, file_size := 1 } ]

/-- An upload after the baseline download; `old.out` is listed in
`SpooledIntermediateFiles`. -/
def uploadAfterBaseline (final_transfer : Bool) : SendContext :=
  { upload_changed_files := true, last_download_time := 100,
    m_final_transfer_flag := final_transfer,
    SpooledIntermediateFiles := some ["old.out"], ExceptionFiles := none, OutputFiles := none,
    proxy_file := none, last_download_catalog := BuildFileCatalog true 0 baselineScan }

/-- A non-final upload after the baseline download in which the job has declared
`old.out` as an output file and put `data.txt` on the exception list. -/
def uploadWithLists : SendContext :=
  { upload_changed_files := true, last_download_time := 100, m_final_transfer_flag := false,
    SpooledIntermediateFiles := none, ExceptionFiles := some ["data.txt"],
    OutputFiles := some ["old.out"], proxy_file := none,
    last_download_catalog := BuildFileCatalog true 0 baselineScan }

/-- The working directory of the first end-to-end scenario of the specification:
`a.txt` (1024 bytes), `b.bin` (10240 bytes) and a directory `d` that holds `c`
(100 bytes). -/
def scenarioStat (path : String) : FsNode :=
  if path = "/iwd/a.txt" then .file 420 1024 false false
  else if path = "/iwd/b.bin" then .file 420 10240 false false
  else if path = "/iwd/d" ∨ path = "/iwd/d/" then
    .dir 493 false (.cons "c" (.file 420 100 false false) .nil)
  else if path = "/iwd/d/c" then .file 420 100 false false
  else .error

/-- The plan for the input list `a.txt, b.bin, d/` in that directory. -/
def scenarioPlan : FileTransferList :=
  (ExpandFileTransferList.ofList scenarioStat none "/iwd" (some ["a.txt", "b.bin", "d/"]) []).2

/-- The plan for the input list `a.txt, b.bin, d` (no trailing delimiter). -/
def scenarioPlanWholeDir : FileTransferList :=
  (ExpandFileTransferList.ofList scenarioStat none "/iwd" (some ["a.txt", "b.bin", "d"]) []).2

/-- A sender without a limit of its own. -/
def quotaConfig : UploadConfig := { Iwd := "/iwd", MaxUploadBytes := -1 }

/-- A file of 16 KiB in the plan. -/
def bigFile : FileTransferItem := { m_src_name := "big.dat", m_file_size := 16384 }

/-- The replies of its round: the go-ahead of the receiver carries its limit of 4 KiB,
and `put_file` is given a file of 16 KiB. -/
def bigFileReplies : UploadReplies :=
  { receive_go_ahead := some (true, some 4096), put_file := put_file 16384 }

/-- A sender with a limit of 4 KiB. -/
def limitedConfig : UploadConfig := { Iwd := "/iwd", MaxUploadBytes := 4096 }

/-- A URL of 100 characters. -/
def longUrl : String :=
  "http://data.example.org/012345678901234567890123456789012345678901234567890123456789012345/input.dat"

/-- A source-URL item of the plan. -/
def urlItem : FileTransferItem := FileTransferItem.setSrcName {} longUrl

/-- A plan of 700 source URLs, every round answered without any failure. -/
def urlPlan : List (FileTransferItem × UploadReplies) := List.replicate 700 (urlItem, {})

/-- A receiver (the final transfer into the working directory `/sandbox`). -/
def receiverConfig : DownloadConfig := { Iwd := "/sandbox" }

/-- A file sent under the name `../escape`; the bytes arrive without error. -/
def escapeFrame : DownloadFrame :=
  { reply := 1, filename := "../escape", get_file := fun _ => (0, 100) }

/-- A file sent under a legal name; the bytes arrive without error. -/
def goodFrame : DownloadFrame :=
  { reply := 1, filename := "out.txt", get_file := fun _ => (0, 10) }

/-- The final report of a sender that has had no failure. -/
def successAck : Option ClassAd := (SendTransferAck true ⟨true, false, 0, 0, ""⟩ true false 0 0 none).2

/-- A file that the receiver cannot open for writing (`errno` 13). -/
def unwritableFrame : DownloadFrame :=
  { reply := 1, filename := "locked.txt", get_file := fun _ => (GET_FILE_OPEN_FAILED, 0),
    the_error := 13 }

/-- A receiver with a reuse directory. -/
def reuseConfig : DownloadConfig := { Iwd := "/sandbox", has_reuse_dir := true }

/-- A reuse-info request that proposes `data.bin` (100 bytes), which the cache cannot
supply; `reservation` is what `ReserveSpace` grants. -/
def reuseRequestFrame (reservation : Option String) : DownloadFrame :=
  { reply := 999, SubCommand := some 8,
    reuse_request := some ([{ filename := "data.bin", size := 100 }], "user"),
    reserve_space := reservation }

/-- The file `data.bin` itself; the bytes arrive without error. -/
def dataFrame : DownloadFrame :=
  { reply := 1, filename := "data.bin", get_file := fun _ => (0, 100) }

/-- A sender whose job has the executable `/bin/job`. -/
def execConfig : UploadConfig := { Iwd := "/iwd", ExecFile := some "/bin/job" }

/-- A plan of the executable and one input file, every round answered without failure. -/
def execPlan : List (FileTransferItem × UploadReplies) :=
  [({ m_src_name := "/bin/job", m_file_size := 4096 }, {}),
   ({ m_src_name := "a.txt", m_file_size := 10 }, {})]

/-- A receiver whose job may write below `s3://bucket/out/`. -/
def signingConfig : DownloadConfig := { Iwd := "/sandbox", output_url_pfxs := ["s3://bucket/out/"] }

/-- A sign request for four URLs: one below the permitted prefix, one outside it, one
with `/..` in it, and one that is not an `s3` URL. -/
def signFrame : DownloadFrame :=
  { reply := 999, SubCommand := some 9,
    sign_request := some [some "s3://bucket/out/a.dat", some "s3://other/a.dat",
      some "s3://bucket/out/../a.dat", some "https://other.example/a.dat"],
    presign := fun url => some (url ++ "?X-Amz-Signature=0") }

/-- A plan of three files: `a.dat` cannot be opened (`errno` 2), `b.dat` cannot be opened
either (`errno` 13), `c.dat` is sent. -/
def failingPlan : List (FileTransferItem × UploadReplies) :=
  [({ m_src_name := "a.dat" }, { put_file := fun _ => (PUT_FILE_OPEN_FAILED, 0), the_error := 2 }),
   ({ m_src_name := "b.dat" }, { put_file := fun _ => (PUT_FILE_OPEN_FAILED, 0), the_error := 13 }),
   ({ m_src_name := "c.dat" }, { put_file := fun _ => (0, 5) })]

/-- A frame with the command code 7, which is no transfer command, and the name `x.dat`;
ten bytes follow and are received without error. -/
def unknownCommandFrame : DownloadFrame :=
  { reply := 7, filename := "x.dat", get_file := fun _ => (0, 10) }

/-- The peer announces an interval of 10 seconds; the transfer queue has the transfer wait
for one poll and grants the slot at the second. -/
def queuedCalls : GoAheadCalls :=
  { alive_interval := some 10, passes := [{}, { slot := true, pending := false }] }

/-- A server that receives a non-final transfer into the tmp-spool directory of job 7. -/
def spoolConfig : DownloadConfig :=
  { Iwd := "/spool/7", TmpSpoolSpace := "/spool/7.tmp", final_transfer := false,
    IsClient := false }

/-- A file that arrives under the name of the commit file and is stored. -/
def commitNameFrame : DownloadFrame :=
  { reply := 1, filename := ".ccommit.con", get_file := fun _ => (0, 4) }

/-- The file `b.dat`: stored, or cut short by a failed write (`errno` 28). -/
def storedFrame : DownloadFrame :=
  { reply := 1, filename := "b.dat", get_file := fun _ => (0, 10) }
def writeFailedFrame : DownloadFrame :=
  { reply := 1, filename := "b.dat", get_file := fun _ => (GET_FILE_WRITE_FAILED, 0),
    the_error := 28 }

/-- An input file `in.ads` with two requests: the local file of the first cannot be
opened, the second transfer succeeds. -/
def unopenedThenFine : MultiFileCurlPlugin.Calls :=
  { input_file := fun name =>
      if name = "in.ads" then
        some [{ url := "https://host/a", local_file_name := "/nodir/a",
                attempts := fun _ => { opened := false } },
              { url := "https://host/b", local_file_name := "b" }]
      else none }

/-- A reuse-info request that proposes `big.bin` of 3 GiB, which the cache cannot supply;
`ReserveSpace` grants the reservation `res-1`. -/
def bigReuseRequestFrame : DownloadFrame :=
  { reply := 999, SubCommand := some 8,
    reuse_request := some ([{ filename := "big.bin", size := 3221225472 }], "user"),
    reserve_space := some "res-1" }

/-- A transfer whose first attempt cannot connect and whose later attempts would succeed. -/
def connectFailsOnce : MultiFileCurlPlugin.TransferRequest :=
  { url := "https://host/a", local_file_name := "a",
    attempts := fun n => if n = 0 then { perform := 7 } else {} }

/-- An input file `in.ads` with that request alone. -/
def connectFailsOnceCalls : MultiFileCurlPlugin.Calls :=
  { input_file := fun name => if name = "in.ads" then some [connectFailsOnce] else none }

/-- The renamed executable in the sandbox, a file that the catalog does not hold. -/
def renamedExecutable : DirEntry :=
  { name := "condor_exec.exe", is_directory := false, modify_time := 20, file_size := 7 }

/-- A receiver whose remaps send `out.txt` to `/tmp/elsewhere/out.txt` and `up.txt` to
`../up.txt`. -/
def remapConfig : DownloadConfig :=
  { Iwd := "/sandbox",
    filename_remap_find := fun name =>
      if name = "out.txt" then (1, "/tmp/elsewhere/out.txt")
      else if name = "up.txt" then (1, "../up.txt")
      else (0, "") }

/-- A sender without go-ahead protocol whose destination URLs go through the multi-file
plug-in `/plugins/multi` and whose file `secret.txt` is on the list of files to encrypt. -/
def batchConfig : UploadConfig :=
  { Iwd := "/iwd", PeerDoesGoAhead := false, multifile_plugins_enabled := true,
    encrypt := fun name => name == "secret.txt",
    determinePlugin := fun _ _ => "/plugins/multi",
    plugins_multifile_support := fun path => if path = "/plugins/multi" then some true else none }

/-- Two output files that go to URLs, and the file `secret.txt`. -/
def batchPlan : List (FileTransferItem × UploadReplies) :=
  [({ m_src_name := "o1", m_dest_url := "https://host/o1", m_dest_scheme := "https" }, {}),
   ({ m_src_name := "o2", m_dest_url := "https://host/o2", m_dest_scheme := "https" }, {}),
   ({ m_src_name := "secret.txt" }, {})]

/-- A run of the multi-file plug-in for the batch of `o1` and `o2`: the upload of `o1`
fails, the upload of `o2` succeeds, and the plug-in exits with the code 1 (wait status
256). -/
def oneFailedRun : MultiPluginRun :=
  { plugin_status := 256,
    ads := [{ TransferFileName := some "/iwd/o1", TransferUrl := some "https://host/o1",
              TransferSuccess := some false, TransferError := some "HTTP 500" },
            { TransferFileName := some "/iwd/o2", TransferUrl := some "https://host/o2",
              TransferSuccess := some true }] }

/-- The same sender without multi-file plug-ins. -/
def singleFileConfig : UploadConfig := { batchConfig with multifile_plugins_enabled := false }

/-- The plan of `o1` and `o2` for single-file plug-ins: the upload of `o1` fails. -/
def singleFilePlan : List (FileTransferItem × UploadReplies) :=
  [({ m_src_name := "o1", m_dest_url := "https://host/o1", m_dest_scheme := "https" },
    { plugin_rc := PUT_FILE_PLUGIN_FAILED }),
   ({ m_src_name := "o2", m_dest_url := "https://host/o2", m_dest_scheme := "https" }, {})]

/-- A registry after `InitializePlugins`: URL transfers are supported and the global table
binds `http` to the curl plug-in. -/
def globalRegistry : PluginRegistry :=
  { I_support_filetransfer_plugins := true,
    plugin_table := some (fun m => if m = "http" then some "/usr/libexec/curl_plugin" else none) }

/-- The method of a URL for the examples: the text before the first colon. -/
def schemeBeforeColon (url : String) : String := String.mk (url.data.takeWhile (fun c => c != ':'))

/-- The final status of a failed upload. -/
def failedInfo : FileTransferInfo :=
  { success := false, try_again := false, hold_code := 13, hold_subcode := 2,
    error_desc := "error reading from /iwd/a.dat", spooled_files := "b.dat,c.dat" }

/-- A reuse-info request that proposes `b.bin` (50 bytes), which the cache cannot supply;
`ReserveSpace` fails. -/
def failedRequestFrame : DownloadFrame :=
  { reply := 999, SubCommand := some 8,
    reuse_request := some ([{ filename := "b.bin", size := 50 }], "user"),
    reserve_space := none }

/-- A reuse-info request that proposes the empty file `c.bin`, which the cache cannot
supply: nothing has to be reserved for it. -/
def emptyFileRequestFrame : DownloadFrame :=
  { reply := 999, SubCommand := some 8,
    reuse_request := some ([{ filename := "c.bin", size := 0 }], "user"),
    reserve_space := none }

/-- The file `c.bin` itself; it arrives without error. -/
def emptyFileFrame : DownloadFrame :=
  { reply := 1, filename := "c.bin", get_file := fun _ => (0, 0) }

/-- A session of three reuse-info requests and one file: the first request is granted the
reservation `res-1`, `ReserveSpace` fails for the second, and the third leaves nothing
to reserve. -/
def staleSession : List DownloadFrame :=
  [reuseRequestFrame (some "res-1"), failedRequestFrame, emptyFileRequestFrame, emptyFileFrame]

/-! # Theorems -/

/-! ## `LegalPathInSandbox` -/

theorem pathComponents_ne_nil (p : List Char) : pathComponents p ≠ [] := by
  induction p with
  | nil => simp [pathComponents]
  | cons c cs ih =>
    unfold pathComponents
    split
    · simp
    · split <;> simp

theorem splitAtLastDelim_none {p : List Char} (h : splitAtLastDelim p = none) :
    pathComponents p = [p] := by
  induction p with
  | nil => rfl
  | cons c cs ih =>
    unfold splitAtLastDelim at h
    split at h
    · simp at h
    · rename_i hn
      split at h
      · simp at h
      · rename_i hc
        simp [pathComponents, hc, ih hn]

theorem splitAtLastDelim_some {p d f : List Char} (h : splitAtLastDelim p = some (d, f)) :
    pathComponents p = pathComponents d ++ [f] ∧ d.length < p.length := by
  induction p generalizing d f with
  | nil => simp [splitAtLastDelim] at h
  | cons c cs ih =>
    unfold splitAtLastDelim at h
    split at h
    · rename_i d1 f1 hs
      simp only [Option.some.injEq, Prod.mk.injEq] at h
      obtain ⟨rfl, rfl⟩ := h
      obtain ⟨h1, h2⟩ := ih hs
      refine ⟨?_, by simp; omega⟩
      by_cases hc : c = DIR_DELIM_CHAR
      · simp [pathComponents, hc, h1]
      · simp only [pathComponents, hc, if_false, h1]
        cases hd : pathComponents d1 with
        | nil => exact absurd hd (pathComponents_ne_nil _)
        | cons x xs => simp
    · rename_i hn
      split at h
      · rename_i hc
        simp only [Option.some.injEq, Prod.mk.injEq] at h
        obtain ⟨rfl, rfl⟩ := h
        refine ⟨?_, by simp⟩
        simp [pathComponents, hc, splitAtLastDelim_none hn]
      · simp at h

/-- With fuel beyond the length of the path the loop of `LegalPathInSandbox` returns, and
it returns `true` exactly when no component of the path is `..`. -/
theorem LegalPathInSandbox.scan_eq (fuel : Nat) : ∀ p : String, p.length < fuel →
    LegalPathInSandbox.scan fuel p = some (decide (¬ hasDotDotComponent p)) := by
  unfold hasDotDotComponent
  induction fuel with
  | zero => intro p h; omega
  | succ n ih =>
    intro p hp
    unfold LegalPathInSandbox.scan filename_split
    cases hs : splitAtLastDelim p.data with
    | none =>
      have := splitAtLastDelim_none hs
      simp only [this]
      by_cases hpp : p = ".."
      · subst hpp; simp
      · have : ¬ (['.', '.'] = p.data) := by
          intro h; apply hpp; cases p; subst h; rfl
        simp [hpp, this]
    | some df =>
      obtain ⟨d, f⟩ := df
      obtain ⟨h1, h2⟩ := splitAtLastDelim_some hs
      simp only [h1]
      by_cases hf : (⟨f⟩ : String) = ".."
      · have : f = ['.', '.'] := by
          have := congrArg String.data hf; simpa using this
        simp [hf, this]
      · have hf2 : ¬ (['.', '.'] = f) := by
          intro h; apply hf; subst h; rfl
        have hlen : (⟨d⟩ : String).length < n := by
          have : p.length = p.data.length := rfl
          show d.length < n
          omega
        simp [hf, ih ⟨d⟩ hlen, hf2]

/-- The answer of `LegalPathInSandbox` in terms of the canonicalised path. -/
theorem LegalPathInSandbox_eq (path sandbox : String) :
    LegalPathInSandbox path sandbox =
      (!fullpath (canonicalize_dir_delimiters path) &&
        decide (¬ hasDotDotComponent (canonicalize_dir_delimiters path))) := by
  unfold LegalPathInSandbox
  simp only [LegalPathInSandbox.scan_eq _ _ (Nat.lt_succ_self _)]
  cases fullpath (canonicalize_dir_delimiters path) <;> simp

/-- C1: `LegalPathInSandbox(p, sandbox)` is false exactly when the canonicalised `p` is
an absolute path or has a delimiter-separated component equal to `..`, and true for
every other `p` (so for the empty path, `..x` and `...`); the sandbox argument has no
influence on the answer. -/
theorem C1_LegalPathInSandbox_spec (path sandbox : String) :
    (LegalPathInSandbox path sandbox = false ↔
      (fullpath (canonicalize_dir_delimiters path) = true ∨
        hasDotDotComponent (canonicalize_dir_delimiters path))) ∧
    (LegalPathInSandbox path sandbox = true ↔
      (fullpath (canonicalize_dir_delimiters path) = false ∧
        ¬ hasDotDotComponent (canonicalize_dir_delimiters path))) ∧
    (∀ sandbox2 : String, LegalPathInSandbox path sandbox2 = LegalPathInSandbox path sandbox) ∧
    LegalPathInSandbox "" sandbox = true ∧
    LegalPathInSandbox "..x" sandbox = true ∧
    LegalPathInSandbox "..." sandbox = true ∧
    LegalPathInSandbox "a/..x/b" sandbox = true ∧
    LegalPathInSandbox "../escape" sandbox = false ∧
    LegalPathInSandbox "a/../b" sandbox = false ∧
    LegalPathInSandbox "/etc/passwd" sandbox = false := by
  refine ⟨?_, ?_, ?_, rfl, rfl, rfl, rfl, rfl, rfl, rfl⟩
  · rw [LegalPathInSandbox_eq]
    cases fullpath (canonicalize_dir_delimiters path) <;> simp
  · rw [LegalPathInSandbox_eq]
    cases fullpath (canonicalize_dir_delimiters path) <;> simp
  · intro sandbox2
    rw [LegalPathInSandbox_eq, LegalPathInSandbox_eq]

/-! ## The order of transfer items -/

theorem strLt_false_iff (a b : String) : FileTransferItem.strLt b a = false ↔ a.data ≤ b.data := by
  simp [FileTransferItem.strLt]

theorem string_ne_empty (s : String) : (s != "") = true ↔ s ≠ "" := by simp

/-- What `!(b < a)` says about two items `a`, `b`. -/
theorem not_lt_spec (a b : FileTransferItem) (h : FileTransferItem.lt b a = false) :
    (b.isDestUrl = true → a.isDestUrl = true) ∧
    (a.isDestUrl = false → b.isDestUrl = false → b.isSrcUrl = false → a.isSrcUrl = false) ∧
    (a.isDestUrl = true → b.isDestUrl = true →
      pairLe a.m_dest_scheme a.m_dest_url b.m_dest_scheme b.m_dest_url) ∧
    (a.isDestUrl = false → b.isDestUrl = false → a.isSrcUrl = false → b.isSrcUrl = false →
      strLe a.m_src_name b.m_src_name) ∧
    (a.isDestUrl = false → b.isDestUrl = false → a.isSrcUrl = true → b.isSrcUrl = true →
      pairLe a.m_src_scheme a.m_src_name b.m_src_scheme b.m_src_name) := by
  unfold FileTransferItem.lt at h
  unfold FileTransferItem.isDestUrl FileTransferItem.isSrcUrl pairLe strLe
  by_cases hbd : b.m_dest_scheme = "" <;> by_cases had : a.m_dest_scheme = "" <;>
    by_cases hbs : b.m_src_scheme = "" <;> by_cases has : a.m_src_scheme = "" <;>
    simp [hbd, had, hbs, has, FileTransferItem.strLt] at h ⊢
  all_goals first
    | exact h
    | (by_cases he : b.m_dest_scheme = a.m_dest_scheme
       · simp [he] at h; exact Or.inr ⟨he.symm, h⟩
       · simp [he] at h
         rcases lt_or_eq_of_le h with h1 | h1
         · exact Or.inl h1
         · exact absurd (String.ext h1).symm he)
    | (by_cases he : b.m_src_scheme = a.m_src_scheme
       · simp [he] at h; exact Or.inr ⟨he.symm, h⟩
       · simp [he] at h
         rcases lt_or_eq_of_le h with h1 | h1
         · exact Or.inl h1
         · exact absurd (String.ext h1).symm he)

/-- C3: after `DoUpload` has sorted the list with `FileTransferItem::operator<`, for every
earlier item `a` and later item `b`: if `b` has a destination-URL scheme so has `a`
(destination-URL items come first); among items without a destination URL a local `b`
is only preceded by local items (local items precede source-URL items); and inside the
three classes the order is non-decreasing in (destination scheme, destination URL), in
the source name, and in (source scheme, source name) respectively.  The sorted list is
a rearrangement of the plan. -/
theorem C3_sorted_item_order (filelist sorted : FileTransferList)
    (h : IsStdSortOf sorted filelist) :
    sorted.Perm filelist ∧
    sorted.Pairwise (fun a b =>
      (b.isDestUrl = true → a.isDestUrl = true) ∧
      (a.isDestUrl = false → b.isDestUrl = false → b.isSrcUrl = false → a.isSrcUrl = false) ∧
      (a.isDestUrl = true → b.isDestUrl = true →
        pairLe a.m_dest_scheme a.m_dest_url b.m_dest_scheme b.m_dest_url) ∧
      (a.isDestUrl = false → b.isDestUrl = false → a.isSrcUrl = false → b.isSrcUrl = false →
        strLe a.m_src_name b.m_src_name) ∧
      (a.isDestUrl = false → b.isDestUrl = false → a.isSrcUrl = true → b.isSrcUrl = true →
        pairLe a.m_src_scheme a.m_src_name b.m_src_scheme b.m_src_name)) :=
  ⟨h.1, h.2.imp (fun {a b} hab => not_lt_spec a b hab)⟩

theorem C3_sorted_item_order_witness :
    IsStdSortOf (sortFileList examplePlan) examplePlan ∧
    (sortFileList examplePlan).map FileTransferItem.srcName
      = ["out.dat", "a.txt", "b.txt", "http://host/in.dat"] ∧
    (sortFileList examplePlan).Pairwise (fun a b =>
      (b.isDestUrl = true → a.isDestUrl = true) ∧
      (a.isDestUrl = false → b.isDestUrl = false → b.isSrcUrl = false → a.isSrcUrl = false) ∧
      (a.isDestUrl = true → b.isDestUrl = true →
        pairLe a.m_dest_scheme a.m_dest_url b.m_dest_scheme b.m_dest_url) ∧
      (a.isDestUrl = false → b.isDestUrl = false → a.isSrcUrl = false → b.isSrcUrl = false →
        strLe a.m_src_name b.m_src_name) ∧
      (a.isDestUrl = false → b.isDestUrl = false → a.isSrcUrl = true → b.isSrcUrl = true →
        pairLe a.m_src_scheme a.m_src_name b.m_src_scheme b.m_src_name)) :=
  have h : IsStdSortOf (sortFileList examplePlan) examplePlan := by
    unfold IsStdSortOf; decide
  ⟨h, by decide, (C3_sorted_item_order examplePlan (sortFileList examplePlan) h).2⟩

/-! ## `ComputeFilesToSend` -/

theorem ComputeFilesToSend.visit_eq (ft : SendContext) (acc : Option (List String))
    (f : DirEntry) :
    ComputeFilesToSend.visit ft acc f =
      if ComputeFilesToSend.sends ft f then
        (match acc with
         | none => some [f.name]
         | some l => if l.contains f.name then some l else some (l ++ [f.name]))
      else acc := by
  unfold ComputeFilesToSend.visit ComputeFilesToSend.sends changedSince
  by_cases h1 : f.name = "condor_exec."
  · simp [h1]
  by_cases h2 : ft.proxy_file = some f.name
  · simp [h1, h2]
  by_cases h3 : f.is_directory = true
  · simp [h1, h2, h3]
  by_cases h4 : listContains ft.ExceptionFiles f.name = true
  · simp [h1, h2, h3, h4]
  generalize LookupInFileCatalog ft.last_download_catalog f.name = look
  cases look with
  | none => simp [h1, h2, h3, h4]
  | some entry =>
    by_cases h5 : f.name ∈ final_files_to_send ft
    · simp [h1, h2, h3, h4, h5]
    by_cases h6 : listContains ft.OutputFiles f.name = true
    · simp [h1, h2, h3, h4, h5, h6]
    by_cases h7 : entry.filesize = -1
    · by_cases h8 : f.modify_time > entry.modification_time <;>
        simp [h1, h2, h3, h4, h5, h6, h7, h8]
    · by_cases h9 : f.file_size = entry.filesize <;>
        by_cases h10 : f.modify_time = entry.modification_time
      · have h7s : ¬ f.file_size = -1 := fun h => h7 (h9 ▸ h)
        simp [h1, h2, h3, h4, h5, h6, h7, h7s, h9.symm, h10.symm]
      · have h7s : ¬ f.file_size = -1 := fun h => h7 (h9 ▸ h)
        have h10s : ¬ entry.modification_time = f.modify_time := fun h => h10 h.symm
        simp [h1, h2, h3, h4, h5, h6, h7, h7s, h9.symm, h10, h10s]
      · have h9s : ¬ entry.filesize = f.file_size := fun h => h9 h.symm
        simp [h1, h2, h3, h4, h5, h6, h7, h9, h9s]
      · have h9s : ¬ entry.filesize = f.file_size := fun h => h9 h.symm
        simp [h1, h2, h3, h4, h5, h6, h7, h9, h9s]

theorem ComputeFilesToSend.inList_visit (ft : SendContext) (acc : Option (List String))
    (f : DirEntry) (name : String) :
    inList (ComputeFilesToSend.visit ft acc f) name ↔
      inList acc name ∨ (f.name = name ∧ ComputeFilesToSend.sends ft f = true) := by
  rw [ComputeFilesToSend.visit_eq]
  unfold inList
  by_cases hs : ComputeFilesToSend.sends ft f = true
  · simp only [hs, if_true, and_true]
    cases acc with
    | none =>
      simp
      exact eq_comm
    | some l =>
      by_cases hc : l.contains f.name = true
      · simp only [hc, if_true, Option.some.injEq, exists_eq_left']
        constructor
        · intro h; exact Or.inl h
        · rintro (h | h)
          · exact h
          · subst h; simpa using hc
      · simp only [hc]
        simp
        constructor
        · rintro (h | h)
          · exact Or.inl h
          · exact Or.inr h.symm
        · rintro (h | h)
          · exact Or.inl h
          · exact Or.inr h.symm
  · simp [hs]

theorem ComputeFilesToSend.inList_foldl (ft : SendContext) (dir : List DirEntry) :
    ∀ (acc : Option (List String)) (name : String),
      inList (dir.foldl (ComputeFilesToSend.visit ft) acc) name ↔
        inList acc name ∨ ∃ e ∈ dir, e.name = name ∧ ComputeFilesToSend.sends ft e = true := by
  induction dir with
  | nil => intro acc name; simp
  | cons f fs ih =>
    intro acc name
    rw [List.foldl_cons, ih, ComputeFilesToSend.inList_visit]
    simp only [List.mem_cons, exists_eq_or_imp]
    tauto

/-- A file of the scan is selected exactly when its own round of the loop sends it. -/
theorem selected_iff_sends (ft : SendContext) (dir : List DirEntry) (f : DirEntry)
    (hup : ft.upload_changed_files = true) (hlast : ft.last_download_time > 0)
    (hnodup : (dir.map DirEntry.name).Nodup) (hf : f ∈ dir) :
    selected ft dir f.name ↔ ComputeFilesToSend.sends ft f = true := by
  have h0 : selected ft dir f.name ↔
      inList (dir.foldl (ComputeFilesToSend.visit ft) none) f.name := by
    unfold selected ComputeFilesToSend inList
    simp [hup, hlast]
  rw [h0, ComputeFilesToSend.inList_foldl]
  constructor
  · rintro (h | ⟨e, he, hn, hs⟩)
    · obtain ⟨l, hl, _⟩ := h
      cases hl
    · have : e = f := List.inj_on_of_nodup_map hnodup he hf hn
      rw [← this]; exact hs
  · intro hs
    exact Or.inr ⟨f, hf, rfl, hs⟩

theorem not_condor_exec_of_not_isCondorExecName {name : String}
    (h : isCondorExecName name = false) : name ≠ "condor_exec." := by
  intro hn
  subst hn
  revert h
  decide

/-- C4 (as amended): in `ComputeFilesToSend`, with `upload_changed_files` set and a previous
download recorded, a non-directory file of the sandbox whose name does not begin with
`condor_exec.`, that is found in the catalog and is not in the exception list, not the
credential file, not among the spooled intermediate files of a final transfer and not
in the declared output list, is selected iff it has changed: with stored size -1, iff
its mtime is strictly greater than the stored one; with any other stored size, iff its
size or its mtime differs from the stored one. -/
theorem C4_catalogued_file_selected_iff_changed (ft : SendContext) (dir : List DirEntry)
    (f : DirEntry) (entry : CatalogEntry)
    (hup : ft.upload_changed_files = true) (hlast : ft.last_download_time > 0)
    (hnodup : (dir.map DirEntry.name).Nodup) (hf : f ∈ dir)
    (hexec : isCondorExecName f.name = false)
    (hdir : f.is_directory = false)
    (hcat : LookupInFileCatalog ft.last_download_catalog f.name = some entry)
    (hexc : listContains ft.ExceptionFiles f.name = false)
    (hproxy : ft.proxy_file ≠ some f.name)
    (hfinal : (final_files_to_send ft).contains f.name = false)
    (hout : listContains ft.OutputFiles f.name = false) :
    (selected ft dir f.name ↔ changedSince entry f) ∧
    (entry.filesize = -1 →
      (selected ft dir f.name ↔ f.modify_time > entry.modification_time)) ∧
    (entry.filesize ≠ -1 →
      (selected ft dir f.name ↔
        (f.file_size ≠ entry.filesize ∨ f.modify_time ≠ entry.modification_time))) := by
  have hmain : selected ft dir f.name ↔ changedSince entry f := by
    rw [selected_iff_sends ft dir f hup hlast hnodup hf]
    unfold ComputeFilesToSend.sends
    have hfinal2 : f.name ∉ final_files_to_send ft := by simpa using hfinal
    simp [not_condor_exec_of_not_isCondorExecName hexec, hdir, hcat, hexc, hproxy, hfinal2, hout]
  refine ⟨hmain, ?_, ?_⟩
  · intro h
    rw [hmain]; unfold changedSince; simp [h]
  · intro h
    rw [hmain]; unfold changedSince; simp [h]

theorem C4_catalogued_file_selected_iff_changed_witness :
    (contextWith "out.txt").upload_changed_files = true ∧
    isCondorExecName (grownFile "out.txt").name = false ∧
    selected (contextWith "out.txt") [grownFile "out.txt"] "out.txt" :=
  ⟨rfl, by decide,
    ((C4_catalogued_file_selected_iff_changed (contextWith "out.txt") [grownFile "out.txt"]
      (grownFile "out.txt") ⟨10, 5⟩ rfl (by decide) (by decide) (by decide) (by decide) rfl
      (by decide) (by decide) (by decide) (by decide) (by decide)).1).2 (by decide)⟩

/-- C4 as stated fails for a file named `condor_exec.`: it is a regular file, found in the
catalog, in none of the lists that the claim excepts, and both its size and its mtime
differ from the stored ones, yet `ComputeFilesToSend` selects nothing. -/
theorem C4_counterexample_condor_exec :
    (contextWith "condor_exec.").upload_changed_files = true ∧
    (contextWith "condor_exec.").last_download_time > 0 ∧
    (grownFile "condor_exec.").is_directory = false ∧
    LookupInFileCatalog (contextWith "condor_exec.").last_download_catalog "condor_exec."
      = some ⟨10, 5⟩ ∧
    listContains (contextWith "condor_exec.").ExceptionFiles "condor_exec." = false ∧
    (contextWith "condor_exec.").proxy_file = none ∧
    (final_files_to_send (contextWith "condor_exec.")).contains "condor_exec." = false ∧
    listContains (contextWith "condor_exec.").OutputFiles "condor_exec." = false ∧
    changedSince ⟨10, 5⟩ (grownFile "condor_exec.") ∧
    ComputeFilesToSend (contextWith "condor_exec.") [grownFile "condor_exec."] = none ∧
    ¬ selected (contextWith "condor_exec.") [grownFile "condor_exec."] "condor_exec." := by
  refine ⟨rfl, by decide, rfl, by decide, rfl, rfl, by decide, rfl, by decide, by decide, ?_⟩
  rintro ⟨l, hl, _⟩
  have : ComputeFilesToSend (contextWith "condor_exec.") [grownFile "condor_exec."] = none := by
    decide
  rw [this] at hl
  cases hl

/-! ### The baseline catalog -/

theorem find_fst_of_nodup {α : Type} (l : List (String × α)) (hn : (l.map Prod.fst).Nodup)
    (n : String) (kv : String × α) :
    l.find? (fun kv => kv.1 == n) = some kv ↔ kv ∈ l ∧ kv.1 = n := by
  induction l with
  | nil => simp
  | cons x xs ih =>
    rw [List.map_cons, List.nodup_cons] at hn
    by_cases hx : x.1 = n
    · simp only [List.find?_cons, hx, beq_self_eq_true, Option.some.injEq, List.mem_cons]
      constructor
      · intro h; exact ⟨Or.inl h.symm, h ▸ hx⟩
      · rintro ⟨h | h, hk⟩
        · exact h.symm
        · exfalso
          apply hn.1
          rw [hx, ← hk]
          exact List.mem_map_of_mem Prod.fst h
    · have hx2 : (x.1 == n) = false := by simpa using hx
      simp only [List.find?_cons, hx2, List.mem_cons]
      rw [ih hn.2]
      constructor
      · rintro ⟨h, hk⟩; exact ⟨Or.inr h, hk⟩
      · rintro ⟨h | h, hk⟩
        · exact absurd (h ▸ hk) hx
        · exact ⟨h, hk⟩

theorem find_fst_none {α : Type} (l : List (String × α)) (n : String) :
    l.find? (fun kv => kv.1 == n) = none ↔ ∀ kv ∈ l, kv.1 ≠ n := by
  simp

theorem BuildFileCatalog_foldl (dir : List DirEntry) :
    ∀ init : FileCatalogHashTable,
      dir.foldl
        (fun catalog f =>
          if !f.is_directory then
            let tmpentry : CatalogEntry :=
              if (0 : Int) ≠ 0 then ⟨0, -1⟩ else ⟨f.modify_time, f.file_size⟩
            (f.name, tmpentry) :: catalog
          else catalog) init
      = ((dir.filter (fun f => !f.is_directory)).map
          (fun f => (f.name, (⟨f.modify_time, f.file_size⟩ : CatalogEntry)))).reverse ++ init := by
  induction dir with
  | nil => intro init; simp
  | cons f fs ih =>
    intro init
    rw [List.foldl_cons, ih]
    by_cases hd : f.is_directory = true
    · simp [hd]
    · simp [hd]

theorem BuildFileCatalog_eq (dir : List DirEntry) :
    BuildFileCatalog true 0 dir
      = ((dir.filter (fun f => !f.is_directory)).map
          (fun f => (f.name, (⟨f.modify_time, f.file_size⟩ : CatalogEntry)))).reverse := by
  unfold BuildFileCatalog
  simp only [Bool.true_eq_false, if_false]
  rw [BuildFileCatalog_foldl]
  simp

theorem BuildFileCatalog_nodup (dir : List DirEntry) (hn : (dir.map DirEntry.name).Nodup) :
    ((BuildFileCatalog true 0 dir).map Prod.fst).Nodup := by
  rw [BuildFileCatalog_eq, List.map_reverse, List.nodup_reverse, List.map_map]
  have h2 : List.map (Prod.fst ∘ fun f : DirEntry =>
      (f.name, (⟨f.modify_time, f.file_size⟩ : CatalogEntry)))
      (List.filter (fun f => !f.is_directory) dir)
      = (List.filter (fun f => !f.is_directory) dir).map DirEntry.name := rfl
  rw [h2]
  exact (hn.sublist ((List.filter_sublist dir).map DirEntry.name))

/-- Looking a name up in the baseline catalog finds the regular file of that name. -/
theorem Lookup_baseline (dir : List DirEntry) (hn : (dir.map DirEntry.name).Nodup)
    (n : String) (c : CatalogEntry) :
    LookupInFileCatalog (BuildFileCatalog true 0 dir) n = some c ↔
      ∃ b ∈ dir, b.is_directory = false ∧ b.name = n ∧ c = ⟨b.modify_time, b.file_size⟩ := by
  unfold LookupInFileCatalog
  constructor
  · intro h
    split at h
    · rename_i kv hk
      rw [find_fst_of_nodup _ (BuildFileCatalog_nodup dir hn)] at hk
      simp only [Option.some.injEq] at h
      obtain ⟨hmem, hname⟩ := hk
      rw [BuildFileCatalog_eq] at hmem
      simp only [List.mem_reverse, List.mem_map, List.mem_filter, Bool.not_eq_true',
        ] at hmem
      obtain ⟨b, ⟨hb, hd⟩, rfl⟩ := hmem
      exact ⟨b, hb, hd, hname, h.symm⟩
    · cases h
  · rintro ⟨b, hb, hd, hname, rfl⟩
    have : (BuildFileCatalog true 0 dir).find? (fun kv => kv.1 == n)
        = some (b.name, ⟨b.modify_time, b.file_size⟩) := by
      rw [find_fst_of_nodup _ (BuildFileCatalog_nodup dir hn)]
      refine ⟨?_, hname⟩
      rw [BuildFileCatalog_eq]
      simp only [List.mem_reverse, List.mem_map, List.mem_filter, Bool.not_eq_true']
      exact ⟨b, ⟨hb, hd⟩, rfl⟩
    rw [this]

theorem Lookup_baseline_none (dir : List DirEntry) (n : String) :
    LookupInFileCatalog (BuildFileCatalog true 0 dir) n = none ↔
      ∀ b ∈ dir, b.is_directory = false → b.name ≠ n := by
  unfold LookupInFileCatalog
  rw [BuildFileCatalog_eq]
  constructor
  · intro h
    split at h
    · cases h
    · rename_i hk
      rw [find_fst_none] at hk
      intro b hb hd hname
      apply hk (b.name, ⟨b.modify_time, b.file_size⟩) _ hname
      simp only [List.mem_reverse, List.mem_map, List.mem_filter, Bool.not_eq_true']
      exact ⟨b, ⟨hb, hd⟩, rfl⟩
  · intro h
    have : (((dir.filter (fun f => !f.is_directory)).map
          (fun f => (f.name, (⟨f.modify_time, f.file_size⟩ : CatalogEntry)))).reverse).find?
          (fun kv => kv.1 == n) = none := by
      rw [find_fst_none]
      intro kv hkv
      simp only [List.mem_reverse, List.mem_map, List.mem_filter, Bool.not_eq_true'] at hkv
      obtain ⟨b, ⟨hb, hd⟩, rfl⟩ := hkv
      exact h b hb hd
    rw [this]

theorem final_files_to_send_contains (ft : SendContext) (name : String) :
    (final_files_to_send ft).contains name = true ↔
      (ft.m_final_transfer_flag = true ∧ listContains ft.SpooledIntermediateFiles name = true) := by
  unfold final_files_to_send listContains
  cases ft.m_final_transfer_flag <;> cases ft.SpooledIntermediateFiles <;> simp

/-- C5 (as amended): after a download that has built the baseline catalog of the sandbox, a
following upload selects a sandbox file (whose name does not begin with `condor_exec.`)
exactly when it is a regular file, is neither the credential file nor on the exception
list, and is new or differs from the baseline in size or mtime, or is named in
`SpooledIntermediateFiles` and the upload is the final one, or is a declared output
file. -/
theorem C5_selection_after_baseline (ft : SendContext) (baseline dir : List DirEntry)
    (f : DirEntry)
    (hup : ft.upload_changed_files = true) (hlast : ft.last_download_time > 0)
    (hcat : ft.last_download_catalog = BuildFileCatalog true 0 baseline)
    (hbn : (baseline.map DirEntry.name).Nodup)
    (hsize : ∀ b ∈ baseline, 0 ≤ b.file_size)
    (hnodup : (dir.map DirEntry.name).Nodup) (hf : f ∈ dir)
    (hexec : isCondorExecName f.name = false) :
    selected ft dir f.name ↔
      (f.is_directory = false ∧ ft.proxy_file ≠ some f.name ∧
        listContains ft.ExceptionFiles f.name = false ∧
        (newOrChanged baseline f ∨
          (ft.m_final_transfer_flag = true ∧
            listContains ft.SpooledIntermediateFiles f.name = true) ∨
          listContains ft.OutputFiles f.name = true)) := by
  rw [selected_iff_sends ft dir f hup hlast hnodup hf]
  unfold ComputeFilesToSend.sends
  have hne := not_condor_exec_of_not_isCondorExecName hexec
  rw [hcat]
  cases hl : LookupInFileCatalog (BuildFileCatalog true 0 baseline) f.name with
  | none =>
    rw [Lookup_baseline_none] at hl
    have hnew : newOrChanged baseline f := by
      intro b hb hd hname
      exact absurd hname (hl b hb hd)
    simp [hne, hnew]
    tauto
  | some c =>
    rw [Lookup_baseline baseline hbn] at hl
    obtain ⟨b, hb, hd, hname, rfl⟩ := hl
    have hchg : changedSince ⟨b.modify_time, b.file_size⟩ f ↔ newOrChanged baseline f := by
      unfold changedSince newOrChanged
      have hs := hsize b hb
      have hneg : ¬ b.file_size = -1 := by omega
      simp only [hneg, if_false]
      constructor
      · intro h b2 hb2 hd2 hname2
        have : b2 = b := List.inj_on_of_nodup_map hbn hb2 hb (hname2.trans hname.symm)
        subst this
        rcases h with h | h
        · exact Or.inl (Ne.symm h)
        · exact Or.inr (Ne.symm h)
      · intro h
        rcases h b hb hd hname with h | h
        · exact Or.inl (Ne.symm h)
        · exact Or.inr (Ne.symm h)
    have hfin := final_files_to_send_contains ft f.name
    simp only [Bool.and_eq_true, Bool.or_eq_true, decide_eq_true_eq, Bool.not_eq_true',
      hfin, hchg, ne_eq]
    constructor
    · rintro ⟨⟨⟨⟨_, h2⟩, h3⟩, h4⟩, h5⟩
      refine ⟨h3, h2, h4, ?_⟩
      rcases h5 with (h | h) | h
      · exact Or.inr (Or.inl h)
      · exact Or.inr (Or.inr h)
      · exact Or.inl h
    · rintro ⟨h3, h2, h4, h5⟩
      refine ⟨⟨⟨⟨hne, h2⟩, h3⟩, h4⟩, ?_⟩
      rcases h5 with h | h | h
      · exact Or.inr h
      · exact Or.inl (Or.inl h)
      · exact Or.inl (Or.inr h)

theorem C5_selection_after_baseline_witness :
    (uploadAfterBaseline true).last_download_catalog = BuildFileCatalog true 0 baselineScan ∧
    selected (uploadAfterBaseline true) laterScan "old.out" ∧
    selected (uploadAfterBaseline true) laterScan "data.txt" :=
  ⟨rfl,
    (C5_selection_after_baseline (uploadAfterBaseline true) baselineScan laterScan
      ⟨"old.out", false, 10, 5⟩ rfl (by decide) rfl (by decide) (by decide) (by decide)
      (by decide) (by decide)).2
      ⟨rfl, by decide, by decide, Or.inr (Or.inl ⟨rfl, by decide⟩)⟩,
    (C5_selection_after_baseline (uploadAfterBaseline true) baselineScan laterScan
      ⟨"data.txt", false, 30, 12⟩ rfl (by decide) rfl (by decide) (by decide) (by decide)
      (by decide) (by decide)).2
      ⟨rfl, by decide, by decide, Or.inl (by unfold newOrChanged; decide)⟩⟩

/-- C5 as stated fails in three ways.  On a non-final upload a file named in
`SpooledIntermediateFiles` that has not changed is not selected; a declared output
file is selected although its size and mtime equal the baseline; a file on the
exception list is not selected although it has changed. -/
theorem C5_counterexample_lists :
    ((uploadAfterBaseline false).SpooledIntermediateFiles = some ["old.out"] ∧
      ComputeFilesToSend (uploadAfterBaseline false) laterScan = some ["data.txt", "new.log"]) ∧
    (ComputeFilesToSend uploadWithLists laterScan = some ["old.out", "new.log"] ∧
      ¬ newOrChanged baselineScan ⟨"old.out", false, 10, 5⟩ ∧
      newOrChanged baselineScan ⟨"data.txt", false, 30, 12⟩) := by
  refine ⟨⟨rfl, by decide⟩, by decide, ?_, ?_⟩
  · unfold newOrChanged; decide
  · unfold newOrChanged; decide

/-! ## Acknowledgements -/

/-- C6: decoding with `GetTransferAck` the ad that `SendTransferAck` builds (the peer
supports transfer acks and the ad arrives intact) gives back the success flag; for a
failure it gives back `try_again`, the hold code and the hold subcode, and the hold
reason when one was given; for a success it gives `try_again = false`, hold code 0 and
hold subcode 0. -/
theorem C6_ack_roundtrip (success try_again : Bool) (hold_code hold_subcode : Int)
    (hold_reason : Option String) (Info out : TransferAck) :
    (SendTransferAck true Info success try_again hold_code hold_subcode hold_reason).2
      = some (SendTransferAck.ad success try_again hold_code hold_subcode hold_reason) ∧
    (GetTransferAck true
      (SendTransferAck true Info success try_again hold_code hold_subcode hold_reason).2
      out).success = success ∧
    (success = false →
      (GetTransferAck true
        (SendTransferAck true Info success try_again hold_code hold_subcode hold_reason).2
        out).try_again = try_again ∧
      (GetTransferAck true
        (SendTransferAck true Info success try_again hold_code hold_subcode hold_reason).2
        out).hold_code = hold_code ∧
      (GetTransferAck true
        (SendTransferAck true Info success try_again hold_code hold_subcode hold_reason).2
        out).hold_subcode = hold_subcode ∧
      (∀ r, hold_reason = some r →
        (GetTransferAck true
          (SendTransferAck true Info success try_again hold_code hold_subcode hold_reason).2
          out).error_desc = r)) ∧
    (success = true →
      (GetTransferAck true
        (SendTransferAck true Info success try_again hold_code hold_subcode hold_reason).2
        out).try_again = false ∧
      (GetTransferAck true
        (SendTransferAck true Info success try_again hold_code hold_subcode hold_reason).2
        out).hold_code = 0 ∧
      (GetTransferAck true
        (SendTransferAck true Info success try_again hold_code hold_subcode hold_reason).2
        out).hold_subcode = 0) := by
  have e1 : attrEq ATTR_RESULT ATTR_HOLD_REASON_CODE = false := by decide
  have e2 : attrEq ATTR_RESULT ATTR_HOLD_REASON_SUBCODE = false := by decide
  have e3 : attrEq ATTR_RESULT ATTR_HOLD_REASON = false := by decide
  have e4 : attrEq ATTR_HOLD_REASON_CODE ATTR_HOLD_REASON_SUBCODE = false := by decide
  have e5 : attrEq ATTR_HOLD_REASON_CODE ATTR_HOLD_REASON = false := by decide
  have e6 : attrEq ATTR_HOLD_REASON_SUBCODE ATTR_HOLD_REASON = false := by decide
  have e7 : attrEq ATTR_HOLD_REASON_CODE ATTR_RESULT = false := by decide
  have e8 : attrEq ATTR_HOLD_REASON_SUBCODE ATTR_RESULT = false := by decide
  have e9 : attrEq ATTR_HOLD_REASON ATTR_RESULT = false := by decide
  have e10 : attrEq ATTR_HOLD_REASON_SUBCODE ATTR_HOLD_REASON_CODE = false := by decide
  have e11 : attrEq ATTR_HOLD_REASON ATTR_HOLD_REASON_CODE = false := by decide
  have e12 : attrEq ATTR_HOLD_REASON ATTR_HOLD_REASON_SUBCODE = false := by decide
  have r1 : attrEq ATTR_RESULT ATTR_RESULT = true := by decide
  have r2 : attrEq ATTR_HOLD_REASON_CODE ATTR_HOLD_REASON_CODE = true := by decide
  have r3 : attrEq ATTR_HOLD_REASON_SUBCODE ATTR_HOLD_REASON_SUBCODE = true := by decide
  have r4 : attrEq ATTR_HOLD_REASON ATTR_HOLD_REASON = true := by decide
  cases success <;> cases try_again <;> cases hold_reason <;>
    simp [SendTransferAck, SendTransferAck.ad, GetTransferAck, ClassAd.Assign,
      ClassAd.LookupInteger, ClassAd.LookupString, ClassAd.Lookup, List.filter, List.find?,
      e1, e2, e3, e4, e5, e6, e7, e8, e9, e10, e11, e12, r1, r2, r3, r4]

/-! ## `ExpandFileTransferList` -/

mutual
/-- `ExpandFileTransferList` only appends to the list that it is given. -/
theorem ExpandFileTransferList.withStat_append :
    ∀ (st : FsNode) (src_path dest_dir : String) (max_depth : Int)
      (expanded_list : FileTransferList),
      ExpandFileTransferList.withStat st src_path dest_dir max_depth expanded_list =
        ((ExpandFileTransferList.withStat st src_path dest_dir max_depth []).1,
          expanded_list ++
            (ExpandFileTransferList.withStat st src_path dest_dir max_depth []).2)
  | .error, src_path, dest_dir, max_depth, expanded_list => by
    unfold ExpandFileTransferList.withStat
    by_cases h : (IsUrl src_path).isSome = true <;> simp [h]
  | .file mode size symlink domainsocket, src_path, dest_dir, max_depth, expanded_list => by
    unfold ExpandFileTransferList.withStat
    by_cases h : (IsUrl src_path).isSome = true <;> cases domainsocket <;> simp [h]
  | .dir mode symlink entries, src_path, dest_dir, max_depth, expanded_list => by
    unfold ExpandFileTransferList.withStat
    by_cases h : (IsUrl src_path).isSome = true
    · simp [h]
    · simp only [h]
      by_cases h1 : (!hasTrailingDelim src_path && symlink) = true
      · simp [h1]
      · simp only [h1]
        by_cases h2 : max_depth = 0
        · simp [h2]
        · simp only [h2]
          by_cases h3 : hasTrailingDelim src_path = true
          · simp only [h3, if_true, Bool.false_eq_true, if_false]
            rw [ExpandFileTransferList.scanDir_append entries]
            rw [ExpandFileTransferList.scanDir_append entries _ _ _ _ _ []]
            simp
          · simp only [h3, Bool.false_eq_true, if_false]
            rw [ExpandFileTransferList.scanDir_append entries]
            rw [ExpandFileTransferList.scanDir_append entries _ _ _ _ _ ([] ++ _)]
            simp
/-- The directory loop only appends, and its return value is the conjunction of the
return values of the entries. -/
theorem ExpandFileTransferList.scanDir_append :
    ∀ (entries : FsEntries) (src_path : String) (trailing_slash : Bool) (dest_dir : String)
      (max_depth : Int) (rc : Bool) (expanded_list : FileTransferList),
      ExpandFileTransferList.scanDir entries src_path trailing_slash dest_dir max_depth rc
          expanded_list =
        (rc && (ExpandFileTransferList.scanDir entries src_path trailing_slash dest_dir
            max_depth true []).1,
          expanded_list ++ contentsPlan entries src_path trailing_slash dest_dir max_depth)
  | .nil, src_path, trailing_slash, dest_dir, max_depth, rc, expanded_list => by
    simp [ExpandFileTransferList.scanDir, contentsPlan]
  | .cons file_in_dir node rest, src_path, trailing_slash, dest_dir, max_depth, rc,
      expanded_list => by
    unfold ExpandFileTransferList.scanDir contentsPlan
    simp only []
    rw [ExpandFileTransferList.withStat_append node]
    rw [ExpandFileTransferList.scanDir_append rest]
    rw [ExpandFileTransferList.scanDir_append rest _ _ _ _ _
      (ExpandFileTransferList.withStat node _ _ _ []).2]
    cases rc <;>
      cases (ExpandFileTransferList.withStat node
        (entryPath src_path trailing_slash file_in_dir) dest_dir max_depth []).1 <;>
      simp
end

theorem newTransferItem_of_not_url (src_path dest_dir : String) (h : IsUrl src_path = none) :
    newTransferItem src_path dest_dir = { m_src_name := src_path, m_dest_dir := dest_dir } := by
  simp [newTransferItem, FileTransferItem.setSrcName, h]

/-- C9: for a directory path given to `ExpandFileTransferList` (not a URL, not a symlink,
depth limit not 0): if the path ends with a directory separator, the list gains no item
for the directory itself, only the items of its entries, each entry planned with the
caller's destination directory; if it does not, the list gains the directory's own
item first and then the items of its entries, each entry planned with destination
directory `<dest_dir>/<basename of the directory>` (just the base name when `dest_dir`
is empty). -/
theorem C9_directory_expansion (stat : String → FsNode) (src_path dest_dir iwd : String)
    (mode : Nat) (entries : FsEntries) (max_depth : Int) (expanded_list : FileTransferList)
    (hurl : IsUrl src_path = none)
    (hstat : stat (full_src_path src_path iwd) = .dir mode false entries)
    (hdepth : max_depth ≠ 0) :
    (hasTrailingDelim src_path = true →
      (ExpandFileTransferList stat src_path dest_dir iwd max_depth expanded_list).2 =
        expanded_list ++ contentsPlan entries src_path true dest_dir (nextDepth max_depth)) ∧
    (hasTrailingDelim src_path = false →
      (ExpandFileTransferList stat src_path dest_dir iwd max_depth expanded_list).2 =
        expanded_list ++ directoryItem src_path dest_dir mode ::
          contentsPlan entries src_path false (subDestDir dest_dir src_path)
            (nextDepth max_depth)) ∧
    (dest_dir ≠ "" → subDestDir dest_dir src_path =
      dest_dir ++ String.singleton DIR_DELIM_CHAR ++ condor_basename src_path) ∧
    (dest_dir = "" → subDestDir dest_dir src_path = condor_basename src_path) := by
  refine ⟨?_, ?_, ?_, ?_⟩
  · intro ht
    unfold ExpandFileTransferList
    rw [hstat]
    unfold ExpandFileTransferList.withStat
    simp only [hurl, Option.isSome_none, Bool.false_eq_true, if_false, ht, Bool.not_true,
      Bool.false_and, hdepth, if_true]
    rw [ExpandFileTransferList.scanDir_append]
    rfl
  · intro ht
    unfold ExpandFileTransferList
    rw [hstat]
    unfold ExpandFileTransferList.withStat
    simp only [hurl, Option.isSome_none, Bool.false_eq_true, if_false, ht, Bool.not_false,
      Bool.and_false, hdepth]
    rw [ExpandFileTransferList.scanDir_append]
    simp only [newTransferItem_of_not_url _ _ hurl, directoryItem, nextDepth]
    simp
  · intro hd
    have : dest_dir.length > 0 := by
      cases dest_dir with
      | mk data =>
        cases data with
        | nil => exact absurd rfl hd
        | cons c cs => simp [String.length]
    simp [subDestDir, this]
  · intro hd
    subst hd
    simp [subDestDir]

theorem C9_directory_expansion_witness :
    IsUrl "d/" = none ∧ IsUrl "d" = none ∧
    ((ExpandFileTransferList scenarioStat "d/" "out" "/iwd" (-1) []).2.map
        (fun i => (i.srcName, i.destDir)) = [("d/c", "out")]) ∧
    ((ExpandFileTransferList scenarioStat "d" "out" "/iwd" (-1) []).2.map
        (fun i => (i.srcName, i.destDir)) = [("d", "out"), ("d/c", "out/d")]) :=
  have h1 := (C9_directory_expansion scenarioStat "d/" "out" "/iwd" 493
    (.cons "c" (.file 420 100 false false) .nil) (-1) [] (by decide) rfl (by decide)).1
    (by decide)
  have h2 := (C9_directory_expansion scenarioStat "d" "out" "/iwd" 493
    (.cons "c" (.file 420 100 false false) .nil) (-1) [] (by decide) rfl
    (by decide)).2.1 (by decide)
  ⟨by decide, by decide, by rw [h1]; decide, by rw [h2]; decide⟩

/-- C10 (as amended): for a working directory holding `a.txt` (1024 bytes), `b.bin` (10240
bytes) and a directory `d` that contains `c` (100 bytes), the input list
`a.txt, b.bin, d/` yields a plan of exactly 3 items whose sizes sum to 11364 bytes and
whose destination names in the receiver sandbox are `a.txt`, `b.bin` and `c`; sorting
leaves the plan as it is.  Naming the directory without the trailing separator gives
four items, the directory `d` and `d/c` among them. -/
theorem C10_small_input_fanout :
    scenarioPlan.length = 3 ∧
    scenarioPlan.map FileTransferItem.srcName = ["a.txt", "b.bin", "d/c"] ∧
    DoUpload.sandbox_size scenarioPlan = 11364 ∧
    IsStdSortOf scenarioPlan scenarioPlan ∧
    scenarioPlan.map (DoUpload.dest_filename none false) = ["a.txt", "b.bin", "c"] ∧
    scenarioPlanWholeDir.map (DoUpload.dest_filename none false)
      = ["a.txt", "b.bin", "d", "d/c"] := by
  refine ⟨by decide, by decide, by decide, ?_, by decide, by decide⟩
  unfold IsStdSortOf
  decide

/-- C10 as stated fails: the third destination name is `c`, not `d/c`, because a path
that ends with the separator transfers the contents of the directory into the
destination directory of the caller. -/
theorem C10_counterexample_destination :
    scenarioPlan.map (DoUpload.dest_filename none false) ≠ ["a.txt", "b.bin", "d/c"] ∧
    (scenarioPlan.map FileTransferItem.destDir = ["", "", ""]) := by
  decide

/-! ## The byte accounting of `DoUpload` -/

theorem DoUpload.flush_pending_total {st st1 : UploadState} {p : ItemPlan} {env : UploadReplies}
    (h : DoUpload.flush_pending st p env = some st1) : st1.total_bytes = st.total_bytes := by
  unfold DoUpload.flush_pending at h
  split at h
  · split at h
    · cases h
    · simp only [Option.some.injEq] at h
      subst h
      split
      · unfold DoUpload.record_batch_failure
        simp only []
        split <;> rfl
      · rfl
  · simp only [Option.some.injEq] at h
    subst h; rfl

theorem DoUpload.send_header_total {cfg : UploadConfig} {st st1 : UploadState} {p : ItemPlan}
    {env : UploadReplies} (h : DoUpload.send_header cfg st p env = some st1) :
    st1.total_bytes = st.total_bytes := by
  unfold DoUpload.send_header at h
  simp only [] at h
  split at h
  · cases h
  · split at h
    · cases h
    · split at h
      · cases h
      · simp only [Option.some.injEq] at h
        subst h; rfl

theorem DoUpload.go_ahead_total {cfg : UploadConfig} {st st1 : UploadState} {p : ItemPlan}
    {env : UploadReplies} (h : DoUpload.go_ahead cfg st p env = some st1) :
    st1.total_bytes = st.total_bytes := by
  unfold DoUpload.go_ahead at h
  split at h
  · simp only [] at h
    split at h
    · cases h
    · split at h
      · cases h
      · rename_i st2 hpeer
        have h2 : st2.total_bytes = st.total_bytes := by
          split at hpeer
          · split at hpeer
            · cases hpeer
            · simp only [Option.some.injEq] at hpeer
              subst hpeer; rfl
          · simp only [Option.some.injEq] at hpeer
            subst hpeer; rfl
        split at h
        · split at h
          · cases h
          · simp only [Option.some.injEq] at h
            subst h; exact h2
        · simp only [Option.some.injEq] at h
          subst h; exact h2
  · simp only [Option.some.injEq] at h
    subst h; rfl

theorem DoUpload.transfer_total {cfg : UploadConfig} {st st1 : UploadState} {p : ItemPlan}
    {env : UploadReplies} {rc e : Int} (h : DoUpload.transfer cfg st p env = some (st1, rc, e)) :
    st1.total_bytes = st.total_bytes := by
  unfold DoUpload.transfer at h
  simp only [] at h
  repeat' split at h
  all_goals (cases h; try rfl)

theorem DoUpload.handle_rc_total (cfg : UploadConfig) (st : UploadState) (p : ItemPlan)
    (env : UploadReplies) (rc e : Int) :
    (DoUpload.handle_rc cfg st p env rc e).state.total_bytes = st.total_bytes ∧
    (DoUpload.handle_rc cfg st p env rc e).state.bytes = st.bytes := by
  unfold DoUpload.handle_rc
  simp only []
  repeat' split
  all_goals exact ⟨rfl, rfl⟩

theorem DoUpload.account_total (cfg : UploadConfig) (st : UploadState) (p : ItemPlan)
    (env : UploadReplies) :
    (∀ st1, DoUpload.account cfg st p env = .next st1 →
      st1.total_bytes = st.total_bytes + st.bytes) ∧
    ((∀ st1, DoUpload.account cfg st p env ≠ .next st1) →
      (DoUpload.account cfg st p env).state.total_bytes = st.total_bytes) := by
  unfold DoUpload.account
  split
  · exact ⟨fun st1 h => (by cases h), fun _ => rfl⟩
  · refine ⟨fun st1 h => ?_, fun h => ?_⟩
    · cases h; rfl
    · exact absurd rfl (h _)

/-- With a non-negative limit of its own the sender hands `put_file` a non-negative
limit that, added to the total so far, stays within the larger of that total and the
sender's limit. -/
theorem DoUpload.this_file_max_bytes_bound (M peer total : Int) (hM : 0 ≤ M) :
    0 ≤ DoUpload.this_file_max_bytes M peer total ∧
    total + DoUpload.this_file_max_bytes M peer total ≤ max total M := by
  unfold DoUpload.this_file_max_bytes DoUpload.effective_max_upload_bytes
  simp only []
  split <;> split <;> (try split) <;> omega

/-- A round that sends a file under the byte limit leaves the total within the larger of
the old total and the sender's limit; a round that does not end normally leaves the
total as it was. -/
theorem DoUpload.send_total (cfg : UploadConfig) (st : UploadState) (p : ItemPlan)
    (env : UploadReplies) :
    (p.isLimitedFile = true → 0 ≤ cfg.MaxUploadBytes →
      (∀ m, 0 ≤ m → (env.put_file m).2 ≤ m) →
      (DoUpload.send cfg st p env).state.total_bytes ≤ max st.total_bytes cfg.MaxUploadBytes) ∧
    ((∀ st1, DoUpload.send cfg st p env ≠ .next st1) →
      (DoUpload.send cfg st p env).state.total_bytes = st.total_bytes) := by
  unfold DoUpload.send
  cases ht : DoUpload.transfer cfg st p env with
  | none =>
    simp only [UploadOutcome.state]
    exact ⟨fun _ _ _ => le_max_left _ _, fun _ => (by trivial)⟩
  | some r =>
    obtain ⟨st1, rc, e⟩ := r
    simp only []
    have htot := DoUpload.transfer_total ht
    have hrc := DoUpload.handle_rc_total cfg st1 p env rc e
    cases hh : DoUpload.handle_rc cfg st1 p env rc e with
    | next st2 =>
      rw [hh] at hrc
      simp only [UploadOutcome.state] at hrc
      simp only []
      have hacc := DoUpload.account_total cfg st2 p env
      refine ⟨fun hlim hM hput => ?_, fun hnn => ?_⟩
      · -- the bytes of the round are those that `put_file` reports
        have hb : st1.bytes = (env.put_file (DoUpload.this_file_max_bytes cfg.MaxUploadBytes
            st.peer_max_transfer_bytes st.total_bytes)).2 := by
          unfold ItemPlan.isLimitedFile at hlim
          simp only [Bool.and_eq_true, decide_eq_true_eq, Bool.not_eq_true', Bool.or_eq_false_iff]
            at hlim
          obtain ⟨⟨h1, h2, h3, h4⟩, h5, h6⟩ := hlim
          unfold DoUpload.transfer at ht
          simp only [h1, h2, h3, h4, h5, h6, if_false, Bool.or_self, Bool.false_eq_true] at ht
          cases ht; rfl
        have hbound := DoUpload.this_file_max_bytes_bound cfg.MaxUploadBytes
          st.peer_max_transfer_bytes st.total_bytes hM
        have hle := hput _ hbound.1
        cases ha : DoUpload.account cfg st2 p env with
        | next st3 =>
          have := hacc.1 st3 ha
          simp only [UploadOutcome.state]
          rw [this, hrc.1, hrc.2, htot, hb]
          omega
        | dropped st3 =>
          have := hacc.2 (by intro s hs; rw [ha] at hs; cases hs)
          rw [ha] at this
          simp only [UploadOutcome.state] at this ⊢
          rw [this, hrc.1, htot]
          exact le_max_left _ _
        | exited st3 a b c d e f g =>
          have := hacc.2 (by intro s hs; rw [ha] at hs; cases hs)
          rw [ha] at this
          simp only [UploadOutcome.state] at this ⊢
          rw [this, hrc.1, htot]
          exact le_max_left _ _
      · have := hacc.2 hnn
        rw [this, hrc.1, htot]
    | dropped st2 =>
      rw [hh] at hrc
      simp only [UploadOutcome.state] at hrc ⊢
      rw [hrc.1, htot]
      exact ⟨fun _ _ _ => le_max_left _ _, fun _ => (by trivial)⟩
    | exited st2 a b c d e f g =>
      rw [hh] at hrc
      simp only [UploadOutcome.state] at hrc ⊢
      rw [hrc.1, htot]
      exact ⟨fun _ _ _ => le_max_left _ _, fun _ => (by trivial)⟩

/-- The same for a whole round of the loop. -/
theorem DoUpload.item_total (cfg : UploadConfig) (st : UploadState) (fileitem : FileTransferItem)
    (env : UploadReplies) :
    (DoUpload.counts_unlimited cfg fileitem = false → 0 ≤ cfg.MaxUploadBytes →
      (∀ m, 0 ≤ m → (env.put_file m).2 ≤ m) →
      (DoUpload.item cfg st fileitem env).state.total_bytes
        ≤ max st.total_bytes cfg.MaxUploadBytes) ∧
    ((∀ st1, DoUpload.item cfg st fileitem env ≠ .next st1) →
      (DoUpload.item cfg st fileitem env).state.total_bytes = st.total_bytes) := by
  unfold DoUpload.item DoUpload.counts_unlimited
  simp only []
  split
  · exact ⟨fun _ _ _ => le_max_left _ _, fun _ => (by trivial)⟩
  split
  · exact ⟨fun _ _ _ => le_max_left _ _, fun _ => (by trivial)⟩
  cases h1 : DoUpload.flush_pending st (DoUpload.plan cfg (DoUpload.with_signed_url cfg fileitem))
      env with
  | none => exact ⟨fun _ _ _ => le_max_left _ _, fun _ => (by trivial)⟩
  | some st1 =>
    simp only []
    have e1 := DoUpload.flush_pending_total h1
    cases h2 : DoUpload.send_header cfg st1
        (DoUpload.plan cfg (DoUpload.with_signed_url cfg fileitem)) env with
    | none =>
      simp only [UploadOutcome.state, e1]
      exact ⟨fun _ _ _ => le_max_left _ _, fun _ => (by trivial)⟩
    | some st2 =>
      simp only []
      have e2 := DoUpload.send_header_total h2
      cases h3 : DoUpload.go_ahead cfg st2
          (DoUpload.plan cfg (DoUpload.with_signed_url cfg fileitem)) env with
      | none =>
        simp only [UploadOutcome.state, e2, e1]
        exact ⟨fun _ _ _ => le_max_left _ _, fun _ => (by trivial)⟩
      | some st3 =>
        simp only []
        have e3 := DoUpload.go_ahead_total h3
        have hs := DoUpload.send_total cfg st3
          (DoUpload.plan cfg (DoUpload.with_signed_url cfg fileitem)) env
        have e : st3.total_bytes = st.total_bytes := by rw [e3, e2, e1]
        rw [e] at hs
        refine ⟨fun hl hM hput => hs.1 (by simpa using hl) hM hput, hs.2⟩

/-- The total that the loop counts stays within the larger of the initial total and the
sender's limit, plus the bytes that are counted without a limit. -/
theorem DoUpload.loop_total (cfg : UploadConfig) (hM : 0 ≤ cfg.MaxUploadBytes) :
    ∀ (plan : List (FileTransferItem × UploadReplies)) (st : UploadState),
      (∀ x ∈ plan, ∀ m, 0 ≤ m → (x.2.put_file m).2 ≤ m) →
      (DoUpload.loop cfg st plan).state.total_bytes
        ≤ max st.total_bytes cfg.MaxUploadBytes + DoUpload.unlimited_bytes cfg st plan := by
  intro plan
  induction plan with
  | nil =>
    intro st _
    simp only [DoUpload.loop, UploadOutcome.state, DoUpload.unlimited_bytes, add_zero]
    exact le_max_left _ _
  | cons x rest ih =>
    intro st hput
    obtain ⟨fileitem, env⟩ := x
    have hx := hput (fileitem, env) (List.mem_cons_self _ _)
    have hrest : ∀ x ∈ rest, ∀ m, 0 ≤ m → (x.2.put_file m).2 ≤ m :=
      fun x hxm => hput x (List.mem_cons_of_mem _ hxm)
    have hit := DoUpload.item_total cfg st fileitem env
    unfold DoUpload.loop DoUpload.unlimited_bytes
    cases h : DoUpload.item cfg st fileitem env with
    | next st1 =>
      simp only []
      have := ih st1 hrest
      rw [h] at hit
      simp only [UploadOutcome.state] at hit
      by_cases hu : DoUpload.counts_unlimited cfg fileitem = true
      · simp only [hu, if_true]
        have hm : max st1.total_bytes cfg.MaxUploadBytes
            ≤ max st.total_bytes cfg.MaxUploadBytes + max (st1.total_bytes - st.total_bytes) 0 := by
          omega
        omega
      · have hu2 : DoUpload.counts_unlimited cfg fileitem = false := by simpa using hu
        simp only [hu2, Bool.false_eq_true, if_false, zero_add]
        have h1 := hit.1 hu2 hM hx
        have hm : max st1.total_bytes cfg.MaxUploadBytes
            ≤ max st.total_bytes cfg.MaxUploadBytes := by omega
        omega
    | dropped st1 =>
      simp only []
      have := hit.2 (by intro s hs; rw [h] at hs; cases hs)
      rw [h] at this
      simp only [UploadOutcome.state] at this ⊢
      rw [this]; simp
    | exited st1 a b c d e f g =>
      simp only []
      have := hit.2 (by intro s hs; rw [h] at hs; cases hs)
      rw [h] at this
      simp only [UploadOutcome.state] at this ⊢
      rw [this]; simp

theorem DoUpload.unlimited_bytes_zero (cfg : UploadConfig) :
    ∀ (plan : List (FileTransferItem × UploadReplies)) (st : UploadState),
      (∀ x ∈ plan, DoUpload.counts_unlimited cfg x.1 = false) →
      DoUpload.unlimited_bytes cfg st plan = 0 := by
  intro plan
  induction plan with
  | nil => intro st _; rfl
  | cons x rest ih =>
    intro st h
    obtain ⟨fileitem, env⟩ := x
    unfold DoUpload.unlimited_bytes
    have hx : DoUpload.counts_unlimited cfg fileitem = false :=
      h (fileitem, env) (List.mem_cons_self _ _)
    cases DoUpload.item cfg st fileitem env with
    | next st1 =>
      simp only [hx, Bool.false_eq_true, if_false, zero_add]
      exact ih st1 (fun x hxm => h x (List.mem_cons_of_mem _ hxm))
    | dropped st1 => rfl
    | exited st1 a b c d e f g => rfl

theorem put_file_within_limit (size : Int) : ∀ m, 0 ≤ m → (put_file size m).2 ≤ m := by
  intro m hm
  unfold put_file
  split
  · exact le_refl _
  · rename_i h
    simp only [not_and, not_lt] at h
    exact h hm

/-- C7 (as amended): in an upload session with sender limit `M >= 0` (and any peer limit), if
each file send transmits no more than the byte limit it is given, the total that
`DoUpload` counts never exceeds `M` plus the bytes of the rounds that are counted
without a limit (the length of each URL sent, the size of the mode of each directory,
delegated credentials, result ads of plug-in uploads); for a plan of plain files it
never exceeds `M`. -/
theorem C7_total_bytes_bound (cfg : UploadConfig)
    (plan : List (FileTransferItem × UploadReplies))
    (hM : 0 ≤ cfg.MaxUploadBytes)
    (hput : ∀ x ∈ plan, ∀ m, 0 ≤ m → (x.2.put_file m).2 ≤ m) :
    (DoUpload.loop cfg {} plan).state.total_bytes
      ≤ cfg.MaxUploadBytes + DoUpload.unlimited_bytes cfg {} plan ∧
    ((∀ x ∈ plan, DoUpload.counts_unlimited cfg x.1 = false) →
      (DoUpload.loop cfg {} plan).state.total_bytes ≤ cfg.MaxUploadBytes) := by
  have h := DoUpload.loop_total cfg hM plan {} hput
  have h0 : max ({} : UploadState).total_bytes cfg.MaxUploadBytes = cfg.MaxUploadBytes := by
    show max 0 cfg.MaxUploadBytes = cfg.MaxUploadBytes
    omega
  rw [h0] at h
  refine ⟨h, fun hall => ?_⟩
  rw [DoUpload.unlimited_bytes_zero cfg plan {} hall] at h
  omega

theorem C7_total_bytes_bound_witness :
    0 ≤ limitedConfig.MaxUploadBytes ∧
    (DoUpload.loop limitedConfig {} [(bigFile, bigFileReplies)]).state.total_bytes ≤ 4096 :=
  ⟨by decide,
    (C7_total_bytes_bound limitedConfig [(bigFile, bigFileReplies)] (by decide)
      (by
        intro x hx m hm
        simp only [List.mem_singleton] at hx
        subst hx
        exact put_file_within_limit 16384 m hm)).2
      (by
        intro x hx
        simp only [List.mem_singleton] at hx
        subst hx
        decide)⟩


/-- When the go-ahead exchange of a round succeeds, it leaves the pending batch alone. -/
theorem DoUpload.go_ahead_some (cfg : UploadConfig) (st : UploadState) (p : ItemPlan)
    (env : UploadReplies) (h4 : env.eom_before_go_ahead = true)
    (h5 : ∃ r, env.receive_go_ahead = some r) (h6 : ∃ r, env.obtain_go_ahead = some r) :
    ∃ st1, DoUpload.go_ahead cfg st p env = some st1 ∧
      st1.currentUploadPlugin = st.currentUploadPlugin ∧
      st1.currentUploadDeferred = st.currentUploadDeferred := by
  obtain ⟨⟨always, mtb⟩, h5⟩ := h5
  obtain ⟨r6, h6⟩ := h6
  unfold DoUpload.go_ahead
  cases cfg.PeerDoesGoAhead with
  | false => exact ⟨st, rfl, rfl, rfl⟩
  | true =>
    have hno : ¬ ((p.multifilePluginPath = "" ∨ st.currentUploadDeferred = 0) ∧
        env.eom_before_go_ahead = false) := by
      rintro ⟨_, hb⟩
      rw [h4] at hb; cases hb
    simp only [if_true, hno, if_false, h5, h6]
    cases hp : st.peer_goes_ahead_always <;> cases hi : st.I_go_ahead_always <;>
      simp only [Bool.not_true, Bool.not_false, Bool.false_eq_true, if_true, if_false, hi] <;>
      exact ⟨_, rfl, rfl, rfl⟩

/-- The transfer of a source URL that the stream accepts counts the length of the URL. -/
theorem DoUpload.transfer_source_url (cfg : UploadConfig) (st : UploadState) (p : ItemPlan)
    (env : UploadReplies) (hcmd : p.file_command = TransferCommand.DownloadUrl)
    (h7 : env.url_sent = true) :
    DoUpload.transfer cfg st p env =
      some ({ st with bytes := p.fullname.length }, 0, env.the_error) := by
  unfold DoUpload.transfer
  have hc1 : ¬ TransferCommand.DownloadUrl = TransferCommand.Other := by decide
  have hc2 : ¬ TransferCommand.DownloadUrl = TransferCommand.XferX509 := by decide
  simp only [hcmd, hc1, hc2, if_false, if_true, h7]

/-- The part of a round from the byte limit on, for a source URL that the stream accepts:
the length of the URL is added to the total. -/
theorem DoUpload.send_source_url (cfg : UploadConfig) (st : UploadState) (p : ItemPlan)
    (env : UploadReplies) (hcmd : p.file_command = TransferCommand.DownloadUrl)
    (h7 : env.url_sent = true) (h8 : env.eom_after = true) :
    ∃ st1, DoUpload.send cfg st p env = .next st1 ∧
      st1.total_bytes = st.total_bytes + (p.fullname.length : Int) ∧
      st1.currentUploadPlugin = st.currentUploadPlugin := by
  unfold DoUpload.send
  rw [DoUpload.transfer_source_url cfg st p env hcmd h7]
  simp only []
  unfold DoUpload.handle_rc
  simp only [lt_self_iff_false, if_false]
  unfold DoUpload.account
  have hno : ¬ (st.currentUploadDeferred = 0 ∧ env.eom_after = false) := by
    rintro ⟨_, hb⟩
    rw [h8] at hb; cases hb
  rw [if_neg hno]
  exact ⟨_, rfl, rfl, rfl⟩

/-- The round of a source URL, when nothing on the stream fails and no batch is pending,
adds the length of the URL to the total, whatever the byte limits are. -/
theorem DoUpload.item_source_url (cfg : UploadConfig) (st : UploadState)
    (fileitem : FileTransferItem) (env : UploadReplies)
    (hmap : cfg.s3_url_map = []) (hskip : cfg.skip_files = [])
    (hsrc : fileitem.isSrcUrl = true) (hdst : fileitem.isDestUrl = false)
    (hdir : fileitem.is_directory = false)
    (hen : cfg.ENABLE_URL_TRANSFERS = true)
    (hplug : st.currentUploadPlugin = "")
    (h1 : env.header_sent = true) (h2 : env.crypto_set = true) (h3 : env.filename_sent = true)
    (h4 : env.eom_before_go_ahead = true)
    (h5 : ∃ r, env.receive_go_ahead = some r) (h6 : ∃ r, env.obtain_go_ahead = some r)
    (h7 : env.url_sent = true) (h8 : env.eom_after = true) :
    ∃ st1, DoUpload.item cfg st fileitem env = .next st1 ∧
      st1.total_bytes = st.total_bytes + fileitem.srcName.length ∧
      st1.currentUploadPlugin = "" := by
  obtain ⟨r5, h5⟩ := h5
  obtain ⟨r6, h6⟩ := h6
  have hsigned : DoUpload.with_signed_url cfg fileitem = fileitem := by
    unfold DoUpload.with_signed_url
    rw [hmap]; rfl
  have hplan_cmd : (DoUpload.plan cfg fileitem).file_command = TransferCommand.DownloadUrl := by
    unfold DoUpload.plan DoUpload.command_before_mkdir
    simp [hdir, hsrc, hdst]
  have hplan_path : (DoUpload.plan cfg fileitem).multifilePluginPath = "" := by
    unfold DoUpload.plan DoUpload.multifilePluginPath
    simp [hdst]
  have hplan_full : (DoUpload.plan cfg fileitem).fullname = fileitem.srcName := by
    unfold DoUpload.plan DoUpload.fullname
    simp [hsrc]
  unfold DoUpload.item
  simp only [hsigned, hskip, List.contains_nil, Bool.false_eq_true, if_false, hsrc, hen,
    Bool.not_true, Bool.and_false]
  -- no batch is pending
  have hflush : DoUpload.flush_pending st (DoUpload.plan cfg fileitem) env = some st := by
    unfold DoUpload.flush_pending
    simp [hplug]
  rw [hflush]
  simp only []
  -- the header
  cases hh : DoUpload.send_header cfg st (DoUpload.plan cfg fileitem) env with
  | none =>
    exfalso
    unfold DoUpload.send_header at hh
    simp [h1, h2, h3] at hh
  | some st2 =>
    have e2 := DoUpload.send_header_total hh
    have p2 : st2.currentUploadPlugin = "" ∧ st2.currentUploadDeferred = st.currentUploadDeferred := by
      unfold DoUpload.send_header at hh
      simp only [h1, h2, h3] at hh
      simp at hh
      subst hh
      exact ⟨hplug, rfl⟩
    simp only []
    obtain ⟨st3, hg, p3a, p3b⟩ := DoUpload.go_ahead_some cfg st2 (DoUpload.plan cfg fileitem) env
      h4 ⟨r5, h5⟩ ⟨r6, h6⟩
    rw [hg]
    have e3 := DoUpload.go_ahead_total hg
    have p3 : st3.currentUploadPlugin = "" ∧
        st3.currentUploadDeferred = st.currentUploadDeferred :=
      ⟨p3a.trans p2.1, p3b.trans p2.2⟩
    simp only []
    obtain ⟨st4, hs, t4, q4⟩ := DoUpload.send_source_url cfg st3 (DoUpload.plan cfg fileitem) env
      hplan_cmd h7 h8
    refine ⟨st4, hs, ?_, q4.trans p3.1⟩
    rw [t4, hplan_full, e3, e2]

/-- A plan of `n` copies of a source URL of 100 characters, with no failure on the
stream, is counted as `100 * n` bytes. -/
theorem DoUpload.loop_urlPlan (n : Nat) :
    ∀ st : UploadState, st.currentUploadPlugin = "" →
      ∃ st1, DoUpload.loop limitedConfig st (List.replicate n (urlItem, {})) = .next st1 ∧
        st1.total_bytes = st.total_bytes + 100 * n ∧ st1.currentUploadPlugin = "" := by
  induction n with
  | zero =>
    intro st h
    exact ⟨st, rfl, by simp, h⟩
  | succ k ih =>
    intro st h
    obtain ⟨st1, hr, ht, hp⟩ := DoUpload.item_source_url limitedConfig st urlItem {} rfl rfl
      (by decide) (by decide) (by decide) rfl h rfl rfl rfl rfl ⟨_, rfl⟩ ⟨_, rfl⟩ rfl rfl
    obtain ⟨st2, hl, ht2, hp2⟩ := ih st1 hp
    refine ⟨st2, ?_, ?_, hp2⟩
    · rw [List.replicate_succ]
      unfold DoUpload.loop
      rw [hr]
      exact hl
    · rw [ht2, ht]
      have : (urlItem.srcName.length : Int) = 100 := by decide
      rw [this]
      push_cast
      ring
/-- C7 as stated fails: with a sender limit of 4096 bytes a plan of 700 source URLs of 100
characters each is counted as 70000 bytes, more than 4096 + 65536, although no file
send exceeds the limit it is given (there is none): the length of a URL is added to
the total without regard to the limit. -/
theorem C7_counterexample_urls :
    limitedConfig.MaxUploadBytes = 4096 ∧
    urlPlan.length = 700 ∧ longUrl.length = 100 ∧
    (∀ x ∈ urlPlan, ∀ m : Int, 0 ≤ m → (x.2.put_file m).2 ≤ m) ∧
    (DoUpload.loop limitedConfig {} urlPlan).state.total_bytes = 70000 ∧
    ¬ ((DoUpload.loop limitedConfig {} urlPlan).state.total_bytes ≤ 4096 + 65536) := by
  have h : (DoUpload.loop limitedConfig {} urlPlan).state.total_bytes = 70000 := by
    obtain ⟨st1, hl, ht, _⟩ := DoUpload.loop_urlPlan 700 {} rfl
    unfold urlPlan
    rw [hl, UploadOutcome.state, ht]
    rfl
  refine ⟨rfl, ?_, by decide, ?_, h, ?_⟩
  · unfold urlPlan
    exact List.length_replicate 700 _
  · intro x hx m hm
    have : x = (urlItem, {}) := List.eq_of_mem_replicate hx
    subst this
    exact hm
  · rw [h]; decide

/-! ## The limit that `DoUpload` enforces -/

/-- A file that exceeds the limit is recorded as a failure that does not end the loop. -/
theorem DoUpload.send_exceeded (cfg : UploadConfig) (st : UploadState) (p : ItemPlan)
    (env : UploadReplies) (hlim : p.isLimitedFile = true)
    (hrc : (env.put_file (DoUpload.this_file_max_bytes cfg.MaxUploadBytes
      st.peer_max_transfer_bytes st.total_bytes)).1 = PUT_FILE_MAX_BYTES_EXCEEDED)
    (heom : st.currentUploadDeferred ≠ 0 ∨ env.eom_after = true) :
    ∃ st1, DoUpload.send cfg st p env = .next st1 ∧
      st1.try_again = false ∧
      st1.hold_code = DoUpload.exceeded_hold_code cfg.MaxUploadBytes st.peer_max_transfer_bytes ∧
      (st.first_failed_file_transfer_happened = false →
        st1.first_failed_file_transfer_happened = true ∧
        st1.first_failed_try_again = false ∧
        st1.first_failed_hold_code =
          DoUpload.exceeded_hold_code cfg.MaxUploadBytes st.peer_max_transfer_bytes) ∧
      (st.first_failed_file_transfer_happened = true →
        st1.first_failed_hold_code = st.first_failed_hold_code ∧
        st1.first_failed_try_again = st.first_failed_try_again) := by
  unfold ItemPlan.isLimitedFile at hlim
  simp only [Bool.and_eq_true, decide_eq_true_eq, Bool.not_eq_true', Bool.or_eq_false_iff]
    at hlim
  obtain ⟨⟨h1, h2, h3, h4⟩, h5, h6⟩ := hlim
  have hneg : PUT_FILE_MAX_BYTES_EXCEEDED < 0 := by decide
  have hne : ¬ PUT_FILE_MAX_BYTES_EXCEEDED = PUT_FILE_OPEN_FAILED := by decide
  have hdef : ¬ (st.currentUploadDeferred = 0 ∧ env.eom_after = false) := by
    rintro ⟨ha, hb⟩
    rcases heom with h | h
    · exact h ha
    · rw [hb] at h; cases h
  unfold DoUpload.send DoUpload.transfer
  simp only [h1, h2, h3, h4, h5, h6, if_false, Bool.or_self, Bool.false_eq_true, hrc]
  unfold DoUpload.handle_rc DoUpload.exceeded_hold_code
  simp only [hneg, if_true, or_true, hne, if_false]
  by_cases hf : st.first_failed_file_transfer_happened = false
  · simp only [hf, if_true]
    unfold DoUpload.account
    rw [if_neg hdef]
    refine ⟨_, rfl, rfl, rfl, fun _ => ⟨rfl, rfl, rfl⟩, fun h => (by cases h)⟩
  · have hf2 : st.first_failed_file_transfer_happened = true := by simpa using hf
    simp only [hf2, Bool.true_eq_false, if_false]
    unfold DoUpload.account
    rw [if_neg hdef]
    refine ⟨_, rfl, rfl, rfl, fun h => h.elim, fun _ => ⟨rfl, rfl⟩⟩

/-- C8: for every pair of limits (the sender's `MaxUploadBytes` and the receiver's echoed
limit, negative meaning unlimited) the limit that `DoUpload` enforces is the smaller of
the non-negative ones, and no limit when both are negative; a file that exceeds it is
recorded with `try_again = false` and hold code `MaxTransferOutputSizeExceeded` exactly
when the limit in force is the receiver's (it is non-negative and the sender's own is
unlimited or larger), and `MaxTransferInputSizeExceeded` when it is the sender's own.
A receiver limit of 4 KiB against an unlimited sender that offers a file of 16 KiB
ends the session with `MaxTransferOutputSizeExceeded`. -/
theorem C8_limit_in_force (cfg : UploadConfig) (st : UploadState) (p : ItemPlan)
    (env : UploadReplies) :
    (cfg.MaxUploadBytes < 0 → st.peer_max_transfer_bytes < 0 →
      DoUpload.effective_max_upload_bytes cfg.MaxUploadBytes st.peer_max_transfer_bytes < 0 ∧
      DoUpload.this_file_max_bytes cfg.MaxUploadBytes st.peer_max_transfer_bytes
        st.total_bytes = -1) ∧
    (0 ≤ cfg.MaxUploadBytes → st.peer_max_transfer_bytes < 0 →
      DoUpload.effective_max_upload_bytes cfg.MaxUploadBytes st.peer_max_transfer_bytes
        = cfg.MaxUploadBytes) ∧
    (cfg.MaxUploadBytes < 0 → 0 ≤ st.peer_max_transfer_bytes →
      DoUpload.effective_max_upload_bytes cfg.MaxUploadBytes st.peer_max_transfer_bytes
        = st.peer_max_transfer_bytes) ∧
    (0 ≤ cfg.MaxUploadBytes → 0 ≤ st.peer_max_transfer_bytes →
      DoUpload.effective_max_upload_bytes cfg.MaxUploadBytes st.peer_max_transfer_bytes
        = min cfg.MaxUploadBytes st.peer_max_transfer_bytes) ∧
    (DoUpload.using_peer_max_transfer_bytes cfg.MaxUploadBytes st.peer_max_transfer_bytes = true ↔
      (0 ≤ st.peer_max_transfer_bytes ∧
        (cfg.MaxUploadBytes < 0 ∨ st.peer_max_transfer_bytes < cfg.MaxUploadBytes))) ∧
    (p.isLimitedFile = true →
      (env.put_file (DoUpload.this_file_max_bytes cfg.MaxUploadBytes
        st.peer_max_transfer_bytes st.total_bytes)).1 = PUT_FILE_MAX_BYTES_EXCEEDED →
      (st.currentUploadDeferred ≠ 0 ∨ env.eom_after = true) →
      ∃ st1, DoUpload.send cfg st p env = .next st1 ∧
        st1.try_again = false ∧
        (DoUpload.using_peer_max_transfer_bytes cfg.MaxUploadBytes st.peer_max_transfer_bytes
            = true →
          st1.hold_code = CONDOR_HOLD_CODE_MaxTransferOutputSizeExceeded) ∧
        (DoUpload.using_peer_max_transfer_bytes cfg.MaxUploadBytes st.peer_max_transfer_bytes
            = false →
          st1.hold_code = CONDOR_HOLD_CODE_MaxTransferInputSizeExceeded) ∧
        (st.first_failed_file_transfer_happened = false →
          st1.first_failed_file_transfer_happened = true ∧
          st1.first_failed_try_again = false ∧
          st1.first_failed_hold_code = st1.hold_code)) ∧
    (DoUpload.run quotaConfig {} [(bigFile, bigFileReplies)] 1 "").verdict
      = some (false, false, CONDOR_HOLD_CODE_MaxTransferOutputSizeExceeded) := by
  refine ⟨?_, ?_, ?_, ?_, ?_, ?_, by decide⟩
  · intro h1 h2
    unfold DoUpload.this_file_max_bytes DoUpload.effective_max_upload_bytes
    simp only []
    constructor <;> (repeat' split) <;> omega
  · intro h1 h2
    unfold DoUpload.effective_max_upload_bytes
    split <;> omega
  · intro h1 h2
    unfold DoUpload.effective_max_upload_bytes
    split <;> omega
  · intro h1 h2
    unfold DoUpload.effective_max_upload_bytes
    split
    · rename_i h
      omega
    · rename_i h
      have : cfg.MaxUploadBytes ≤ st.peer_max_transfer_bytes := by
        by_contra hc
        apply h
        exact ⟨h2, Or.inl (by omega)⟩
      omega
  · unfold DoUpload.using_peer_max_transfer_bytes
    simp only [decide_eq_true_eq, ge_iff_le]
    constructor
    · rintro ⟨a, b⟩
      exact ⟨a, b.symm⟩
    · rintro ⟨a, b⟩
      exact ⟨a, b.symm⟩
  · intro hlim hrc heom
    obtain ⟨st1, h1, h2, h3, h4, _⟩ := DoUpload.send_exceeded cfg st p env hlim hrc heom
    refine ⟨st1, h1, h2, ?_, ?_, ?_⟩
    · intro hu
      rw [h3]; unfold DoUpload.exceeded_hold_code; simp [hu]
    · intro hu
      rw [h3]; unfold DoUpload.exceeded_hold_code; simp [hu]
    · intro hf
      obtain ⟨a, b, c⟩ := h4 hf
      exact ⟨a, b, by rw [c, h3]⟩

theorem C8_limit_in_force_witness :
    (DoUpload.plan quotaConfig bigFile).isLimitedFile = true ∧
    DoUpload.using_peer_max_transfer_bytes quotaConfig.MaxUploadBytes 4096 = true ∧
    ∃ st1, DoUpload.send quotaConfig { peer_max_transfer_bytes := 4096 }
        (DoUpload.plan quotaConfig bigFile) bigFileReplies = .next st1 ∧
      st1.try_again = false ∧
      st1.hold_code = CONDOR_HOLD_CODE_MaxTransferOutputSizeExceeded ∧
      st1.first_failed_hold_code = CONDOR_HOLD_CODE_MaxTransferOutputSizeExceeded :=
  have h := (C8_limit_in_force quotaConfig { peer_max_transfer_bytes := 4096 }
    (DoUpload.plan quotaConfig bigFile) bigFileReplies).2.2.2.2.2.1
    (by decide) (by decide) (Or.inr rfl)
  ⟨by decide, by decide,
    h.elim (fun st1 hs => ⟨st1, hs.1, hs.2.1, hs.2.2.1 (by decide),
      (hs.2.2.2.2 rfl).2.2.trans (hs.2.2.1 (by decide))⟩)⟩

/-! ## Rejected names in `DoDownload` -/

theorem isPrefixOf_append (pat a b : List Char) (h : pat.isPrefixOf a = true) :
    pat.isPrefixOf (a ++ b) = true := by
  rw [List.isPrefixOf_iff_prefix] at h ⊢
  exact h.trans (List.prefix_append a b)

theorem hasSubstring_nil_pat (a : List Char) : hasSubstring [] a = true := by
  cases a <;> simp [hasSubstring]

theorem hasSubstring_append_right (pat a b : List Char) (h : hasSubstring pat b = true) :
    hasSubstring pat (a ++ b) = true := by
  induction a with
  | nil => simpa using h
  | cons c cs ih =>
    show hasSubstring pat (c :: (cs ++ b)) = true
    unfold hasSubstring
    simp [ih]

theorem hasSubstring_append_left (pat a b : List Char) (h : hasSubstring pat a = true) :
    hasSubstring pat (a ++ b) = true := by
  induction a with
  | nil =>
    have hp : pat = [] := by
      cases pat with
      | nil => rfl
      | cons p ps => simp [hasSubstring] at h
    subst hp
    exact hasSubstring_nil_pat _
  | cons c cs ih =>
    unfold hasSubstring at h
    rw [Bool.or_eq_true] at h
    show hasSubstring pat (c :: (cs ++ b)) = true
    unfold hasSubstring
    rw [Bool.or_eq_true]
    rcases h with h | h
    · exact Or.inl (isPrefixOf_append pat (c :: cs) b h)
    · exact Or.inr (ih h)

theorem mentions_append_left (a b : String) (h : mentionsIllegalPath a) :
    mentionsIllegalPath (a ++ b) := by
  unfold mentionsIllegalPath at h ⊢
  rw [String.data_append]
  exact hasSubstring_append_left _ _ _ h

theorem mentions_append_right (a b : String) (h : mentionsIllegalPath b) :
    mentionsIllegalPath (a ++ b) := by
  unfold mentionsIllegalPath at h ⊢
  rw [String.data_append]
  exact hasSubstring_append_right _ _ _ h

theorem mentions_illegalPathText (filename : String) :
    mentionsIllegalPath (illegalPathText filename) := by
  unfold illegalPathText
  apply mentions_append_left
  decide

theorem held_of_verdictStep {st st1 : DownloadState} (h : st.held) (hs : verdictStep st st1) :
    st1.held := by
  rcases hs with ⟨a, b, c⟩ | hs
  · exact ⟨a.trans h.1, b.trans h.2.1, c.trans h.2.2⟩
  · exact hs

theorem verdictStep_refl (st : DownloadState) : verdictStep st st := Or.inl ⟨rfl, rfl, rfl⟩

theorem verdictStep_trans {a b c : DownloadState} (h1 : verdictStep a b) (h2 : verdictStep b c) :
    verdictStep a c := by
  rcases h2 with ⟨x, y, z⟩ | h2
  · rcases h1 with ⟨x1, y1, z1⟩ | h1
    · exact Or.inl ⟨x.trans x1, y.trans y1, z.trans z1⟩
    · exact Or.inr ⟨x.trans h1.1, y.trans h1.2.1, z.trans h1.2.2⟩
  · exact Or.inr h2

/-- A rejected name sets the verdict, appends the text to the hold reason and turns the
name into the null file. -/
theorem DoDownload.check_path_illegal (cfg : DownloadConfig) (st : DownloadState)
    (filename : String) (h : LegalPathInSandbox filename cfg.Iwd = false) :
    (DoDownload.check_path cfg st filename).1.held ∧
    (DoDownload.check_path cfg st filename).1.error_buf
      = st.error_buf ++ illegalPathText filename ∧
    (DoDownload.check_path cfg st filename).2 = NULL_FILE := by
  unfold DoDownload.check_path
  rw [if_pos (by simp [h])]
  exact ⟨⟨rfl, rfl, rfl⟩, rfl, rfl⟩

theorem DoDownload.check_path_step (cfg : DownloadConfig) (st : DownloadState)
    (filename : String) :
    verdictStep st (DoDownload.check_path cfg st filename).1 ∧
    (mentionsIllegalPath st.error_buf →
      mentionsIllegalPath (DoDownload.check_path cfg st filename).1.error_buf) := by
  unfold DoDownload.check_path
  split
  · exact ⟨Or.inr ⟨rfl, rfl, rfl⟩, fun h => mentions_append_left _ _ h⟩
  · exact ⟨verdictStep_refl _, fun h => h⟩

theorem DoDownload.resolve_step (cfg : DownloadConfig) (st : DownloadState) (c : Int)
    (filename : String) :
    verdictStep st (DoDownload.resolve cfg st c filename).1 ∧
    (filename = NULL_FILE → DoDownload.resolve cfg st c filename = (st, NULL_FILE)) := by
  unfold DoDownload.resolve
  simp only []
  refine ⟨?_, fun h => by simp [h]⟩
  repeat' split
  all_goals first
    | exact verdictStep_refl _
    | exact Or.inr ⟨rfl, rfl, rfl⟩

theorem DoDownload.go_ahead_step {cfg : DownloadConfig} {st st1 : DownloadState}
    {frame : DownloadFrame} (h : DoDownload.go_ahead cfg st frame = some st1) :
    verdictStep st st1 := by
  unfold DoDownload.go_ahead at h
  split at h
  · split at h
    · cases h
    · simp only [] at h
      split at h
      · cases h
      · rename_i st2 hmine
        have h2 : verdictStep st st2 := by
          split at hmine
          · split at hmine
            · cases hmine
            · cases hmine; exact verdictStep_refl _
          · cases hmine; exact verdictStep_refl _
        split at h
        · split at h
          · cases h
          · cases h; exact verdictStep_trans h2 (Or.inl ⟨rfl, rfl, rfl⟩)
        · cases h; exact h2
  · cases h; exact verdictStep_refl _

theorem DoDownload.reuse_info_request_step (cfg : DownloadConfig) (st : DownloadState)
    (frame : DownloadFrame) :
    verdictStep st (DoDownload.reuse_info_request cfg st frame).1 := by
  unfold DoDownload.reuse_info_request
  simp only []
  repeat' split
  all_goals exact Or.inl ⟨rfl, rfl, rfl⟩

theorem DoDownload.receive_step {cfg : DownloadConfig} {st st1 : DownloadState}
    {frame : DownloadFrame} {c : Int} {filename fullname : String} {bytes : Int}
    (h : DoDownload.receive cfg st frame c filename fullname = some (st1, bytes)) :
    verdictStep st st1 := by
  unfold DoDownload.receive at h
  simp only [] at h
  repeat' split at h
  all_goals first
    | (cases h; done)
    | (cases h; exact Or.inl ⟨rfl, rfl, rfl⟩)
    | (cases h; exact Or.inr ⟨rfl, rfl, rfl⟩)

theorem DoDownload.handle_rc_step {cfg : DownloadConfig} {st st1 : DownloadState}
    {frame : DownloadFrame} {fullname : String}
    (h : DoDownload.handle_rc cfg st frame fullname = .next st1) :
    verdictStep st st1 := by
  unfold DoDownload.handle_rc at h
  simp only [] at h
  repeat' split at h
  all_goals first
    | (cases h; done)
    | (cases h; exact Or.inl ⟨rfl, rfl, rfl⟩)
    | (cases h; exact Or.inr ⟨rfl, rfl, rfl⟩)

theorem DoDownload.handle_rc_not_finished (cfg : DownloadConfig) (st st1 : DownloadState)
    (frame : DownloadFrame) (fullname : String) :
    DoDownload.handle_rc cfg st frame fullname ≠ .finished st1 := by
  unfold DoDownload.handle_rc
  simp only []
  repeat' split
  all_goals (intro h; cases h)

/-- What the part of a round after the check of the name can do: it never leaves the
loop as command 0 does, and when it lets the loop go on, the verdict is kept or set
to that of a failed item. -/
theorem DoDownload.after_check_step (cfg : DownloadConfig) (st : DownloadState)
    (frame : DownloadFrame) (filename : String) :
    (∀ st1, DoDownload.after_check cfg st frame filename ≠ .finished st1) ∧
    (∀ st1, DoDownload.after_check cfg st frame filename = .next st1 → verdictStep st st1) := by
  unfold DoDownload.after_check
  simp only []
  have hres := (DoDownload.resolve_step cfg st frame.reply filename).1
  cases hg : DoDownload.go_ahead cfg (DoDownload.resolve cfg st frame.reply filename).1 frame with
  | none => exact ⟨fun _ h => (by cases h), fun _ h => (by cases h)⟩
  | some st2 =>
    have hgo := verdictStep_trans hres (DoDownload.go_ahead_step hg)
    simp only []
    split
    · -- the reuse-info request
      have hr := DoDownload.reuse_info_request_step cfg { st2 with rc := 0 } frame
      have h02 : verdictStep st2 { st2 with rc := 0 } := Or.inl ⟨rfl, rfl, rfl⟩
      have hall := verdictStep_trans hgo (verdictStep_trans h02 hr)
      split
      · exact ⟨fun _ h => (by cases h), fun _ h => (by cases h)⟩
      · refine ⟨fun _ h => (by cases h), fun st1 h => ?_⟩
        cases h
        exact verdictStep_trans hall (Or.inl ⟨rfl, rfl, rfl⟩)
    · split
      · -- the request to sign URLs
        split
        · exact ⟨fun _ h => (by cases h), fun _ h => (by cases h)⟩
        · split
          · exact ⟨fun _ h => (by cases h), fun _ h => (by cases h)⟩
          · refine ⟨fun _ h => (by cases h), fun st1 h => ?_⟩
            cases h
            exact verdictStep_trans hgo (Or.inl ⟨rfl, rfl, rfl⟩)
      · cases hrec : DoDownload.receive cfg st2 frame frame.reply filename
            (DoDownload.resolve cfg st frame.reply filename).2 with
        | none => exact ⟨fun _ h => (by cases h), fun _ h => (by cases h)⟩
        | some r =>
          obtain ⟨st3, bytes⟩ := r
          have hrecv := verdictStep_trans hgo (DoDownload.receive_step hrec)
          simp only []
          cases hh : DoDownload.handle_rc cfg st3 frame
              (DoDownload.resolve cfg st frame.reply filename).2 with
          | next st4 =>
            have hrc := verdictStep_trans hrecv (DoDownload.handle_rc_step hh)
            simp only []
            split
            · exact ⟨fun _ h => (by cases h), fun _ h => (by cases h)⟩
            · refine ⟨fun _ h => (by cases h), fun st1 h => ?_⟩
              cases h
              exact verdictStep_trans hrc (Or.inl ⟨rfl, rfl, rfl⟩)
          | finished st4 =>
            exact absurd hh (DoDownload.handle_rc_not_finished _ _ _ _ _)
          | dropped st4 => exact ⟨fun _ h => (by cases h), fun _ h => (by cases h)⟩
          | failed_with_ack st4 => exact ⟨fun _ h => (by cases h), fun _ h => (by cases h)⟩

/-- A round that lets the loop go on has received a command and a name, and is the rest
of the round after the check of that name. -/
theorem DoDownload.round_next {cfg : DownloadConfig} {st st1 : DownloadState}
    {frame : DownloadFrame} (h : DoDownload.round cfg st frame = .next st1) :
    DoDownload.after_check cfg
      (DoDownload.check_path cfg
        { st with crypto_mode := DoDownload.crypto_for cfg frame.reply } frame.filename).1
      frame
      (DoDownload.check_path cfg
        { st with crypto_mode := DoDownload.crypto_for cfg frame.reply } frame.filename).2
      = .next st1 := by
  unfold DoDownload.round at h
  split at h
  · cases h
  · split at h
    · cases h
    · split at h
      · cases h
      · simp only [] at h
        split at h
        · cases h
        · exact h

theorem DoDownload.round_finished {cfg : DownloadConfig} {st st1 : DownloadState}
    {frame : DownloadFrame} (h : DoDownload.round cfg st frame = .finished st1) :
    frame.reply = TransferCommand.Finished := by
  unfold DoDownload.round at h
  split at h
  · cases h
  · split at h
    · assumption
    · split at h
      · cases h
      · simp only [] at h
        split at h
        · cases h
        · exact absurd h ((DoDownload.after_check_step _ _ _ _).1 _)

theorem DoDownload.round_step {cfg : DownloadConfig} {st st1 : DownloadState}
    {frame : DownloadFrame} (h : DoDownload.round cfg st frame = .next st1) :
    verdictStep st st1 := by
  have h1 := DoDownload.round_next h
  have h2 := (DoDownload.after_check_step _ _ _ _).2 _ h1
  have h3 := (DoDownload.check_path_step cfg
    { st with crypto_mode := DoDownload.crypto_for cfg frame.reply } frame.filename).1
  have h0 : verdictStep st { st with crypto_mode := DoDownload.crypto_for cfg frame.reply } :=
    Or.inl ⟨rfl, rfl, rfl⟩
  exact verdictStep_trans h0 (verdictStep_trans h3 h2)

/-- The round of a rejected name sets the verdict of the state. -/
theorem DoDownload.round_illegal {cfg : DownloadConfig} {st st1 : DownloadState}
    {frame : DownloadFrame} (h : DoDownload.round cfg st frame = .next st1)
    (hill : LegalPathInSandbox frame.filename cfg.Iwd = false) : st1.held := by
  have h1 := DoDownload.round_next h
  have h2 := (DoDownload.after_check_step _ _ _ _).2 _ h1
  exact held_of_verdictStep (DoDownload.check_path_illegal cfg _ frame.filename hill).1 h2

theorem DoDownload.round_keeps_mention {cfg : DownloadConfig} {st st1 : DownloadState}
    {frame : DownloadFrame} (h : DoDownload.round cfg st frame = .next st1)
    (hk : DoDownload.keeps_reason cfg frame)
    (hm : mentionsIllegalPath st.error_buf ∨ LegalPathInSandbox frame.filename cfg.Iwd = false) :
    mentionsIllegalPath st1.error_buf := by
  have h1 := DoDownload.round_next h
  rw [hk _ _ _ h1]
  rcases hm with hm | hm
  · exact (DoDownload.check_path_step cfg _ frame.filename).2 hm
  · rw [(DoDownload.check_path_illegal cfg _ frame.filename hm).2.1]
    exact mentions_append_right _ _ (mentions_illegalPathText _)

theorem DoDownload.loop_held (cfg : DownloadConfig) :
    ∀ (frames : List DownloadFrame) (st stF : DownloadState),
      st.held → DoDownload.loop cfg st frames = .finished stF → stF.held := by
  intro frames
  induction frames with
  | nil =>
    intro st stF h hl
    unfold DoDownload.loop at hl
    cases hl; exact h
  | cons f rest ih =>
    intro st stF h hl
    unfold DoDownload.loop at hl
    cases hr : DoDownload.round cfg st f with
    | next st1 =>
      rw [hr] at hl
      exact ih st1 stF (held_of_verdictStep h (DoDownload.round_step hr)) hl
    | finished st1 =>
      rw [hr] at hl
      cases hl
      unfold DoDownload.round at hr
      split at hr
      · cases hr
      · split at hr
        · cases hr; exact h
        · split at hr
          · cases hr
          · simp only [] at hr
            split at hr
            · cases hr
            · exact absurd hr ((DoDownload.after_check_step _ _ _ _).1 _)
    | dropped st1 => rw [hr] at hl; cases hl
    | failed_with_ack st1 => rw [hr] at hl; cases hl

theorem DoDownload.loop_mentions (cfg : DownloadConfig) :
    ∀ (frames : List DownloadFrame) (st stF : DownloadState),
      (∀ g ∈ frames, DoDownload.keeps_reason cfg g) →
      mentionsIllegalPath st.error_buf →
      DoDownload.loop cfg st frames = .finished stF → mentionsIllegalPath stF.error_buf := by
  intro frames
  induction frames with
  | nil =>
    intro st stF _ h hl
    unfold DoDownload.loop at hl
    cases hl; exact h
  | cons f rest ih =>
    intro st stF hk h hl
    unfold DoDownload.loop at hl
    cases hr : DoDownload.round cfg st f with
    | next st1 =>
      rw [hr] at hl
      exact ih st1 stF (fun g hg => hk g (List.mem_cons_of_mem _ hg))
        (DoDownload.round_keeps_mention hr (hk f (List.mem_cons_self _ _)) (Or.inl h)) hl
    | finished st1 =>
      rw [hr] at hl
      cases hl
      unfold DoDownload.round at hr
      split at hr
      · cases hr
      · split at hr
        · cases hr; exact h
        · split at hr
          · cases hr
          · simp only [] at hr
            split at hr
            · cases hr
            · exact absurd hr ((DoDownload.after_check_step _ _ _ _).1 _)
    | dropped st1 => rw [hr] at hl; cases hl
    | failed_with_ack st1 => rw [hr] at hl; cases hl

/-- A loop that is left by command 0 after the frames `pre ++ frame :: post`, none of
`pre` and `frame` being command 0, has run the round of `frame` and gone on. -/
theorem DoDownload.loop_split (cfg : DownloadConfig) (frame : DownloadFrame)
    (post : List DownloadFrame) (hframe : frame.reply ≠ TransferCommand.Finished) :
    ∀ (pre : List DownloadFrame) (st stF : DownloadState),
      (∀ f ∈ pre, f.reply ≠ TransferCommand.Finished) →
      DoDownload.loop cfg st (pre ++ frame :: post) = .finished stF →
      ∃ st1 st2, DoDownload.round cfg st1 frame = .next st2 ∧
        DoDownload.loop cfg st2 post = .finished stF := by
  intro pre
  induction pre with
  | nil =>
    intro st stF _ hl
    simp only [List.nil_append] at hl
    unfold DoDownload.loop at hl
    cases hr : DoDownload.round cfg st frame with
    | next st1 => rw [hr] at hl; exact ⟨st, st1, hr, hl⟩
    | finished st1 => exact absurd (DoDownload.round_finished hr) hframe
    | dropped st1 => rw [hr] at hl; cases hl
    | failed_with_ack st1 => rw [hr] at hl; cases hl
  | cons f rest ih =>
    intro st stF hpre hl
    simp only [List.cons_append] at hl
    unfold DoDownload.loop at hl
    cases hr : DoDownload.round cfg st f with
    | next st1 =>
      rw [hr] at hl
      exact ih st1 stF (fun g hg => hpre g (List.mem_cons_of_mem _ hg)) hl
    | finished st1 =>
      exact absurd (DoDownload.round_finished hr) (hpre f (List.mem_cons_self _ _))
    | dropped st1 => rw [hr] at hl; cases hl
    | failed_with_ack st1 => rw [hr] at hl; cases hl

theorem DoDownload.go_ahead_error_buf {cfg : DownloadConfig} {st st1 : DownloadState}
    {frame : DownloadFrame} (h : DoDownload.go_ahead cfg st frame = some st1) :
    st1.error_buf = st.error_buf ∧ st1.rc = st.rc := by
  unfold DoDownload.go_ahead at h
  split at h
  · split at h
    · cases h
    · simp only [] at h
      split at h
      · cases h
      · rename_i st2 hmine
        have h2 : st2.error_buf = st.error_buf ∧ st2.rc = st.rc := by
          split at hmine
          · split at hmine
            · cases hmine
            · cases hmine; exact ⟨rfl, rfl⟩
          · cases hmine; exact ⟨rfl, rfl⟩
        split at h
        · split at h
          · cases h
          · cases h; exact h2
        · cases h; exact h2
  · cases h; exact ⟨rfl, rfl⟩

/-- A file that is received without error under a remap table that has no entry for
any name records no failure of its own. -/
theorem DoDownload.keeps_reason_of_received (cfg : DownloadConfig) (frame : DownloadFrame)
    (hcmd : frame.reply = TransferCommand.XferFile)
    (hremap : ∀ n, (cfg.filename_remap_find n).1 = 0)
    (hget : ∀ m, (frame.get_file m).1 = 0) : DoDownload.keeps_reason cfg frame := by
  intro st st1 filename h
  unfold DoDownload.after_check at h
  simp only [] at h
  have hres : (DoDownload.resolve cfg st frame.reply filename).1 = st := by
    unfold DoDownload.resolve
    simp only [hremap]
    repeat' split
    all_goals first
      | rfl
      | (rename_i hc; exact absurd rfl hc)
      | (rename_i hc _; exact absurd rfl hc)
      | omega
  rw [hres] at h
  cases hg : DoDownload.go_ahead cfg st frame with
  | none => rw [hg] at h; cases h
  | some st2 =>
    rw [hg] at h
    have hbuf := DoDownload.go_ahead_error_buf hg
    have hne : ¬ frame.reply = TransferCommand.Other := by rw [hcmd]; decide
    simp only [hne, false_and, if_false] at h
    have hrecv : ∀ fullname, ∃ st3 bytes,
        DoDownload.receive cfg st2 frame frame.reply filename fullname = some (st3, bytes) ∧
        st3.rc = 0 ∧ st3.error_buf = st2.error_buf := by
      intro fullname
      unfold DoDownload.receive
      have h5 : ¬ frame.reply = TransferCommand.DownloadUrl := by rw [hcmd]; decide
      have h4 : ¬ frame.reply = TransferCommand.XferX509 := by rw [hcmd]; decide
      have h6 : ¬ frame.reply = TransferCommand.Mkdir := by rw [hcmd]; decide
      simp only [hne, h5, h4, h6, if_false, hget]
      repeat' split
      all_goals exact ⟨_, _, rfl, rfl, rfl⟩
    obtain ⟨st3, bytes, hr, hrc, hb3⟩ :=
      hrecv (DoDownload.resolve cfg st frame.reply filename).2
    rw [hr] at h
    simp only [] at h
    have hh : DoDownload.handle_rc cfg st3 frame
        (DoDownload.resolve cfg st frame.reply filename).2 = .next st3 := by
      unfold DoDownload.handle_rc
      have : ¬ st3.rc < 0 := by rw [hrc]; decide
      simp only [this, if_false]
    rw [hh] at h
    simp only [] at h
    split at h
    · cases h
    · cases h
      show st3.error_buf = st.error_buf
      rw [hb3, hbuf.1]

/-- C2 (as amended): in a download session that the sender's final ack reports as a success,
an item whose received name `LegalPathInSandbox` rejects (such as `../escape`) is
directed to the null sink instead of a sandbox path, and when the stream is consumed up
to the final command the session reports success = false, try_again = false and hold
code `DownloadFileError`, without a commit, whatever items the stream contains before
or after; the hold reason mentions `illegal sandbox path` when neither the rejected
item nor any item after it records a failure of its own (such a failure replaces the
text of the reason). -/
theorem C2_illegal_path_reported (cfg : DownloadConfig) (pre post : List DownloadFrame)
    (frame : DownloadFrame) (stF : DownloadState) (deferred_results : List (Int × String))
    (upload_ack : Option ClassAd) (peer : String) (commit_file_written : Bool)
    (hill : LegalPathInSandbox frame.filename cfg.Iwd = false)
    (hpre : ∀ f ∈ pre, f.reply ≠ TransferCommand.Finished)
    (hframe : frame.reply ≠ TransferCommand.Finished)
    (hloop : DoDownload.loop cfg {} (pre ++ frame :: post) = .finished stF)
    (hack : (GetTransferAck cfg.PeerDoesTransferAck upload_ack
      { success := false, try_again := true, hold_code := 0, hold_subcode := 0,
        error_desc := "" }).success = true) :
    (∀ st : DownloadState,
      (DoDownload.resolve cfg (DoDownload.check_path cfg st frame.filename).1 frame.reply
        (DoDownload.check_path cfg st frame.filename).2).2 = NULL_FILE) ∧
    (DoDownload cfg (pre ++ frame :: post) deferred_results upload_ack peer
        commit_file_written).rc = -1 ∧
    (DoDownload cfg (pre ++ frame :: post) deferred_results upload_ack peer
        commit_file_written).committed = false ∧
    (DoDownload cfg (pre ++ frame :: post) deferred_results upload_ack peer
        commit_file_written).ack
      = some { success := false, try_again := false,
               hold_code := CONDOR_HOLD_CODE_DownloadFileError,
               hold_subcode := stF.hold_subcode, error_desc := stF.error_buf } ∧
    ((∀ g ∈ frame :: post, DoDownload.keeps_reason cfg g) →
      mentionsIllegalPath stF.error_buf) := by
  obtain ⟨st1, st2, hround, hpost⟩ :=
    DoDownload.loop_split cfg frame post hframe pre {} stF hpre hloop
  have hheld2 : st2.held := DoDownload.round_illegal hround hill
  have hheldF : stF.held := DoDownload.loop_held cfg post st2 stF hheld2 hpost
  have hdef : DoDownload.run_deferred stF deferred_results = stF := by
    unfold DoDownload.run_deferred
    have : ¬ stF.hold_code = 0 := by rw [hheldF.2.2]; decide
    simp [this]
  have hfin : DoDownload cfg (pre ++ frame :: post) deferred_results upload_ack peer
      commit_file_written
      = { rc := -1,
          ack := some { success := false, try_again := stF.try_again,
                        hold_code := stF.hold_code, hold_subcode := stF.hold_subcode,
                        error_desc := stF.error_buf },
          Info_error_desc := some stF.error_buf, committed := false, state := stF } := by
    unfold DoDownload
    rw [hloop]
    simp only []
    unfold DoDownload.finish
    simp only [hdef, hack, hheldF.1, Bool.not_true, Bool.false_eq_true, if_false, Bool.not_false,
      if_true]
  refine ⟨?_, ?_, ?_, ?_, ?_⟩
  · intro st
    rw [(DoDownload.check_path_illegal cfg st frame.filename hill).2.2]
    rw [(DoDownload.resolve_step cfg _ frame.reply NULL_FILE).2 rfl]
  · rw [hfin]
  · rw [hfin]
  · rw [hfin, hheldF.2.1, hheldF.2.2]
  · intro hk
    have hm2 : mentionsIllegalPath st2.error_buf :=
      DoDownload.round_keeps_mention hround (hk frame (List.mem_cons_self _ _)) (Or.inr hill)
    exact DoDownload.loop_mentions cfg post st2 stF
      (fun g hg => hk g (List.mem_cons_of_mem _ hg)) hm2 hpost

theorem C2_illegal_path_reported_witness :
    LegalPathInSandbox escapeFrame.filename receiverConfig.Iwd = false ∧
    (DoDownload receiverConfig ([goodFrame] ++ escapeFrame :: [goodFrame]) [] successAck "peer"
        true).ack
      = some { success := false, try_again := false,
               hold_code := CONDOR_HOLD_CODE_DownloadFileError, hold_subcode := EPERM,
               error_desc := " Attempt to write to illegal sandbox path: ../escape" } ∧
    (DoDownload receiverConfig ([goodFrame] ++ escapeFrame :: [goodFrame]) [] successAck "peer"
        true).state.written
      = [(1, "out.txt", "/sandbox/out.txt"), (1, "/dev/null", "/dev/null"),
         (1, "out.txt", "/sandbox/out.txt")] ∧
    mentionsIllegalPath
      (DoDownload.loop receiverConfig {} ([goodFrame] ++ escapeFrame :: [goodFrame])).state.error_buf :=
  have h := C2_illegal_path_reported receiverConfig [goodFrame] [goodFrame] escapeFrame
    (DoDownload.loop receiverConfig {} ([goodFrame] ++ escapeFrame :: [goodFrame])).state
    [] successAck "peer" true (by decide)
    (by intro f hf; simp only [List.mem_singleton] at hf; subst hf; decide)
    (by decide) (by rfl) (by decide)
  ⟨by decide, by decide, by decide,
    h.2.2.2.2 (by
      intro g hg
      simp only [List.mem_cons, List.mem_singleton, List.not_mem_nil, or_false] at hg
      rcases hg with hg | hg
      · subst hg
        exact DoDownload.keeps_reason_of_received _ _ rfl (fun _ => rfl) (fun _ => rfl)
      · subst hg
        exact DoDownload.keeps_reason_of_received _ _ rfl (fun _ => rfl) (fun _ => rfl))⟩

/-- C2 as stated fails in the hold reason: when the rejected item `../escape` is followed
by a file that the receiver cannot open for writing, the session (whose sender reports
success) ends with success = false, try_again = false and hold code
`DownloadFileError`, but the reason is the text of the later failure and does not
mention `illegal sandbox path`. -/
theorem C2_counterexample_reason_replaced :
    LegalPathInSandbox escapeFrame.filename receiverConfig.Iwd = false ∧
    (GetTransferAck receiverConfig.PeerDoesTransferAck successAck
      { success := false, try_again := true, hold_code := 0, hold_subcode := 0,
        error_desc := "" }).success = true ∧
    (DoDownload receiverConfig [escapeFrame, unwritableFrame] [] successAck "peer" true).ack
      = some { success := false, try_again := false,
               hold_code := CONDOR_HOLD_CODE_DownloadFileError, hold_subcode := 13,
               error_desc :=
                 "STARTER at 10.0.0.1 failed to write to file /sandbox/locked.txt: (errno 13) " } ∧
    ¬ mentionsIllegalPath
      "STARTER at 10.0.0.1 failed to write to file /sandbox/locked.txt: (errno 13) " := by
  decide

/-! ## `ExpandFileTransferList`: termination and symlinks -/

/-- A text that ends with a plain name has no trailing delimiter. -/
theorem hasTrailingDelim_append (a b : String) (hb : b ≠ "") :
    hasTrailingDelim (a ++ b) = hasTrailingDelim b := by
  unfold hasTrailingDelim
  have hne : b.data ≠ [] := by
    intro h
    apply hb
    cases b
    simp_all
  rw [String.data_append, List.getLast?_append_of_ne_nil _ hne]

/-- The path of an entry with a plain name has no trailing delimiter. -/
theorem hasTrailingDelim_entryPath (src_path : String) (trailing_slash : Bool)
    (file_in_dir : String) (h : isEntryName file_in_dir = true) :
    hasTrailingDelim (entryPath src_path trailing_slash file_in_dir) = false := by
  unfold isEntryName at h
  simp only [Bool.and_eq_true, bne_iff_ne, ne_eq, Bool.not_eq_true'] at h
  unfold entryPath
  rw [hasTrailingDelim_append _ _ h.1]
  exact h.2

mutual
/-- The expansion adds at most one item per node of the tree. -/
theorem ExpandFileTransferList.withStat_length :
    ∀ (st : FsNode) (src_path dest_dir : String) (max_depth : Int),
      (ExpandFileTransferList.withStat st src_path dest_dir max_depth []).2.length ≤ st.size
  | .error, src_path, dest_dir, max_depth => by
    unfold ExpandFileTransferList.withStat FsNode.size
    by_cases h : (IsUrl src_path).isSome = true <;> simp [h]
  | .file mode size symlink domainsocket, src_path, dest_dir, max_depth => by
    unfold ExpandFileTransferList.withStat FsNode.size
    by_cases h : (IsUrl src_path).isSome = true <;> cases domainsocket <;> simp [h]
  | .dir mode symlink entries, src_path, dest_dir, max_depth => by
    unfold ExpandFileTransferList.withStat FsNode.size
    by_cases h : (IsUrl src_path).isSome = true
    · simp [h]
    · simp only [h]
      by_cases h1 : (!hasTrailingDelim src_path && symlink) = true
      · simp [h1]
      · simp only [h1]
        by_cases h2 : max_depth = 0
        · simp [h2]
        · simp only [h2]
          have ih := ExpandFileTransferList.scanDir_length entries
          by_cases h3 : hasTrailingDelim src_path = true
          · simp only [h3, if_true, Bool.false_eq_true, if_false]
            rw [ExpandFileTransferList.scanDir_append entries]
            simp only [List.nil_append]
            have := ih src_path true dest_dir (if max_depth > 0 then max_depth - 1 else max_depth)
            omega
          · simp only [h3, Bool.false_eq_true, if_false]
            rw [ExpandFileTransferList.scanDir_append entries]
            simp only [List.nil_append, List.length_append, List.length_singleton,
              List.length_cons, List.length_nil]
            have := ih src_path false (subDestDir dest_dir src_path)
              (if max_depth > 0 then max_depth - 1 else max_depth)
            omega
/-- The directory loop adds at most one item per node below the entries. -/
theorem ExpandFileTransferList.scanDir_length :
    ∀ (entries : FsEntries) (src_path : String) (trailing_slash : Bool) (dest_dir : String)
      (max_depth : Int),
      (contentsPlan entries src_path trailing_slash dest_dir max_depth).length ≤ entries.size
  | .nil, src_path, trailing_slash, dest_dir, max_depth => by
    simp [contentsPlan, FsEntries.size]
  | .cons file_in_dir node rest, src_path, trailing_slash, dest_dir, max_depth => by
    unfold contentsPlan FsEntries.size
    have h1 := ExpandFileTransferList.withStat_length node
      (entryPath src_path trailing_slash file_in_dir) dest_dir max_depth
    have h2 := ExpandFileTransferList.scanDir_length rest src_path trailing_slash dest_dir
      max_depth
    simp only [List.length_append]
    omega
end

/-- At a path without trailing delimiter the contents of a directory that is a symlink
have no influence on the expansion. -/
theorem ExpandFileTransferList.withStat_cutLink (cut : Bool) (st : FsNode)
    (src_path dest_dir : String) (max_depth : Int) (expanded_list : FileTransferList)
    (h : cut = true → hasTrailingDelim src_path = false) :
    ExpandFileTransferList.withStat (st.cutLink cut) src_path dest_dir max_depth expanded_list =
      ExpandFileTransferList.withStat st src_path dest_dir max_depth expanded_list := by
  cases cut with
  | false =>
    cases st with
    | error => rfl
    | file mode size symlink domainsocket => rfl
    | dir mode symlink entries => cases symlink <;> rfl
  | true =>
    have ht := h rfl
    cases st with
    | error => rfl
    | file mode size symlink domainsocket => rfl
    | dir mode symlink entries =>
      cases symlink with
      | false => rfl
      | true =>
        unfold FsNode.cutLink ExpandFileTransferList.withStat
        simp [ht]

mutual
/-- What lies behind a symlink to a directory whose entry name does not end with a
delimiter, at any depth below the node, has no influence on the expansion. -/
theorem ExpandFileTransferList.withStat_withoutLinked :
    ∀ (st : FsNode) (src_path dest_dir : String) (max_depth : Int)
      (expanded_list : FileTransferList),
      ExpandFileTransferList.withStat st src_path dest_dir max_depth expanded_list =
        ExpandFileTransferList.withStat st.withoutLinked src_path dest_dir max_depth
          expanded_list
  | .error, _, _, _, _ => rfl
  | .file _ _ _ _, _, _, _, _ => rfl
  | .dir mode symlink entries, src_path, dest_dir, max_depth, expanded_list => by
    unfold FsNode.withoutLinked ExpandFileTransferList.withStat
    simp only []
    rw [ExpandFileTransferList.scanDir_withoutLinked entries src_path
      (hasTrailingDelim src_path) dest_dir]
    rw [ExpandFileTransferList.scanDir_withoutLinked entries src_path
      (hasTrailingDelim src_path) (subDestDir dest_dir src_path)]
/-- What lies behind the symlinks among the entries whose names do not end with a
delimiter has no influence on the scan of a directory. -/
theorem ExpandFileTransferList.scanDir_withoutLinked :
    ∀ (entries : FsEntries) (src_path : String) (trailing_slash : Bool) (dest_dir : String)
      (max_depth : Int) (rc : Bool) (expanded_list : FileTransferList),
      ExpandFileTransferList.scanDir entries src_path trailing_slash dest_dir max_depth rc
          expanded_list =
        ExpandFileTransferList.scanDir entries.withoutLinked src_path trailing_slash dest_dir
          max_depth rc expanded_list
  | .nil, _, _, _, _, _, _ => rfl
  | .cons file_in_dir node rest, src_path, trailing_slash, dest_dir, max_depth, rc,
      expanded_list => by
    unfold FsEntries.withoutLinked ExpandFileTransferList.scanDir
    simp only []
    rw [ExpandFileTransferList.withStat_cutLink (isEntryName file_in_dir) node.withoutLinked
      (entryPath src_path trailing_slash file_in_dir) dest_dir max_depth expanded_list
      (hasTrailingDelim_entryPath src_path trailing_slash file_in_dir)]
    rw [← ExpandFileTransferList.withStat_withoutLinked node]
    exact ExpandFileTransferList.scanDir_withoutLinked rest _ _ _ _ _ _
end

theorem DoDownload.check_path_reuse (cfg : DownloadConfig) (st : DownloadState)
    (filename : String) :
    (DoDownload.check_path cfg st filename).1.reuse_info = st.reuse_info ∧
    (DoDownload.check_path cfg st filename).1.reservation_id = st.reservation_id ∧
    (DoDownload.check_path cfg st filename).1.cached = st.cached ∧
    (DoDownload.check_path cfg st filename).1.written = st.written := by
  unfold DoDownload.check_path
  split <;> exact ⟨rfl, rfl, rfl, rfl⟩

theorem DoDownload.resolve_reuse (cfg : DownloadConfig) (st : DownloadState) (c : Int)
    (filename : String) :
    (DoDownload.resolve cfg st c filename).1.reuse_info = st.reuse_info ∧
    (DoDownload.resolve cfg st c filename).1.reservation_id = st.reservation_id ∧
    (DoDownload.resolve cfg st c filename).1.cached = st.cached ∧
    (DoDownload.resolve cfg st c filename).1.written = st.written := by
  unfold DoDownload.resolve
  simp only []
  repeat' split
  all_goals exact ⟨rfl, rfl, rfl, rfl⟩

theorem DoDownload.go_ahead_reuse {cfg : DownloadConfig} {st st1 : DownloadState}
    {frame : DownloadFrame} (h : DoDownload.go_ahead cfg st frame = some st1) :
    st1.reuse_info = st.reuse_info ∧ st1.reservation_id = st.reservation_id ∧
    st1.cached = st.cached ∧ st1.written = st.written := by
  unfold DoDownload.go_ahead at h
  split at h
  · split at h
    · cases h
    · simp only [] at h
      split at h
      · cases h
      · rename_i st2 hmine
        have h2 : st2.reuse_info = st.reuse_info ∧ st2.reservation_id = st.reservation_id ∧
            st2.cached = st.cached ∧ st2.written = st.written := by
          split at hmine
          · split at hmine
            · cases hmine
            · cases hmine; exact ⟨rfl, rfl, rfl, rfl⟩
          · cases hmine; exact ⟨rfl, rfl, rfl, rfl⟩
        split at h
        · split at h
          · cases h
          · cases h; exact h2
        · cases h; exact h2
  · cases h; exact ⟨rfl, rfl, rfl, rfl⟩

theorem DoDownload.handle_rc_reuse (cfg : DownloadConfig) (st : DownloadState)
    (frame : DownloadFrame) (fullname : String) :
    (DoDownload.handle_rc cfg st frame fullname).state.reuse_info = st.reuse_info ∧
    (DoDownload.handle_rc cfg st frame fullname).state.reservation_id = st.reservation_id ∧
    (DoDownload.handle_rc cfg st frame fullname).state.cached = st.cached ∧
    (DoDownload.handle_rc cfg st frame fullname).state.written = st.written := by
  unfold DoDownload.handle_rc
  simp only []
  repeat' split
  all_goals exact ⟨rfl, rfl, rfl, rfl⟩

/-- The dispatch records the item, leaves the list of files to be fetched and the
reservation alone, and calls `CacheFile` at most once: with the reservation that is
held, which is not empty, and for a name on the list. -/
theorem DoDownload.receive_reuse {cfg : DownloadConfig} {st st1 : DownloadState}
    {frame : DownloadFrame} {c : Int} {filename fullname : String} {bytes : Int}
    (h : DoDownload.receive cfg st frame c filename fullname = some (st1, bytes)) :
    st1.reuse_info = st.reuse_info ∧ st1.reservation_id = st.reservation_id ∧
    st1.written = st.written ++ [(c, filename, fullname)] ∧
    (st1.cached = st.cached ∨
      (st1.cached = st.cached ++ [(fullname, st.reservation_id)] ∧ st.reservation_id ≠ "" ∧
        cfg.has_reuse_dir = true ∧ ∃ info ∈ st.reuse_info, info.filename = filename)) := by
  unfold DoDownload.receive at h
  simp only [] at h
  repeat' split at h
  all_goals first
    | (cases h; done)
    | (cases h; exact ⟨rfl, rfl, rfl, Or.inl rfl⟩)
    | (cases h
       rename_i hc
       refine ⟨rfl, rfl, rfl, Or.inr ⟨rfl, hc.2.1, hc.2.2.1, ?_⟩⟩
       have := hc.2.2.2
       simp only [List.any_eq_true, beq_iff_eq] at this
       exact this)

theorem DoDownload.ReuseInv_of_eq {P : String → Prop} {base : List (String × String)}
    {st st1 : DownloadState}
    (h : st1.reuse_info = st.reuse_info ∧ st1.reservation_id = st.reservation_id ∧
      st1.cached = st.cached ∧ st1.written = st.written)
    (hinv : DoDownload.ReuseInv P base st) : DoDownload.ReuseInv P base st1 := by
  unfold DoDownload.ReuseInv at *
  rw [h.1, h.2.2.1, h.2.2.2]
  exact hinv

/-- A reuse-info request puts only files on the list that it proposes and that the
cache could not supply; it calls `CacheFile` for none. -/
theorem DoDownload.reuse_info_request_reuse (cfg : DownloadConfig) (st : DownloadState)
    (frame : DownloadFrame) :
    (DoDownload.reuse_info_request cfg st frame).1.cached = st.cached ∧
    (DoDownload.reuse_info_request cfg st frame).1.written = st.written ∧
    (∀ info ∈ (DoDownload.reuse_info_request cfg st frame).1.reuse_info,
      info ∈ st.reuse_info ∨
        ∃ proposals tag, frame.reuse_request = some (proposals, tag) ∧
          ∃ p ∈ proposals, p.retrieved = false ∧ p.filename = info.filename) := by
  unfold DoDownload.reuse_info_request
  split
  · exact ⟨rfl, rfl, fun info h => Or.inl h⟩
  · split
    · exact ⟨rfl, rfl, fun info h => Or.inl h⟩
    · rename_i proposals tag hreq
      have key : ∀ info ∈ st.reuse_info ++ (proposals.filter (fun p => !p.retrieved)).map
          (fun p => (⟨p.filename, p.checksum, p.checksum_type, tag, p.size⟩ : ReuseInfo)),
          info ∈ st.reuse_info ∨
            ∃ proposals1 tag1, frame.reuse_request = some (proposals1, tag1) ∧
              ∃ p ∈ proposals1, p.retrieved = false ∧ p.filename = info.filename := by
        intro info hi
        rcases List.mem_append.1 hi with hi | hi
        · exact Or.inl hi
        · obtain ⟨p, hp, rfl⟩ := List.mem_map.1 hi
          have hp2 := List.mem_filter.1 hp
          exact Or.inr ⟨proposals, tag, hreq, p, hp2.1, by simpa using hp2.2, rfl⟩
      simp only []
      split
      · split
        · exact ⟨rfl, rfl, key⟩
        · exact ⟨rfl, rfl, fun info h => by cases h⟩
      · exact ⟨rfl, rfl, key⟩

/-- The dispatch keeps the invariant of the reuse cache. -/
theorem DoDownload.receive_inv {P : String → Prop} {base : List (String × String)}
    {cfg : DownloadConfig}
    {st st1 : DownloadState} {frame : DownloadFrame} {c : Int} {filename fullname : String}
    {bytes : Int}
    (h : DoDownload.receive cfg st frame c filename fullname = some (st1, bytes))
    (hinv : DoDownload.ReuseInv P base st) : DoDownload.ReuseInv P base st1 := by
  obtain ⟨h1, _, h3, h4⟩ := DoDownload.receive_reuse h
  refine ⟨by rw [h1]; exact hinv.1, ?_⟩
  obtain ⟨added, hadd, hall⟩ := hinv.2
  rw [h3]
  have hold : ∀ x ∈ added, x.2 ≠ "" ∧ ∃ cmd fname,
      (cmd, fname, x.1) ∈ st.written ++ [(c, filename, fullname)] ∧ P fname := by
    intro x hx1
    obtain ⟨a, cmd, fname, hw, hp⟩ := hall x hx1
    exact ⟨a, cmd, fname, List.mem_append_left _ hw, hp⟩
  rcases h4 with h4 | ⟨h4, hid, _, info, hinfo, hname⟩
  · exact ⟨added, h4.trans hadd, hold⟩
  · refine ⟨added ++ [(fullname, st.reservation_id)], ?_, ?_⟩
    · rw [h4, hadd, List.append_assoc]
    · intro x hx
      rcases List.mem_append.1 hx with hx | hx
      · exact hold x hx
      · simp only [List.mem_singleton] at hx
        subst hx
        refine ⟨hid, c, filename, List.mem_append_right _ (List.mem_singleton.2 rfl), ?_⟩
        rw [← hname]
        exact hinv.1 info hinfo

/-- The part of a round after the check of the name keeps the invariant of the reuse
cache, whatever way the round ends. -/
theorem DoDownload.after_check_inv {P : String → Prop} {base : List (String × String)}
    (cfg : DownloadConfig) (st : DownloadState) (frame : DownloadFrame) (filename : String)
    (hP : frame.reply = TransferCommand.Other →
      frame.SubCommand = some TransferSubCommand.ReuseInfo →
      ∀ proposals tag, frame.reuse_request = some (proposals, tag) →
        ∀ p ∈ proposals, p.retrieved = false → P p.filename)
    (hinv : DoDownload.ReuseInv P base st) :
    DoDownload.ReuseInv P base (DoDownload.after_check cfg st frame filename).state := by
  have inv1 : DoDownload.ReuseInv P base (DoDownload.resolve cfg st frame.reply filename).1 :=
    DoDownload.ReuseInv_of_eq (DoDownload.resolve_reuse cfg st frame.reply filename) hinv
  unfold DoDownload.after_check
  simp only []
  cases hg : DoDownload.go_ahead cfg (DoDownload.resolve cfg st frame.reply filename).1 frame with
  | none => exact inv1
  | some st2 =>
    have inv2 : DoDownload.ReuseInv P base st2 :=
      DoDownload.ReuseInv_of_eq (DoDownload.go_ahead_reuse hg) inv1
    simp only []
    split
    · -- the reuse-info request
      rename_i hc
      have hr := DoDownload.reuse_info_request_reuse cfg { st2 with rc := 0 } frame
      have inv3 : DoDownload.ReuseInv P base
          { (DoDownload.reuse_info_request cfg { st2 with rc := 0 } frame).1 with
            reuse_responses :=
              (DoDownload.reuse_info_request cfg { st2 with rc := 0 } frame).1.reuse_responses ++
                [(DoDownload.reuse_info_request cfg { st2 with rc := 0 } frame).2.getD []] } := by
        refine ⟨?_, ?_⟩
        · intro info hi
          rcases hr.2.2 info hi with h | ⟨proposals, tag, hreq, p, hp, hret, hname⟩
          · exact inv2.1 info h
          · rw [← hname]
            exact hP hc.1 hc.2.2 proposals tag hreq p hp hret
        · obtain ⟨added, hadd, hall⟩ := inv2.2
          refine ⟨added, ?_, ?_⟩
          · have := hr.1
            simp only []
            rw [this]
            exact hadd
          · intro x hx
            obtain ⟨a, cmd, fname, hw, hp⟩ := hall x hx
            refine ⟨a, cmd, fname, ?_, hp⟩
            have := hr.2.1
            simp only []
            rw [this]
            exact hw
      split <;> exact inv3
    · split
      · split
        · exact inv2
        · split <;> exact DoDownload.ReuseInv_of_eq ⟨rfl, rfl, rfl, rfl⟩ inv2
      · cases hrec : DoDownload.receive cfg st2 frame frame.reply filename
            (DoDownload.resolve cfg st frame.reply filename).2 with
        | none => exact inv2
        | some r =>
          obtain ⟨st3, bytes⟩ := r
          have inv3 : DoDownload.ReuseInv P base st3 := DoDownload.receive_inv hrec inv2
          have hh := DoDownload.handle_rc_reuse cfg st3 frame
            (DoDownload.resolve cfg st frame.reply filename).2
          simp only []
          cases hrc : DoDownload.handle_rc cfg st3 frame
              (DoDownload.resolve cfg st frame.reply filename).2 with
          | next st4 =>
            rw [hrc] at hh
            have inv4 : DoDownload.ReuseInv P base st4 := DoDownload.ReuseInv_of_eq hh inv3
            simp only []
            split
            · exact inv4
            · exact DoDownload.ReuseInv_of_eq ⟨rfl, rfl, rfl, rfl⟩ inv4
          | finished st4 =>
            rw [hrc] at hh
            exact DoDownload.ReuseInv_of_eq hh inv3
          | dropped st4 =>
            rw [hrc] at hh
            exact DoDownload.ReuseInv_of_eq hh inv3
          | failed_with_ack st4 =>
            rw [hrc] at hh
            exact DoDownload.ReuseInv_of_eq hh inv3

/-- A round keeps the invariant of the reuse cache, whatever way it ends. -/
theorem DoDownload.round_inv {P : String → Prop} {base : List (String × String)}
    (cfg : DownloadConfig) (st : DownloadState) (frame : DownloadFrame)
    (hP : frame.reply = TransferCommand.Other →
      frame.SubCommand = some TransferSubCommand.ReuseInfo →
      ∀ proposals tag, frame.reuse_request = some (proposals, tag) →
        ∀ p ∈ proposals, p.retrieved = false → P p.filename)
    (hinv : DoDownload.ReuseInv P base st) :
    DoDownload.ReuseInv P base (DoDownload.round cfg st frame).state := by
  unfold DoDownload.round
  split
  · exact hinv
  · split
    · exact hinv
    · split
      · exact hinv
      · simp only []
        split
        · exact DoDownload.ReuseInv_of_eq ⟨rfl, rfl, rfl, rfl⟩ hinv
        · exact DoDownload.after_check_inv cfg _ frame _ hP
            (DoDownload.ReuseInv_of_eq (DoDownload.check_path_reuse cfg _ frame.filename)
              (DoDownload.ReuseInv_of_eq ⟨rfl, rfl, rfl, rfl⟩ hinv))

/-- The loop keeps the invariant of the reuse cache. -/
theorem DoDownload.loop_inv {P : String → Prop} {base : List (String × String)}
    (cfg : DownloadConfig) :
    ∀ (frames : List DownloadFrame) (st : DownloadState),
      (∀ frame ∈ frames, frame.reply = TransferCommand.Other →
        frame.SubCommand = some TransferSubCommand.ReuseInfo →
        ∀ proposals tag, frame.reuse_request = some (proposals, tag) →
          ∀ p ∈ proposals, p.retrieved = false → P p.filename) →
      DoDownload.ReuseInv P base st →
      DoDownload.ReuseInv P base (DoDownload.loop cfg st frames).state
  | [], st => fun _ hinv => hinv
  | frame :: rest, st => by
    intro hP hinv
    have h1 := DoDownload.round_inv cfg st frame (hP frame (List.mem_cons_self _ _)) hinv
    unfold DoDownload.loop
    cases hr : DoDownload.round cfg st frame with
    | next st1 =>
      rw [hr] at h1
      exact DoDownload.loop_inv cfg rest st1
        (fun f hf => hP f (List.mem_cons_of_mem _ hf)) h1
    | finished st1 => rw [hr] at h1; exact h1
    | dropped st1 => rw [hr] at h1; exact h1
    | failed_with_ack st1 => rw [hr] at h1; exact h1

/-! ### Sessions in which no reservation comes about -/

theorem wrapInt32_range (v : Int) : -2147483648 ≤ wrapInt32 v ∧ wrapInt32 v < 2147483648 := by
  unfold wrapInt32
  omega

theorem wrapInt32_toUInt64_of_range (v : Int) (h1 : -2147483648 ≤ v) (h2 : v < 2147483648) :
    wrapInt32 (toUInt64 v + 0) = v := by
  unfold wrapInt32 toUInt64
  omega

/-- Files without bytes add nothing to the sum that `std::accumulate` computes. -/
theorem to_retrieve_foldl_zero (zeros : List ReuseInfo) (hz : ∀ info ∈ zeros, info.size = 0) :
    ∀ val : Int, -2147483648 ≤ val → val < 2147483648 →
      zeros.foldl (fun val info => wrapInt32 (toUInt64 val + info.size)) val = val := by
  induction zeros with
  | nil => intro val _ _; rfl
  | cons z rest ih =>
    intro val h1 h2
    simp only [List.foldl_cons]
    rw [hz z (List.mem_cons_self _ _), wrapInt32_toUInt64_of_range val h1 h2]
    exact ih (fun info hi => hz info (List.mem_cons_of_mem _ hi)) val h1 h2

/-- The sum that `std::accumulate` computes stays in the range of `int`. -/
theorem to_retrieve_foldl_range (l : List ReuseInfo) :
    ∀ val : Int, -2147483648 ≤ val → val < 2147483648 →
      -2147483648 ≤ l.foldl (fun val info => wrapInt32 (toUInt64 val + info.size)) val ∧
      l.foldl (fun val info => wrapInt32 (toUInt64 val + info.size)) val < 2147483648 := by
  induction l with
  | nil => intro val h1 h2; exact ⟨h1, h2⟩
  | cons z rest ih =>
    intro val _ _
    simp only [List.foldl_cons]
    exact ih _ (wrapInt32_range _).1 (wrapInt32_range _).2

theorem DoDownload.to_retrieve_append_zero (l zeros : List ReuseInfo)
    (hz : ∀ info ∈ zeros, info.size = 0) :
    DoDownload.to_retrieve (l ++ zeros) = DoDownload.to_retrieve l := by
  unfold DoDownload.to_retrieve
  rw [List.foldl_append]
  have hr := to_retrieve_foldl_range l 0 (by norm_num) (by norm_num)
  rw [to_retrieve_foldl_zero zeros hz _ hr.1 hr.2]

/-- A reuse-info request that cannot bring a reservation about leaves the receiver
without one. -/
theorem DoDownload.reuse_info_request_none (cfg : DownloadConfig) (st : DownloadState)
    (frame : DownloadFrame) (hf : DoDownload.grantsNoReservation frame)
    (hinv : DoDownload.NoReservation st) :
    DoDownload.NoReservation (DoDownload.reuse_info_request cfg st frame).1 := by
  unfold DoDownload.reuse_info_request
  split
  · exact hinv
  · split
    · exact hinv
    · rename_i proposals tag hreq
      simp only []
      split
      · rename_i hne
        split
        · rename_i id hid
          exfalso
          rcases hf with hf | hf
          · rw [hf] at hid; cases hid
          · apply hne
            rw [DoDownload.to_retrieve_append_zero]
            · exact hinv.2.2
            · intro info hi
              obtain ⟨p, hp, rfl⟩ := List.mem_map.1 hi
              have hp2 := List.mem_filter.1 hp
              exact hf proposals tag hreq p hp2.1 (by simpa using hp2.2)
        · exact ⟨hinv.1, hinv.2.1, rfl⟩
      · rename_i hz
        exact ⟨hinv.1, hinv.2.1, by simpa using hz⟩

theorem DoDownload.NoReservation_of_eq {st st1 : DownloadState}
    (h : st1.reuse_info = st.reuse_info ∧ st1.reservation_id = st.reservation_id ∧
      st1.cached = st.cached ∧ st1.written = st.written)
    (hinv : DoDownload.NoReservation st) : DoDownload.NoReservation st1 := by
  unfold DoDownload.NoReservation at *
  rw [h.1, h.2.1, h.2.2.1]
  exact hinv

theorem DoDownload.after_check_none (cfg : DownloadConfig) (st : DownloadState)
    (frame : DownloadFrame) (filename : String)
    (hf : DoDownload.grantsNoReservation frame) (hinv : DoDownload.NoReservation st) :
    DoDownload.NoReservation (DoDownload.after_check cfg st frame filename).state := by
  have inv1 : DoDownload.NoReservation (DoDownload.resolve cfg st frame.reply filename).1 :=
    DoDownload.NoReservation_of_eq (DoDownload.resolve_reuse cfg st frame.reply filename) hinv
  unfold DoDownload.after_check
  simp only []
  cases hg : DoDownload.go_ahead cfg (DoDownload.resolve cfg st frame.reply filename).1 frame with
  | none => exact inv1
  | some st2 =>
    have inv2 : DoDownload.NoReservation st2 :=
      DoDownload.NoReservation_of_eq (DoDownload.go_ahead_reuse hg) inv1
    simp only []
    split
    · have inv3 := DoDownload.reuse_info_request_none cfg { st2 with rc := 0 } frame hf
        (DoDownload.NoReservation_of_eq ⟨rfl, rfl, rfl, rfl⟩ inv2)
      split <;> exact DoDownload.NoReservation_of_eq ⟨rfl, rfl, rfl, rfl⟩ inv3
    · split
      · split
        · exact inv2
        · split <;> exact DoDownload.NoReservation_of_eq ⟨rfl, rfl, rfl, rfl⟩ inv2
      · cases hrec : DoDownload.receive cfg st2 frame frame.reply filename
            (DoDownload.resolve cfg st frame.reply filename).2 with
        | none => exact inv2
        | some r =>
          obtain ⟨st3, bytes⟩ := r
          have inv3 : DoDownload.NoReservation st3 := by
            obtain ⟨h1, h2, _, h4⟩ := DoDownload.receive_reuse hrec
            rcases h4 with h4 | ⟨_, hid, _⟩
            · exact ⟨h2.trans inv2.1, h4.trans inv2.2.1, by rw [h1]; exact inv2.2.2⟩
            · exact absurd inv2.1 hid
          have hh := DoDownload.handle_rc_reuse cfg st3 frame
            (DoDownload.resolve cfg st frame.reply filename).2
          simp only []
          cases hrc : DoDownload.handle_rc cfg st3 frame
              (DoDownload.resolve cfg st frame.reply filename).2 with
          | next st4 =>
            rw [hrc] at hh
            have inv4 : DoDownload.NoReservation st4 := DoDownload.NoReservation_of_eq hh inv3
            simp only []
            split
            · exact inv4
            · exact DoDownload.NoReservation_of_eq ⟨rfl, rfl, rfl, rfl⟩ inv4
          | finished st4 =>
            rw [hrc] at hh
            exact DoDownload.NoReservation_of_eq hh inv3
          | dropped st4 =>
            rw [hrc] at hh
            exact DoDownload.NoReservation_of_eq hh inv3
          | failed_with_ack st4 =>
            rw [hrc] at hh
            exact DoDownload.NoReservation_of_eq hh inv3

theorem DoDownload.round_none (cfg : DownloadConfig) (st : DownloadState)
    (frame : DownloadFrame) (hf : DoDownload.grantsNoReservation frame)
    (hinv : DoDownload.NoReservation st) :
    DoDownload.NoReservation (DoDownload.round cfg st frame).state := by
  unfold DoDownload.round
  split
  · exact hinv
  · split
    · exact hinv
    · split
      · exact hinv
      · simp only []
        split
        · exact DoDownload.NoReservation_of_eq ⟨rfl, rfl, rfl, rfl⟩ hinv
        · exact DoDownload.after_check_none cfg _ frame _ hf
            (DoDownload.NoReservation_of_eq (DoDownload.check_path_reuse cfg _ frame.filename)
              (DoDownload.NoReservation_of_eq ⟨rfl, rfl, rfl, rfl⟩ hinv))

theorem DoDownload.loop_none (cfg : DownloadConfig) :
    ∀ (frames : List DownloadFrame) (st : DownloadState),
      (∀ frame ∈ frames, DoDownload.grantsNoReservation frame) →
      DoDownload.NoReservation st → DoDownload.NoReservation (DoDownload.loop cfg st frames).state
  | [], st => fun _ hinv => hinv
  | frame :: rest, st => by
    intro hf hinv
    have h1 := DoDownload.round_none cfg st frame (hf frame (List.mem_cons_self _ _)) hinv
    unfold DoDownload.loop
    cases hr : DoDownload.round cfg st frame with
    | next st1 =>
      rw [hr] at h1
      exact DoDownload.loop_none cfg rest st1
        (fun f hf1 => hf f (List.mem_cons_of_mem _ hf1)) h1
    | finished st1 => rw [hr] at h1; exact h1
    | dropped st1 => rw [hr] at h1; exact h1
    | failed_with_ack st1 => rw [hr] at h1; exact h1

/-- The end of `DoDownload` calls `CacheFile` for nothing and writes nothing: the record
of the session is that of its loop. -/
theorem DoDownload.session_record (cfg : DownloadConfig) (frames : List DownloadFrame)
    (deferred_results : List (Int × String)) (upload_ack : Option ClassAd) (peer : String)
    (commit_file_written : Bool) :
    (DoDownload cfg frames deferred_results upload_ack peer commit_file_written).state.cached
      = (DoDownload.loop cfg {} frames).state.cached ∧
    (DoDownload cfg frames deferred_results upload_ack peer commit_file_written).state.written
      = (DoDownload.loop cfg {} frames).state.written := by
  have hdef : ∀ (results : List (Int × String)) (st : DownloadState),
      (DoDownload.run_deferred st results).cached = st.cached ∧
        (DoDownload.run_deferred st results).written = st.written := by
    intro results st
    unfold DoDownload.run_deferred
    split
    · clear * -
      induction results generalizing st with
      | nil => exact ⟨rfl, rfl⟩
      | cons r rest ih =>
        simp only [List.foldl_cons]
        split
        · exact ih _
        · exact ih _
    · exact ⟨rfl, rfl⟩
  have hfin : ∀ st : DownloadState,
      (DoDownload.finish cfg st deferred_results upload_ack peer commit_file_written).state.cached
        = st.cached ∧
      (DoDownload.finish cfg st deferred_results upload_ack peer commit_file_written).state.written
        = st.written := by
    intro st
    unfold DoDownload.finish
    simp only []
    repeat' split
    all_goals exact hdef deferred_results st
  unfold DoDownload
  cases hl : DoDownload.loop cfg {} frames with
  | next st => exact hfin st
  | finished st => exact hfin st
  | dropped st => exact ⟨rfl, rfl⟩
  | failed_with_ack st => exact ⟨rfl, rfl⟩

/-! ### What a failed `ReserveSpace` leaves behind -/

theorem DoDownload.check_path_requests (cfg : DownloadConfig) (st : DownloadState)
    (filename : String) :
    (DoDownload.check_path cfg st filename).1.reserve_requests = st.reserve_requests := by
  unfold DoDownload.check_path
  split <;> rfl

theorem DoDownload.resolve_requests (cfg : DownloadConfig) (st : DownloadState) (c : Int)
    (filename : String) :
    (DoDownload.resolve cfg st c filename).1.reserve_requests = st.reserve_requests := by
  unfold DoDownload.resolve
  simp only []
  repeat' split
  all_goals rfl

theorem DoDownload.go_ahead_requests {cfg : DownloadConfig} {st st1 : DownloadState}
    {frame : DownloadFrame} (h : DoDownload.go_ahead cfg st frame = some st1) :
    st1.reserve_requests = st.reserve_requests := by
  unfold DoDownload.go_ahead at h
  split at h
  · split at h
    · cases h
    · simp only [] at h
      split at h
      · cases h
      · rename_i st2 hmine
        have h2 : st2.reserve_requests = st.reserve_requests := by
          split at hmine
          · split at hmine
            · cases hmine
            · cases hmine; rfl
          · cases hmine; rfl
        split at h
        · split at h
          · cases h
          · cases h; exact h2
        · cases h; exact h2
  · cases h; rfl

theorem DoDownload.handle_rc_requests (cfg : DownloadConfig) (st : DownloadState)
    (frame : DownloadFrame) (fullname : String) :
    (DoDownload.handle_rc cfg st frame fullname).state.reserve_requests
      = st.reserve_requests := by
  unfold DoDownload.handle_rc
  simp only []
  repeat' split
  all_goals rfl

theorem DoDownload.receive_requests {cfg : DownloadConfig} {st st1 : DownloadState}
    {frame : DownloadFrame} {c : Int} {filename fullname : String} {bytes : Int}
    (h : DoDownload.receive cfg st frame c filename fullname = some (st1, bytes)) :
    st1.reserve_requests = st.reserve_requests := by
  unfold DoDownload.receive at h
  simp only [] at h
  repeat' split at h
  all_goals first
    | (cases h; done)
    | (cases h; rfl)

/-- A reuse-info request calls `ReserveSpace` at most once; when the call fails the list
of files still to be fetched is left empty. -/
theorem DoDownload.reuse_info_request_failed (cfg : DownloadConfig) (st : DownloadState)
    (frame : DownloadFrame) (hnone : frame.reserve_space = none) :
    (DoDownload.reuse_info_request cfg st frame).1.reserve_requests = st.reserve_requests ∨
      (DoDownload.reuse_info_request cfg st frame).1.reuse_info = [] := by
  unfold DoDownload.reuse_info_request
  split
  · exact Or.inl rfl
  · split
    · exact Or.inl rfl
    · simp only []
      split
      · split
        · rename_i id hid
          rw [hnone] at hid
          cases hid
        · exact Or.inr rfl
      · exact Or.inl rfl

/-- The part of a round after the check of the name, for a frame whose `ReserveSpace`
fails: when the call is made, no file is handed to the cache and the list of files still
to be fetched is left empty. -/
theorem DoDownload.after_check_failed (cfg : DownloadConfig) (st : DownloadState)
    (frame : DownloadFrame) (filename : String) (hnone : frame.reserve_space = none) :
    (DoDownload.after_check cfg st frame filename).state.reserve_requests
        = st.reserve_requests ∨
      ((DoDownload.after_check cfg st frame filename).state.reuse_info = [] ∧
        (DoDownload.after_check cfg st frame filename).state.cached = st.cached) := by
  have e1 := DoDownload.resolve_requests cfg st frame.reply filename
  have c1 := (DoDownload.resolve_reuse cfg st frame.reply filename).2.2.1
  unfold DoDownload.after_check
  simp only []
  cases hg : DoDownload.go_ahead cfg (DoDownload.resolve cfg st frame.reply filename).1 frame with
  | none => exact Or.inl e1
  | some st2 =>
    have e2 : st2.reserve_requests = st.reserve_requests :=
      (DoDownload.go_ahead_requests hg).trans e1
    have c2 : st2.cached = st.cached := (DoDownload.go_ahead_reuse hg).2.2.1.trans c1
    simp only []
    split
    · have hr := DoDownload.reuse_info_request_failed cfg { st2 with rc := 0 } frame hnone
      have hc := (DoDownload.reuse_info_request_reuse cfg { st2 with rc := 0 } frame).1
      have key : (DoDownload.reuse_info_request cfg { st2 with rc := 0 } frame).1.reserve_requests
            = st.reserve_requests ∨
          ((DoDownload.reuse_info_request cfg { st2 with rc := 0 } frame).1.reuse_info = [] ∧
            (DoDownload.reuse_info_request cfg { st2 with rc := 0 } frame).1.cached
              = st.cached) := by
        rcases hr with hr | hr
        · exact Or.inl (hr.trans e2)
        · exact Or.inr ⟨hr, hc.trans c2⟩
      split <;> exact key
    · split
      · split
        · exact Or.inl e2
        · split <;> exact Or.inl e2
      · cases hrec : DoDownload.receive cfg st2 frame frame.reply filename
            (DoDownload.resolve cfg st frame.reply filename).2 with
        | none => exact Or.inl e2
        | some r =>
          obtain ⟨st3, bytes⟩ := r
          have e3 : st3.reserve_requests = st.reserve_requests :=
            (DoDownload.receive_requests hrec).trans e2
          have hh := DoDownload.handle_rc_requests cfg st3 frame
            (DoDownload.resolve cfg st frame.reply filename).2
          simp only []
          cases hrc : DoDownload.handle_rc cfg st3 frame
              (DoDownload.resolve cfg st frame.reply filename).2 with
          | next st4 =>
            rw [hrc] at hh
            simp only []
            split
            · exact Or.inl (hh.trans e3)
            · exact Or.inl (hh.trans e3)
          | finished st4 =>
            rw [hrc] at hh
            exact Or.inl (hh.trans e3)
          | dropped st4 =>
            rw [hrc] at hh
            exact Or.inl (hh.trans e3)
          | failed_with_ack st4 =>
            rw [hrc] at hh
            exact Or.inl (hh.trans e3)

/-- A round in which `ReserveSpace` is called and fails hands no file to the cache and
leaves the list of files still to be fetched empty. -/
theorem DoDownload.round_failed (cfg : DownloadConfig) (st : DownloadState)
    (frame : DownloadFrame) (hnone : frame.reserve_space = none)
    (hcall : (DoDownload.round cfg st frame).state.reserve_requests ≠ st.reserve_requests) :
    (DoDownload.round cfg st frame).state.reuse_info = [] ∧
      (DoDownload.round cfg st frame).state.cached = st.cached := by
  have key : (DoDownload.round cfg st frame).state.reserve_requests = st.reserve_requests ∨
      ((DoDownload.round cfg st frame).state.reuse_info = [] ∧
        (DoDownload.round cfg st frame).state.cached = st.cached) := by
    unfold DoDownload.round
    split
    · exact Or.inl rfl
    · split
      · exact Or.inl rfl
      · split
        · exact Or.inl rfl
        · simp only []
          split
          · exact Or.inl rfl
          · have h := DoDownload.after_check_failed cfg
              (DoDownload.check_path cfg
                { st with crypto_mode := DoDownload.crypto_for cfg frame.reply }
                frame.filename).1 frame
              (DoDownload.check_path cfg
                { st with crypto_mode := DoDownload.crypto_for cfg frame.reply }
                frame.filename).2 hnone
            have e := DoDownload.check_path_requests cfg
              { st with crypto_mode := DoDownload.crypto_for cfg frame.reply } frame.filename
            have c := (DoDownload.check_path_reuse cfg
              { st with crypto_mode := DoDownload.crypto_for cfg frame.reply }
              frame.filename).2.2.1
            rcases h with h | h
            · exact Or.inl (h.trans e)
            · exact Or.inr ⟨h.1, h.2.trans c⟩
  rcases key with key | key
  · exact absurd key hcall
  · exact key

/-- The loop over frames of which the first ones all end with the next command goes on
from the state that they leave. -/
theorem DoDownload.loop_state_after (cfg : DownloadConfig) (rest : List DownloadFrame) :
    ∀ (pre : List DownloadFrame) (st st0 : DownloadState),
      DoDownload.state_after cfg st pre = some st0 →
      DoDownload.loop cfg st (pre ++ rest) = DoDownload.loop cfg st0 rest
  | [], st, st0 => by
    intro h
    unfold DoDownload.state_after at h
    cases h
    rfl
  | frame :: pre, st, st0 => by
    intro h
    unfold DoDownload.state_after at h
    rw [List.cons_append, DoDownload.loop]
    cases hr : DoDownload.round cfg st frame with
    | next st1 =>
      rw [hr] at h
      exact DoDownload.loop_state_after cfg rest pre st1 st0 h
    | finished st1 => rw [hr] at h; cases h
    | dropped st1 => rw [hr] at h; cases h
    | failed_with_ack st1 => rw [hr] at h; cases h

/-- After a round in which `ReserveSpace` was called and failed, the loop hands only
files to the cache that a later request proposes and the cache cannot supply. -/
theorem DoDownload.loop_failed (cfg : DownloadConfig) (st0 : DownloadState)
    (frame : DownloadFrame) (post : List DownloadFrame) (hnone : frame.reserve_space = none)
    (hcall : (DoDownload.round cfg st0 frame).state.reserve_requests ≠ st0.reserve_requests) :
    ∃ added, (DoDownload.loop cfg st0 (frame :: post)).state.cached = st0.cached ++ added ∧
      ∀ c ∈ added, c.2 ≠ "" ∧ ∃ cmd filename,
        (cmd, filename, c.1) ∈ (DoDownload.loop cfg st0 (frame :: post)).state.written ∧
        DoDownload.proposedMissing post filename := by
  have hf := DoDownload.round_failed cfg st0 frame hnone hcall
  unfold DoDownload.loop
  cases hr : DoDownload.round cfg st0 frame with
  | next st1 =>
    rw [hr] at hf
    have hf1 : st1.reuse_info = [] := hf.1
    have hf2 : st1.cached = st0.cached := hf.2
    have hinv : DoDownload.ReuseInv (DoDownload.proposedMissing post) st0.cached st1 :=
      ⟨fun info hi => (by rw [hf1] at hi; cases hi),
        [], by rw [hf2, List.append_nil], fun _ h => (by cases h)⟩
    exact (DoDownload.loop_inv cfg post st1
      (fun f hfm h1 h2 proposals tag hreq p hp hret =>
        ⟨f, hfm, h1, h2, proposals, tag, hreq, p, hp, hret, rfl⟩) hinv).2
  | finished st1 =>
    rw [hr] at hf
    have hf2 : st1.cached = st0.cached := hf.2
    exact ⟨[], by rw [List.append_nil]; exact hf2, fun _ h => (by cases h)⟩
  | dropped st1 =>
    rw [hr] at hf
    have hf2 : st1.cached = st0.cached := hf.2
    exact ⟨[], by rw [List.append_nil]; exact hf2, fun _ h => (by cases h)⟩
  | failed_with_ack st1 =>
    rw [hr] at hf
    have hf2 : st1.cached = st0.cached := hf.2
    exact ⟨[], by rw [List.append_nil]; exact hf2, fun _ h => (by cases h)⟩

/-- C12 (as amended): in every download session `CacheFile` is called only with a
reservation that is held (its id is not empty) and only for a received item whose name
the sender has proposed for reuse in a reuse-info request of the session and the cache
could not supply; in a session in which no `ReserveSpace` call succeeds (it fails
whenever it is called, or the files to be fetched leave nothing to reserve) no file is
handed to the cache; and from a round on in which `ReserveSpace` is called and fails,
the only files handed to the cache are files that a later reuse-info request of the
session proposes and the cache cannot supply: the calls of `CacheFile` of the session
are those made before that round, followed by calls for such files. -/
theorem C12_reservation_guards_ingestion (cfg : DownloadConfig) (frames : List DownloadFrame)
    (deferred_results : List (Int × String)) (upload_ack : Option ClassAd) (peer : String)
    (commit_file_written : Bool) :
    (∀ c ∈ (DoDownload cfg frames deferred_results upload_ack peer
        commit_file_written).state.cached,
      c.2 ≠ "" ∧
      ∃ cmd filename,
        (cmd, filename, c.1) ∈ (DoDownload cfg frames deferred_results upload_ack peer
          commit_file_written).state.written ∧
        DoDownload.proposedMissing frames filename) ∧
    ((∀ frame ∈ frames, DoDownload.grantsNoReservation frame) →
      (DoDownload cfg frames deferred_results upload_ack peer
        commit_file_written).state.cached = []) ∧
    (∀ (pre : List DownloadFrame) (frame : DownloadFrame) (post : List DownloadFrame)
        (st0 : DownloadState),
      frames = pre ++ frame :: post →
      DoDownload.state_after cfg {} pre = some st0 →
      frame.reserve_space = none →
      (DoDownload.round cfg st0 frame).state.reserve_requests ≠ st0.reserve_requests →
      ∃ added,
        (DoDownload cfg frames deferred_results upload_ack peer
          commit_file_written).state.cached = st0.cached ++ added ∧
        ∀ c ∈ added,
          c.2 ≠ "" ∧
          ∃ cmd filename,
            (cmd, filename, c.1) ∈ (DoDownload cfg frames deferred_results upload_ack peer
              commit_file_written).state.written ∧
            DoDownload.proposedMissing post filename) := by
  have hrec := DoDownload.session_record cfg frames deferred_results upload_ack peer
    commit_file_written
  rw [hrec.1, hrec.2]
  refine ⟨?_, ?_, ?_⟩
  · have hinv := DoDownload.loop_inv (P := DoDownload.proposedMissing frames) cfg frames {}
      (fun frame hf h1 h2 proposals tag hreq p hp hret =>
        ⟨frame, hf, h1, h2, proposals, tag, hreq, p, hp, hret, rfl⟩)
      (⟨fun _ h => (by cases h), [], rfl, fun _ h => (by cases h)⟩ :
        DoDownload.ReuseInv (DoDownload.proposedMissing frames) [] {})
    obtain ⟨added, hadd, hall⟩ := hinv.2
    rw [hadd, List.nil_append]
    exact hall
  · intro hf
    exact (DoDownload.loop_none cfg frames {} hf ⟨rfl, rfl, rfl⟩).2.1
  · intro pre frame post st0 hframes hafter hnone hcall
    rw [hframes, DoDownload.loop_state_after cfg (frame :: post) pre {} st0 hafter]
    exact DoDownload.loop_failed cfg st0 frame post hnone hcall

theorem C12_reservation_guards_ingestion_witness :
    (DoDownload reuseConfig [reuseRequestFrame (some "res-1"), dataFrame] [] successAck "peer"
        true).state.cached = [("/sandbox/data.bin", "res-1")] ∧
    (∀ frame ∈ [reuseRequestFrame none, dataFrame], DoDownload.grantsNoReservation frame) ∧
    (DoDownload reuseConfig [reuseRequestFrame none, dataFrame] [] successAck "peer"
        true).state.cached = [] ∧
    (DoDownload reuseConfig [reuseRequestFrame none, dataFrame] [] successAck "peer"
        true).state.written = [(1, "data.bin", "/sandbox/data.bin")] ∧
    (DoDownload.round reuseConfig {} (reuseRequestFrame (some "res-1"))).state.reservation_id
      = "res-1" ∧
    (DoDownload.round reuseConfig
        (DoDownload.round reuseConfig {} (reuseRequestFrame (some "res-1"))).state
        failedRequestFrame).state.reserve_requests = [100, 150] ∧
    (∃ added,
      (DoDownload reuseConfig
          [reuseRequestFrame (some "res-1"), failedRequestFrame, dataFrame] [] successAck
          "peer" true).state.cached
        = (DoDownload.round reuseConfig {} (reuseRequestFrame (some "res-1"))).state.cached
          ++ added ∧
      ∀ c ∈ added,
        c.2 ≠ "" ∧
        ∃ cmd filename,
          (cmd, filename, c.1) ∈ (DoDownload reuseConfig
            [reuseRequestFrame (some "res-1"), failedRequestFrame, dataFrame] [] successAck
            "peer" true).state.written ∧
          DoDownload.proposedMissing [dataFrame] filename) ∧
    (DoDownload reuseConfig [reuseRequestFrame (some "res-1"), failedRequestFrame, dataFrame]
        [] successAck "peer" true).state.cached = [] :=
  have hf : ∀ frame ∈ [reuseRequestFrame none, dataFrame],
      DoDownload.grantsNoReservation frame := by
    intro frame h
    simp only [List.mem_cons, List.mem_singleton, List.not_mem_nil, or_false] at h
    rcases h with h | h
    · subst h; exact Or.inl rfl
    · subst h; exact Or.inl rfl
  ⟨by decide, hf,
    (C12_reservation_guards_ingestion reuseConfig [reuseRequestFrame none, dataFrame] []
      successAck "peer" true).2.1 hf,
    by decide, by decide, by decide,
    (C12_reservation_guards_ingestion reuseConfig
      [reuseRequestFrame (some "res-1"), failedRequestFrame, dataFrame] [] successAck "peer"
      true).2.2 [reuseRequestFrame (some "res-1")] failedRequestFrame [dataFrame]
      (DoDownload.round reuseConfig {} (reuseRequestFrame (some "res-1"))).state rfl rfl rfl
      (by decide),
    by decide⟩

/-- C12 as stated fails: the first reuse-info request of the session is granted the
reservation `res-1` for the 100 bytes of `data.bin`; the second adds the 50 bytes of
`b.bin`, and `ReserveSpace`, called for 150 bytes, fails; the third proposes the empty
file `c.bin`, for which nothing has to be reserved, so that `ReserveSpace` is not called
again.  The file `c.bin` then arrives and is handed to the cache, with the reservation
`res-1`: a file is ingested after `ReserveSpace` has failed and when nothing had to be
reserved. -/
theorem C12_counterexample_stale_reservation :
    staleSession = [reuseRequestFrame (some "res-1"), failedRequestFrame,
      emptyFileRequestFrame, emptyFileFrame] ∧
    failedRequestFrame.reserve_space = none ∧
    (DoDownload reuseConfig staleSession [] successAck "peer" true).state.reserve_requests
      = [100, 150] ∧
    (DoDownload reuseConfig staleSession [] successAck "peer" true).state.written
      = [(1, "c.bin", "/sandbox/c.bin")] ∧
    (DoDownload reuseConfig staleSession [] successAck "peer" true).state.cached
      = [("/sandbox/c.bin", "res-1")] ∧
    (DoDownload reuseConfig staleSession [] successAck "peer" true).rc = 0 :=
  ⟨rfl, rfl, by decide, by decide, by decide, by decide⟩

/-! ## `DoUpload`: the files that the peer has reused -/

theorem DoUpload.with_signed_url_srcName (cfg : UploadConfig) (fileitem : FileTransferItem) :
    (DoUpload.with_signed_url cfg fileitem).srcName = fileitem.srcName := by
  unfold DoUpload.with_signed_url
  split
  · unfold FileTransferItem.setDestUrl
    split <;> rfl
  · rfl

/-- An item that the peer has reused is passed over: its round changes nothing. -/
theorem DoUpload.item_skipped (cfg : UploadConfig) (st : UploadState)
    (fileitem : FileTransferItem) (env : UploadReplies)
    (h : cfg.skip_files.contains fileitem.srcName = true) :
    DoUpload.item cfg st fileitem env = .next st := by
  unfold DoUpload.item
  simp only [DoUpload.with_signed_url_srcName, h, if_true]

/-- The round of an item that the peer has not named is the round that the item has when
nothing is reused. -/
theorem DoUpload.item_not_skipped (cfg : UploadConfig) (st : UploadState)
    (fileitem : FileTransferItem) (env : UploadReplies)
    (h : cfg.skip_files.contains fileitem.srcName = false) :
    DoUpload.item cfg st fileitem env =
      DoUpload.item { cfg with skip_files := [] } st fileitem env := by
  unfold DoUpload.item
  simp only [DoUpload.with_signed_url_srcName, h, List.contains_nil, Bool.false_eq_true,
    if_false]
  rfl

theorem DoUpload.loop_cons (cfg : UploadConfig) (st : UploadState)
    (fileitem : FileTransferItem) (env : UploadReplies)
    (rest : List (FileTransferItem × UploadReplies)) :
    DoUpload.loop cfg st ((fileitem, env) :: rest) =
      match DoUpload.item cfg st fileitem env with
      | .next st => DoUpload.loop cfg st rest
      | other => other := rfl

/-- The loop over the plan is the loop, with nothing reused, over the plan without the
items that the peer has named. -/
theorem DoUpload.loop_skip (cfg : UploadConfig) :
    ∀ (plan : List (FileTransferItem × UploadReplies)) (st : UploadState),
      DoUpload.loop cfg st plan =
        DoUpload.loop { cfg with skip_files := [] } st
          (plan.filter (fun x => !cfg.skip_files.contains x.1.srcName))
  | [], st => rfl
  | (fileitem, env) :: rest, st => by
    cases h : cfg.skip_files.contains fileitem.srcName with
    | true =>
      rw [List.filter_cons_of_neg (by rw [h]; decide), DoUpload.loop_cons,
        DoUpload.item_skipped cfg st fileitem env h]
      exact DoUpload.loop_skip cfg rest st
    | false =>
      rw [List.filter_cons_of_pos (by rw [h]; decide), DoUpload.loop_cons, DoUpload.loop_cons,
        DoUpload.item_not_skipped cfg st fileitem env h]
      cases DoUpload.item { cfg with skip_files := [] } st fileitem env with
      | next st1 => exact DoUpload.loop_skip cfg rest st1
      | dropped st1 => rfl
      | exited st1 a b c d e f g => rfl

/-! ## `DoUpload`: counting the files and keeping the first failure -/

theorem DoUpload.Step_refl (st : UploadState) : DoUpload.Step 0 st st :=
  ⟨by simp, fun _ => ⟨by assumption, rfl, rfl, rfl, rfl, rfl⟩, fun h => h⟩

theorem DoUpload.Step_trans {a b : Int} {s1 s2 s3 : UploadState}
    (h1 : DoUpload.Step a s1 s2) (h2 : DoUpload.Step b s2 s3) : DoUpload.Step (a + b) s1 s3 := by
  refine ⟨by rw [h2.1, h1.1]; ring, fun h => ?_, fun h => h2.2.2 (h1.2.2 h)⟩
  obtain ⟨a1, a2, a3, a4, a5, a6⟩ := h1.2.1 h
  obtain ⟨b1, b2, b3, b4, b5, b6⟩ := h2.2.1 a1
  exact ⟨b1, b2.trans a2, b3.trans a3, b4.trans a4, b5.trans a5, b6.trans a6⟩

/-- A step that touches neither the count nor the record of the first failure. -/
theorem DoUpload.Step_of_eq {st st1 : UploadState}
    (h0 : st1.numFiles = st.numFiles)
    (h1 : st1.first_failed_file_transfer_happened = st.first_failed_file_transfer_happened)
    (h2 : st1.first_failed_upload_success = st.first_failed_upload_success)
    (h3 : st1.first_failed_try_again = st.first_failed_try_again)
    (h4 : st1.first_failed_hold_code = st.first_failed_hold_code)
    (h5 : st1.first_failed_hold_subcode = st.first_failed_hold_subcode)
    (h6 : st1.first_failed_error_desc = st.first_failed_error_desc) :
    DoUpload.Step 0 st st1 := by
  refine ⟨by rw [h0]; simp, fun h => ⟨h1.trans h, h2, h3, h4, h5, h6⟩, fun hs hh => ?_⟩
  rw [h2, h3]
  exact hs (h1.symm.trans hh)

theorem DoUpload.record_batch_failure_step (st : UploadState) (errors : String) :
    DoUpload.Step 0 st (DoUpload.record_batch_failure st errors) := by
  unfold DoUpload.record_batch_failure
  simp only []
  split
  · rename_i hc
    refine ⟨by simp, fun h => ?_, fun _ _ => ⟨rfl, rfl⟩⟩
    simp only [Bool.not_eq_true', ] at hc
    rw [h] at hc
    cases hc
  · exact DoUpload.Step_of_eq rfl rfl rfl rfl rfl rfl rfl

theorem DoUpload.flush_pending_step {st st1 : UploadState} {p : ItemPlan} {env : UploadReplies}
    (h : DoUpload.flush_pending st p env = some st1) : DoUpload.Step 0 st st1 := by
  unfold DoUpload.flush_pending at h
  split at h
  · split at h
    · cases h
    · simp only [Option.some.injEq] at h
      subst h
      split
      · have := DoUpload.Step_trans (DoUpload.record_batch_failure_step st env.flush_errors)
          (@DoUpload.Step_of_eq _
            { DoUpload.record_batch_failure st env.flush_errors with
              currentUploadPlugin := "", currentUploadRequests := [],
              currentUploadDeferred := 0 } rfl rfl rfl rfl rfl rfl rfl)
        simpa using this
      · exact DoUpload.Step_of_eq rfl rfl rfl rfl rfl rfl rfl
  · simp only [Option.some.injEq] at h
    subst h
    exact DoUpload.Step_refl _

theorem DoUpload.send_header_step {cfg : UploadConfig} {st st1 : UploadState} {p : ItemPlan}
    {env : UploadReplies} (h : DoUpload.send_header cfg st p env = some st1) :
    DoUpload.Step 0 st st1 := by
  unfold DoUpload.send_header at h
  simp only [] at h
  split at h
  · cases h
  · split at h
    · cases h
    · split at h
      · cases h
      · simp only [Option.some.injEq] at h
        subst h
        exact DoUpload.Step_of_eq rfl rfl rfl rfl rfl rfl rfl

theorem DoUpload.go_ahead_first_step {cfg : UploadConfig} {st st1 : UploadState} {p : ItemPlan}
    {env : UploadReplies} (h : DoUpload.go_ahead cfg st p env = some st1) :
    DoUpload.Step 0 st st1 := by
  unfold DoUpload.go_ahead at h
  split at h
  · simp only [] at h
    split at h
    · cases h
    · split at h
      · cases h
      · rename_i st2 hpeer
        have h2 : DoUpload.Step 0 st st2 := by
          split at hpeer
          · split at hpeer
            · cases hpeer
            · simp only [Option.some.injEq] at hpeer
              subst hpeer
              exact DoUpload.Step_of_eq rfl rfl rfl rfl rfl rfl rfl
          · simp only [Option.some.injEq] at hpeer
            subst hpeer
            exact DoUpload.Step_refl _
        split at h
        · split at h
          · cases h
          · simp only [Option.some.injEq] at h
            subst h
            have := DoUpload.Step_trans h2
              (@DoUpload.Step_of_eq st2 { st2 with I_go_ahead_always := _ }
                rfl rfl rfl rfl rfl rfl rfl)
            simpa using this
        · simp only [Option.some.injEq] at h
          subst h; exact h2
  · simp only [Option.some.injEq] at h
    subst h
    exact DoUpload.Step_refl _

theorem DoUpload.transfer_step {cfg : UploadConfig} {st st1 : UploadState} {p : ItemPlan}
    {env : UploadReplies} {rc e : Int} (h : DoUpload.transfer cfg st p env = some (st1, rc, e)) :
    DoUpload.Step 0 st st1 := by
  unfold DoUpload.transfer at h
  simp only [] at h
  repeat' split at h
  all_goals first
    | (cases h; done)
    | (cases h; exact DoUpload.Step_of_eq rfl rfl rfl rfl rfl rfl rfl)

/-- The record of a failure as the first one, if it is the first: the step that ends the
block `if( rc < 0 )`. -/
theorem DoUpload.record_first_step (st : UploadState) (x : UploadState × Int)
    (h0 : x.1.numFiles = st.numFiles)
    (h1 : x.1.first_failed_file_transfer_happened = st.first_failed_file_transfer_happened)
    (h2 : x.1.first_failed_upload_success = st.first_failed_upload_success)
    (h3 : x.1.first_failed_try_again = st.first_failed_try_again)
    (h4 : x.1.first_failed_hold_code = st.first_failed_hold_code)
    (h5 : x.1.first_failed_hold_subcode = st.first_failed_hold_subcode)
    (h6 : x.1.first_failed_error_desc = st.first_failed_error_desc)
    (st1 : UploadState)
    (h : (if x.1.first_failed_file_transfer_happened = false then
          UploadOutcome.next { x.1 with
            first_failed_file_transfer_happened := true
            first_failed_upload_success := false
            first_failed_try_again := false
            first_failed_hold_code := x.1.hold_code
            first_failed_hold_subcode := x.2
            first_failed_error_desc := x.1.error_desc }
         else UploadOutcome.next x.1) = .next st1) :
    DoUpload.Step 0 st st1 := by
  split at h
  · rename_i hc
    cases h
    refine ⟨by simpa using h0, fun hh => ?_, fun _ _ => ⟨rfl, rfl⟩⟩
    rw [h1, hh] at hc
    cases hc
  · cases h
    exact DoUpload.Step_of_eq h0 h1 h2 h3 h4 h5 h6

theorem DoUpload.handle_rc_first_step {cfg : UploadConfig} {st st1 : UploadState} {p : ItemPlan}
    {env : UploadReplies} {rc e : Int}
    (h : DoUpload.handle_rc cfg st p env rc e = .next st1) : DoUpload.Step 0 st st1 := by
  unfold DoUpload.handle_rc at h
  simp only [] at h
  split at h
  · split at h
    · refine DoUpload.record_first_step st _ ?_ ?_ ?_ ?_ ?_ ?_ ?_ st1 h <;>
        (split <;> (try split) <;> rfl)
    · cases h
  · cases h
    exact DoUpload.Step_refl _

/-- A local failure is recorded as the first failure when none has been recorded: the
loop goes on, and the record holds the verdict of this item. -/
theorem DoUpload.handle_rc_first (cfg : UploadConfig) (st : UploadState) (p : ItemPlan)
    (env : UploadReplies) (rc e : Int)
    (hrc : rc = PUT_FILE_OPEN_FAILED ∨ rc = PUT_FILE_PLUGIN_FAILED ∨
      rc = PUT_FILE_MAX_BYTES_EXCEEDED)
    (hfirst : st.first_failed_file_transfer_happened = false) :
    ∃ st1, DoUpload.handle_rc cfg st p env rc e = .next st1 ∧
      st1.first_failed_file_transfer_happened = true ∧
      st1.first_failed_upload_success = false ∧ st1.first_failed_try_again = false ∧
      st1.first_failed_hold_code = st1.hold_code ∧
      st1.first_failed_error_desc = st1.error_desc ∧
      st1.upload_success = false ∧ st1.try_again = false := by
  have hneg : rc < 0 := by
    unfold PUT_FILE_OPEN_FAILED PUT_FILE_PLUGIN_FAILED PUT_FILE_MAX_BYTES_EXCEEDED at hrc
    omega
  unfold DoUpload.handle_rc
  simp only [hneg, if_true, hrc]
  have hf : ∀ x : UploadState × Int,
      x.1.first_failed_file_transfer_happened = false →
      x.1.upload_success = false → x.1.try_again = false →
      ∃ st1,
        (if x.1.first_failed_file_transfer_happened = false then
          UploadOutcome.next { x.1 with
            first_failed_file_transfer_happened := true
            first_failed_upload_success := false
            first_failed_try_again := false
            first_failed_hold_code := x.1.hold_code
            first_failed_hold_subcode := x.2
            first_failed_error_desc := x.1.error_desc }
         else UploadOutcome.next x.1) = .next st1 ∧
        st1.first_failed_file_transfer_happened = true ∧
        st1.first_failed_upload_success = false ∧ st1.first_failed_try_again = false ∧
        st1.first_failed_hold_code = st1.hold_code ∧
        st1.first_failed_error_desc = st1.error_desc ∧
        st1.upload_success = false ∧ st1.try_again = false := by
    intro x h1 h2 h3
    rw [if_pos h1]
    exact ⟨_, rfl, rfl, rfl, rfl, rfl, rfl, h2, h3⟩
  apply hf
  · split <;> (try split) <;> exact hfirst
  · split <;> (try split) <;> rfl
  · split <;> (try split) <;> rfl

theorem DoUpload.record_first_next (x : UploadState × Int) :
    ∃ st1,
      (if x.1.first_failed_file_transfer_happened = false then
          UploadOutcome.next { x.1 with
            first_failed_file_transfer_happened := true
            first_failed_upload_success := false
            first_failed_try_again := false
            first_failed_hold_code := x.1.hold_code
            first_failed_hold_subcode := x.2
            first_failed_error_desc := x.1.error_desc }
         else UploadOutcome.next x.1) = .next st1 := by
  split <;> exact ⟨_, rfl⟩

theorem DoUpload.handle_rc_ok (cfg : UploadConfig) (st : UploadState) (p : ItemPlan)
    (env : UploadReplies) (rc e : Int) (hrc : DoUpload.isLocalOrOk rc) :
    ∃ st1, DoUpload.handle_rc cfg st p env rc e = .next st1 := by
  unfold DoUpload.handle_rc
  rcases hrc with h | h
  · rw [if_neg (by omega)]
    exact ⟨_, rfl⟩
  · have hneg : rc < 0 := by
      unfold PUT_FILE_OPEN_FAILED PUT_FILE_PLUGIN_FAILED PUT_FILE_MAX_BYTES_EXCEEDED at h
      omega
    simp only [hneg, if_true, h]
    exact DoUpload.record_first_next _

theorem DoUpload.account_step {cfg : UploadConfig} {st st1 : UploadState} {p : ItemPlan}
    {env : UploadReplies} (h : DoUpload.account cfg st p env = .next st1) :
    DoUpload.Step 1 st st1 := by
  unfold DoUpload.account at h
  split at h
  · cases h
  · cases h
    exact ⟨rfl, fun hh => ⟨hh, rfl, rfl, rfl, rfl, rfl⟩, fun hs => hs⟩

theorem DoUpload.send_step {cfg : UploadConfig} {st st1 : UploadState} {p : ItemPlan}
    {env : UploadReplies} (h : DoUpload.send cfg st p env = .next st1) :
    DoUpload.Step 1 st st1 := by
  unfold DoUpload.send at h
  cases ht : DoUpload.transfer cfg st p env with
  | none => rw [ht] at h; cases h
  | some r =>
    obtain ⟨st2, rc, e⟩ := r
    rw [ht] at h
    simp only [] at h
    cases hh : DoUpload.handle_rc cfg st2 p env rc e with
    | next st3 =>
      rw [hh] at h
      simp only [] at h
      have := DoUpload.Step_trans (DoUpload.Step_trans (DoUpload.transfer_step ht)
        (DoUpload.handle_rc_first_step hh)) (DoUpload.account_step h)
      simpa using this
    | dropped st3 => rw [hh] at h; cases h
    | exited st3 a b c d e f g => rw [hh] at h; cases h

/-- A round that the loop goes on after counts one file, or none if the peer has reused
the item, and respects the record of the first failure. -/
theorem DoUpload.item_step {cfg : UploadConfig} {st st1 : UploadState}
    {fileitem : FileTransferItem} {env : UploadReplies}
    (h : DoUpload.item cfg st fileitem env = .next st1) :
    DoUpload.Step (if cfg.skip_files.contains fileitem.srcName then 0 else 1) st st1 := by
  unfold DoUpload.item at h
  simp only [DoUpload.with_signed_url_srcName] at h
  split at h
  · rename_i hc
    cases h
    rw [if_pos hc]
    exact DoUpload.Step_refl _
  · rename_i hc
    rw [if_neg hc]
    split at h
    · cases h
    · split at h
      · cases h
      · rename_i s1 h1
        split at h
        · cases h
        · rename_i s2 h2
          split at h
          · cases h
          · rename_i s3 h3
            have := DoUpload.Step_trans (DoUpload.Step_trans (DoUpload.Step_trans
              (DoUpload.flush_pending_step h1) (DoUpload.send_header_step h2))
              (DoUpload.go_ahead_first_step h3)) (DoUpload.send_step h)
            simpa using this

theorem DoUpload.loop_step (cfg : UploadConfig) :
    ∀ (plan : List (FileTransferItem × UploadReplies)) (st st1 : UploadState),
      DoUpload.loop cfg st plan = .next st1 →
      DoUpload.Step ((plan.filter (fun x => !cfg.skip_files.contains x.1.srcName)).length : Nat)
        st st1
  | [], st, st1 => by
    intro h
    cases h
    exact DoUpload.Step_refl _
  | (fileitem, env) :: rest, st, st1 => by
    intro h
    rw [DoUpload.loop_cons] at h
    cases hi : DoUpload.item cfg st fileitem env with
    | next st2 =>
      rw [hi] at h
      have h1 := DoUpload.item_step hi
      have h2 := DoUpload.loop_step cfg rest st2 st1 h
      have h3 := DoUpload.Step_trans h1 h2
      cases hc : cfg.skip_files.contains fileitem.srcName with
      | true =>
        rw [List.filter_cons_of_neg (by rw [hc]; decide)]
        simp only [hc, if_true, zero_add] at h3
        exact h3
      | false =>
        rw [List.filter_cons_of_pos (by rw [hc]; decide)]
        simp only [hc, Bool.false_eq_true, if_false] at h3
        simp only [List.length_cons, Nat.cast_add, Nat.cast_one]
        rw [add_comm]
        exact h3
    | dropped st2 => rw [hi] at h; cases h
    | exited st2 a b c d e f g => rw [hi] at h; cases h

/-- C13: for every answer of the peer to the reuse-info request, the items that `DoUpload`
sends are those of the sorted plan without the items whose source name the answer
names, where `condor_exec.exe` in the answer stands for the executable of the job: the
loop over the plan is, round for round, the loop of a sender that had no answer over the
plan with these items taken out, every other item has the round that it would have
without the answer, and when no round fails on the stream every such item is counted
as sent. -/
theorem C13_reused_files_are_skipped (cfg : UploadConfig)
    (ReuseList : Option (List (Option String))) (st : UploadState)
    (plan : List (FileTransferItem × UploadReplies)) :
    (∀ name, name ∈ DoUpload.skip_files cfg.ExecFile ReuseList ↔
      ∃ exprlist fname, ReuseList = some exprlist ∧ some fname ∈ exprlist ∧
        name = DoUpload.reused_name cfg.ExecFile fname) ∧
    DoUpload.loop { cfg with skip_files := DoUpload.skip_files cfg.ExecFile ReuseList } st plan =
      DoUpload.loop { cfg with skip_files := [] } st
        (plan.filter (fun x =>
          !(DoUpload.skip_files cfg.ExecFile ReuseList).contains x.1.srcName)) ∧
    (∀ (st0 : UploadState) (fileitem : FileTransferItem) (env : UploadReplies),
      (DoUpload.skip_files cfg.ExecFile ReuseList).contains fileitem.srcName = false →
      DoUpload.item { cfg with skip_files := DoUpload.skip_files cfg.ExecFile ReuseList } st0
          fileitem env =
        DoUpload.item { cfg with skip_files := [] } st0 fileitem env) ∧
    (∀ st1,
      DoUpload.loop { cfg with skip_files := DoUpload.skip_files cfg.ExecFile ReuseList } st plan
        = .next st1 →
      st1.numFiles = st.numFiles +
        ((plan.filter (fun x =>
          !(DoUpload.skip_files cfg.ExecFile ReuseList).contains x.1.srcName)).length : Nat)) := by
  refine ⟨?_, ?_, ?_, ?_⟩
  · intro name
    unfold DoUpload.skip_files
    cases ReuseList with
    | none => simp
    | some exprlist =>
      simp only [List.mem_filterMap, Option.map_eq_some', Option.some.injEq, exists_and_left,
        exists_eq_left']
      constructor
      · rintro ⟨entry, hmem, fname, rfl, rfl⟩
        exact ⟨fname, hmem, rfl⟩
      · rintro ⟨fname, hmem, rfl⟩
        exact ⟨some fname, hmem, fname, rfl, rfl⟩
  · exact DoUpload.loop_skip
      { cfg with skip_files := DoUpload.skip_files cfg.ExecFile ReuseList } plan st
  · intro st0 fileitem env h
    exact DoUpload.item_not_skipped
      { cfg with skip_files := DoUpload.skip_files cfg.ExecFile ReuseList } st0 fileitem env h
  · intro st1 h
    exact (DoUpload.loop_step
      { cfg with skip_files := DoUpload.skip_files cfg.ExecFile ReuseList } plan st st1 h).1

theorem C13_reused_files_are_skipped_witness :
    DoUpload.skip_files execConfig.ExecFile (some [some "condor_exec.exe", none]) = ["/bin/job"] ∧
    (∃ st1,
      DoUpload.loop { execConfig with
          skip_files :=
            DoUpload.skip_files execConfig.ExecFile (some [some "condor_exec.exe", none]) }
        {} execPlan = .next st1 ∧
      st1.numFiles = 1 ∧ st1.announced = [(1, "a.txt", false)] ∧ st1.total_bytes = 0) :=
  have h := (C13_reused_files_are_skipped execConfig (some [some "condor_exec.exe", none]) {}
    execPlan).2.2.2
  ⟨by decide,
    ⟨(DoUpload.loop { execConfig with
          skip_files :=
            DoUpload.skip_files execConfig.ExecFile (some [some "condor_exec.exe", none]) }
        {} execPlan).state,
      rfl,
      (h (DoUpload.loop { execConfig with
          skip_files :=
            DoUpload.skip_files execConfig.ExecFile (some [some "condor_exec.exe", none]) }
        {} execPlan).state rfl).trans (by decide),
      by decide, by decide⟩⟩

/-! ## The answer of `DoDownload` to a sign request -/

theorem DoDownload.go_ahead_sign {cfg : DownloadConfig} {st st1 : DownloadState}
    {frame : DownloadFrame} (h : DoDownload.go_ahead cfg st frame = some st1) :
    st1.sign_responses = st.sign_responses := by
  unfold DoDownload.go_ahead at h
  split at h
  · split at h
    · cases h
    · simp only [] at h
      split at h
      · cases h
      · rename_i st2 hmine
        have h2 : st2.sign_responses = st.sign_responses := by
          split at hmine
          · split at hmine
            · cases hmine
            · cases hmine; rfl
          · cases hmine; rfl
        split at h
        · split at h
          · cases h
          · cases h; exact h2
        · cases h; exact h2
  · cases h; rfl

/-- A round that answers a sign request sends one slot per entry of the request, in the
order of the request. -/
theorem DoDownload.round_sign {cfg : DownloadConfig} {st st1 : DownloadState}
    {frame : DownloadFrame} (h : DoDownload.round cfg st frame = .next st1)
    (h1 : frame.reply = TransferCommand.Other) (h2 : frame.ad_read = true)
    (h3 : frame.SubCommand = some TransferSubCommand.SignUrls) :
    st1.sign_responses = st.sign_responses ++
      [(frame.sign_request.getD []).map (DoDownload.sign_url cfg frame)] := by
  unfold DoDownload.round at h
  split at h
  · cases h
  · split at h
    · cases h
    · split at h
      · cases h
      · simp only [] at h
        split at h
        · cases h
        · unfold DoDownload.after_check at h
          simp only [] at h
          split at h
          · cases h
          · rename_i st2 hg
            have e2 := DoDownload.go_ahead_sign hg
            have e1 : (DoDownload.resolve cfg
                (DoDownload.check_path cfg
                  { st with crypto_mode := DoDownload.crypto_for cfg frame.reply }
                  frame.filename).1 frame.reply
                (DoDownload.check_path cfg
                  { st with crypto_mode := DoDownload.crypto_for cfg frame.reply }
                  frame.filename).2).1.sign_responses = st.sign_responses := by
              unfold DoDownload.resolve DoDownload.check_path
              simp only []
              repeat' split
              all_goals rfl
            have hne : ¬ (TransferSubCommand.SignUrls = TransferSubCommand.ReuseInfo) := by
              decide
            simp only [h1, h2, h3, Option.some.injEq, hne, and_false, if_false, and_self,
              if_true] at h
            split at h
            · cases h
            · split at h
              · cases h
              · cases h
                simp only []
                rw [e2, e1]

/-- The slot that answers one entry of a sign request. -/
theorem DoDownload.sign_url_spec (cfg : DownloadConfig) (frame : DownloadFrame) :
    DoDownload.sign_url cfg frame none = "" ∧
    (∀ url, DoDownload.signs cfg url →
      (DoDownload.sign_url cfg frame (some url) ≠ "" → DoDownload.may_sign cfg url) ∧
      (¬ DoDownload.may_sign cfg url → DoDownload.sign_url cfg frame (some url) = "")) ∧
    (∀ url, ¬ DoDownload.signs cfg url → DoDownload.sign_url cfg frame (some url) = url) := by
  have key : ∀ url, DoDownload.signs cfg url → ¬ DoDownload.may_sign cfg url →
      DoDownload.sign_url cfg frame (some url) = "" := by
    intro url hs hm
    unfold DoDownload.signs at hs
    unfold DoDownload.sign_url
    simp only [hs.1, hs.2, and_self, if_true]
    unfold DoDownload.may_sign at hm
    by_cases hsub : hasSubstring "/..".data url.data = true
    · simp [hsub]
    · simp only [hsub, Bool.false_eq_true, if_false]
      have hno : cfg.output_url_pfxs.any (fun pfx => pfx.data.isPrefixOf url.data) = false := by
        rw [Bool.eq_false_iff]
        intro hany
        apply hm
        rw [List.any_eq_true] at hany
        exact ⟨hany, by simpa using hsub⟩
      simp [hno]
  refine ⟨rfl, fun url hs => ⟨fun hne => ?_, key url hs⟩, fun url hs => ?_⟩
  · by_contra hm
    exact hne (key url hs hm)
  · unfold DoDownload.signs at hs
    unfold DoDownload.sign_url
    simp only []
    rw [if_neg]
    intro hc
    exact hs ⟨hc.1, hc.2⟩

/-- C14 (as amended): for every sign request that `DoDownload` answers, the list that it
sends back has one slot per entry of the request, in the order of the request; the slot of
an entry that is not a string is empty; for a URL of scheme `s3` (with signing switched
on) the slot is non-empty only if the URL begins with one of the permitted output
prefixes and does not contain `/..`, and it is empty for every other such URL; a URL
that the receiver does not sign (another scheme, or signing switched off) comes back
unchanged. -/
theorem C14_sign_response (cfg : DownloadConfig) (st st1 : DownloadState)
    (frame : DownloadFrame) (h : DoDownload.round cfg st frame = .next st1)
    (h1 : frame.reply = TransferCommand.Other) (h2 : frame.ad_read = true)
    (h3 : frame.SubCommand = some TransferSubCommand.SignUrls) :
    ∃ signed_urls, st1.sign_responses = st.sign_responses ++ [signed_urls] ∧
      signed_urls.length = (frame.sign_request.getD []).length ∧
      ∀ (i : Nat) (entry : Option String), (frame.sign_request.getD [])[i]? = some entry →
        ∃ slot, signed_urls[i]? = some slot ∧
          (entry = none → slot = "") ∧
          (∀ url, entry = some url → DoDownload.signs cfg url →
            (slot ≠ "" → DoDownload.may_sign cfg url) ∧
            (¬ DoDownload.may_sign cfg url → slot = "")) ∧
          (∀ url, entry = some url → ¬ DoDownload.signs cfg url → slot = url) := by
  refine ⟨_, DoDownload.round_sign h h1 h2 h3, by simp, ?_⟩
  intro i entry hi
  refine ⟨DoDownload.sign_url cfg frame entry, by simp [List.getElem?_map, hi], ?_, ?_, ?_⟩
  · intro he
    subst he
    exact (DoDownload.sign_url_spec cfg frame).1
  · intro url he hs
    subst he
    exact (DoDownload.sign_url_spec cfg frame).2.1 url hs
  · intro url he hs
    subst he
    exact (DoDownload.sign_url_spec cfg frame).2.2 url hs

theorem C14_sign_response_witness :
    DoDownload.round signingConfig {} signFrame
      = .next (DoDownload.round signingConfig {} signFrame).state ∧
    ∃ signed_urls,
      (DoDownload.round signingConfig {} signFrame).state.sign_responses = [signed_urls] ∧
      signed_urls.length = 4 ∧
      signed_urls[0]? = some "s3://bucket/out/a.dat?X-Amz-Signature=0" ∧
      signed_urls[1]? = some "" ∧ signed_urls[2]? = some "" :=
  have h := C14_sign_response signingConfig {} (DoDownload.round signingConfig {} signFrame).state
    signFrame rfl rfl rfl rfl
  ⟨rfl, h.elim (fun signed_urls hs =>
    ⟨signed_urls, by simpa using hs.1, by rw [hs.2.1]; decide,
      by
        have e : signed_urls
            = (signFrame.sign_request.getD []).map (DoDownload.sign_url signingConfig signFrame) := by
          have h5 := @DoDownload.round_sign signingConfig {}
            (DoDownload.round signingConfig {} signFrame).state signFrame
            rfl rfl rfl rfl
          have h6 := hs.1
          rw [h5] at h6
          simpa using h6.symm
        subst e
        exact ⟨by decide, by decide, by decide⟩⟩)⟩

/-- C14 as stated fails: a requested URL that is not an `s3` URL comes back unchanged,
so its slot is not empty although the URL does not begin with a permitted output prefix. -/
theorem C14_counterexample_other_scheme :
    signFrame.sign_request = some [some "s3://bucket/out/a.dat", some "s3://other/a.dat",
      some "s3://bucket/out/../a.dat", some "https://other.example/a.dat"] ∧
    (DoDownload.round signingConfig {} signFrame).state.sign_responses
      = [["s3://bucket/out/a.dat?X-Amz-Signature=0", "", "", "https://other.example/a.dat"]] ∧
    ¬ DoDownload.may_sign signingConfig "https://other.example/a.dat" ∧
    "https://other.example/a.dat" ≠ "" := by
  refine ⟨rfl, by decide, by decide, by decide⟩

/-! ## `DoUpload`: destination URLs and the sign response -/

theorem DoUpload.with_signed_url_isSrcUrl (cfg : UploadConfig) (fileitem : FileTransferItem) :
    (DoUpload.with_signed_url cfg fileitem).isSrcUrl = fileitem.isSrcUrl := by
  unfold DoUpload.with_signed_url
  split
  · unfold FileTransferItem.setDestUrl
    split <;> rfl
  · rfl

/-- With the stream intact and only local failures, a round ends with the loop going on. -/
theorem DoUpload.item_progress (cfg : UploadConfig) (st : UploadState)
    (fileitem : FileTransferItem) (env : UploadReplies)
    (h : DoUpload.localFailuresOnly cfg fileitem env) :
    ∃ st1, DoUpload.item cfg st fileitem env = .next st1 := by
  obtain ⟨hurl, hflush, h1, h2, h3, h4, h5, h6, h8, htr⟩ := h
  unfold DoUpload.item
  simp only [DoUpload.with_signed_url_srcName, DoUpload.with_signed_url_isSrcUrl]
  split
  · exact ⟨st, rfl⟩
  · have hen : ¬ ((fileitem.isSrcUrl && !cfg.ENABLE_URL_TRANSFERS) = true) := by
      intro hc
      simp only [Bool.and_eq_true, Bool.not_eq_true'] at hc
      rw [hurl hc.1] at hc
      exact absurd hc.2 (by decide)
    rw [if_neg hen]
    have hfl : ∃ s1, DoUpload.flush_pending st
        (DoUpload.plan cfg (DoUpload.with_signed_url cfg fileitem)) env = some s1 := by
      unfold DoUpload.flush_pending
      split
      · first
          | exact ⟨_, rfl⟩
          | (rw [if_neg hflush]; exact ⟨_, rfl⟩)
      · exact ⟨_, rfl⟩
    obtain ⟨s1, e1⟩ := hfl
    rw [e1]
    simp only []
    have hsh : ∃ s2, DoUpload.send_header cfg s1
        (DoUpload.plan cfg (DoUpload.with_signed_url cfg fileitem)) env = some s2 := by
      unfold DoUpload.send_header
      simp only [h1, h2, h3, Bool.true_eq_false, and_false, if_false]
      exact ⟨_, rfl⟩
    obtain ⟨s2, e2⟩ := hsh
    rw [e2]
    simp only []
    obtain ⟨s3, e3, _, _⟩ := DoUpload.go_ahead_some cfg s2
      (DoUpload.plan cfg (DoUpload.with_signed_url cfg fileitem)) env h4
      (Option.isSome_iff_exists.1 h5) (Option.isSome_iff_exists.1 h6)
    rw [e3]
    simp only []
    obtain ⟨s4, rc, e, e4, hrc⟩ := htr s3
    unfold DoUpload.send
    rw [e4]
    simp only []
    obtain ⟨s5, e5⟩ := DoUpload.handle_rc_ok cfg s4
      (DoUpload.plan cfg (DoUpload.with_signed_url cfg fileitem)) env rc e hrc
    rw [e5]
    simp only []
    unfold DoUpload.account
    rw [if_neg (by rintro ⟨_, hb⟩; rw [h8] at hb; cases hb)]
    exact ⟨_, rfl⟩

theorem DoUpload.loop_progress (cfg : UploadConfig) :
    ∀ (plan : List (FileTransferItem × UploadReplies)) (st : UploadState),
      (∀ x ∈ plan, DoUpload.localFailuresOnly cfg x.1 x.2) →
      ∃ st1, DoUpload.loop cfg st plan = .next st1
  | [], st => fun _ => ⟨st, rfl⟩
  | (fileitem, env) :: rest, st => by
    intro h
    obtain ⟨s1, e1⟩ := DoUpload.item_progress cfg st fileitem env
      (h (fileitem, env) (List.mem_cons_self _ _))
    rw [DoUpload.loop_cons, e1]
    exact DoUpload.loop_progress cfg rest s1 (fun x hx => h x (List.mem_cons_of_mem _ hx))

theorem DoUpload.loop_append (cfg : UploadConfig) :
    ∀ (pre rest : List (FileTransferItem × UploadReplies)) (st st0 : UploadState),
      DoUpload.loop cfg st pre = .next st0 →
      DoUpload.loop cfg st (pre ++ rest) = DoUpload.loop cfg st0 rest
  | [], rest, st, st0 => by
    intro h
    cases h
    rfl
  | (fileitem, env) :: pre, rest, st, st0 => by
    intro h
    rw [DoUpload.loop_cons] at h
    rw [List.cons_append, DoUpload.loop_cons]
    cases hi : DoUpload.item cfg st fileitem env with
    | next s1 =>
      rw [hi] at h
      exact DoUpload.loop_append cfg pre rest s1 st0 h
    | dropped s1 => rw [hi] at h; cases h
    | exited s1 a b c d e f g => rw [hi] at h; cases h

theorem DoUpload.finish_first (st : UploadState) (flush_result : Int) (flush_errors : String)
    (hflush : flush_result ≠ -1) (hsound : DoUpload.firstSound st)
    (hfailed : st.first_failed_file_transfer_happened = true) :
    ∃ st1, DoUpload.finish st flush_result flush_errors =
      .exited st1 false true true false st.first_failed_hold_code st.first_failed_hold_subcode
        (some st.first_failed_error_desc) := by
  have hb := DoUpload.record_batch_failure_step st flush_errors
  obtain ⟨b1, b2, b3, b4, b5, b6⟩ := hb.2.1 hfailed
  have hs := hsound hfailed
  unfold DoUpload.finish
  simp only []
  by_cases hreq : st.currentUploadRequests ≠ []
  · by_cases h0 : flush_result = 0
    · rw [if_pos hreq, if_neg hflush, if_pos h0]
      simp only []
      rw [if_pos b1, b2, b3, b4, b5, b6, hs.1, hs.2]
      exact ⟨_, rfl⟩
    · rw [if_pos hreq, if_neg hflush, if_neg h0]
      simp only []
      rw [if_pos hfailed, hs.1, hs.2]
      exact ⟨_, rfl⟩
  · rw [if_neg hreq]
    simp only []
    rw [if_pos hfailed, hs.1, hs.2]
    exact ⟨_, rfl⟩

/-- C16: in a plan whose rounds leave the stream intact and fail, if they fail, with local
errors (the file cannot be opened, the plug-in fails, the byte limit is exceeded),
`DoUpload` attempts every item (each item that the peer has not reused is counted);
a local failure is recorded as the first failure, with the verdict of its item, when
none has been recorded before; and when some round records the first failure of the
session, `DoUpload` ends by sending command 0 and an acknowledgement with success =
false, try_again = false and the hold code, hold subcode and error description
recorded in that round, whatever fails in a later round. -/
theorem C16_first_failure_reported (cfg : UploadConfig)
    (plan : List (FileTransferItem × UploadReplies)) (flush_result : Int)
    (flush_errors subsystem my_ip_str peer : String) (download_ack : Option ClassAd)
    (hplan : ∀ x ∈ plan, DoUpload.localFailuresOnly cfg x.1 x.2)
    (hflush : flush_result ≠ -1) (hack : cfg.PeerDoesTransferAck = true) :
    (∃ st1, DoUpload.loop cfg {} plan = .next st1 ∧
      st1.numFiles =
        ((plan.filter (fun x => !cfg.skip_files.contains x.1.srcName)).length : Nat)) ∧
    (∀ (st : UploadState) (p : ItemPlan) (env : UploadReplies) (rc e : Int),
      rc = PUT_FILE_OPEN_FAILED ∨ rc = PUT_FILE_PLUGIN_FAILED ∨
        rc = PUT_FILE_MAX_BYTES_EXCEEDED →
      st.first_failed_file_transfer_happened = false →
      ∃ st1, DoUpload.handle_rc cfg st p env rc e = .next st1 ∧
        st1.first_failed_file_transfer_happened = true ∧
        st1.first_failed_hold_code = st1.hold_code ∧
        st1.first_failed_error_desc = st1.error_desc) ∧
    (∀ (pre post : List (FileTransferItem × UploadReplies)) (x : FileTransferItem × UploadReplies)
        (st0 stf : UploadState),
      plan = pre ++ x :: post →
      DoUpload.loop cfg {} pre = .next st0 →
      st0.first_failed_file_transfer_happened = false →
      DoUpload.item cfg st0 x.1 x.2 = .next stf →
      stf.first_failed_file_transfer_happened = true →
      ∃ result,
        (DoUpload.run cfg {} plan flush_result flush_errors).exit cfg.PeerDoesTransferAck
          subsystem my_ip_str peer download_ack = some result ∧
        result.finished_sent = true ∧
        result.ack = some (SendTransferAck.ad false false stf.first_failed_hold_code
          stf.first_failed_hold_subcode
          (some (ExitDoUpload.text subsystem my_ip_str peer stf.first_failed_error_desc)))) := by
  obtain ⟨st1, hloop⟩ := DoUpload.loop_progress cfg plan {} hplan
  have hstep := DoUpload.loop_step cfg plan {} st1 hloop
  refine ⟨⟨st1, hloop, by simpa using hstep.1⟩, ?_, ?_⟩
  · intro st p env rc e hrc hfirst
    obtain ⟨s1, a, b, _, _, c, d, _, _⟩ := DoUpload.handle_rc_first cfg st p env rc e hrc hfirst
    exact ⟨s1, a, b, c, d⟩
  · intro pre post x st0 stf hsplit hpre hnone hitem hfailed
    -- the rounds after the failing one
    have hrest : DoUpload.loop cfg stf post = .next st1 := by
      have h1 := DoUpload.loop_append cfg pre (x :: post) {} st0 hpre
      rw [← hsplit, hloop] at h1
      obtain ⟨y1, y2⟩ := x
      rw [DoUpload.loop_cons, hitem] at h1
      exact h1.symm
    have sound0 : DoUpload.firstSound st0 := by
      intro hh
      rw [hnone] at hh
      cases hh
    have soundf : DoUpload.firstSound stf := (DoUpload.item_step hitem).2.2 sound0
    have hpost := DoUpload.loop_step cfg post stf st1 hrest
    obtain ⟨k1, k2, k3, k4, k5, k6⟩ := hpost.2.1 hfailed
    obtain ⟨sfin, hfin⟩ := DoUpload.finish_first st1 flush_result flush_errors hflush
      (hpost.2.2 soundf) k1
    unfold DoUpload.run
    rw [hloop]
    simp only []
    rw [hfin, k4, k5, k6]
    refine ⟨_, rfl, ?_, ?_⟩
    · unfold ExitDoUpload
      simp [hack]
    · unfold ExitDoUpload SendTransferAck ExitDoUpload.text
      simp [hack]

/-- The rounds of the example plan leave the stream intact and fail, if they do, because
the file cannot be opened. -/
theorem failingPlan_local : ∀ x ∈ failingPlan, DoUpload.localFailuresOnly quotaConfig x.1 x.2 := by
  intro x hx
  simp only [failingPlan, List.mem_cons, List.mem_singleton, List.not_mem_nil, or_false] at hx
  rcases hx with rfl | rfl | rfl
  · exact ⟨by decide, by decide, rfl, rfl, rfl, rfl, rfl, rfl, rfl,
      fun st => ⟨_, _, _, rfl, Or.inr (Or.inl rfl)⟩⟩
  · exact ⟨by decide, by decide, rfl, rfl, rfl, rfl, rfl, rfl, rfl,
      fun st => ⟨_, _, _, rfl, Or.inr (Or.inl rfl)⟩⟩
  · exact ⟨by decide, by decide, rfl, rfl, rfl, rfl, rfl, rfl, rfl,
      fun st => ⟨_, _, _, rfl, Or.inl (le_refl (0 : Int))⟩⟩

theorem C16_first_failure_reported_witness :
    (∀ x ∈ failingPlan, DoUpload.localFailuresOnly quotaConfig x.1 x.2) ∧
    (DoUpload.loop quotaConfig {} failingPlan).state.numFiles = 3 ∧
    (DoUpload.loop quotaConfig {} failingPlan).state.hold_subcode = 13 ∧
    ∃ result,
      (DoUpload.run quotaConfig {} failingPlan 1 "").exit true "STARTER" "10.0.0.2"
        "<10.0.0.1:9618>" none = some result ∧
      result.finished_sent = true ∧
      result.ack = some (SendTransferAck.ad false false CONDOR_HOLD_CODE_UploadFileError 2
        (some ("STARTER at 10.0.0.2 failed to send file(s) to <10.0.0.1:9618>: " ++
          "error reading from /iwd/a.dat: (errno 2) "))) :=
  have h := (C16_first_failure_reported quotaConfig failingPlan 1 "" "STARTER" "10.0.0.2"
    "<10.0.0.1:9618>" none failingPlan_local (by decide) rfl).2.2 []
    [({ m_src_name := "b.dat" },
        { put_file := fun _ => (PUT_FILE_OPEN_FAILED, 0), the_error := 13 }),
      ({ m_src_name := "c.dat" }, { put_file := fun _ => (0, 5) })]
    ({ m_src_name := "a.dat" }, { put_file := fun _ => (PUT_FILE_OPEN_FAILED, 0), the_error := 2 })
    {}
    (DoUpload.item quotaConfig {} { m_src_name := "a.dat" }
      { put_file := fun _ => (PUT_FILE_OPEN_FAILED, 0), the_error := 2 }).state
    rfl rfl rfl rfl (by decide)
  ⟨failingPlan_local, by decide, by decide,
    h.elim (fun result hr => ⟨result, hr.1, hr.2.1, hr.2.2.trans (by decide)⟩)⟩

/-! ## `DoDownload`: command codes that are no transfer command -/

theorem DoDownload.go_ahead_granted (cfg : DownloadConfig) (st : DownloadState)
    (frame : DownloadFrame) (h4 : frame.eom_before_go_ahead = true)
    (h5 : frame.obtain_go_ahead.isSome = true) (h6 : frame.receive_go_ahead.isSome = true) :
    ∃ st1, DoDownload.go_ahead cfg st frame = some st1 := by
  obtain ⟨r5, h5⟩ := Option.isSome_iff_exists.1 h5
  obtain ⟨⟨r6, m6⟩, h6⟩ := Option.isSome_iff_exists.1 h6
  unfold DoDownload.go_ahead
  cases cfg.PeerDoesGoAhead with
  | false => exact ⟨st, rfl⟩
  | true =>
    simp only [if_true, h4, Bool.true_eq_false, if_false, h5, h6]
    cases hp : st.peer_goes_ahead_always <;> cases hi : st.I_go_ahead_always <;>
      simp only [Bool.not_true, Bool.not_false, Bool.false_eq_true, if_true, if_false, hp] <;>
      exact ⟨_, rfl⟩

/-- A command code that is no transfer command is dispatched to `get_file`. -/
theorem DoDownload.receive_unlisted (cfg : DownloadConfig) (st : DownloadState)
    (frame : DownloadFrame) (c : Int) (filename fullname : String)
    (hc : ¬ TransferCommand.isListed c) :
    ∃ st1, DoDownload.receive cfg st frame c filename fullname =
        some (st1, (frame.get_file
          (DoDownload.this_file_max_bytes cfg.MaxDownloadBytes st.total_bytes)).2) ∧
      st1.rc = (frame.get_file
          (DoDownload.this_file_max_bytes cfg.MaxDownloadBytes st.total_bytes)).1 ∧
      st1.written = st.written ++ [(c, filename, fullname)] := by
  unfold TransferCommand.isListed at hc
  simp only [not_or] at hc
  obtain ⟨_, _, _, _, h4, h5, h6, h999⟩ := hc
  unfold DoDownload.receive
  simp only [h999, h5, h4, h6, if_false]
  split
  · split
    · exact ⟨_, rfl, rfl, rfl⟩
    · exact ⟨_, rfl, rfl, rfl⟩
  · exact ⟨_, rfl, rfl, rfl⟩

theorem DoDownload.handle_rc_nonneg (cfg : DownloadConfig) (st : DownloadState)
    (frame : DownloadFrame) (fullname : String) (h : 0 ≤ st.rc) :
    DoDownload.handle_rc cfg st frame fullname = .next st := by
  unfold DoDownload.handle_rc
  rw [if_neg (by omega)]

/-- C17 (as amended): a command code that is not one of 0, 1, 2, 3, 4, 5, 6 or 999 does not
abort the session: `DoDownload` applies the crypto mode of the socket default, as for
command 1, reads the payload with `get_file` into the path that it has resolved for the
received name, and goes on with the next command when nothing fails on the stream and
the transfer does not fail. -/
theorem C17_unlisted_command_is_received (cfg : DownloadConfig) (st : DownloadState)
    (frame : DownloadFrame) (hc : ¬ TransferCommand.isListed frame.reply) :
    DoDownload.crypto_for cfg frame.reply = cfg.socket_default_crypto ∧
    (∀ (st0 : DownloadState) (filename fullname : String),
      ∃ st1, DoDownload.receive cfg st0 frame frame.reply filename fullname =
          some (st1, (frame.get_file
            (DoDownload.this_file_max_bytes cfg.MaxDownloadBytes st0.total_bytes)).2) ∧
        st1.rc = (frame.get_file
            (DoDownload.this_file_max_bytes cfg.MaxDownloadBytes st0.total_bytes)).1 ∧
        st1.written = st0.written ++ [(frame.reply, filename, fullname)]) ∧
    (frame.streamIntact → (∀ m, 0 ≤ (frame.get_file m).1) →
      ∃ st1, DoDownload.round cfg st frame = .next st1 ∧
        st1.written = st.written ++
          [(frame.reply,
            (DoDownload.check_path cfg st frame.filename).2,
            (DoDownload.resolve cfg (DoDownload.check_path cfg st frame.filename).1 frame.reply
              (DoDownload.check_path cfg st frame.filename).2).2)]) := by
  have hc0 := hc
  unfold TransferCommand.isListed at hc0
  simp only [not_or] at hc0
  obtain ⟨c0, _, c2, c3, _, c5, _, c999⟩ := hc0
  refine ⟨?_, fun st0 filename fullname =>
    DoDownload.receive_unlisted cfg st0 frame frame.reply filename fullname hc, ?_⟩
  · unfold DoDownload.crypto_for
    simp only [c2, c5, and_false, or_self, if_false, c3]
  · intro hs hget
    obtain ⟨s1, s2, s3, s4, s5, s6, s7⟩ := hs
    -- the name that the check leaves and the path that it is resolved to do not depend
    -- on the crypto mode
    have hchk : DoDownload.check_path cfg
        { st with crypto_mode := DoDownload.crypto_for cfg frame.reply } frame.filename
        = ({ (DoDownload.check_path cfg st frame.filename).1 with
              crypto_mode := DoDownload.crypto_for cfg frame.reply },
            (DoDownload.check_path cfg st frame.filename).2) := by
      unfold DoDownload.check_path
      split <;> rfl
    have hres : ∀ (s : DownloadState) (name : String),
        (DoDownload.resolve cfg { s with crypto_mode := DoDownload.crypto_for cfg frame.reply }
          frame.reply name).2 = (DoDownload.resolve cfg s frame.reply name).2 := by
      intro s name
      unfold DoDownload.resolve
      simp only []
      repeat' split
      all_goals rfl
    unfold DoDownload.round
    simp only [s1, Bool.true_eq_false, if_false, c0, s2, and_false, s3]
    rw [hchk]
    simp only []
    unfold DoDownload.after_check
    simp only []
    obtain ⟨g, hg⟩ := DoDownload.go_ahead_granted cfg
      (DoDownload.resolve cfg
        { (DoDownload.check_path cfg st frame.filename).1 with
          crypto_mode := DoDownload.crypto_for cfg frame.reply } frame.reply
        (DoDownload.check_path cfg st frame.filename).2).1 frame s4 s5 s6
    rw [hg]
    simp only [c999, false_and, if_false]
    obtain ⟨r, hr, hrc, hw⟩ := DoDownload.receive_unlisted cfg g frame frame.reply
      (DoDownload.check_path cfg st frame.filename).2
      (DoDownload.resolve cfg
        { (DoDownload.check_path cfg st frame.filename).1 with
          crypto_mode := DoDownload.crypto_for cfg frame.reply } frame.reply
        (DoDownload.check_path cfg st frame.filename).2).2 hc
    rw [hr]
    simp only []
    rw [DoDownload.handle_rc_nonneg cfg r frame _ (by rw [hrc]; exact hget _)]
    simp only [s7, Bool.true_eq_false, if_false]
    refine ⟨_, rfl, ?_⟩
    simp only []
    rw [hw, (DoDownload.go_ahead_reuse hg).2.2.2, (DoDownload.resolve_reuse cfg _ _ _).2.2.2,
      hres]
    have := (DoDownload.check_path_reuse cfg st frame.filename).2.2.2
    simp only [] at this ⊢
    rw [this]

theorem C17_unlisted_command_is_received_witness :
    ¬ TransferCommand.isListed unknownCommandFrame.reply ∧
    ∃ st1, DoDownload.round receiverConfig {} unknownCommandFrame = .next st1 ∧
      st1.written = [(7, "x.dat", "/sandbox/x.dat")] :=
  have h := (C17_unlisted_command_is_received receiverConfig {} unknownCommandFrame
    (by decide)).2.2 (by decide) (fun _ => le_refl (0 : Int))
  ⟨by decide, h.elim (fun st1 hs => ⟨st1, hs.1, hs.2.trans (by decide)⟩)⟩

/-- C17 as stated fails: the command code 7 is no transfer command, and the session is
not aborted: the ten bytes that follow are received into `/sandbox/x.dat`, the loop
goes on, and the session ends as a success. -/
theorem C17_counterexample_command_7 :
    ¬ TransferCommand.isListed unknownCommandFrame.reply ∧
    (DoDownload receiverConfig [unknownCommandFrame] [] successAck "peer" true).rc = 0 ∧
    (DoDownload receiverConfig [unknownCommandFrame] [] successAck "peer" true).state.written
      = [(7, "x.dat", "/sandbox/x.dat")] ∧
    (DoDownload receiverConfig [unknownCommandFrame] [] successAck "peer" true).state.total_bytes
      = 10 ∧
    ((DoDownload receiverConfig [unknownCommandFrame] [] successAck "peer" true).ack.map
      (fun a => a.success)) = some true := by
  decide

/-! ## The go-ahead from the transfer queue -/

theorem attrEq_refl (a : String) : attrEq a a = true := by
  unfold attrEq
  simp

theorem ClassAd.Lookup_Assign_self (ad : ClassAd) (attr : String) (v : AdValue) :
    ClassAd.Lookup (ClassAd.Assign ad attr v) attr = some v := by
  unfold ClassAd.Lookup ClassAd.Assign
  have h : (ad.filter (fun kv => !attrEq kv.1 attr)).find? (fun kv => attrEq kv.1 attr) = none := by
    rw [List.find?_eq_none]
    intro x hx
    have := (List.mem_filter.1 hx).2
    simpa using this
  rw [List.find?_append, h]
  simp [attrEq_refl]

theorem ClassAd.Lookup_Assign_other (ad : ClassAd) (a b : String) (v : AdValue)
    (h : attrEq a b = false) :
    ClassAd.Lookup (ClassAd.Assign ad a v) b = ClassAd.Lookup ad b := by
  unfold ClassAd.Lookup ClassAd.Assign
  have hf : ∀ l : ClassAd,
      (l.filter (fun kv => !attrEq kv.1 a)).find? (fun kv => attrEq kv.1 b)
        = l.find? (fun kv => attrEq kv.1 b) := by
    intro l
    induction l with
    | nil => rfl
    | cons x xs ih =>
      by_cases hxb : attrEq x.1 b = true
      · have hxa : attrEq x.1 a = false := by
          rw [Bool.eq_false_iff]
          intro hxa
          unfold attrEq at hxa hxb h
          simp only [beq_iff_eq] at hxa hxb
          rw [← hxa, hxb] at h
          simp at h
        simp [List.filter_cons, hxa, List.find?_cons, hxb]
      · by_cases hxa : attrEq x.1 a = true
        · simp [List.filter_cons, hxa, List.find?_cons, hxb, ih]
        · simp [List.filter_cons, hxa, List.find?_cons, hxb, ih]
  rw [List.find?_append, hf]
  cases hfind : ad.find? (fun kv => attrEq kv.1 b) with
  | some kv => simp
  | none => simp [List.find?_cons, h]

theorem goAheadOf_Assign_self (ad : ClassAd) (v : Int) :
    goAheadOf (ClassAd.Assign ad ATTR_RESULT (.int v)) = some v := by
  unfold goAheadOf ClassAd.LookupInteger
  rw [ClassAd.Lookup_Assign_self]

theorem goAheadOf_Assign_other (ad : ClassAd) (a : String) (v : AdValue)
    (h : attrEq a ATTR_RESULT = false) :
    goAheadOf (ClassAd.Assign ad a v) = goAheadOf ad := by
  unfold goAheadOf ClassAd.LookupInteger
  rw [ClassAd.Lookup_Assign_other ad a ATTR_RESULT v h]

theorem DoObtainAndSendTransferGoAhead.message_result (msg : ClassAd) (downloading : Bool)
    (MaxDownloadBytes go_ahead : Int) (try_again : Bool) (hold_code hold_subcode : Int)
    (error_desc : String) :
    goAheadOf (DoObtainAndSendTransferGoAhead.message msg downloading MaxDownloadBytes go_ahead
      try_again hold_code hold_subcode error_desc) = some go_ahead := by
  have h1 : attrEq ATTR_MAX_TRANSFER_BYTES ATTR_RESULT = false := by decide
  have h2 : attrEq ATTR_TRY_AGAIN ATTR_RESULT = false := by decide
  have h3 : attrEq ATTR_HOLD_REASON_CODE ATTR_RESULT = false := by decide
  have h4 : attrEq ATTR_HOLD_REASON_SUBCODE ATTR_RESULT = false := by decide
  have h5 : attrEq ATTR_HOLD_REASON ATTR_RESULT = false := by decide
  unfold DoObtainAndSendTransferGoAhead.message
  simp only []
  split_ifs <;>
    simp only [goAheadOf_Assign_other _ _ _ h1, goAheadOf_Assign_other _ _ _ h2,
      goAheadOf_Assign_other _ _ _ h3, goAheadOf_Assign_other _ _ _ h4,
      goAheadOf_Assign_other _ _ _ h5, goAheadOf_Assign_self]

/-- The loop of the go-ahead: with every send succeeding and no go-ahead granted before
the loop, the messages of the loop are pending ones followed by one that carries
`GO_AHEAD_ALWAYS` or `GO_AHEAD_FAILED`. -/
theorem DoObtainAndSendTransferGoAhead.poll_spec (downloading : Bool) (MaxDownloadBytes : Int)
    (try_again : Bool) (hold_code hold_subcode : Int) (passes : List GoAheadPass) :
    ∀ (go_ahead : Int) (msg : ClassAd) (error_desc : String) (go_ahead_always : Bool)
      (sent : List ClassAd) (o : GoAheadOutcome),
      (∀ p ∈ passes, p.sent = true) →
      (go_ahead = GO_AHEAD_UNDEFINED ∨ go_ahead = GO_AHEAD_FAILED) →
      DoObtainAndSendTransferGoAhead.poll downloading MaxDownloadBytes try_again hold_code
        hold_subcode passes go_ahead msg error_desc go_ahead_always sent = some o →
      ∃ earlier last, o.sent = sent ++ earlier ++ [last]
        ∧ (∀ m ∈ earlier, goAheadOf m = some GO_AHEAD_UNDEFINED)
        ∧ (goAheadOf last = some GO_AHEAD_ALWAYS ∨ goAheadOf last = some GO_AHEAD_FAILED)
        ∧ (o.result = true ↔ goAheadOf last = some GO_AHEAD_ALWAYS)
        ∧ o.go_ahead_always = (go_ahead_always || o.result) := by
  induction passes with
  | nil =>
    intro go_ahead msg error_desc go_ahead_always sent o _ _ h
    simp [DoObtainAndSendTransferGoAhead.poll] at h
  | cons pass rest ih =>
    intro go_ahead msg error_desc go_ahead_always sent o hsent hg h
    have hp : pass.sent = true := hsent pass (List.mem_cons_self _ _)
    have hrest : ∀ p ∈ rest, p.sent = true := fun p hp => hsent p (List.mem_cons_of_mem _ hp)
    unfold DoObtainAndSendTransferGoAhead.poll at h
    simp only [hp, Bool.not_true, Bool.false_eq_true, if_false] at h
    -- the value of go_ahead after the poll
    generalize hpolled : (if go_ahead = GO_AHEAD_UNDEFINED then
        (if pass.slot = true then (GO_AHEAD_ALWAYS, pass.poll_error.getD error_desc)
         else if (!pass.pending) = true then (GO_AHEAD_FAILED, pass.poll_error.getD error_desc)
         else (go_ahead, pass.poll_error.getD error_desc))
      else (go_ahead, error_desc) : Int × String) = polled at h
    have hcases : polled.1 = GO_AHEAD_UNDEFINED ∨ polled.1 = GO_AHEAD_ALWAYS
        ∨ polled.1 = GO_AHEAD_FAILED := by
      rw [← hpolled]
      split_ifs with h1 h2 h3
      · exact Or.inr (Or.inl rfl)
      · exact Or.inr (Or.inr rfl)
      · exact Or.inl h1
      · rcases hg with hg | hg
        · exact absurd hg h1
        · exact Or.inr (Or.inr hg)
    have hmsg := DoObtainAndSendTransferGoAhead.message_result msg downloading MaxDownloadBytes
      polled.1 try_again hold_code hold_subcode polled.2
    rcases hcases with h0 | h2 | hm
    · rw [if_neg (by rw [h0]; simp)] at h
      obtain ⟨earlier, last, hs, he, hl, hr, ha⟩ := ih _ _ _ _ _ o hrest (Or.inl h0) h
      refine ⟨DoObtainAndSendTransferGoAhead.message msg downloading MaxDownloadBytes polled.1
        try_again hold_code hold_subcode polled.2 :: earlier, last, ?_, ?_, hl, hr, ha⟩
      · rw [hs]; simp
      · intro m hm
        rcases List.mem_cons.1 hm with hm | hm
        · rw [hm, hmsg, h0]
        · exact he m hm
    · rw [if_pos (by rw [h2]; decide)] at h
      injection h with h
      subst h
      refine ⟨[], DoObtainAndSendTransferGoAhead.message msg downloading MaxDownloadBytes polled.1
        try_again hold_code hold_subcode polled.2, by simp, (by intro m hm; cases hm),
        Or.inl (by rw [hmsg, h2]), ?_, ?_⟩
      · show decide (polled.1 > 0) = true ↔ _
        rw [hmsg, h2]; decide
      · show (if polled.1 = GO_AHEAD_ALWAYS then true else go_ahead_always)
          = (go_ahead_always || decide (polled.1 > 0))
        rw [h2]; simp [GO_AHEAD_ALWAYS]
    · rw [if_pos (by rw [hm]; decide)] at h
      injection h with h
      subst h
      refine ⟨[], DoObtainAndSendTransferGoAhead.message msg downloading MaxDownloadBytes polled.1
        try_again hold_code hold_subcode polled.2, by simp, (by intro m hm; cases hm),
        Or.inr (by rw [hmsg, hm]), ?_, ?_⟩
      · show decide (polled.1 > 0) = true ↔ _
        rw [hmsg, hm]; decide
      · show (if polled.1 = GO_AHEAD_ALWAYS then true else go_ahead_always)
          = (go_ahead_always || decide (polled.1 > 0))
        rw [hm]; simp [GO_AHEAD_ALWAYS, GO_AHEAD_FAILED]

/-- The loop of the go-ahead returns when the request of the slot has failed and a pass
follows, or when the poll of some pass is decisive. -/
theorem DoObtainAndSendTransferGoAhead.poll_returns (downloading : Bool)
    (MaxDownloadBytes : Int) (try_again : Bool) (hold_code hold_subcode : Int)
    (passes : List GoAheadPass) :
    ∀ (go_ahead : Int) (msg : ClassAd) (error_desc : String) (go_ahead_always : Bool)
      (sent : List ClassAd),
      (go_ahead ≠ GO_AHEAD_UNDEFINED ∧ passes ≠ []
        ∨ ∃ p ∈ passes, p.slot = true ∨ p.pending = false) →
      (DoObtainAndSendTransferGoAhead.poll downloading MaxDownloadBytes try_again hold_code
        hold_subcode passes go_ahead msg error_desc go_ahead_always sent).isSome = true := by
  induction passes with
  | nil =>
    intro go_ahead msg error_desc go_ahead_always sent h
    rcases h with ⟨_, h⟩ | ⟨p, hp, _⟩
    · exact absurd rfl h
    · cases hp
  | cons pass rest ih =>
    intro go_ahead msg error_desc go_ahead_always sent h
    have h20 : GO_AHEAD_ALWAYS ≠ GO_AHEAD_UNDEFINED := by decide
    have hm0 : GO_AHEAD_FAILED ≠ GO_AHEAD_UNDEFINED := by decide
    unfold DoObtainAndSendTransferGoAhead.poll
    simp only []
    by_cases hs : pass.sent = true
    · simp only [hs, Bool.not_true, Bool.false_eq_true, if_false]
      generalize hpolled : (if go_ahead = GO_AHEAD_UNDEFINED then
          (if pass.slot = true then (GO_AHEAD_ALWAYS, pass.poll_error.getD error_desc)
           else if (!pass.pending) = true then (GO_AHEAD_FAILED, pass.poll_error.getD error_desc)
           else (go_ahead, pass.poll_error.getD error_desc))
        else (go_ahead, error_desc) : Int × String) = polled
      by_cases hne : polled.1 ≠ GO_AHEAD_UNDEFINED
      · rw [if_pos hne]
        rfl
      · rw [if_neg hne]
        apply ih
        right
        have h0 : polled.1 = GO_AHEAD_UNDEFINED := not_not.1 hne
        rw [← hpolled] at h0
        rcases h with ⟨hg, _⟩ | ⟨p, hp, hd⟩
        · rw [if_neg hg] at h0
          exact absurd h0 hg
        · rcases List.mem_cons.1 hp with hp | hp
          · subst hp
            by_cases hg : go_ahead = GO_AHEAD_UNDEFINED
            · rw [if_pos hg] at h0
              rcases hd with hd | hd
              · rw [if_pos hd] at h0
                exact absurd h0 h20
              · by_cases hslot : p.slot = true
                · rw [if_pos hslot] at h0
                  exact absurd h0 h20
                · rw [if_neg hslot, if_pos (by rw [hd]; rfl)] at h0
                  exact absurd h0 hm0
            · rw [if_neg hg] at h0
              exact absurd h0 hg
          · exact ⟨p, hp, hd⟩
    · have hs : pass.sent = false := by simpa using hs
      simp [hs]

/-- C18: with every send to the peer succeeding, whatever the transfer queue replies, the
messages that `DoObtainAndSendTransferGoAhead` has sent when it returns are messages that
carry `GO_AHEAD_UNDEFINED` followed by a last one that carries `GO_AHEAD_ALWAYS` or
`GO_AHEAD_FAILED`, never `GO_AHEAD_ONCE`; the function returns true exactly when the last
message carries `GO_AHEAD_ALWAYS`, and `go_ahead_always` is set exactly then (it keeps its
value otherwise).  The only return without a message is the one for a failed read of the
interval of the peer, with the result false and `go_ahead_always` unchanged.  The function
returns as soon as the request of the slot fails or a poll is decisive. -/
theorem C18_go_ahead_messages (calls : GoAheadCalls) (downloading : Bool)
    (MaxDownloadBytes : Int) (go_ahead_always try_again : Bool) (hold_code hold_subcode : Int)
    (error_desc : String)
    (hfirst : calls.timeout_message_sent = true)
    (hsent : ∀ p ∈ calls.passes, p.sent = true) :
    ((calls.request_slot = false ∧ calls.passes ≠ []
        ∨ ∃ p ∈ calls.passes, p.slot = true ∨ p.pending = false) →
      (DoObtainAndSendTransferGoAhead calls downloading MaxDownloadBytes go_ahead_always
        try_again hold_code hold_subcode error_desc).isSome = true) ∧
    ∀ o, DoObtainAndSendTransferGoAhead calls downloading MaxDownloadBytes go_ahead_always
        try_again hold_code hold_subcode error_desc = some o →
      (calls.alive_interval = none ∧ o.sent = [] ∧ o.result = false
        ∧ o.go_ahead_always = go_ahead_always)
      ∨ ∃ earlier last, o.sent = earlier ++ [last]
        ∧ (∀ m ∈ earlier, goAheadOf m = some GO_AHEAD_UNDEFINED)
        ∧ (goAheadOf last = some GO_AHEAD_ALWAYS ∨ goAheadOf last = some GO_AHEAD_FAILED)
        ∧ goAheadOf last ≠ some GO_AHEAD_ONCE
        ∧ (o.result = true ↔ goAheadOf last = some GO_AHEAD_ALWAYS)
        ∧ o.go_ahead_always
            = (go_ahead_always || decide (goAheadOf last = some GO_AHEAD_ALWAYS)) := by
  unfold DoObtainAndSendTransferGoAhead
  cases halive : calls.alive_interval with
  | none =>
    refine ⟨fun _ => rfl, fun o h => Or.inl ?_⟩
    simp only [Option.some.injEq] at h
    subst h
    exact ⟨rfl, rfl, rfl, rfl⟩
  | some alive_interval =>
    simp only [hfirst, if_true]
    constructor
    · intro h
      apply DoObtainAndSendTransferGoAhead.poll_returns
      rcases h with ⟨hreq, hne⟩ | h
      · left
        refine ⟨?_, hne⟩
        simp only [hreq, Bool.not_false, if_true]
        exact (by decide : GO_AHEAD_FAILED ≠ GO_AHEAD_UNDEFINED)
      · exact Or.inr h
    · intro o h
      right
      have key : ∀ (g : Int) (msg : ClassAd) (ed : String) (first : List ClassAd),
          (g = GO_AHEAD_UNDEFINED ∨ g = GO_AHEAD_FAILED) →
          (∀ m ∈ first, goAheadOf m = some GO_AHEAD_UNDEFINED) →
          DoObtainAndSendTransferGoAhead.poll downloading MaxDownloadBytes try_again hold_code
            hold_subcode calls.passes g msg ed go_ahead_always first = some o →
          ∃ earlier last, o.sent = earlier ++ [last]
            ∧ (∀ m ∈ earlier, goAheadOf m = some GO_AHEAD_UNDEFINED)
            ∧ (goAheadOf last = some GO_AHEAD_ALWAYS ∨ goAheadOf last = some GO_AHEAD_FAILED)
            ∧ goAheadOf last ≠ some GO_AHEAD_ONCE
            ∧ (o.result = true ↔ goAheadOf last = some GO_AHEAD_ALWAYS)
            ∧ o.go_ahead_always
                = (go_ahead_always || decide (goAheadOf last = some GO_AHEAD_ALWAYS)) := by
        intro g msg ed first hg hf hpoll
        obtain ⟨earlier, last, hs, he, hl, hr, ha⟩ :=
          DoObtainAndSendTransferGoAhead.poll_spec downloading MaxDownloadBytes try_again
            hold_code hold_subcode calls.passes g msg ed go_ahead_always first o hsent hg hpoll
        have honce : goAheadOf last ≠ some GO_AHEAD_ONCE := by
          rcases hl with hl | hl <;> rw [hl] <;> decide
        have hset : o.go_ahead_always
            = (go_ahead_always || decide (goAheadOf last = some GO_AHEAD_ALWAYS)) := by
          rw [ha]
          congr 1
          cases hres : o.result
          · have : ¬ goAheadOf last = some GO_AHEAD_ALWAYS := fun hc => by
              rw [hr.2 hc] at hres; cases hres
            simp [this]
          · simp [hr.1 hres]
        refine ⟨first ++ earlier, last, hs, ?_, hl, honce, hr, hset⟩
        intro m hm
        rcases List.mem_append.1 hm with hm | hm
        · exact hf m hm
        · exact he m hm
      have hnil : ∀ m ∈ ([] : List ClassAd), goAheadOf m = some GO_AHEAD_UNDEFINED :=
        fun m hm => (by cases hm)
      have hone : ∀ (ad : ClassAd), ∀ m ∈ [ClassAd.Assign ad ATTR_RESULT (.int GO_AHEAD_UNDEFINED)],
          goAheadOf m = some GO_AHEAD_UNDEFINED := by
        intro ad m hm
        rw [List.mem_singleton.1 hm]
        exact goAheadOf_Assign_self _ _
      by_cases hlt : alive_interval < (if calls.timeout_multiplier > 0 then
          300 * calls.timeout_multiplier else 300)
      · cases hrq : calls.request_slot
        · simp only [hlt, hrq, if_true, Bool.not_false] at h
          exact key _ _ _ _ (Or.inr rfl) (hone _) h
        · simp only [hlt, hrq, if_true, if_false, Bool.not_true, Bool.false_eq_true] at h
          exact key _ _ _ _ (Or.inl rfl) (hone _) h
      · cases hrq : calls.request_slot
        · simp only [hlt, hrq, if_true, if_false, Bool.not_false] at h
          exact key _ _ _ _ (Or.inr rfl) hnil h
        · simp only [hlt, hrq, if_true, if_false, Bool.not_true, Bool.false_eq_true] at h
          exact key _ _ _ _ (Or.inl rfl) hnil h

theorem C18_go_ahead_messages_witness :
    (queuedCalls.timeout_message_sent = true ∧ ∀ p ∈ queuedCalls.passes, p.sent = true) ∧
    (DoObtainAndSendTransferGoAhead queuedCalls false 0 false true 0 0 "").isSome = true ∧
    (∀ o, DoObtainAndSendTransferGoAhead queuedCalls false 0 false true 0 0 "" = some o →
      (queuedCalls.alive_interval = none ∧ o.sent = [] ∧ o.result = false
        ∧ o.go_ahead_always = false)
      ∨ ∃ earlier last, o.sent = earlier ++ [last]
        ∧ (∀ m ∈ earlier, goAheadOf m = some GO_AHEAD_UNDEFINED)
        ∧ (goAheadOf last = some GO_AHEAD_ALWAYS ∨ goAheadOf last = some GO_AHEAD_FAILED)
        ∧ goAheadOf last ≠ some GO_AHEAD_ONCE
        ∧ (o.result = true ↔ goAheadOf last = some GO_AHEAD_ALWAYS)
        ∧ o.go_ahead_always
            = (false || decide (goAheadOf last = some GO_AHEAD_ALWAYS))) ∧
    (DoObtainAndSendTransferGoAhead queuedCalls false 0 false true 0 0 "").map
        (fun o => (o.result, o.go_ahead_always, o.sent.map goAheadOf))
      = some (true, true, [some 0, some 0, some 2]) :=
  have hs : ∀ p ∈ queuedCalls.passes, p.sent = true := by decide
  ⟨⟨rfl, hs⟩,
    (C18_go_ahead_messages queuedCalls false 0 false true 0 0 "" rfl hs).1
      (Or.inr ⟨{ slot := true, pending := false },
        List.mem_cons_of_mem _ (List.mem_cons_self _ _), Or.inl rfl⟩),
    (C18_go_ahead_messages queuedCalls false 0 false true 0 0 "" rfl hs).2,
    by decide⟩

/-! ## The commit of a non-final download -/

/-- C19: a server receives, in a non-final transfer, a file under the name of the commit
file and then a file whose write fails.  `DoDownload` reports the failure, and has
neither written the commit file itself nor called `CommitFiles`; but the received file
stands at the path of the commit file, so that the next call of `CommitFiles` finds the
commit file and moves the other entries of the tmp-spool directory, among them the file
that was cut short, into the spool directory.  When the second file is stored as well,
`DoDownload` reports success and its call of `CommitFiles` moves that file only: the
file received as `.ccommit.con` does not reach the spool directory. -/
theorem C19_commit_file_name_received :
    LegalPathInSandbox COMMIT_FILENAME spoolConfig.Iwd = true ∧
    (DoDownload spoolConfig [commitNameFrame, writeFailedFrame] [] successAck "peer" true).rc
      = -1 ∧
    (DoDownload spoolConfig [commitNameFrame, writeFailedFrame] [] successAck "peer"
      true).committed = false ∧
    (DoDownload spoolConfig [commitNameFrame, writeFailedFrame] [] successAck "peer"
      true).state.written
      = [(1, ".ccommit.con", commitFilePath spoolConfig.TmpSpoolSpace),
         (1, "b.dat", "/spool/7.tmp/b.dat")] ∧
    CommitFiles spoolConfig.IsClient spoolConfig.TmpSpoolSpace "/spool/7"
        [".ccommit.con", "b.dat"] true
      = [("/spool/7.tmp/b.dat", "/spool/7/b.dat")] ∧
    (DoDownload spoolConfig [commitNameFrame, storedFrame] [] successAck "peer" true).rc = 0 ∧
    (DoDownload spoolConfig [commitNameFrame, storedFrame] [] successAck "peer"
      true).committed = true ∧
    (DoDownload spoolConfig [commitNameFrame, storedFrame] [] successAck "peer"
      true).state.written
      = [(1, ".ccommit.con", commitFilePath spoolConfig.TmpSpoolSpace),
         (1, "b.dat", "/spool/7.tmp/b.dat")] := by
  refine ⟨by decide, by decide, by decide, by decide, by decide, by decide, by decide,
    by decide⟩

/-! ## The multi-file curl plug-in -/

/-- C20: the input file `in.ads` holds two requests; the local file of the first cannot
be opened, so that its transfer fails with -1, and the second transfer succeeds.  In
download mode the plug-in exits with status 0; in upload mode it returns -1. -/
theorem C20_download_exit_status_after_unopened_file :
    MultiFileCurlPlugin.DownloadFile { opened := false } = -1 ∧
    MultiFileCurlPlugin.main 21 unopenedThenFine ["-infile", "in.ads"] = some 0 ∧
    MultiFileCurlPlugin.main 21 unopenedThenFine ["-infile", "in.ads", "-upload"]
      = some (-1) := by
  refine ⟨by decide, by decide, by decide⟩

/-! ## The size of a reservation -/

/-- C26: the sender proposes one file of 3 GiB that the cache cannot supply.  The sum that
`std::accumulate` forms in an `int` is negative, and `DoDownload` asks `ReserveSpace` for
18446744072635809792 bytes instead of 3221225472. -/
theorem C26_reservation_for_three_gib :
    DoDownload.to_retrieve [⟨"big.bin", "", "", "user", 3221225472⟩] = 18446744072635809792 ∧
    (DoDownload.round reuseConfig {} bigReuseRequestFrame).state.reserve_requests
      = [18446744072635809792] ∧
    (DoDownload.round reuseConfig {} bigReuseRequestFrame).state.reuse_info.map
        (fun info => info.size) = [3221225472] := by
  refine ⟨by decide, by decide, by decide⟩

/-! ## Retries of the multi-file curl plug-in -/

/-- C27: the first attempt of a transfer fails with `CURLE_COULDNT_CONNECT`, a code for
which `ShouldRetryTransfer` is true, and a second attempt would succeed.  The retry loop
tests `ShouldRetryTransfer(retry_count)` with `retry_count` equal to 1: it makes no second
attempt, and the plug-in exits with the code 7 in download mode and in upload mode. -/
theorem C27_connect_failure_not_retried :
    MultiFileCurlPlugin.ShouldRetryTransfer MultiFileCurlPlugin.CURLE_COULDNT_CONNECT = true ∧
    MultiFileCurlPlugin.DownloadFile (connectFailsOnce.attempts 0)
      = MultiFileCurlPlugin.CURLE_COULDNT_CONNECT ∧
    MultiFileCurlPlugin.DownloadFile (connectFailsOnce.attempts 1)
      = MultiFileCurlPlugin.CURLE_OK ∧
    MultiFileCurlPlugin.retry
        (fun n => MultiFileCurlPlugin.DownloadFile (connectFailsOnce.attempts n)) 21 0
      = some 7 ∧
    MultiFileCurlPlugin.retry
        (fun n => MultiFileCurlPlugin.UploadFile (connectFailsOnce.attempts n)) 21 0
      = some 7 ∧
    MultiFileCurlPlugin.main 21 connectFailsOnceCalls ["-infile", "in.ads"] = some 7 ∧
    MultiFileCurlPlugin.main 21 connectFailsOnceCalls ["-infile", "in.ads", "-upload"]
      = some 7 := by
  refine ⟨by decide, by decide, by decide, by decide, by decide, by decide, by decide⟩

/-! ## The renamed executable -/

/-- C30: the sandbox holds `condor_exec.exe`, a name that starts with `condor_exec.`, and
the catalog does not hold it.  `ComputeFilesToSend` compares the name with `condor_exec.`
as a whole and selects the file. -/
theorem C30_renamed_executable_selected :
    isCondorExecName renamedExecutable.name = true ∧
    ComputeFilesToSend (contextWith "old.out") [renamedExecutable] = some ["condor_exec.exe"] ∧
    ComputeFilesToSend (contextWith "old.out")
        [{ name := "condor_exec.", modify_time := 20, file_size := 7 }] = none := by
  refine ⟨by decide, by decide, by decide⟩

/-! ## Retries of the single-transfer curl plug-in -/

/-- The retry loop from the count `retry_count` on, with enough fuel left: it ends, and an
attempt is followed by another exactly when it failed with a retry error and no more than
`MAX_RETRY_ATTEMPTS` attempts were made. -/
theorem CurlPlugin.retry_spec (send_curl_request : Nat → Int) (fuel : Nat) :
    ∀ retry_count : Nat, retry_count ≤ 20 → 21 ≤ retry_count + fuel →
      ∃ rval attempts,
        CurlPlugin.retry send_curl_request fuel retry_count = some (rval, attempts) ∧
        retry_count < attempts ∧ attempts ≤ 21 ∧
        rval = send_curl_request (attempts - 1) ∧
        ∀ k, retry_count ≤ k → k < attempts →
          (k + 1 < attempts ↔
            (CurlPlugin.isRetryError (send_curl_request k) ∧
              ((k + 1 : Nat) : Int) ≤ CurlPlugin.MAX_RETRY_ATTEMPTS)) := by
  induction fuel with
  | zero =>
    intro retry_count h1 h2
    omega
  | succ fuel ih =>
    intro retry_count h1 h2
    unfold CurlPlugin.retry
    simp only []
    by_cases hok : send_curl_request retry_count = MultiFileCurlPlugin.CURLE_OK
    · rw [if_pos hok]
      refine ⟨_, _, rfl, by omega, by omega, by simp, ?_⟩
      intro k hk1 hk2
      have hk : k = retry_count := by omega
      subst hk
      constructor
      · intro h; omega
      · intro h
        exfalso
        have := h.1
        unfold CurlPlugin.isRetryError at this
        rw [hok] at this
        revert this
        decide
    · rw [if_neg hok]
      by_cases hre : ((retry_count + 1 : Nat) : Int) ≤ CurlPlugin.MAX_RETRY_ATTEMPTS ∧
          (send_curl_request retry_count = MultiFileCurlPlugin.CURLE_COULDNT_CONNECT ∨
           send_curl_request retry_count = MultiFileCurlPlugin.CURLE_PARTIAL_FILE ∨
           send_curl_request retry_count = MultiFileCurlPlugin.CURLE_READ_ERROR ∨
           send_curl_request retry_count = MultiFileCurlPlugin.CURLE_OPERATION_TIMEDOUT ∨
           send_curl_request retry_count = MultiFileCurlPlugin.CURLE_SEND_ERROR ∨
           send_curl_request retry_count = MultiFileCurlPlugin.CURLE_RECV_ERROR)
      · rw [if_pos hre]
        have h20 : retry_count + 1 ≤ 20 := by
          have := hre.1
          unfold CurlPlugin.MAX_RETRY_ATTEMPTS at this
          omega
        obtain ⟨rval, attempts, hr, hlt, hle, hlast, hall⟩ := ih (retry_count + 1) h20 (by omega)
        refine ⟨rval, attempts, hr, by omega, hle, hlast, ?_⟩
        intro k hk1 hk2
        by_cases hk : k = retry_count
        · subst hk
          constructor
          · intro _
            exact ⟨hre.2, hre.1⟩
          · intro _
            omega
        · exact hall k (by omega) hk2
      · rw [if_neg hre]
        refine ⟨_, _, rfl, by omega, by omega, by simp, ?_⟩
        intro k hk1 hk2
        have hk : k = retry_count := by omega
        subst hk
        constructor
        · intro h; omega
        · intro h
          exact absurd ⟨h.2, h.1⟩ hre

/-- C22: whatever the attempts of the request return, the retry loop of the single-transfer
curl plug-in ends after at least one and at most 21 attempts, and `main` returns the
result of the last one.  An attempt is followed by another attempt exactly when it ended
with a connect failure, a partial file, a read error, an operation timeout, a send error
or a receive error and no more than `MAX_RETRY_ATTEMPTS` (20) attempts were made up to
then; so an attempt that succeeds or ends with any other error is the last one. -/
theorem C22_single_transfer_retry (send_curl_request : Nat → Int) (url local_file : String) :
    ∃ rval attempts,
      CurlPlugin.retry send_curl_request 21 0 = some (rval, attempts) ∧
      CurlPlugin.main 21 true [url, local_file] send_curl_request = some rval ∧
      1 ≤ attempts ∧ attempts ≤ 21 ∧
      rval = send_curl_request (attempts - 1) ∧
      (∀ k, k < attempts →
        (k + 1 < attempts ↔
          (CurlPlugin.isRetryError (send_curl_request k) ∧
            ((k + 1 : Nat) : Int) ≤ CurlPlugin.MAX_RETRY_ATTEMPTS))) ∧
      (∀ k, k < attempts → ¬ CurlPlugin.isRetryError (send_curl_request k) →
        k + 1 = attempts) := by
  obtain ⟨rval, attempts, hr, hlt, hle, hlast, hall⟩ :=
    CurlPlugin.retry_spec send_curl_request 21 0 (by omega) (by omega)
  refine ⟨rval, attempts, hr, ?_, by omega, hle, hlast, fun k hk => hall k (by omega) hk, ?_⟩
  · unfold CurlPlugin.main
    simp [hr]
  · intro k hk hn
    by_contra hne
    have : k + 1 < attempts := by omega
    exact hn ((hall k (by omega) hk).1 this).1

/-! ## The order of transfer items is a strict weak order -/

theorem lex_ite_iff (x y p q : List Char) :
    (if x = y then p < q else x < y) ↔ x < y ∨ x = y ∧ p < q := by
  split_ifs with h
  · subst h
    simp
  · simp [h]

theorem FileTransferItem.lt_iff_orderKey (a b : FileTransferItem) :
    FileTransferItem.lt a b = true ↔ a.orderKey < b.orderKey := by
  unfold FileTransferItem.lt FileTransferItem.orderKey
  by_cases had : a.m_dest_scheme = "" <;> by_cases hbd : b.m_dest_scheme = "" <;>
    by_cases has : a.m_src_scheme = "" <;> by_cases hbs : b.m_src_scheme = "" <;>
    simp [had, hbd, has, hbs, FileTransferItem.strLt, Prod.Lex.lt_iff, String.ext_iff] <;>
    exact lex_ite_iff _ _ _ _

theorem FileTransferItem.lt_false_iff_orderKey (a b : FileTransferItem) :
    FileTransferItem.lt a b = false ↔ b.orderKey ≤ a.orderKey := by
  rw [← not_lt, ← FileTransferItem.lt_iff_orderKey]
  simp

theorem FileTransferItem.incomparable_iff (a b : FileTransferItem) :
    FileTransferItem.incomparable a b ↔ a.orderKey = b.orderKey := by
  unfold FileTransferItem.incomparable
  rw [FileTransferItem.lt_false_iff_orderKey, FileTransferItem.lt_false_iff_orderKey]
  constructor
  · intro h
    exact le_antisymm h.2 h.1
  · intro h
    rw [h]
    exact ⟨le_refl _, le_refl _⟩

/-- C25: `FileTransferItem::operator<` is a strict weak ordering on all transfer items,
whatever their schemes, names and URLs: no item is less than itself, the order is
transitive, and so is incomparability (neither item less than the other). -/
theorem C25_item_order_strict_weak :
    (∀ a : FileTransferItem, FileTransferItem.lt a a = false) ∧
    (∀ a b c : FileTransferItem, FileTransferItem.lt a b = true →
      FileTransferItem.lt b c = true → FileTransferItem.lt a c = true) ∧
    (∀ a b c : FileTransferItem, FileTransferItem.incomparable a b →
      FileTransferItem.incomparable b c → FileTransferItem.incomparable a c) ∧
    (∀ a b : FileTransferItem, FileTransferItem.lt a b = true →
      FileTransferItem.lt b a = false) := by
  refine ⟨?_, ?_, ?_, ?_⟩
  · intro a
    rw [FileTransferItem.lt_false_iff_orderKey]
  · intro a b c hab hbc
    rw [FileTransferItem.lt_iff_orderKey] at hab hbc ⊢
    exact lt_trans hab hbc
  · intro a b c hab hbc
    rw [FileTransferItem.incomparable_iff] at hab hbc ⊢
    exact hab.trans hbc
  · intro a b hab
    rw [FileTransferItem.lt_iff_orderKey] at hab
    rw [FileTransferItem.lt_false_iff_orderKey]
    exact le_of_lt hab

theorem C25_item_order_strict_weak_witness :
    FileTransferItem.lt { m_src_name := "out.dat", m_dest_url := "s3://b/o", m_dest_scheme := "s3" }
      { m_src_name := "a.txt" } = true ∧
    FileTransferItem.lt { m_src_name := "a.txt" }
      { m_src_name := "http://h/in", m_src_scheme := "http" } = true ∧
    FileTransferItem.lt { m_src_name := "out.dat", m_dest_url := "s3://b/o", m_dest_scheme := "s3" }
      { m_src_name := "http://h/in", m_src_scheme := "http" } = true ∧
    FileTransferItem.incomparable { m_src_name := "a.txt", m_file_size := 1 }
      { m_src_name := "a.txt", m_file_size := 3 } :=
  ⟨by decide, by decide,
    C25_item_order_strict_weak.2.1
      { m_src_name := "out.dat", m_dest_url := "s3://b/o", m_dest_scheme := "s3" }
      { m_src_name := "a.txt" } { m_src_name := "http://h/in", m_src_scheme := "http" }
      (by decide) (by decide),
    C25_item_order_strict_weak.2.2.1 { m_src_name := "a.txt", m_file_size := 1 }
      { m_src_name := "a.txt", m_file_size := 2 } { m_src_name := "a.txt", m_file_size := 3 }
      (by decide) (by decide)⟩

/-! ## Where a received item is written -/

theorem insideDirectory_append (dir rel : String) :
    insideDirectory dir (dir ++ String.singleton DIR_DELIM_CHAR ++ rel)
      = LegalPathInSandbox rel dir := by
  unfold insideDirectory
  have h1 : (dir ++ String.singleton DIR_DELIM_CHAR ++ rel).data
      = (dir ++ String.singleton DIR_DELIM_CHAR).data ++ rel.data := by
    simp [String.data_append]
  rw [h1, List.drop_left]
  have h2 : (dir ++ String.singleton DIR_DELIM_CHAR).data.isPrefixOf
      ((dir ++ String.singleton DIR_DELIM_CHAR).data ++ rel.data) = true := by
    rw [List.isPrefixOf_iff_prefix]
    exact List.prefix_append _ _
  rw [h2]
  simp

/-- C23 (as amended): for every received name and every remap table, the path to which
`DoDownload` directs the item is the null sink; or no remap decides the path and it is
the receiving directory (the working directory, or the tmp-spool directory in a transfer
to a server that is not final) followed by the received name, a path inside that
directory; or a remap decides the path, and then an absolute target is used as it stands
and a relative target is put behind the working directory. -/
theorem C23_download_path (cfg : DownloadConfig) (st : DownloadState) (xfer_command : Int)
    (filename : String) :
    (DoDownload.resolve cfg (DoDownload.check_path cfg st filename).1 xfer_command
        (DoDownload.check_path cfg st filename).2).2 = NULL_FILE
    ∨ (¬ DoDownload.remapped cfg filename ∧
        (DoDownload.resolve cfg (DoDownload.check_path cfg st filename).1 xfer_command
          (DoDownload.check_path cfg st filename).2).2
          = DoDownload.target_directory cfg ++ String.singleton DIR_DELIM_CHAR ++ filename ∧
        insideDirectory (DoDownload.target_directory cfg)
          (DoDownload.resolve cfg (DoDownload.check_path cfg st filename).1 xfer_command
            (DoDownload.check_path cfg st filename).2).2 = true)
    ∨ (DoDownload.remapped cfg filename ∧
        (DoDownload.resolve cfg (DoDownload.check_path cfg st filename).1 xfer_command
          (DoDownload.check_path cfg st filename).2).2
          = if fullpath (cfg.filename_remap_find filename).2 then
              (cfg.filename_remap_find filename).2
            else cfg.Iwd ++ String.singleton DIR_DELIM_CHAR ++
              (cfg.filename_remap_find filename).2) := by
  unfold DoDownload.check_path
  by_cases hlegal : LegalPathInSandbox filename cfg.Iwd = true
  · simp only [hlegal, Bool.not_true, Bool.false_eq_true, if_false]
    have hin : ∀ dir : String,
        insideDirectory dir (dir ++ String.singleton DIR_DELIM_CHAR ++ filename) = true := by
      intro dir
      rw [insideDirectory_append, ← hlegal, LegalPathInSandbox_eq, LegalPathInSandbox_eq]
    unfold DoDownload.resolve DoDownload.remapped DoDownload.target_directory
    simp only []
    by_cases hnull : filename = NULL_FILE
    · left
      rw [if_pos hnull]
      exact hnull
    · rw [if_neg hnull]
      by_cases hfinal : (cfg.final_transfer || cfg.IsClient) = true
      · simp only [hfinal, if_true]
        by_cases hcycle : (cfg.filename_remap_find filename).1 = -1
        · left
          rw [if_pos hcycle]
        · rw [if_neg hcycle]
          by_cases hres : (cfg.filename_remap_find filename).1 = 0
          · right; left
            rw [if_neg (by simpa using hres)]
            exact ⟨fun h => h.2.1 hres, rfl, hin _⟩
          · rw [if_pos hres]
            by_cases hurl : (IsUrl (cfg.filename_remap_find filename).2).isSome = true
            · rw [if_pos hurl]
              by_cases hcmd : xfer_command = TransferCommand.Other
              · right; left
                rw [if_neg (by simpa using hcmd)]
                refine ⟨fun h => ?_, rfl, hin _⟩
                rw [hurl] at h
                exact absurd h.2.2.2 (by decide)
              · left
                rw [if_pos hcmd]
            · rw [if_neg hurl]
              right; right
              refine ⟨⟨trivial, hres, hcycle, by simpa using hurl⟩, ?_⟩
              by_cases hfull : fullpath (cfg.filename_remap_find filename).2 = true
              · rw [if_pos hfull, if_pos hfull]
              · rw [if_neg hfull, if_neg hfull]
      · simp only [hfinal, if_false, Bool.false_eq_true]
        right; left
        exact ⟨fun h => h.1, trivial, hin _⟩
  · left
    have hl : LegalPathInSandbox filename cfg.Iwd = false := by simpa using hlegal
    simp only [hl, Bool.not_false, if_true]
    unfold DoDownload.resolve
    simp

/-- C23 as stated fails: the remap of `out.txt` to `/tmp/elsewhere/out.txt` sends the
received file to that absolute path, which is neither the null sink nor inside the
sandbox `/sandbox`; the remap of `up.txt` to `../up.txt` sends the file to
`/sandbox/../up.txt`. -/
theorem C23_counterexample_absolute_remap :
    (DoDownload.round remapConfig {} goodFrame).state.written
      = [(1, "out.txt", "/tmp/elsewhere/out.txt")] ∧
    (DoDownload.round remapConfig {} goodFrame).state.download_success = true ∧
    ¬ ((DoDownload.resolve remapConfig (DoDownload.check_path remapConfig {} "out.txt").1 1
          (DoDownload.check_path remapConfig {} "out.txt").2).2 = NULL_FILE
      ∨ insideDirectory remapConfig.Iwd
          (DoDownload.resolve remapConfig (DoDownload.check_path remapConfig {} "out.txt").1 1
            (DoDownload.check_path remapConfig {} "out.txt").2).2 = true) ∧
    fullpath (DoDownload.resolve remapConfig (DoDownload.check_path remapConfig {} "out.txt").1 1
      (DoDownload.check_path remapConfig {} "out.txt").2).2 = true ∧
    (DoDownload.resolve remapConfig (DoDownload.check_path remapConfig {} "up.txt").1 1
      (DoDownload.check_path remapConfig {} "up.txt").2).2 = "/sandbox/../up.txt" ∧
    insideDirectory remapConfig.Iwd "/sandbox/../up.txt" = false := by
  refine ⟨by decide, by decide, by decide, by decide, by decide, by decide⟩

theorem C23_download_path_witness :
    (DoDownload.resolve receiverConfig (DoDownload.check_path receiverConfig {} "out.txt").1 1
      (DoDownload.check_path receiverConfig {} "out.txt").2).2 = "/sandbox/out.txt" ∧
    (DoDownload.resolve receiverConfig (DoDownload.check_path receiverConfig {} "../escape").1 1
      (DoDownload.check_path receiverConfig {} "../escape").2).2 = NULL_FILE ∧
    (DoDownload.resolve spoolConfig (DoDownload.check_path spoolConfig {} "out.txt").1 1
      (DoDownload.check_path spoolConfig {} "out.txt").2).2 = "/spool/7.tmp/out.txt" ∧
    (DoDownload.remapped remapConfig "out.txt" ∧
      (DoDownload.resolve remapConfig (DoDownload.check_path remapConfig {} "out.txt").1 1
        (DoDownload.check_path remapConfig {} "out.txt").2).2
        = if fullpath (remapConfig.filename_remap_find "out.txt").2 then
            (remapConfig.filename_remap_find "out.txt").2
          else remapConfig.Iwd ++ String.singleton DIR_DELIM_CHAR ++
            (remapConfig.filename_remap_find "out.txt").2) :=
  ⟨by decide, by decide, by decide,
    (C23_download_path remapConfig {} 1 "out.txt").resolve_left (by decide)
      |>.resolve_left (by decide)⟩

/-! ## The crypto mode of a command on both sides -/

theorem crypto_for_agrees (cfg : UploadConfig) (rcfg : DownloadConfig)
    (hd : rcfg.socket_default_crypto = cfg.socket_default_crypto)
    (hp : rcfg.PeerDoesS3Urls = cfg.PeerDoesS3Urls) (c : Int) :
    DoUpload.crypto_for cfg c = DoDownload.crypto_for rcfg c ∧
    DoDownload.crypto_for rcfg c
      = cryptoModeOf c cfg.socket_default_crypto cfg.PeerDoesS3Urls := by
  unfold DoUpload.crypto_for DoDownload.crypto_for cryptoModeOf
  rw [hd, hp]
  unfold TransferCommand.EnableEncryption TransferCommand.DownloadUrl
    TransferCommand.DisableEncryption
  by_cases h2 : c = 2 <;> by_cases h5 : c = 5 <;> by_cases h3 : c = 3 <;>
    cases cfg.PeerDoesS3Urls <;> simp [h2, h5, h3]

/-- An item that a multi-file plug-in handles is announced in the default mode. -/
theorem DoUpload.plan_multifile_default (cfg : UploadConfig) (fileitem : FileTransferItem)
    (h : (DoUpload.plan cfg fileitem).multifilePluginPath ≠ "") :
    DoUpload.crypto_for cfg (DoUpload.plan cfg fileitem).file_command
      = cfg.socket_default_crypto := by
  have hdest : fileitem.isDestUrl = true := by
    by_contra hc
    apply h
    simp only [Bool.not_eq_true] at hc
    simp [DoUpload.plan, DoUpload.multifilePluginPath, hc]
  have hcmd : (DoUpload.plan cfg fileitem).file_command = TransferCommand.Mkdir ∨
      (DoUpload.plan cfg fileitem).file_command = TransferCommand.Other := by
    simp only [DoUpload.plan, DoUpload.command_before_mkdir, hdest, if_true]
    split_ifs
    · exact Or.inl rfl
    · exact Or.inr rfl
  unfold DoUpload.crypto_for
  rcases hcmd with hc | hc <;> rw [hc] <;> simp [TransferCommand.Mkdir, TransferCommand.Other,
    TransferCommand.EnableEncryption, TransferCommand.DownloadUrl,
    TransferCommand.DisableEncryption]

theorem DoUpload.CryptoAgrees_of_same {cfg : UploadConfig} {rcfg : DownloadConfig}
    {st st1 : UploadState} (h : DoUpload.SameAnnouncements st st1)
    (hinv : DoUpload.CryptoAgrees cfg rcfg st) : DoUpload.CryptoAgrees cfg rcfg st1 := by
  obtain ⟨h1, h2, h3, h4⟩ := h
  unfold DoUpload.CryptoAgrees
  rw [h1, h2, h3, h4]
  exact hinv

theorem DoUpload.record_batch_failure_same (st : UploadState) (errors : String) :
    DoUpload.SameAnnouncements st (DoUpload.record_batch_failure st errors) := by
  unfold DoUpload.record_batch_failure
  simp only []
  split <;> exact ⟨rfl, rfl, rfl, rfl⟩

/-- After the flush of the pending batch, a batch that is still pending is one that the
item joins. -/
theorem DoUpload.flush_pending_crypto {cfg : UploadConfig} {rcfg : DownloadConfig}
    {st st1 : UploadState} {p : ItemPlan} {env : UploadReplies}
    (h : DoUpload.flush_pending st p env = some st1)
    (hinv : DoUpload.CryptoAgrees cfg rcfg st) :
    DoUpload.CryptoAgrees cfg rcfg st1 ∧
    (st1.currentUploadPlugin ≠ "" → p.multifilePluginPath ≠ "") := by
  unfold DoUpload.flush_pending at h
  split at h
  · split at h
    · cases h
    · simp only [Option.some.injEq] at h
      subst h
      refine ⟨⟨?_, fun hc => absurd rfl hc, fun hc => absurd rfl hc⟩, fun hc => absurd rfl hc⟩
      split
      · exact (DoUpload.CryptoAgrees_of_same
          (DoUpload.record_batch_failure_same st env.flush_errors) hinv).1
      · exact hinv.1
  · rename_i hc
    simp only [Option.some.injEq] at h
    subst h
    refine ⟨hinv, fun hne => ?_⟩
    by_contra hp
    apply hc
    refine ⟨hne, ?_⟩
    rw [hp]
    exact fun heq => hne heq.symm

theorem DoUpload.send_header_crypto {cfg : UploadConfig} {rcfg : DownloadConfig}
    {st st1 : UploadState} {p : ItemPlan} {env : UploadReplies}
    (hd : rcfg.socket_default_crypto = cfg.socket_default_crypto)
    (hp : rcfg.PeerDoesS3Urls = cfg.PeerDoesS3Urls)
    (h : DoUpload.send_header cfg st p env = some st1)
    (hinv : DoUpload.CryptoAgrees cfg rcfg st)
    (hjoin : st.currentUploadPlugin ≠ "" → p.multifilePluginPath ≠ "")
    (hmulti : p.multifilePluginPath ≠ "" →
      DoUpload.crypto_for cfg p.file_command = cfg.socket_default_crypto) :
    DoUpload.CryptoAgrees cfg rcfg st1 ∧
    (p.multifilePluginPath ≠ "" → st1.crypto_mode = cfg.socket_default_crypto) := by
  unfold DoUpload.send_header at h
  simp only [] at h
  split at h
  · cases h
  · split at h
    · cases h
    · split at h
      · cases h
      · simp only [Option.some.injEq] at h
        subst h
        refine ⟨⟨?_, hinv.2.1, fun hne => hmulti (hjoin hne)⟩, hmulti⟩
        simp only []
        split
        · intro a ha
          rcases List.mem_append.1 ha with ha | ha
          · exact hinv.1 a ha
          · rw [List.mem_singleton.1 ha]
            exact (crypto_for_agrees cfg rcfg hd hp p.file_command).1
        · exact hinv.1

theorem DoUpload.go_ahead_same {cfg : UploadConfig} {st st1 : UploadState} {p : ItemPlan}
    {env : UploadReplies} (h : DoUpload.go_ahead cfg st p env = some st1) :
    DoUpload.SameAnnouncements st st1 := by
  unfold DoUpload.go_ahead at h
  split at h
  · simp only [] at h
    split at h
    · cases h
    · split at h
      · cases h
      · rename_i st2 hpeer
        have h2 : DoUpload.SameAnnouncements st st2 := by
          split at hpeer
          · split at hpeer
            · cases hpeer
            · simp only [Option.some.injEq] at hpeer
              subst hpeer
              exact ⟨rfl, rfl, rfl, rfl⟩
          · simp only [Option.some.injEq] at hpeer
            subst hpeer
            exact ⟨rfl, rfl, rfl, rfl⟩
        split at h
        · split at h
          · cases h
          · simp only [Option.some.injEq] at h
            subst h
            exact h2
        · simp only [Option.some.injEq] at h
          subst h; exact h2
  · simp only [Option.some.injEq] at h
    subst h
    exact ⟨rfl, rfl, rfl, rfl⟩

theorem DoUpload.transfer_crypto {cfg : UploadConfig} {rcfg : DownloadConfig}
    {st st1 : UploadState} {p : ItemPlan} {env : UploadReplies} {rc e : Int}
    (h : DoUpload.transfer cfg st p env = some (st1, rc, e))
    (hinv : DoUpload.CryptoAgrees cfg rcfg st)
    (hmode : p.multifilePluginPath ≠ "" → st.crypto_mode = cfg.socket_default_crypto) :
    DoUpload.CryptoAgrees cfg rcfg st1 := by
  unfold DoUpload.transfer at h
  simp only [] at h
  repeat' split at h
  all_goals first
    | (cases h; done)
    | (cases h; exact hinv)
    | (cases h
       refine ⟨hinv.1, ?_, ?_⟩
       · first
           | (intro hc; exact absurd rfl hc)
           | (intro _; assumption)
       · first
           | (intro hc; exact absurd rfl hc)
           | (intro _; apply hmode; assumption))

theorem DoUpload.handle_rc_same (cfg : UploadConfig) (st : UploadState) (p : ItemPlan)
    (env : UploadReplies) (rc e : Int) :
    DoUpload.SameAnnouncements st (DoUpload.handle_rc cfg st p env rc e).state := by
  unfold DoUpload.handle_rc
  simp only []
  split_ifs <;> exact ⟨rfl, rfl, rfl, rfl⟩

theorem DoUpload.account_same (cfg : UploadConfig) (st : UploadState) (p : ItemPlan)
    (env : UploadReplies) :
    DoUpload.SameAnnouncements st (DoUpload.account cfg st p env).state := by
  unfold DoUpload.account
  split_ifs <;> exact ⟨rfl, rfl, rfl, rfl⟩

theorem DoUpload.SameAnnouncements_trans {s1 s2 s3 : UploadState}
    (h1 : DoUpload.SameAnnouncements s1 s2) (h2 : DoUpload.SameAnnouncements s2 s3) :
    DoUpload.SameAnnouncements s1 s3 :=
  ⟨h2.1.trans h1.1, h2.2.1.trans h1.2.1, h2.2.2.1.trans h1.2.2.1, h2.2.2.2.trans h1.2.2.2⟩

theorem DoUpload.send_crypto {cfg : UploadConfig} {rcfg : DownloadConfig}
    {st : UploadState} {p : ItemPlan} {env : UploadReplies}
    (hinv : DoUpload.CryptoAgrees cfg rcfg st)
    (hmode : p.multifilePluginPath ≠ "" → st.crypto_mode = cfg.socket_default_crypto) :
    DoUpload.CryptoAgrees cfg rcfg (DoUpload.send cfg st p env).state := by
  unfold DoUpload.send
  cases ht : DoUpload.transfer cfg st p env with
  | none => exact hinv
  | some r =>
    obtain ⟨st1, rc, e⟩ := r
    have h1 := DoUpload.transfer_crypto ht hinv hmode
    have h2 := DoUpload.handle_rc_same cfg st1 p env rc e
    simp only []
    cases hh : DoUpload.handle_rc cfg st1 p env rc e with
    | next st2 =>
      rw [hh] at h2
      simp only []
      exact DoUpload.CryptoAgrees_of_same
        (DoUpload.SameAnnouncements_trans h2 (DoUpload.account_same cfg st2 p env)) h1
    | dropped st2 =>
      rw [hh] at h2
      exact DoUpload.CryptoAgrees_of_same h2 h1
    | exited st2 a b c d e f g =>
      rw [hh] at h2
      exact DoUpload.CryptoAgrees_of_same h2 h1

theorem DoUpload.item_crypto {cfg : UploadConfig} {rcfg : DownloadConfig}
    (hd : rcfg.socket_default_crypto = cfg.socket_default_crypto)
    (hp : rcfg.PeerDoesS3Urls = cfg.PeerDoesS3Urls)
    (st : UploadState) (fileitem : FileTransferItem) (env : UploadReplies)
    (hinv : DoUpload.CryptoAgrees cfg rcfg st) :
    DoUpload.CryptoAgrees cfg rcfg (DoUpload.item cfg st fileitem env).state := by
  unfold DoUpload.item
  simp only []
  split_ifs
  · exact hinv
  · exact hinv
  · cases hf : DoUpload.flush_pending st
        (DoUpload.plan cfg (DoUpload.with_signed_url cfg fileitem)) env with
    | none => exact hinv
    | some st1 =>
      obtain ⟨h1, hjoin⟩ := DoUpload.flush_pending_crypto hf hinv
      simp only []
      cases hs : DoUpload.send_header cfg st1
          (DoUpload.plan cfg (DoUpload.with_signed_url cfg fileitem)) env with
      | none => exact h1
      | some st2 =>
        obtain ⟨h2, hmode⟩ := DoUpload.send_header_crypto hd hp hs h1 hjoin
          (DoUpload.plan_multifile_default cfg (DoUpload.with_signed_url cfg fileitem))
        simp only []
        cases hg : DoUpload.go_ahead cfg st2
            (DoUpload.plan cfg (DoUpload.with_signed_url cfg fileitem)) env with
        | none => exact h2
        | some st3 =>
          have hsame := DoUpload.go_ahead_same hg
          simp only []
          exact DoUpload.send_crypto (DoUpload.CryptoAgrees_of_same hsame h2)
            (fun hne => hsame.2.1.trans (hmode hne))

theorem DoUpload.loop_crypto {cfg : UploadConfig} {rcfg : DownloadConfig}
    (hd : rcfg.socket_default_crypto = cfg.socket_default_crypto)
    (hp : rcfg.PeerDoesS3Urls = cfg.PeerDoesS3Urls)
    (plan : List (FileTransferItem × UploadReplies)) :
    ∀ st : UploadState, DoUpload.CryptoAgrees cfg rcfg st →
      DoUpload.CryptoAgrees cfg rcfg (DoUpload.loop cfg st plan).state := by
  induction plan with
  | nil => intro st h; exact h
  | cons x rest ih =>
    intro st h
    obtain ⟨fileitem, env⟩ := x
    rw [DoUpload.loop_cons]
    have hi := DoUpload.item_crypto hd hp st fileitem env h
    cases hitem : DoUpload.item cfg st fileitem env with
    | next st1 =>
      rw [hitem] at hi
      exact ih st1 hi
    | dropped st1 =>
      rw [hitem] at hi
      exact hi
    | exited st1 a b c d e f g =>
      rw [hitem] at hi
      exact hi

/-- C28: when both peers have the same default crypto mode of the socket and the same
S3 flag, the mode that `DoUpload` applies for a command code is the mode that
`DoDownload` applies on reading the code: on for code 2 and for code 5 with the flag,
off for code 3, the default for every other code.  Every header that the loop of
`DoUpload` has announced carries the mode that the receiver applies to its command, and
the headers that `InvokeMultiUploadPlugin` sends later for a pending batch (command 999)
find the stream in the mode that the receiver applies to command 999. -/
theorem C28_crypto_mode_agrees (cfg : UploadConfig) (rcfg : DownloadConfig)
    (hd : rcfg.socket_default_crypto = cfg.socket_default_crypto)
    (hp : rcfg.PeerDoesS3Urls = cfg.PeerDoesS3Urls) :
    (∀ c : Int, DoUpload.crypto_for cfg c = DoDownload.crypto_for rcfg c ∧
      DoDownload.crypto_for rcfg c
        = cryptoModeOf c cfg.socket_default_crypto cfg.PeerDoesS3Urls) ∧
    (∀ plan : List (FileTransferItem × UploadReplies),
      (∀ a ∈ (DoUpload.loop cfg {} plan).state.announced,
        a.2.2 = DoUpload.crypto_for cfg a.1 ∧ a.2.2 = DoDownload.crypto_for rcfg a.1) ∧
      (((DoUpload.loop cfg {} plan).state.currentUploadPlugin ≠ "" ∨
          (DoUpload.loop cfg {} plan).state.currentUploadRequests ≠ []) →
        ∀ names : List String,
          ∀ a ∈ DoUpload.batch_headers (DoUpload.loop cfg {} plan).state names,
            a.1 = TransferCommand.Other ∧ a.2.2 = DoDownload.crypto_for rcfg a.1)) := by
  refine ⟨crypto_for_agrees cfg rcfg hd hp, fun plan => ?_⟩
  have hinit : DoUpload.CryptoAgrees cfg rcfg {} :=
    ⟨fun a ha => (by cases ha), fun h => absurd rfl h, fun h => absurd rfl h⟩
  obtain ⟨h1, h2, h3⟩ := DoUpload.loop_crypto hd hp plan {} hinit
  refine ⟨fun a ha => ⟨?_, h1 a ha⟩, fun hpending names a ha => ?_⟩
  · rw [h1 a ha]
    exact ((crypto_for_agrees cfg rcfg hd hp a.1).1).symm
  · have hplugin : (DoUpload.loop cfg {} plan).state.currentUploadPlugin ≠ "" := by
      rcases hpending with h | h
      · exact h
      · exact h2 h
    unfold DoUpload.batch_headers at ha
    obtain ⟨filename, _, rfl⟩ := List.mem_map.1 ha
    refine ⟨rfl, ?_⟩
    simp only []
    rw [h3 hplugin, ← hd]
    simp [DoDownload.crypto_for, TransferCommand.Other, TransferCommand.EnableEncryption,
      TransferCommand.DownloadUrl, TransferCommand.DisableEncryption]

theorem C28_crypto_mode_agrees_witness :
    (receiverConfig.socket_default_crypto = batchConfig.socket_default_crypto ∧
      receiverConfig.PeerDoesS3Urls = batchConfig.PeerDoesS3Urls) ∧
    (DoUpload.loop batchConfig {} batchPlan).state.announced
      = [(999, "o1", false), (2, "secret.txt", true)] ∧
    (DoUpload.loop batchConfig {} (batchPlan.take 2)).state.currentUploadRequests
      = [("https://host/o1", "/iwd/o1"), ("https://host/o2", "/iwd/o2")] ∧
    DoUpload.batch_headers (DoUpload.loop batchConfig {} (batchPlan.take 2)).state
        ["/iwd/o1", "/iwd/o2"] = [(999, "o2", false)] ∧
    (∀ a ∈ (DoUpload.loop batchConfig {} batchPlan).state.announced,
      a.2.2 = DoUpload.crypto_for batchConfig a.1 ∧
        a.2.2 = DoDownload.crypto_for receiverConfig a.1) ∧
    (∀ a ∈ DoUpload.batch_headers (DoUpload.loop batchConfig {} (batchPlan.take 2)).state
        ["/iwd/o1", "/iwd/o2"],
      a.1 = TransferCommand.Other ∧ a.2.2 = DoDownload.crypto_for receiverConfig a.1) :=
  ⟨⟨rfl, rfl⟩, by decide, by decide, by decide,
    ((C28_crypto_mode_agrees batchConfig receiverConfig rfl rfl).2 batchPlan).1,
    ((C28_crypto_mode_agrees batchConfig receiverConfig rfl rfl).2 (batchPlan.take 2)).2
      (Or.inr (by decide)) ["/iwd/o1", "/iwd/o2"]⟩

/-! ## A multi-file batch in which one upload fails -/

/-- C21: a batch of two uploads is pending at the end of the loop; the plug-in fails to
upload `o1`, uploads `o2` and exits with a status that is not zero, and every send on the
stream succeeds.  `InvokeMultiUploadPlugin` sends an outcome record for both files (the
failure of `o1` and the success of `o2`) and returns -1, upon which `DoUpload` returns -1
at once: it records no failure and does not reach `ExitDoUpload` with the final
acknowledgements.  The same failure of a single-file plug-in is recorded as the first
failure (hold code, no retry) and reported through `ExitDoUpload`, and so is a batch for
which `InvokeMultiUploadPlugin` returns 0. -/
theorem C21_failed_batch_drops_session :
    InvokeMultipleFileTransferPlugin oneFailedRun true
      = (GET_FILE_PLUGIN_FAILED, oneFailedRun.ads) ∧
    InvokeMultiUploadPlugin oneFailedRun {} true
      = { result := -1, headers := ["o2"],
          records := [⟨"o1", "https://host/o1", 1, some "HTTP 500"⟩,
                      ⟨"o2", "https://host/o2", 0, none⟩] } ∧
    (DoUpload.loop batchConfig {} (batchPlan.take 2)).state.currentUploadRequests
      = [("https://host/o1", "/iwd/o1"), ("https://host/o2", "/iwd/o2")] ∧
    (∃ st, DoUpload.run batchConfig {} (batchPlan.take 2)
        (InvokeMultiUploadPlugin oneFailedRun {} true).result "" = .dropped st ∧
      st.first_failed_file_transfer_happened = false) ∧
    (DoUpload.run batchConfig {} (batchPlan.take 2)
        (InvokeMultiUploadPlugin oneFailedRun {} true).result "").verdict = none ∧
    (DoUpload.run singleFileConfig {} singleFilePlan 1 "").verdict
      = some (false, false, CONDOR_HOLD_CODE_UploadFileError) ∧
    (DoUpload.run batchConfig {} (batchPlan.take 2) 0 "").verdict
      = some (false, false, CONDOR_HOLD_CODE_UploadFileError) := by
  refine ⟨by decide, by decide, by decide, ⟨_, rfl, by decide⟩, by decide, by decide, by decide⟩

/-! ## Plug-ins that a job brings along -/

theorem InsertPluginMappings_apply (methods p : String) (table : PluginHashTable)
    (key : String) :
    InsertPluginMappings table methods p key
      = if key ∈ tokens [' ', ','] methods then some p else table key := by
  unfold InsertPluginMappings
  generalize tokens [' ', ','] methods = ms
  induction ms generalizing table with
  | nil => simp
  | cons m rest ih =>
    rw [List.foldl_cons, ih]
    by_cases h1 : key ∈ rest
    · simp [h1]
    · by_cases h2 : key = m
      · simp [h1, h2, PluginHashTable.insert]
      · simp [h1, h2, PluginHashTable.insert]

/-- The methods and the plug-in of one piece of `TransferPlugins`. -/
theorem jobPlugins_cons (plug : String) (rest : List String) :
    List.filterMap (fun plug =>
        (jobPluginEntry plug).map (fun entry =>
          (tokens [' ', ','] entry.1, condor_basename entry.2))) (plug :: rest)
      = ((jobPluginEntry plug).map (fun entry =>
          (tokens [' ', ','] entry.1, condor_basename entry.2))).toList ++
        List.filterMap (fun plug =>
          (jobPluginEntry plug).map (fun entry =>
            (tokens [' ', ','] entry.1, condor_basename entry.2))) rest := by
  rw [List.filterMap_cons]
  cases jobPluginEntry plug <;> simp

/-- The loop of `InitializeJobPlugins`: the table binds a method to the plug-in of the
last piece that lists it, and else as before; the plug-ins of the pieces are marked as
multi-file plug-ins and as plug-ins of the job. -/
theorem InitializeJobPlugins.visit_foldl (plugs : List String) :
    ∀ (acc : PluginRegistry × PluginHashTable × List String) (key : String),
      ((plugs.foldl InitializeJobPlugins.visit acc).2.1 key
        = match ((plugs.filterMap (fun plug =>
              (jobPluginEntry plug).map (fun entry =>
                (tokens [' ', ','] entry.1, condor_basename entry.2)))).reverse.find?
              (fun entry => entry.1.contains key)) with
          | some entry => some entry.2
          | none => acc.2.1 key) ∧
      ((plugs.foldl InitializeJobPlugins.visit acc).1.plugins_multifile_support key
        = if key ∈ (plugs.filterMap (fun plug =>
              (jobPluginEntry plug).map (fun entry =>
                (tokens [' ', ','] entry.1, condor_basename entry.2)))).map (fun entry => entry.2)
          then some true else acc.1.plugins_multifile_support key) ∧
      ((plugs.foldl InitializeJobPlugins.visit acc).1.plugins_from_job key
        = if key ∈ (plugs.filterMap (fun plug =>
              (jobPluginEntry plug).map (fun entry =>
                (tokens [' ', ','] entry.1, condor_basename entry.2)))).map (fun entry => entry.2)
          then some true else acc.1.plugins_from_job key) ∧
      ((plugs.foldl InitializeJobPlugins.visit acc).1.multifile_plugins_enabled
        = (acc.1.multifile_plugins_enabled ||
            !(plugs.filterMap (fun plug =>
              (jobPluginEntry plug).map (fun entry =>
                (tokens [' ', ','] entry.1, condor_basename entry.2)))).isEmpty)) := by
  induction plugs with
  | nil => intro acc key; simp
  | cons plug rest ih =>
    intro acc key
    rw [List.foldl_cons, jobPlugins_cons]
    obtain ⟨h1, h2, h3, h4⟩ := ih (InitializeJobPlugins.visit acc plug) key
    rw [h1, h2, h3, h4]
    unfold InitializeJobPlugins.visit
    cases hentry : jobPluginEntry plug with
    | none => simp
    | some entry =>
      obtain ⟨methods, plugin_path⟩ := entry
      simp only [Option.map_some', Option.toList_some, List.reverse_append, List.reverse_cons,
        List.reverse_nil, List.nil_append, List.find?_append, List.singleton_append,
        List.map_cons, List.mem_cons, List.isEmpty_cons, Bool.not_false, Bool.or_true]
      refine ⟨?_, ?_, ?_, ?_⟩
      · cases hfind : (List.filterMap (fun plug =>
            (jobPluginEntry plug).map (fun entry =>
              (tokens [' ', ','] entry.1, condor_basename entry.2))) rest).reverse.find?
            (fun entry => entry.1.contains key) with
        | some e => simp
        | none =>
          simp only [Option.none_or, InsertPluginMappings_apply]
          by_cases hk : key ∈ tokens [' ', ','] methods
          · simp [hk, List.find?_cons]
          · simp [hk, List.find?_cons]
      · by_cases hk : key ∈ List.map (fun entry => entry.2) (List.filterMap (fun plug =>
            (jobPluginEntry plug).map (fun entry =>
              (tokens [' ', ','] entry.1, condor_basename entry.2))) rest)
        · simp [hk]
        · by_cases hk2 : key = condor_basename plugin_path
          · simp [hk, hk2]
          · simp [hk, hk2]
      · by_cases hk : key ∈ List.map (fun entry => entry.2) (List.filterMap (fun plug =>
            (jobPluginEntry plug).map (fun entry =>
              (tokens [' ', ','] entry.1, condor_basename entry.2))) rest)
        · simp [hk]
        · by_cases hk2 : key = condor_basename plugin_path
          · simp [hk, hk2]
          · simp [hk, hk2]
      · simp

/-- C24 (as amended): with URL transfers supported and a plug-in table at hand, after
`InitializeJobPlugins` the table binds every method to the plug-in (by its base name) of
the last piece `methods=path` of `TransferPlugins` that lists the method, in place of
what the table held, and leaves the other methods as they were; so a method of a piece
is bound to the plug-in of that piece when no piece lists it with another plug-in.  The
plug-in of every piece is marked as a multi-file plug-in, multi-file plug-ins are
enabled, `InvokeMultipleFileTransferPlugin` starts the plug-in with dropped privileges
whatever `RUN_FILETRANSFER_PLUGINS_WITH_ROOT` says, and `DoUpload` hands a destination
URL whose plug-in it is to the multi-file path under its name. -/
theorem C24_job_plugins (reg : PluginRegistry) (table : PluginHashTable)
    (job_plugins : String) (infiles : List String)
    (hs : reg.I_support_filetransfer_plugins = true) (ht : reg.plugin_table = some table)
    (entry : List String × String) (he : entry ∈ jobPlugins job_plugins) :
    ∃ table1,
      (InitializeJobPlugins reg (some job_plugins) infiles).1.plugin_table = some table1 ∧
      (∀ m, table1 m = match jobPluginFor job_plugins m with
                       | some p => some p
                       | none => table m) ∧
      (∀ m ∈ entry.1, (jobPluginFor job_plugins m).isSome = true ∧
        ((∀ e ∈ jobPlugins job_plugins, m ∈ e.1 → e.2 = entry.2) → table1 m = some entry.2)) ∧
      (InitializeJobPlugins reg (some job_plugins) infiles).1.plugins_multifile_support entry.2
        = some true ∧
      (InitializeJobPlugins reg (some job_plugins) infiles).1.multifile_plugins_enabled = true ∧
      (∀ RUN_FILETRANSFER_PLUGINS_WITH_ROOT : Bool,
        InvokeMultipleFileTransferPlugin.drop_privs RUN_FILETRANSFER_PLUGINS_WITH_ROOT
          (InitializeJobPlugins reg (some job_plugins) infiles).1 entry.2 = true) ∧
      (∀ (getURLType : String → String) (Iwd : String) (item : FileTransferItem)
          (fullname : String), item.isDestUrl = true →
        DetermineFileTransferPlugin getURLType table1 item.destUrl fullname = entry.2 →
        DoUpload.multifilePluginPath
          ((InitializeJobPlugins reg (some job_plugins) infiles).1.uploadConfig getURLType Iwd)
          item fullname = entry.2) := by
  have hfold := InitializeJobPlugins.visit_foldl (tokens [';'] job_plugins) (reg, table, infiles)
  have hreg : InitializeJobPlugins reg (some job_plugins) infiles
      = ({ ((tokens [';'] job_plugins).foldl InitializeJobPlugins.visit
              (reg, table, infiles)).1 with
            plugin_table := some ((tokens [';'] job_plugins).foldl InitializeJobPlugins.visit
              (reg, table, infiles)).2.1 },
          ((tokens [';'] job_plugins).foldl InitializeJobPlugins.visit
              (reg, table, infiles)).2.2) := by
    unfold InitializeJobPlugins
    simp [hs, ht]
  have hmem : entry.2 ∈ (jobPlugins job_plugins).map (fun e => e.2) :=
    List.mem_map.2 ⟨entry, he, rfl⟩
  have hsupport : (InitializeJobPlugins reg (some job_plugins) infiles).1.plugins_multifile_support
      entry.2 = some true := by
    rw [hreg]
    show ((tokens [';'] job_plugins).foldl InitializeJobPlugins.visit
      (reg, table, infiles)).1.plugins_multifile_support entry.2 = some true
    rw [(hfold entry.2).2.1]
    exact if_pos hmem
  have hjob : (InitializeJobPlugins reg (some job_plugins) infiles).1.plugins_from_job
      entry.2 = some true := by
    rw [hreg]
    show ((tokens [';'] job_plugins).foldl InitializeJobPlugins.visit
      (reg, table, infiles)).1.plugins_from_job entry.2 = some true
    rw [(hfold entry.2).2.2.1]
    exact if_pos hmem
  have henabled : (InitializeJobPlugins reg (some job_plugins) infiles).1.multifile_plugins_enabled
      = true := by
    rw [hreg]
    show ((tokens [';'] job_plugins).foldl InitializeJobPlugins.visit
      (reg, table, infiles)).1.multifile_plugins_enabled = true
    rw [(hfold entry.2).2.2.2]
    have hne : jobPlugins job_plugins ≠ [] := List.ne_nil_of_mem he
    unfold jobPlugins at hne
    cases hl : List.filterMap (fun plug =>
        (jobPluginEntry plug).map (fun entry =>
          (tokens [' ', ','] entry.1, condor_basename entry.2))) (tokens [';'] job_plugins) with
    | nil => exact absurd hl hne
    | cons x xs => simp
  have htable : ∀ m, ((tokens [';'] job_plugins).foldl InitializeJobPlugins.visit
        (reg, table, infiles)).2.1 m
      = match jobPluginFor job_plugins m with
        | some p => some p
        | none => table m := by
    intro m
    rw [(hfold m).1]
    unfold jobPluginFor jobPlugins
    cases (List.filterMap (fun plug =>
        (jobPluginEntry plug).map (fun entry =>
          (tokens [' ', ','] entry.1, condor_basename entry.2)))
        (tokens [';'] job_plugins)).reverse.find? (fun entry => entry.1.contains m) <;> rfl
  refine ⟨((tokens [';'] job_plugins).foldl InitializeJobPlugins.visit
      (reg, table, infiles)).2.1, by rw [hreg], htable, ?_, hsupport, henabled, ?_, ?_⟩
  · intro m hm
    have hsome : ∃ e, (jobPlugins job_plugins).reverse.find? (fun e => e.1.contains m)
        = some e := by
      cases hfind : (jobPlugins job_plugins).reverse.find? (fun e => e.1.contains m) with
      | some e => exact ⟨e, rfl⟩
      | none =>
        rw [List.find?_eq_none] at hfind
        have := hfind entry (List.mem_reverse.2 he)
        simp [hm] at this
    obtain ⟨e, hfind⟩ := hsome
    have hj : jobPluginFor job_plugins m = some e.2 := by
      unfold jobPluginFor
      rw [hfind]
      rfl
    refine ⟨by rw [hj]; rfl, fun hall => ?_⟩
    rw [htable m, hj]
    have hem : e ∈ jobPlugins job_plugins := List.mem_reverse.1 (List.mem_of_find?_eq_some hfind)
    have hcm : m ∈ e.1 := by
      have := List.find?_some hfind
      simpa using this
    rw [hall e hem hcm]
  · intro root
    unfold InvokeMultipleFileTransferPlugin.drop_privs
    rw [hjob]
    rfl
  · intro getURLType Iwd item fullname hdest hdet
    unfold DoUpload.multifilePluginPath PluginRegistry.uploadConfig
    simp only [hdest, henabled, Bool.and_self, if_true]
    have hpt : (InitializeJobPlugins reg (some job_plugins) infiles).1.plugin_table
        = some ((tokens [';'] job_plugins).foldl InitializeJobPlugins.visit
          (reg, table, infiles)).2.1 := by rw [hreg]
    rw [hpt]
    simp only [Option.getD_some]
    rw [hdet, hsupport]
    simp

/-- C24 as stated fails for a method that two pieces list: with `TransferPlugins`
equal to `http=/a/p1;http=/b/p2` the piece `http=/a/p1` is in the attribute, and after
`InitializeJobPlugins` the method `http` is bound to `p2`, not to `p1`. -/
theorem C24_counterexample_method_listed_twice :
    (["http"], "p1") ∈ jobPlugins "http=/a/p1;http=/b/p2" ∧
    ((InitializeJobPlugins globalRegistry (some "http=/a/p1;http=/b/p2") []).1.plugin_table.getD
      (fun _ => none)) "http" = some "p2" ∧
    ¬ (((InitializeJobPlugins globalRegistry (some "http=/a/p1;http=/b/p2") []).1.plugin_table.getD
      (fun _ => none)) "http" = some "p1") := by
  refine ⟨by decide, by decide, by decide⟩

theorem C24_job_plugins_witness :
    (globalRegistry.I_support_filetransfer_plugins = true ∧
      (["http", "https"], "myplug") ∈ jobPlugins "http, https = /home/u/myplug ; ftp=/opt/ftpplug") ∧
    ((InitializeJobPlugins globalRegistry
        (some "http, https = /home/u/myplug ; ftp=/opt/ftpplug") []).1.plugin_table.getD
      (fun _ => none)) "http" = some "myplug" ∧
    (InitializeJobPlugins globalRegistry
        (some "http, https = /home/u/myplug ; ftp=/opt/ftpplug") []).2
      = ["/opt/ftpplug", "/home/u/myplug"] ∧
    InvokeFileTransferPlugin.drop_privs true = false ∧
    ∃ table1,
      (InitializeJobPlugins globalRegistry
        (some "http, https = /home/u/myplug ; ftp=/opt/ftpplug") []).1.plugin_table = some table1 ∧
      (∀ m, table1 m
        = match jobPluginFor "http, https = /home/u/myplug ; ftp=/opt/ftpplug" m with
          | some p => some p
          | none => (fun m => if m = "http" then some "/usr/libexec/curl_plugin" else none) m) ∧
      (InitializeJobPlugins globalRegistry
        (some "http, https = /home/u/myplug ; ftp=/opt/ftpplug") []).1.plugins_multifile_support
          "myplug" = some true ∧
      (∀ RUN_FILETRANSFER_PLUGINS_WITH_ROOT : Bool,
        InvokeMultipleFileTransferPlugin.drop_privs RUN_FILETRANSFER_PLUGINS_WITH_ROOT
          (InitializeJobPlugins globalRegistry
            (some "http, https = /home/u/myplug ; ftp=/opt/ftpplug") []).1 "myplug" = true) :=
  have he : (["http", "https"], "myplug")
      ∈ jobPlugins "http, https = /home/u/myplug ; ftp=/opt/ftpplug" := by decide
  ⟨⟨rfl, he⟩, by decide, by decide, by decide,
    (C24_job_plugins globalRegistry
      (fun m => if m = "http" then some "/usr/libexec/curl_plugin" else none)
      "http, https = /home/u/myplug ; ftp=/opt/ftpplug" [] rfl rfl
      (["http", "https"], "myplug") he).elim
      (fun table1 h => ⟨table1, h.1, h.2.1, h.2.2.2.1, h.2.2.2.2.2.1⟩)⟩

/-! ## The status pipe: what is written is read back -/

theorem bytesOfNat_length (width v : Nat) : (bytesOfNat width v).length = width := by
  induction width generalizing v with
  | zero => rfl
  | succ w ih => simp [bytesOfNat, ih]

theorem bytesOfInt_length (width : Nat) (v : Int) : (bytesOfInt width v).length = width :=
  bytesOfNat_length _ _

theorem intOfBytes_bytesOfInt_four (v : Int) (h1 : -2147483648 ≤ v) (h2 : v < 2147483648) :
    intOfBytes 4 (bytesOfInt 4 v) = v := by
  unfold intOfBytes bytesOfInt
  have hpow : (256 ^ 4 : Nat) = 4294967296 := by norm_num
  rw [hpow]
  generalize hu : (v % ((4294967296 : Nat) : Int)).toNat = u
  have hu1 : (u : Int) = v % 4294967296 := by
    rw [← hu]
    exact Int.toNat_of_nonneg (Int.emod_nonneg _ (by norm_num))
  simp only [bytesOfNat, natOfBytes]
  split_ifs with hlt <;> omega

theorem intOfBytes_bytesOfInt_eight (v : Int) (h1 : -9223372036854775808 ≤ v)
    (h2 : v < 9223372036854775808) :
    intOfBytes 8 (bytesOfInt 8 v) = v := by
  unfold intOfBytes bytesOfInt
  have hpow : (256 ^ 8 : Nat) = 18446744073709551616 := by norm_num
  rw [hpow]
  generalize hu : (v % ((18446744073709551616 : Nat) : Int)).toNat = u
  have hu1 : (u : Int) = v % 18446744073709551616 := by
    rw [← hu]
    exact Int.toNat_of_nonneg (Int.emod_nonneg _ (by norm_num))
  simp only [bytesOfNat, natOfBytes]
  split_ifs with hlt <;> omega

theorem Read_Pipe_append (bs rest : List Nat) (n : Nat) (h : bs.length = n) :
    Read_Pipe (bs ++ rest) n = some (bs, rest) := by
  unfold Read_Pipe
  subst h
  simp

theorem stringOfBuffer_cstringBytes (s : String) (h : ∀ c ∈ s.data, c.toNat ≠ 0)
    (rest : List Nat) :
    stringOfBuffer (cstringBytes s ++ rest) = s := by
  unfold stringOfBuffer cstringBytes
  have h1 : ∀ (cs : List Char), (∀ c ∈ cs, c.toNat ≠ 0) → ∀ tail : List Nat,
      List.map Char.ofNat (List.takeWhile (fun b => b != 0) (cs.map Char.toNat ++ [0] ++ tail))
        = cs := by
    intro cs
    induction cs with
    | nil => intro _ tail; simp
    | cons c cs ih =>
      intro hc tail
      have hc0 : c.toNat ≠ 0 := hc c (List.mem_cons_self _ _)
      simp only [List.map_cons, List.cons_append, List.takeWhile_cons]
      rw [if_pos (by simpa using hc0)]
      simp only [List.map_cons, Char.ofNat_toNat]
      rw [ih (fun c hcs => hc c (List.mem_cons_of_mem _ hcs)) tail]
  rw [h1 s.data h rest]

theorem Read_Pipe_int (width : Nat) (v : Int) (rest : List Nat) :
    Read_Pipe (bytesOfInt width v ++ rest) width = some (bytesOfInt width v, rest) :=
  Read_Pipe_append _ _ _ (bytesOfInt_length _ _)

theorem Read_Pipe_byte (b : Nat) (rest : List Nat) :
    Read_Pipe ([b] ++ rest) 1 = some ([b], rest) :=
  Read_Pipe_append _ _ _ rfl

theorem string_length_eq_zero_iff (s : String) : (s.length : Int) = 0 ↔ s = "" := by
  rw [String.ext_iff]
  show ((s.data.length : Nat) : Int) = 0 ↔ s.data = []
  rw [Int.natCast_eq_zero, List.length_eq_zero]

/-- A string field of the final update: its length (with the null, if the string is not
empty) and its buffer are read back. -/
theorem string_field_read (s : String) (hlen : (s.length : Int) + 1 < 2147483648)
    (hnul : ∀ c ∈ s.data, c.toNat ≠ 0) (rest : List Nat) :
    intOfBytes 4 (bytesOfInt 4
        (if (s.length : Int) ≠ 0 then (s.length : Int) + 1 else (s.length : Int)))
      = (if (s.length : Int) ≠ 0 then (s.length : Int) + 1 else (s.length : Int)) ∧
    (if (if (s.length : Int) ≠ 0 then (s.length : Int) + 1 else (s.length : Int)) ≠ 0 then
        Read_Pipe
          ((cstringBytes s).take
              (if (s.length : Int) ≠ 0 then (s.length : Int) + 1 else (s.length : Int)).toNat
            ++ rest)
          (if (s.length : Int) ≠ 0 then (s.length : Int) + 1 else (s.length : Int)).toNat
      else some ([], (cstringBytes s).take
              (if (s.length : Int) ≠ 0 then (s.length : Int) + 1 else (s.length : Int)).toNat
            ++ rest))
      = some ((cstringBytes s).take
          (if (s.length : Int) ≠ 0 then (s.length : Int) + 1 else (s.length : Int)).toNat, rest) ∧
    ((if (s.length : Int) ≠ 0 then (s.length : Int) + 1 else (s.length : Int)) ≠ 0 ↔ s ≠ "") ∧
    ((if (s.length : Int) ≠ 0 then (s.length : Int) + 1 else (s.length : Int)) ≠ 0 →
      stringOfBuffer ((cstringBytes s).take
        (if (s.length : Int) ≠ 0 then (s.length : Int) + 1 else (s.length : Int)).toNat) = s) := by
  have hnn : (0 : Int) ≤ (s.length : Int) := Int.natCast_nonneg _
  by_cases h0 : (s.length : Int) = 0
  · have hempty := (string_length_eq_zero_iff s).1 h0
    simp only [h0, ne_eq, not_true_eq_false, if_false, Int.toNat_zero, List.take_zero,
      List.nil_append, true_and, false_iff, not_not, false_implies, and_true]
    exact ⟨intOfBytes_bytesOfInt_four 0 (by norm_num) (by norm_num), hempty⟩
  · have hne : s ≠ "" := fun h => h0 ((string_length_eq_zero_iff s).2 h)
    have htoNat : ((s.length : Int) + 1).toNat = s.length + 1 := by omega
    have hl : (cstringBytes s).length = s.length + 1 := by
      show (s.data.map Char.toNat ++ [0]).length = s.data.length + 1
      rw [List.length_append, List.length_map]
      rfl
    have hfull : (cstringBytes s).take (s.length + 1) = cstringBytes s :=
      List.take_of_length_le (le_of_eq hl)
    have hpos : (s.length : Int) + 1 ≠ 0 := by omega
    simp only [ne_eq, h0, not_false_eq_true, if_true, htoNat, hfull, hpos, true_iff,
      true_implies]
    refine ⟨intOfBytes_bytesOfInt_four _ (by omega) hlen, Read_Pipe_append _ _ _ hl, hne, ?_⟩
    have := stringOfBuffer_cstringBytes s hnul []
    simpa using this

/-- C29: the final status that `WriteStatusToTransferPipe` writes (the total of bytes, a
64-bit integer; `try_again`; the hold code and sub-code, 32-bit integers; the error
description and the list of spooled files, strings without a null character whose
length with the null fits an `int`) is read back whole by `ReadTransferPipeMsg`: the
status is done, the bytes, `try_again`, the hold code and the sub-code are those written,
and so are the error description and the list of spooled files when they are not empty
(an empty one leaves the reader's value as it was).  An update that `UpdateXferStatus`
writes is read back as the status written. -/
theorem C29_status_pipe_roundtrip (Info : FileTransferInfo) (total_bytes : Int)
    (r : PipeReader) (text : String)
    (hb1 : -9223372036854775808 ≤ total_bytes) (hb2 : total_bytes < 9223372036854775808)
    (hc1 : -2147483648 ≤ Info.hold_code) (hc2 : Info.hold_code < 2147483648)
    (hs1 : -2147483648 ≤ Info.hold_subcode) (hs2 : Info.hold_subcode < 2147483648)
    (he : (Info.error_desc.length : Int) + 1 < 2147483648)
    (hf : (Info.spooled_files.length : Int) + 1 < 2147483648)
    (hen : ∀ c ∈ Info.error_desc.data, c.toNat ≠ 0)
    (hfn : ∀ c ∈ Info.spooled_files.data, c.toNat ≠ 0) :
    (WriteStatusToTransferPipe Info total_bytes).1 = true ∧
    (∃ r1, ReadTransferPipeMsg r (WriteStatusToTransferPipe Info total_bytes).2 text
        = some (true, r1, []) ∧
      r1.Info.xfer_status = XFER_STATUS_DONE ∧
      r1.Info.bytes = total_bytes ∧
      r1.Info.try_again = Info.try_again ∧
      r1.Info.hold_code = Info.hold_code ∧
      r1.Info.hold_subcode = Info.hold_subcode ∧
      r1.Info.error_desc
        = (if Info.error_desc ≠ "" then Info.error_desc else r.Info.error_desc) ∧
      r1.Info.spooled_files
        = (if Info.spooled_files ≠ "" then Info.spooled_files else r.Info.spooled_files)) ∧
    (∀ status : Int, -2147483648 ≤ status → status < 2147483648 →
      Info.xfer_status ≠ status →
      (UpdateXferStatus Info status true).1.xfer_status = status ∧
      ∃ r1, ReadTransferPipeMsg r (UpdateXferStatus Info status true).2 text
          = some (true, r1, []) ∧
        r1.Info.xfer_status = status) := by
  refine ⟨rfl, ?_, ?_⟩
  · obtain ⟨e1, e2, e3, e4⟩ := string_field_read Info.error_desc he hen
      (bytesOfInt 4 (if (Info.spooled_files.length : Int) ≠ 0 then
          (Info.spooled_files.length : Int) + 1 else (Info.spooled_files.length : Int)) ++
        (cstringBytes Info.spooled_files).take
          (if (Info.spooled_files.length : Int) ≠ 0 then
            (Info.spooled_files.length : Int) + 1 else (Info.spooled_files.length : Int)).toNat)
    obtain ⟨f1, f2, f3, f4⟩ := string_field_read Info.spooled_files hf hfn []
    rw [List.append_nil] at f2
    have hw : (WriteStatusToTransferPipe Info total_bytes).2
        = [FINAL_UPDATE_XFER_PIPE_CMD] ++ (bytesOfInt 8 total_bytes ++
          ([if Info.try_again then 1 else 0] ++ (bytesOfInt 4 Info.hold_code ++
            (bytesOfInt 4 Info.hold_subcode ++
              (bytesOfInt 4 (if (Info.error_desc.length : Int) ≠ 0 then
                  (Info.error_desc.length : Int) + 1 else (Info.error_desc.length : Int)) ++
                ((cstringBytes Info.error_desc).take
                    (if (Info.error_desc.length : Int) ≠ 0 then
                      (Info.error_desc.length : Int) + 1
                     else (Info.error_desc.length : Int)).toNat ++
                  (bytesOfInt 4 (if (Info.spooled_files.length : Int) ≠ 0 then
                      (Info.spooled_files.length : Int) + 1
                     else (Info.spooled_files.length : Int)) ++
                    (cstringBytes Info.spooled_files).take
                      (if (Info.spooled_files.length : Int) ≠ 0 then
                        (Info.spooled_files.length : Int) + 1
                       else (Info.spooled_files.length : Int)).toNat))))))) := rfl
    rw [hw]
    have hcmd : natOfBytes [FINAL_UPDATE_XFER_PIPE_CMD] = FINAL_UPDATE_XFER_PIPE_CMD := rfl
    have hcmd0 : ¬ (natOfBytes [FINAL_UPDATE_XFER_PIPE_CMD] = IN_PROGRESS_UPDATE_XFER_PIPE_CMD) := by
      decide
    have htry : (natOfBytes [if Info.try_again = true then 1 else 0] != 0) = Info.try_again := by
      cases Info.try_again <;> rfl
    unfold ReadTransferPipeMsg
    rw [Read_Pipe_byte]
    simp only []
    rw [if_neg hcmd0, if_pos hcmd]
    unfold ReadTransferPipeMsg.final
    simp only []
    rw [Read_Pipe_int]
    simp only []
    rw [Read_Pipe_byte]
    simp only []
    rw [Read_Pipe_int]
    simp only []
    rw [Read_Pipe_int]
    simp only []
    rw [Read_Pipe_int]
    simp only []
    rw [e1, e2]
    simp only []
    rw [Read_Pipe_int]
    simp only []
    rw [f1, f2]
    simp only []
    rw [htry, intOfBytes_bytesOfInt_eight total_bytes hb1 hb2,
      intOfBytes_bytesOfInt_four Info.hold_code hc1 hc2,
      intOfBytes_bytesOfInt_four Info.hold_subcode hs1 hs2]
    refine ⟨_, rfl, ?_⟩
    by_cases hee : Info.error_desc = "" <;> by_cases hfe : Info.spooled_files = ""
    · have e0 := (not_congr e3).2 (not_not.2 hee)
      have f0 := (not_congr f3).2 (not_not.2 hfe)
      rw [if_neg e0, if_neg f0, if_neg (not_not.2 hee), if_neg (not_not.2 hfe)]
      split_ifs <;> exact ⟨rfl, rfl, rfl, rfl, rfl, rfl, rfl⟩
    · have e0 := (not_congr e3).2 (not_not.2 hee)
      have f0 := f3.2 hfe
      rw [if_neg e0, if_pos f0, if_neg (not_not.2 hee), if_pos hfe, f4 f0]
      split_ifs <;> exact ⟨rfl, rfl, rfl, rfl, rfl, rfl, rfl⟩
    · have e0 := e3.2 hee
      have f0 := (not_congr f3).2 (not_not.2 hfe)
      rw [if_pos e0, if_neg f0, if_pos hee, if_neg (not_not.2 hfe), e4 e0]
      split_ifs <;> exact ⟨rfl, rfl, rfl, rfl, rfl, rfl, rfl⟩
    · have e0 := e3.2 hee
      have f0 := f3.2 hfe
      rw [if_pos e0, if_pos f0, if_pos hee, if_pos hfe, e4 e0, f4 f0]
      split_ifs <;> exact ⟨rfl, rfl, rfl, rfl, rfl, rfl, rfl⟩
  · intro status h1 h2 hne
    have hw : (UpdateXferStatus Info status true).2
        = [IN_PROGRESS_UPDATE_XFER_PIPE_CMD] ++ bytesOfInt 4 status := by
      unfold UpdateXferStatus
      rw [if_pos hne]
      rfl
    have hst : (UpdateXferStatus Info status true).1.xfer_status = status := by
      unfold UpdateXferStatus
      rw [if_pos hne]
    refine ⟨hst, ?_⟩
    rw [hw]
    unfold ReadTransferPipeMsg
    rw [Read_Pipe_byte]
    simp only []
    have hcmd : natOfBytes [IN_PROGRESS_UPDATE_XFER_PIPE_CMD] = IN_PROGRESS_UPDATE_XFER_PIPE_CMD :=
      rfl
    rw [if_pos hcmd]
    have h4 := Read_Pipe_int 4 status []
    rw [List.append_nil] at h4
    rw [h4]
    simp only []
    rw [intOfBytes_bytesOfInt_four status h1 h2]
    exact ⟨_, rfl, rfl⟩

theorem C29_status_pipe_roundtrip_witness :
    ((failedInfo.error_desc.length : Int) + 1 < 2147483648 ∧
      (failedInfo.spooled_files.length : Int) + 1 < 2147483648 ∧
      (∀ c ∈ failedInfo.error_desc.data, c.toNat ≠ 0) ∧
      (∀ c ∈ failedInfo.spooled_files.data, c.toNat ≠ 0)) ∧
    (WriteStatusToTransferPipe failedInfo 70000).2.length = 68 ∧
    (∃ r1, ReadTransferPipeMsg {} (WriteStatusToTransferPipe failedInfo 70000).2 ""
        = some (true, r1, []) ∧
      r1.Info.xfer_status = XFER_STATUS_DONE ∧
      r1.Info.bytes = 70000 ∧
      r1.Info.try_again = failedInfo.try_again ∧
      r1.Info.hold_code = failedInfo.hold_code ∧
      r1.Info.hold_subcode = failedInfo.hold_subcode ∧
      r1.Info.error_desc
        = (if failedInfo.error_desc ≠ "" then failedInfo.error_desc
           else ({} : PipeReader).Info.error_desc) ∧
      r1.Info.spooled_files
        = (if failedInfo.spooled_files ≠ "" then failedInfo.spooled_files
           else ({} : PipeReader).Info.spooled_files)) :=
  have h1 : (failedInfo.error_desc.length : Int) + 1 < 2147483648 := by decide
  have h2 : (failedInfo.spooled_files.length : Int) + 1 < 2147483648 := by decide
  have h3 : ∀ c ∈ failedInfo.error_desc.data, c.toNat ≠ 0 := by decide
  have h4 : ∀ c ∈ failedInfo.spooled_files.data, c.toNat ≠ 0 := by decide
  ⟨⟨h1, h2, h3, h4⟩, by decide,
    (C29_status_pipe_roundtrip failedInfo 70000 {} "" (by decide) (by decide) (by decide)
      (by decide) (by decide) (by decide) h1 h2 h3 h4).2.1⟩

end FileTransfer
